import Mathlib

/-!
# The global object registry (`FUObjectArray`)

A shallow embedding of `Engine/Source/Runtime/CoreUObject/Private/UObject/UObjectArray.cpp`.

* The registry is a record of its member variables; every member function is a function from
  a registry state to `Except Fatal` of the next state, where `Fatal` lists the
  process-terminating conditions (`UE_CLOG(..., Fatal, ...)`, `check(...)`, an access through
  an invalid index).
* Objects are named by their address (`ObjId`); the one field of `UObjectBase` that the
  registry reads and writes, `InternalIndex`, is kept as a map from addresses to `int32`.
* Calls made to listener objects are recorded, in call order, in `Notified`.
* The embedding is sequential: the lock, the thread assertions and the compare-and-swap are
  read as executed by one thread at a time.
-/

namespace UObjectArray

/-- Address of a `UObjectBase` instance. -/
abbrev ObjId := Nat

/-- Address of a create or delete listener. -/
abbrev ListenerId := Nat

/-- The engine wide "no index" value, as used by `ObjLastNonGCIndex(INDEX_NONE)` followed by
`Index = ++ObjLastNonGCIndex` for the first slot, and by `AlreadyAllocatedIndex >= 0`. -/
def INDEX_NONE : Int := -1

/-- Two's complement reduction of an integer to the `int32` range. -/
def wrapInt32 (x : Int) : Int := (x + 2147483648) % 4294967296 - 2147483648

/-- One slot of the table (`FUObjectItem`): `Object` is `none` for `nullptr`. -/
structure FUObjectItem where
  Object : Option ObjId
  Flags : Nat
  ClusterRootIndex : Int
  SerialNumber : Int
deriving DecidableEq, Repr

/-- A freshly added slot, as left by the default member values of `FUObjectItem`. -/
def FUObjectItem.empty : FUObjectItem :=
  { Object := none, Flags := 0, ClusterRootIndex := 0, SerialNumber := 0 }

/-- The process-terminating conditions of `UObjectArray.cpp`. -/
inductive Fatal where
  /-- Line 104: `InMaxUObjects <= 0`. -/
  | invalidMaxUObjects
  /-- Line 103: `check(ObjObjects.Num() == 0)`. -/
  | checkPoolEmpty
  /-- Line 116: `check(!OpenForDisregardForGC)`. -/
  | checkNotOpen
  /-- Line 130: `check(OpenForDisregardForGC)`. -/
  | checkOpen
  /-- Line 193: `check(Object->InternalIndex == INDEX_NONE)`. -/
  | checkInternalIndexNone
  /-- Line 206: the disregard pool is full and collectable objects exist. -/
  | disregardPoolFull
  /-- Line 211: `check(Index == ObjLastNonGCIndex)`. -/
  | checkIndexIsLastNonGC
  /-- Line 227: `check(ObjFirstGCIndex >= 0)`. -/
  | checkFirstGCIndexValid
  /-- Line 230: `check(Index >= ObjFirstGCIndex && Index > ObjLastNonGCIndex)`. -/
  | checkIndexInGCRange
  /-- Line 234: another object exists at the index. -/
  | indexCollision
  /-- Line 275: `check(Index >= 0)`. -/
  | checkIndexNonNegative
  /-- Line 297: the index points to a different object. -/
  | freeMismatch
  /-- Lines 318 and 343: `check(!Listeners.Contains(Listener))`. -/
  | checkListenerAbsent
  /-- Line 330: `check(NumRemoved==1)`. -/
  | checkNumRemoved
  /-- Line 405: serial numbers overflowed. -/
  | serialOverflow
  /-- Lines 413, 260, 398: a `checkSlow(...)` that failed in a build that compiles it. -/
  | checkSlow
  /-- Lines 431 and 439: a listener is still registered at shutdown. -/
  | listenersRemain
  /-- The slot table cannot grow past its maximum (`FailMaxUObjectCountExceeded`). -/
  | maxUObjectCountExceeded
  /-- A slot was accessed through an index outside the table. -/
  | invalidIndex
deriving DecidableEq, Repr

/-- A call made by the registry to a listener object. -/
inductive Notification where
  | NotifyUObjectCreated (Listener : ListenerId) (Object : ObjId) (Index : Int)
  | NotifyUObjectDeleted (Listener : ListenerId) (Object : ObjId) (Index : Int)
  | DeleteListenerShutdown (Listener : ListenerId)
  | CreateListenerShutdown (Listener : ListenerId)
deriving DecidableEq, Repr

/-- What `UObjectArray.cpp` takes from headers that are not part of the sources at hand:
compile-time constants, the build switch of `checkSlow`, and the per-object predicate
`UObject::IsSafeForRootSet`. They are parameters of the embedding. -/
structure Build where
  /-- The reserved serial number below which no serial is handed out. -/
  START_SERIAL_NUMBER : Int
  /-- Whether `checkSlow(...)` is compiled in. -/
  DO_GUARD_SLOW : Bool
  /-- The bit `EInternalObjectFlags::PendingConstruction`. -/
  PendingConstruction : Nat
  /-- The bit `EInternalObjectFlags::RootSet`. -/
  RootSet : Nat
  /-- The predicate `UObject::IsSafeForRootSet`. -/
  IsSafeForRootSet : ObjId → Bool

/-- The registry `FUObjectArray` with the globals and object fields its functions touch. -/
structure FUObjectArray where
  /-- The slots of `ObjObjects`, index `0` first; `ObjObjects.Num()` is the length. -/
  ObjObjects : List FUObjectItem
  /-- The maximum number of slots, fixed by `ObjObjects.PreAllocate`. -/
  MaxElements : Int
  ObjFirstGCIndex : Int
  ObjLastNonGCIndex : Int
  MaxObjectsNotConsideredByGC : Int
  OpenForDisregardForGC : Bool
  PrimarySerialNumber : Int
  /-- The recycled indices; `Add` appends at the end and `Pop` removes the last entry. -/
  ObjAvailableList : List Int
  bShouldRecycleObjectIndices : Bool
  UObjectCreateListeners : List ListenerId
  UObjectDeleteListeners : List ListenerId
  /-- The field `UObjectBase::InternalIndex` of every object. -/
  InternalIndex : ObjId → Int
  /-- The calls made to listeners so far, oldest first. -/
  Notified : List Notification
  GExitPurge : Bool
  GIsInitialLoad : Bool
  /-- The value of `IsEngineExitRequested()`. -/
  EngineExitRequested : Bool

/-- The value of `ObjObjects.Num()`. -/
def FUObjectArray.Num (A : FUObjectArray) : Int := (A.ObjObjects.length : Int)

/-- Modelled from the spec: the header that declares `DisregardForGCEnabled` is missing; the
spec has the optimization turned off by forcing the declared maximum to zero, so it is
enabled exactly while the declared maximum is positive. -/
def DisregardForGCEnabled (A : FUObjectArray) : Bool :=
  decide (0 < A.MaxObjectsNotConsideredByGC)

/-- Modelled from the spec: the slot table's `AddRange` (`append_range(n)`) is declared in a
missing header; it grows the slot count by `NumToAdd` fresh slots and answers the first new
index, and growth past the maximum fixed at `PreAllocate` is fatal. -/
def AddRange (A : FUObjectArray) (NumToAdd : Int) : Except Fatal (Int × FUObjectArray) :=
  if A.Num + NumToAdd > A.MaxElements then .error .maxUObjectCountExceeded
  else .ok (A.Num,
    { A with ObjObjects := A.ObjObjects ++ List.replicate NumToAdd.toNat FUObjectItem.empty })

/-- Modelled from the spec: the slot table's `AddSingle` (`append_single()`) is declared in a
missing header; it grows the table by one slot and answers the new index. -/
def AddSingle (A : FUObjectArray) : Except Fatal (Int × FUObjectArray) := AddRange A 1

/-- Modelled from the spec: `IndexToObject` (`at(index)`) is declared in a missing header;
it answers the slot at the index, and an index outside the table is fatal at the call sites
of this file, which all dereference the answer. -/
def IndexToObject (A : FUObjectArray) (Index : Int) : Except Fatal FUObjectItem :=
  if Index < 0 then .error .invalidIndex
  else match A.ObjObjects[Index.toNat]? with
    | some ObjectItem => .ok ObjectItem
    | none => .error .invalidIndex

/-- Modelled from the spec: `ObjObjects.IsValidIndex` is declared in a missing header; an
index is valid when it lies within the current slots. -/
def IsValidIndex (A : FUObjectArray) (Index : Int) : Bool :=
  decide (0 ≤ Index) && decide (Index < A.Num)

/-- Writes through the pointer answered by `IndexToObject(Index)`. -/
def setItem (A : FUObjectArray) (Index : Int) (ObjectItem : FUObjectItem) : FUObjectArray :=
  { A with ObjObjects := A.ObjObjects.set Index.toNat ObjectItem }

/-- The constructor `FUObjectArray::FUObjectArray()` (lines 81-89); the members and globals
it does not set are given by the caller. -/
def construct (B : Build) (InternalIndex : ObjId → Int)
    (bShouldRecycleObjectIndices GExitPurge GIsInitialLoad EngineExitRequested : Bool) :
    FUObjectArray :=
  { ObjObjects := []
    MaxElements := 0
    ObjFirstGCIndex := 0
    ObjLastNonGCIndex := INDEX_NONE
    MaxObjectsNotConsideredByGC := 0
    OpenForDisregardForGC := true
    PrimarySerialNumber := B.START_SERIAL_NUMBER
    ObjAvailableList := []
    bShouldRecycleObjectIndices := bShouldRecycleObjectIndices
    UObjectCreateListeners := []
    UObjectDeleteListeners := []
    InternalIndex := InternalIndex
    Notified := []
    GExitPurge := GExitPurge
    GIsInitialLoad := GIsInitialLoad
    EngineExitRequested := EngineExitRequested }

/-- The function `FUObjectArray::AllocateObjectPool` (lines 91-111). The slot table's
`PreAllocate` (`reserve(capacity, eager)`) is declared in a missing header; after the spec it
fixes the maximum number of slots, eagerly materialized or not. -/
def AllocateObjectPool (A : FUObjectArray) (InMaxUObjects InMaxObjectsNotConsideredByGC : Int)
    (bPreAllocateObjectArray : Bool) : Except Fatal FUObjectArray :=
  let A1 : FUObjectArray :=
    { A with MaxObjectsNotConsideredByGC := InMaxObjectsNotConsideredByGC }
  let A2 : FUObjectArray :=
    { A1 with ObjFirstGCIndex := if DisregardForGCEnabled A1 then (-1 : Int) else 0 }
  if A2.Num ≠ 0 then .error .checkPoolEmpty
  else if InMaxUObjects ≤ 0 then .error .invalidMaxUObjects
  else
    -- ObjObjects.PreAllocate(InMaxUObjects, bPreAllocateObjectArray)
    let _ := bPreAllocateObjectArray
    let A3 : FUObjectArray := { A2 with MaxElements := InMaxUObjects }
    if A3.MaxObjectsNotConsideredByGC > 0 then
      match AddRange A3 A3.MaxObjectsNotConsideredByGC with
      | .error e => .error e
      | .ok (_, A4) => .ok A4
    else .ok A3

/-- The function `FUObjectArray::OpenDisregardForGC` (lines 113-119). -/
def OpenDisregardForGC (A : FUObjectArray) : Except Fatal FUObjectArray :=
  if A.OpenForDisregardForGC then .error .checkNotOpen
  else .ok { A with OpenForDisregardForGC := true }

/-- Modelled from the spec: `AddToRoot`, `RemoveFromRoot` and `IsRooted` live in missing
headers; on first close every live object is committed to permanent-root status or has a
temporary root revoked, by the per-object eligibility predicate. -/
def commitRootSet (B : Build) (ObjectItem : FUObjectItem) : FUObjectItem :=
  match ObjectItem.Object with
  | none => ObjectItem
  | some Object =>
    if B.IsSafeForRootSet Object then
      { ObjectItem with Flags := ObjectItem.Flags ||| B.RootSet }
    else if ObjectItem.Flags &&& B.RootSet ≠ 0 then
      { ObjectItem with Flags := ObjectItem.Flags ^^^ (ObjectItem.Flags &&& B.RootSet) }
    else ObjectItem

/-- The function `FUObjectArray::CloseDisregardForGC` (lines 121-178).
`ProcessNewlyLoadedUObjects` and `UClass::AssembleReferenceTokenStreams` are collaborators
outside the registry and leave no trace in its members. -/
def CloseDisregardForGC (B : Build) (A : FUObjectArray) : Except Fatal FUObjectArray :=
  if !A.OpenForDisregardForGC then .error .checkOpen
  else
    let A1 : FUObjectArray :=
      if !A.EngineExitRequested then
        if A.GIsInitialLoad then { A with ObjObjects := A.ObjObjects.map (commitRootSet B) }
        else A
      else A
    .ok { A1 with
      ObjFirstGCIndex := max A1.ObjFirstGCIndex (A1.ObjLastNonGCIndex + 1)
      OpenForDisregardForGC := false
      GIsInitialLoad := false }

/-- The function `FUObjectArray::DisableDisregardForGC` (lines 180-188). -/
def DisableDisregardForGC (B : Build) (A : FUObjectArray) : Except Fatal FUObjectArray :=
  let A1 : FUObjectArray := { A with MaxObjectsNotConsideredByGC := 0, ObjFirstGCIndex := 0 }
  if A1.OpenForDisregardForGC then CloseDisregardForGC B A1 else .ok A1

/-- Lines 201-214 of `AllocateUObjectIndex`: the next slot of the disregard pool. -/
def selectDisregardIndex (A : FUObjectArray) : Except Fatal (Int × FUObjectArray) :=
  let A1 : FUObjectArray := { A with ObjLastNonGCIndex := A.ObjLastNonGCIndex + 1 }
  let Index := A1.ObjLastNonGCIndex
  if A1.ObjLastNonGCIndex ≥ A1.MaxObjectsNotConsideredByGC ∧ A1.ObjFirstGCIndex ≥ 0 then
    .error .disregardPoolFull
  else
    let grown : Except Fatal (Int × FUObjectArray) :=
      if A1.ObjLastNonGCIndex ≥ A1.MaxObjectsNotConsideredByGC then
        match AddSingle A1 with
        | .error e => .error e
        | .ok (Index2, A2) =>
          if Index2 = A2.ObjLastNonGCIndex then .ok (Index2, A2)
          else .error .checkIndexIsLastNonGC
      else .ok (Index, A1)
    match grown with
    | .error e => .error e
    | .ok (Index3, A3) =>
      let NewMax := max A3.MaxObjectsNotConsideredByGC (A3.ObjLastNonGCIndex + 1)
      .ok (Index3, { A3 with MaxObjectsNotConsideredByGC := NewMax })

/-- Lines 216-231 of `AllocateUObjectIndex`: an index of the regular pool. -/
def selectGCIndex (A : FUObjectArray) : Except Fatal (Int × FUObjectArray) :=
  let popped : Except Fatal (Int × FUObjectArray) :=
    match A.ObjAvailableList.getLast? with
    | some Index => .ok (Index, { A with ObjAvailableList := A.ObjAvailableList.dropLast })
    | none =>
      if A.ObjFirstGCIndex ≥ 0 then AddSingle A else .error .checkFirstGCIndexValid
  match popped with
  | .error e => .error e
  | .ok (Index, A1) =>
    if Index ≥ A1.ObjFirstGCIndex ∧ Index > A1.ObjLastNonGCIndex then .ok (Index, A1)
    else .error .checkIndexInGCRange

/-- Lines 197-231 of `AllocateUObjectIndex`: the choice of the index. -/
def selectIndex (A : FUObjectArray) (AlreadyAllocatedIndex : Int) :
    Except Fatal (Int × FUObjectArray) :=
  if AlreadyAllocatedIndex ≥ 0 then .ok (AlreadyAllocatedIndex, A)
  else if A.OpenForDisregardForGC && DisregardForGCEnabled A then selectDisregardIndex A
  else selectGCIndex A

/-- Lines 232-240 of `AllocateUObjectIndex`: the object is added to the global table. -/
def publish (B : Build) (A : FUObjectArray) (Object : ObjId) (InitialFlags : Nat)
    (Index SerialNumber : Int) : Except Fatal FUObjectArray :=
  match IndexToObject A Index with
  | .error e => .error e
  | .ok ObjectItem =>
    if ObjectItem.Object ≠ none then .error .indexCollision
    else
      let A1 : FUObjectArray := setItem A Index
        { Object := some Object
          Flags := B.PendingConstruction ||| InitialFlags
          ClusterRootIndex := 0
          SerialNumber := SerialNumber }
      .ok { A1 with InternalIndex := Function.update A1.InternalIndex Object Index }

/-- Lines 245-248 of `AllocateUObjectIndex`: the create listeners are called in order, for
listeners that leave the registry as it is; `AllocateUObjectIndexWith` has the loop with the
bodies of the listeners. -/
def notifyCreated (A : FUObjectArray) (Object : ObjId) (Index : Int) : FUObjectArray :=
  let Calls : List Notification :=
    A.UObjectCreateListeners.map (fun Listener => .NotifyUObjectCreated Listener Object Index)
  { A with Notified := A.Notified ++ Calls }

/-- The function `FUObjectArray::AllocateUObjectIndex` (lines 190-249). -/
def AllocateUObjectIndex (B : Build) (A : FUObjectArray) (Object : ObjId) (InitialFlags : Nat)
    (AlreadyAllocatedIndex SerialNumber : Int) : Except Fatal FUObjectArray :=
  if A.InternalIndex Object ≠ INDEX_NONE then .error .checkInternalIndexNone
  else match selectIndex A AlreadyAllocatedIndex with
    | .error e => .error e
    | .ok (Index, A1) =>
      match publish B A1 Object InitialFlags Index SerialNumber with
      | .error e => .error e
      | .ok A2 => .ok (notifyCreated A2 Object Index)

/-- The function `FUObjectArray::ResetSerialNumber` (lines 256-262). -/
def ResetSerialNumber (A : FUObjectArray) (Object : ObjId) : Except Fatal FUObjectArray :=
  let Index := A.InternalIndex Object
  match IndexToObject A Index with
  | .error e => .error e
  | .ok ObjectItem => .ok (setItem A Index { ObjectItem with SerialNumber := 0 })

/-- The function `FUObjectArray::RemoveObjectFromDeleteListeners` (lines 269-281), for
listeners that leave the registry as it is; `RemoveObjectFromDeleteListenersWith` has the
loop with the bodies of the listeners. -/
def RemoveObjectFromDeleteListeners (A : FUObjectArray) (Object : ObjId) :
    Except Fatal FUObjectArray :=
  let Index := A.InternalIndex Object
  if Index < 0 then .error .checkIndexNonNegative
  else
    let Calls : List Notification :=
      A.UObjectDeleteListeners.reverse.map
        (fun Listener => .NotifyUObjectDeleted Listener Object Index)
    .ok { A with Notified := A.Notified ++ Calls }

/-- The function `FUObjectArray::FreeUObjectIndex` (lines 288-309). -/
def FreeUObjectIndex (A : FUObjectArray) (Object : ObjId) : Except Fatal FUObjectArray :=
  let Index := A.InternalIndex Object
  match IndexToObject A Index with
  | .error e => .error e
  | .ok ObjectItem =>
    if ObjectItem.Object ≠ some Object then .error .freeMismatch
    else
      let A1 : FUObjectArray := setItem A Index
        { Object := none, Flags := 0, ClusterRootIndex := 0, SerialNumber := 0 }
      if Index > A1.ObjLastNonGCIndex ∧ !A1.GExitPurge ∧ A1.bShouldRecycleObjectIndices then
        .ok { A1 with ObjAvailableList := A1.ObjAvailableList ++ [Index] }
      else .ok A1

/-- The result of `FUObjectArray::IsValid` together with the warning it logs. -/
inductive IsValidWarning where
  | notInGlobalArray
  | invalidObjectIndex
  | emptySlot
  | otherObjectInSlot
deriving DecidableEq, Repr

/-- The function `FUObjectArray::IsValid` (lines 368-393): the answer and the warning
logged, if any. It is a `const` member: no state is returned. -/
def IsValid (A : FUObjectArray) (Object : ObjId) : Bool × Option IsValidWarning :=
  let Index := A.InternalIndex Object
  if Index = INDEX_NONE then (false, some .notInGlobalArray)
  else if !IsValidIndex A Index then (false, some .invalidObjectIndex)
  else
    match A.ObjObjects[Index.toNat]? with
    | none => (false, some .invalidObjectIndex)
    | some Slot =>
      if Slot.Object = none then (false, some .emptySlot)
      else if Slot.Object ≠ some Object then (false, some .otherObjectInSlot)
      else (true, none)

/-- The function `FUObjectArray::AllocateSerialNumber` (lines 395-415): the serial number
answered and the next state. `PrimarySerialNumber.Increment()` is an `int32` increment; the
compare-and-swap finds the zero it has just read. -/
def AllocateSerialNumber (B : Build) (A : FUObjectArray) (Index : Int) :
    Except Fatal (Int × FUObjectArray) :=
  match IndexToObject A Index with
  | .error e => .error e
  | .ok ObjectItem =>
    let assigned : Except Fatal (Int × FUObjectArray) :=
      if ObjectItem.SerialNumber = 0 then
        let SerialNumber := wrapInt32 (A.PrimarySerialNumber + 1)
        let A1 : FUObjectArray := { A with PrimarySerialNumber := SerialNumber }
        if SerialNumber ≤ B.START_SERIAL_NUMBER then .error .serialOverflow
        else .ok (SerialNumber, setItem A1 Index { ObjectItem with SerialNumber := SerialNumber })
      else .ok (ObjectItem.SerialNumber, A)
    match assigned with
    | .error e => .error e
    | .ok (SerialNumber, A2) =>
      if B.DO_GUARD_SLOW && !decide (SerialNumber > B.START_SERIAL_NUMBER) then .error .checkSlow
      else .ok (SerialNumber, A2)

/-- The public operations of the registry that act on slots, indices and serial numbers. -/
inductive Op where
  /-- A call of `AllocateUObjectIndex(Object, InitialFlags, AlreadyAllocatedIndex, SerialNumber)`;
  the defaults of the last two arguments are `INDEX_NONE` and `0`. -/
  | allocate (Object : ObjId) (InitialFlags : Nat) (AlreadyAllocatedIndex SerialNumber : Int)
  /-- A call of `FreeUObjectIndex(Object)`. -/
  | free (Object : ObjId)
  /-- A call of `RemoveObjectFromDeleteListeners(Object)`. -/
  | notifyDeleted (Object : ObjId)
  /-- A call of `OpenDisregardForGC()`. -/
  | openDisregard
  /-- A call of `CloseDisregardForGC()`. -/
  | closeDisregard
  /-- A call of `DisableDisregardForGC()`. -/
  | disableDisregard
  /-- A call of `AllocateSerialNumber(Index)`, the answer dropped. -/
  | serialOf (Index : Int)
  /-- A call of `ResetSerialNumber(Object)`. -/
  | resetSerial (Object : ObjId)
deriving DecidableEq, Repr

/-- One public operation applied to a registry state. -/
def step (B : Build) (A : FUObjectArray) : Op → Except Fatal FUObjectArray
  | .allocate Object InitialFlags AlreadyAllocatedIndex SerialNumber =>
    AllocateUObjectIndex B A Object InitialFlags AlreadyAllocatedIndex SerialNumber
  | .free Object => FreeUObjectIndex A Object
  | .notifyDeleted Object => RemoveObjectFromDeleteListeners A Object
  | .openDisregard => OpenDisregardForGC A
  | .closeDisregard => CloseDisregardForGC B A
  | .disableDisregard => DisableDisregardForGC B A
  | .serialOf Index =>
    match AllocateSerialNumber B A Index with
    | .error e => .error e
    | .ok (_, A1) => .ok A1
  | .resetSerial Object => ResetSerialNumber A Object

/-- A sequence of public operations, stopping at the first fatal condition. -/
def run (B : Build) : FUObjectArray → List Op → Except Fatal FUObjectArray
  | A, [] => .ok A
  | A, op :: ops =>
    match step B A op with
    | .error e => .error e
    | .ok A1 => run B A1 ops

/-- The registry as set up at start: constructed, then `AllocateObjectPool`. -/
def initRegistry (B : Build) (InternalIndex : ObjId → Int)
    (bShouldRecycleObjectIndices GExitPurge GIsInitialLoad EngineExitRequested : Bool)
    (InMaxUObjects InMaxObjectsNotConsideredByGC : Int) (bPreAllocateObjectArray : Bool) :
    Except Fatal FUObjectArray :=
  AllocateObjectPool
    (construct B InternalIndex bShouldRecycleObjectIndices GExitPurge GIsInitialLoad
      EngineExitRequested)
    InMaxUObjects InMaxObjectsNotConsideredByGC bPreAllocateObjectArray

/-- The object held by the slot at a natural index, if the slot exists and is occupied. -/
def objectAt (A : FUObjectArray) (i : Nat) : Option ObjId :=
  match A.ObjObjects[i]? with
  | some ObjectItem => ObjectItem.Object
  | none => none

/-- The serial number stored in the slot at a natural index (zero outside the table). -/
def serialAt (A : FUObjectArray) (i : Nat) : Int :=
  match A.ObjObjects[i]? with
  | some ObjectItem => ObjectItem.SerialNumber
  | none => 0

/-- The slots after the root set walk of the first close. -/
def closedSlots (B : Build) (A : FUObjectArray) : List FUObjectItem :=
  if A.EngineExitRequested = false ∧ A.GIsInitialLoad = true
  then A.ObjObjects.map (commitRootSet B) else A.ObjObjects

/-- The first collectable index is at most one past the last disregard index, which is at
least `INDEX_NONE`. -/
def BoundsOrdered (A : FUObjectArray) : Prop :=
  A.ObjFirstGCIndex ≤ A.ObjLastNonGCIndex + 1 ∧ -1 ≤ A.ObjLastNonGCIndex

/-- An operation other than an allocate call that supplies an explicit index. -/
def noExplicitIndex : Op → Bool
  | .allocate _ _ AlreadyAllocatedIndex _ => decide (AlreadyAllocatedIndex < 0)
  | _ => true

/-- The index lies in the regular pool: collectable indices exist, and the index is at or
above the declared size of the disregard pool and above the last disregard index. -/
def GCRange (A : FUObjectArray) (x : Int) : Prop :=
  0 ≤ A.ObjFirstGCIndex ∧ A.MaxObjectsNotConsideredByGC ≤ x ∧ A.ObjLastNonGCIndex < x

/-- The layout kept by runs without explicit indices: the declared disregard size is within
the table, every occupied slot is a disregard slot or a regular slot, every recycled index is
a regular index of an existing empty slot, and no index is recycled twice. -/
def PoolLayout (A : FUObjectArray) : Prop :=
  A.MaxObjectsNotConsideredByGC ≤ A.Num ∧
  (∀ (i : Nat) (Object : ObjId), objectAt A i = some Object →
    (i : Int) ≤ A.ObjLastNonGCIndex ∨ GCRange A (i : Int)) ∧
  (∀ x ∈ A.ObjAvailableList, GCRange A x ∧
    ∃ k : Nat, x = (k : Int) ∧ k < A.ObjObjects.length ∧ objectAt A k = none) ∧
  A.ObjAvailableList.Nodup

/-- Every empty slot above the disregard range and at or beyond the initial reserve is in
the list of recycled indices. -/
def RecycledAll (Reserve : Int) (A : FUObjectArray) : Prop :=
  ∀ k : Nat, k < A.ObjObjects.length → Reserve ≤ (k : Int) → A.ObjLastNonGCIndex < (k : Int) →
    objectAt A k = none → (k : Int) ∈ A.ObjAvailableList

/-- An operation other than an allocate call that supplies a serial number. -/
def defaultSerial : Op → Bool
  | .allocate _ _ _ SerialNumber => decide (SerialNumber = 0)
  | _ => true

/-- The counter is an `int32` at or above the sentinel, and every serial number stored in a
slot is zero or lies above the sentinel and at or below the counter. -/
def SerialsBounded (B : Build) (A : FUObjectArray) : Prop :=
  B.START_SERIAL_NUMBER ≤ A.PrimarySerialNumber ∧ A.PrimarySerialNumber ≤ 2147483647 ∧
  ∀ i : Nat, serialAt A i ≠ 0 →
    B.START_SERIAL_NUMBER < serialAt A i ∧ serialAt A i ≤ A.PrimarySerialNumber

/-- No two slots store the same non-zero serial number. -/
def SerialsDistinct (A : FUObjectArray) : Prop :=
  ∀ i j : Nat, serialAt A i ≠ 0 → serialAt A i = serialAt A j → i = j

/-- Every occupied slot holds an object whose `InternalIndex` is the index of the slot. -/
def SlotsMatchIndex (A : FUObjectArray) : Prop :=
  ∀ (i : Nat) (Object : ObjId), objectAt A i = some Object → A.InternalIndex Object = (i : Int)

/-- A sample build: sentinel `100`, `checkSlow` compiled out, two flag bits. -/
def sampleBuild : Build :=
  { START_SERIAL_NUMBER := 100
    DO_GUARD_SLOW := false
    PendingConstruction := 2
    RootSet := 1
    IsSafeForRootSet := fun _ => false }

/-- The sample build with `checkSlow` compiled in. -/
def guardedBuild : Build := { sampleBuild with DO_GUARD_SLOW := true }

/-- A sample start: no object registered yet, recycling on, initial load in progress. -/
def sampleInit (B : Build) (InMaxUObjects InMaxObjectsNotConsideredByGC : Int) :
    Except Fatal FUObjectArray :=
  initRegistry B (fun _ => INDEX_NONE) true false true false
    InMaxUObjects InMaxObjectsNotConsideredByGC false

/-- The state of a successful result, and the freshly constructed registry otherwise. -/
def stateOf (r : Except Fatal FUObjectArray) : FUObjectArray :=
  match r with
  | .ok A => A
  | .error _ => construct sampleBuild (fun _ => INDEX_NONE) true false true false

/-- A sample start followed by a sequence of public operations. -/
def sampleRun (B : Build) (InMaxUObjects InMaxObjectsNotConsideredByGC : Int)
    (ops : List Op) : Except Fatal FUObjectArray :=
  match sampleInit B InMaxUObjects InMaxObjectsNotConsideredByGC with
  | .error e => .error e
  | .ok A0 => run B A0 ops

/-- The state a sample start and a sequence of public operations end in. -/
def sampleState (B : Build) (InMaxUObjects InMaxObjectsNotConsideredByGC : Int)
    (ops : List Op) : FUObjectArray :=
  stateOf (sampleRun B InMaxUObjects InMaxObjectsNotConsideredByGC ops)

/-- Allocate calls for the objects `0`, ..., `n - 1`, each with the default arguments. -/
def allocateCalls (n : Nat) : List Op :=
  (List.range n).map (fun Object => Op.allocate Object 0 INDEX_NONE 0)

/-! ### Listeners -/

/-- Modelled from the spec: `TArray::RemoveAtSwap` lives in a missing container header, and
the spec, which has the listener lists as ordered sequences, says nothing on what a removal
does to the order of the other listeners. As the name used in the source has it, the
element at the index is removed by moving the last element into its place, so the order of
the other elements is not kept. -/
def RemoveAtSwap (Listeners : List ListenerId) (Index : Nat) : List ListenerId :=
  match Listeners.getLast? with
  | none => Listeners
  | some Last => (Listeners.set Index Last).dropLast

/-- Modelled from the spec: `TArray::RemoveSingleSwap` lives in a missing container header;
it removes the first occurrence of the item, if any, by `RemoveAtSwap`, and answers the
number of removed elements (the `NumRemoved` of line 329) together with the remaining
elements. -/
def RemoveSingleSwap (Listeners : List ListenerId) (Item : ListenerId) :
    Nat × List ListenerId :=
  if Item ∈ Listeners then (1, RemoveAtSwap Listeners (Listeners.indexOf Item))
  else (0, Listeners)

/-- The function `FUObjectArray::AddUObjectCreateListener` (lines 316-320). -/
def AddUObjectCreateListener (A : FUObjectArray) (Listener : ListenerId) :
    Except Fatal FUObjectArray :=
  if Listener ∈ A.UObjectCreateListeners then .error .checkListenerAbsent
  else .ok { A with UObjectCreateListeners := A.UObjectCreateListeners ++ [Listener] }

/-- The function `FUObjectArray::RemoveUObjectCreateListener` (lines 327-331). -/
def RemoveUObjectCreateListener (A : FUObjectArray) (Listener : ListenerId) :
    Except Fatal FUObjectArray :=
  let Removed := RemoveSingleSwap A.UObjectCreateListeners Listener
  if Removed.1 = 1 then .ok { A with UObjectCreateListeners := Removed.2 }
  else .error .checkNumRemoved

/-- The function `FUObjectArray::AddUObjectDeleteListener` (lines 338-345). -/
def AddUObjectDeleteListener (A : FUObjectArray) (Listener : ListenerId) :
    Except Fatal FUObjectArray :=
  if Listener ∈ A.UObjectDeleteListeners then .error .checkListenerAbsent
  else .ok { A with UObjectDeleteListeners := A.UObjectDeleteListeners ++ [Listener] }

/-- The function `FUObjectArray::RemoveUObjectDeleteListener` (lines 352-358): the number
answered by `RemoveSingleSwap` is dropped, and nothing is checked. -/
def RemoveUObjectDeleteListener (A : FUObjectArray) (Listener : ListenerId) :
    Except Fatal FUObjectArray :=
  let Removed := RemoveSingleSwap A.UObjectDeleteListeners Listener
  .ok { A with UObjectDeleteListeners := Removed.2 }

/-- The four public operations on the listener lists. -/
inductive ListenerOp where
  | addCreate (Listener : ListenerId)
  | removeCreate (Listener : ListenerId)
  | addDelete (Listener : ListenerId)
  | removeDelete (Listener : ListenerId)
deriving DecidableEq, Repr

/-- One listener operation applied to a registry state. -/
def stepListener (A : FUObjectArray) : ListenerOp → Except Fatal FUObjectArray
  | .addCreate Listener => AddUObjectCreateListener A Listener
  | .removeCreate Listener => RemoveUObjectCreateListener A Listener
  | .addDelete Listener => AddUObjectDeleteListener A Listener
  | .removeDelete Listener => RemoveUObjectDeleteListener A Listener

/-- A sequence of listener operations, stopping at the first fatal condition. -/
def runListeners : FUObjectArray → List ListenerOp → Except Fatal FUObjectArray
  | A, [] => .ok A
  | A, op :: ops =>
    match stepListener A op with
    | .error e => .error e
    | .ok A1 => runListeners A1 ops

/-- The create listeners registered after a sequence of listener operations, in the order
in which they were registered: an add puts the listener last, a remove takes it out and
keeps the order of the others. -/
def createRegistrationOrder : List ListenerOp → List ListenerId → List ListenerId
  | [], Registered => Registered
  | .addCreate Listener :: ops, Registered =>
    createRegistrationOrder ops (Registered ++ [Listener])
  | .removeCreate Listener :: ops, Registered =>
    createRegistrationOrder ops (Registered.erase Listener)
  | _ :: ops, Registered => createRegistrationOrder ops Registered

/-- The delete listeners registered after a sequence of listener operations, in the order
in which they were registered. -/
def deleteRegistrationOrder : List ListenerOp → List ListenerId → List ListenerId
  | [], Registered => Registered
  | .addDelete Listener :: ops, Registered =>
    deleteRegistrationOrder ops (Registered ++ [Listener])
  | .removeDelete Listener :: ops, Registered =>
    deleteRegistrationOrder ops (Registered.erase Listener)
  | _ :: ops, Registered => deleteRegistrationOrder ops Registered

/-- A listener operation that removes no create listener. -/
def keepsCreateListeners : ListenerOp → Bool
  | .removeCreate _ => false
  | _ => true

/-- A listener operation that removes no delete listener. -/
def keepsDeleteListeners : ListenerOp → Bool
  | .removeDelete _ => false
  | _ => true

/-- What the listener objects do to the registry when they are told of the shutdown; this
is code outside the registry. -/
structure Callbacks where
  /-- The body of `FUObjectDeleteListener::OnUObjectArrayShutdown` of a delete listener. -/
  DeleteListenerShutdown : ListenerId → FUObjectArray → Except Fatal FUObjectArray
  /-- The body of `FUObjectCreateListener::OnUObjectArrayShutdown` of a create listener. -/
  CreateListenerShutdown : ListenerId → FUObjectArray → Except Fatal FUObjectArray

/-- A loop `for (Index = Num - 1; Index >= 0; --Index) call(list[Index])` over a listener
list that the calls may change; the first argument is `Index + 1`. Reading the list at an
index that is no longer within it is fatal. -/
def notifyDownFrom (list : FUObjectArray → List ListenerId)
    (call : ListenerId → FUObjectArray → Except Fatal FUObjectArray) :
    Nat → FUObjectArray → Except Fatal FUObjectArray
  | 0, A => .ok A
  | Index + 1, A =>
    match (list A)[Index]? with
    | none => .error .invalidIndex
    | some Listener =>
      match call Listener A with
      | .error e => .error e
      | .ok A1 => notifyDownFrom list call Index A1

/-- The call `Listener->OnUObjectArrayShutdown()` on a delete listener: recorded, then run. -/
def callDeleteListenerShutdown (C : Callbacks) (Listener : ListenerId) (A : FUObjectArray) :
    Except Fatal FUObjectArray :=
  C.DeleteListenerShutdown Listener
    { A with Notified := A.Notified ++ [Notification.DeleteListenerShutdown Listener] }

/-- The call `Listener->OnUObjectArrayShutdown()` on a create listener: recorded, then run. -/
def callCreateListenerShutdown (C : Callbacks) (Listener : ListenerId) (A : FUObjectArray) :
    Except Fatal FUObjectArray :=
  C.CreateListenerShutdown Listener
    { A with Notified := A.Notified ++ [Notification.CreateListenerShutdown Listener] }

/-- Lines 426-430 of `ShutdownUObjectArray`: the loop over the delete listeners. -/
def notifyDeleteListenersOfShutdown (C : Callbacks) (A : FUObjectArray) :
    Except Fatal FUObjectArray :=
  notifyDownFrom (fun X => X.UObjectDeleteListeners) (callDeleteListenerShutdown C)
    A.UObjectDeleteListeners.length A

/-- Lines 434-438 of `ShutdownUObjectArray`: the loop over the create listeners. -/
def notifyCreateListenersOfShutdown (C : Callbacks) (A : FUObjectArray) :
    Except Fatal FUObjectArray :=
  notifyDownFrom (fun X => X.UObjectCreateListeners) (callCreateListenerShutdown C)
    A.UObjectCreateListeners.length A

/-- Lines 422-432 of `ShutdownUObjectArray`: the delete listeners are told, and one that is
still registered afterwards is fatal. -/
def shutdownDeleteListeners (C : Callbacks) (A : FUObjectArray) : Except Fatal FUObjectArray :=
  match notifyDeleteListenersOfShutdown C A with
  | .error e => .error e
  | .ok A1 =>
    if A1.UObjectDeleteListeners.length ≠ 0 then .error .listenersRemain else .ok A1

/-- Lines 433-440 of `ShutdownUObjectArray`: the create listeners are told, and one that is
still registered afterwards is fatal. -/
def shutdownCreateListeners (C : Callbacks) (A : FUObjectArray) : Except Fatal FUObjectArray :=
  match notifyCreateListenersOfShutdown C A with
  | .error e => .error e
  | .ok A1 =>
    if A1.UObjectCreateListeners.length ≠ 0 then .error .listenersRemain else .ok A1

/-- The function `FUObjectArray::ShutdownUObjectArray` (lines 420-441). -/
def ShutdownUObjectArray (C : Callbacks) (A : FUObjectArray) : Except Fatal FUObjectArray :=
  match shutdownDeleteListeners C A with
  | .error e => .error e
  | .ok A1 => shutdownCreateListeners C A1

/-- Listeners that, told of the shutdown, either do nothing or deregister themselves, as
the two predicates say. -/
def selfRemoving (DeleteDeregisters CreateDeregisters : ListenerId → Bool) : Callbacks :=
  { DeleteListenerShutdown := fun Listener A =>
      if DeleteDeregisters Listener then RemoveUObjectDeleteListener A Listener else .ok A
    CreateListenerShutdown := fun Listener A =>
      if CreateDeregisters Listener then RemoveUObjectCreateListener A Listener else .ok A }

/-- Modelled from the spec: the caller that frees an object (the object's destruction) is
not among the sources; after the spec, `free(object_ref)` resolves the index and is fatal on
a slot that does not hold the object, then notifies the delete listeners, then clears the
slot and recycles the index. The last two steps are `RemoveObjectFromDeleteListeners` and
`FreeUObjectIndex`. This is the free of listeners that leave the registry as it is;
`freeObjectWith` has the bodies of the listeners. -/
def freeObject (A : FUObjectArray) (Object : ObjId) : Except Fatal FUObjectArray :=
  match IndexToObject A (A.InternalIndex Object) with
  | .error e => .error e
  | .ok ObjectItem =>
    if ObjectItem.Object ≠ some Object then .error .freeMismatch
    else
      match RemoveObjectFromDeleteListeners A Object with
      | .error e => .error e
      | .ok A1 => FreeUObjectIndex A1 Object

/-! ### Capacity -/

/-- The function `UE::UObjectArrayPrivate::FailMaxUObjectCountExceeded` (lines 528-535):
the report dumped to the log before the fatal error, if any, and the fatal error. `Dump`
stands for `GUObjectArray.DumpUObjectCountsToLog()` and the integer for the console variable
`gc.DumpObjectCountsToLogWhenMaxObjectLimitExceeded`. -/
def FailMaxUObjectCountExceeded {Report : Type} (Dump : FUObjectArray → Report)
    (GVarDumpObjectCountsToLogWhenMaxObjectLimitExceeded : Int) (A : FUObjectArray)
    (MaxUObjects NewUObjectCount : Int) : Option Report × Fatal :=
  let _ := (MaxUObjects, NewUObjectCount)
  (if GVarDumpObjectCountsToLogWhenMaxObjectLimitExceeded ≠ 0 then some (Dump A) else none,
    Fatal.maxUObjectCountExceeded)

/-- An allocate call that supplies no explicit index. -/
def isDefaultAllocate : Op → Bool
  | .allocate _ _ AlreadyAllocatedIndex _ => decide (AlreadyAllocatedIndex < 0)
  | _ => false

/-- Allocate calls for a list of objects, each with the default index and serial number. -/
def allocateDefaults (Objects : List ObjId) (InitialFlags : Nat) : List Op :=
  Objects.map (fun Object => Op.allocate Object InitialFlags INDEX_NONE 0)

/-- The registry after `Count` allocate calls without explicit index and nothing else since
the start with a reserve of `Reserve`: no index is recycled, the slots from `Count` on are
empty, and either the disregard pool is enabled, open and holds all the objects, or it is
not enabled and the regular pool holds all the objects. -/
def DefaultFill (Reserve : Int) (Count : Nat) (A : FUObjectArray) : Prop :=
  A.ObjAvailableList = [] ∧
  (∀ i : Nat, Count ≤ i → objectAt A i = none) ∧
  ((0 < A.MaxObjectsNotConsideredByGC ∧ A.OpenForDisregardForGC = true ∧
      A.ObjFirstGCIndex < 0 ∧ A.ObjLastNonGCIndex = (Count : Int) - 1 ∧
      A.Num = max Reserve (Count : Int) ∧
      A.MaxObjectsNotConsideredByGC = max Reserve (Count : Int)) ∨
    (A.MaxObjectsNotConsideredByGC ≤ 0 ∧ A.ObjFirstGCIndex = 0 ∧
      A.ObjLastNonGCIndex = -1 ∧ A.Num = (Count : Int)))

/-! ### The disregard pool -/

/-- An allocate call that, made in this state, takes the disregard path (line 201). -/
def takesDisregardPath (A : FUObjectArray) : Op → Bool
  | .allocate _ _ AlreadyAllocatedIndex _ =>
    decide (AlreadyAllocatedIndex < 0) && (A.OpenForDisregardForGC && DisregardForGCEnabled A)
  | _ => false

/-- An allocate call that, made in this state, takes the regular path (line 216). -/
def takesRegularPath (A : FUObjectArray) : Op → Bool
  | .allocate _ _ AlreadyAllocatedIndex _ =>
    decide (AlreadyAllocatedIndex < 0) && !(A.OpenForDisregardForGC && DisregardForGCEnabled A)
  | _ => false

/-- The number of successful allocate calls of a run that took the disregard path. -/
def disregardAllocations (B : Build) : FUObjectArray → List Op → Nat
  | _, [] => 0
  | A, op :: ops =>
    match step B A op with
    | .error _ => 0
    | .ok A1 => (if takesDisregardPath A op then 1 else 0) + disregardAllocations B A1 ops

/-- The bounds kept by every run: the last disregard index is at least `INDEX_NONE`; while
the first collectable index is unset the pool is open and enabled and the slot table is
exactly the declared disregard range; and the last disregard index is inside the declared
range while the pool is enabled. -/
def GrowthLayout (A : FUObjectArray) : Prop :=
  -1 ≤ A.ObjLastNonGCIndex ∧
  (A.ObjFirstGCIndex < 0 →
    A.OpenForDisregardForGC = true ∧ 0 < A.MaxObjectsNotConsideredByGC ∧
    A.Num = A.MaxObjectsNotConsideredByGC) ∧
  (0 < A.MaxObjectsNotConsideredByGC → A.ObjLastNonGCIndex < A.MaxObjectsNotConsideredByGC)

/-- The sample start with listeners registered by a sequence of listener operations. -/
def sampleListeners (InMaxUObjects InMaxObjectsNotConsideredByGC : Int)
    (lops : List ListenerOp) : FUObjectArray :=
  stateOf (runListeners (sampleState sampleBuild InMaxUObjects InMaxObjectsNotConsideredByGC [])
    lops)

/-- The sample start with listeners registered by a sequence of listener operations and
then a sequence of public operations. -/
def sampleWorld (InMaxUObjects InMaxObjectsNotConsideredByGC : Int)
    (lops : List ListenerOp) (ops : List Op) : FUObjectArray :=
  stateOf (run sampleBuild
    (sampleListeners InMaxUObjects InMaxObjectsNotConsideredByGC lops) ops)

/-! ### Listeners that change the listener list while they are notified -/

/-- The call `UObjectDeleteListeners[ListenerIndex]->NotifyUObjectDeleted(Object, Index)` of
line 279: recorded, then run. `OnDeleted` is the body of `NotifyUObjectDeleted` of the
listeners, which is code outside the registry. -/
def callNotifyUObjectDeleted
    (OnDeleted : ListenerId → ObjId → Int → FUObjectArray → Except Fatal FUObjectArray)
    (Object : ObjId) (Index : Int) (Listener : ListenerId) (A : FUObjectArray) :
    Except Fatal FUObjectArray :=
  OnDeleted Listener Object Index
    { A with Notified := A.Notified ++ [Notification.NotifyUObjectDeleted Listener Object Index] }

/-- The function `FUObjectArray::RemoveObjectFromDeleteListeners` (lines 269-281) with
listeners whose `NotifyUObjectDeleted` may change the registry: the loop of line 277 reads
the listener list anew at every index. -/
def RemoveObjectFromDeleteListenersWith
    (OnDeleted : ListenerId → ObjId → Int → FUObjectArray → Except Fatal FUObjectArray)
    (A : FUObjectArray) (Object : ObjId) : Except Fatal FUObjectArray :=
  let Index := A.InternalIndex Object
  if Index < 0 then .error .checkIndexNonNegative
  else
    notifyDownFrom (fun X => X.UObjectDeleteListeners)
      (callNotifyUObjectDeleted OnDeleted Object Index) A.UObjectDeleteListeners.length A

/-- Listener bodies that, run for a listener of the list, return normally, make no call
that the registry records, and either leave the list as it is or take that listener out of
it the way `RemoveSingleSwap` does. -/
def SelfRemovingOnly (list : FUObjectArray → List ListenerId)
    (body : ListenerId → FUObjectArray → Except Fatal FUObjectArray) : Prop :=
  ∀ (L : ListenerId) (X : FUObjectArray), L ∈ list X →
    ∃ Y, body L X = .ok Y ∧ Y.Notified = X.Notified ∧
      (list Y = list X ∨ list Y = (RemoveSingleSwap (list X) L).2)

/-- A body of `NotifyUObjectDeleted` that deregisters the listener it is run for if the
predicate says so, and does nothing otherwise. -/
def deregisterOnDeleted (Deregisters : ListenerId → Bool) :
    ListenerId → ObjId → Int → FUObjectArray → Except Fatal FUObjectArray :=
  fun Listener _ _ A =>
    if Deregisters Listener then RemoveUObjectDeleteListener A Listener else .ok A

/-! ### Listeners that run while an object is published or freed -/

/-- A loop `for (Index = Start; Index < Listeners.Num(); Index++) call(Listeners[Index])`
over a listener list that the calls may change: the length and the element are read anew at
every step. A call that adds a listener makes the loop longer, so the loop is run with fuel,
one unit for every test of the loop condition; `none` is a loop that has not ended when the
fuel is used up. The second argument is `Index`. -/
def notifyUpFrom (list : FUObjectArray → List ListenerId)
    (call : ListenerId → FUObjectArray → Except Fatal FUObjectArray) :
    Nat → Nat → FUObjectArray → Option (Except Fatal FUObjectArray)
  | 0, _, _ => none
  | Fuel + 1, Index, A =>
    match (list A)[Index]? with
    | none => some (.ok A)
    | some Listener =>
      match call Listener A with
      | .error e => some (.error e)
      | .ok A1 => notifyUpFrom list call Fuel (Index + 1) A1

/-- The call `UObjectCreateListeners[ListenerIndex]->NotifyUObjectCreated(Object,Index)` of
line 247: recorded, then run. `OnCreated` is the body of `NotifyUObjectCreated` of the
listeners, which is code outside the registry. -/
def callNotifyUObjectCreated
    (OnCreated : ListenerId → ObjId → Int → FUObjectArray → Except Fatal FUObjectArray)
    (Object : ObjId) (Index : Int) (Listener : ListenerId) (A : FUObjectArray) :
    Except Fatal FUObjectArray :=
  OnCreated Listener Object Index
    { A with Notified := A.Notified ++ [Notification.NotifyUObjectCreated Listener Object Index] }

/-- The function `FUObjectArray::AllocateUObjectIndex` (lines 190-249) with listeners whose
`NotifyUObjectCreated` may change the registry: after the object is added to the table
(lines 232-240), the loop of lines 245-248 runs on the registry as it then is and tests
`ListenerIndex < UObjectCreateListeners.Num()` anew at every step. -/
def AllocateUObjectIndexWith
    (OnCreated : ListenerId → ObjId → Int → FUObjectArray → Except Fatal FUObjectArray)
    (Fuel : Nat) (B : Build) (A : FUObjectArray) (Object : ObjId) (InitialFlags : Nat)
    (AlreadyAllocatedIndex SerialNumber : Int) : Option (Except Fatal FUObjectArray) :=
  if A.InternalIndex Object ≠ INDEX_NONE then some (.error .checkInternalIndexNone)
  else match selectIndex A AlreadyAllocatedIndex with
    | .error e => some (.error e)
    | .ok (Index, A1) =>
      match publish B A1 Object InitialFlags Index SerialNumber with
      | .error e => some (.error e)
      | .ok A2 =>
        notifyUpFrom (fun X => X.UObjectCreateListeners)
          (callNotifyUObjectCreated OnCreated Object Index) Fuel 0 A2

/-- Modelled from the spec: the caller that frees an object (the object's destruction) is
not among the sources; after the spec, `free(object_ref)` resolves the index and is fatal on
a slot that does not hold the object, then notifies the delete listeners, then clears the
slot and recycles the index. The last two steps are `RemoveObjectFromDeleteListeners`, here
with the bodies of the listeners, and `FreeUObjectIndex`. -/
def freeObjectWith
    (OnDeleted : ListenerId → ObjId → Int → FUObjectArray → Except Fatal FUObjectArray)
    (A : FUObjectArray) (Object : ObjId) : Except Fatal FUObjectArray :=
  match IndexToObject A (A.InternalIndex Object) with
  | .error e => .error e
  | .ok ObjectItem =>
    if ObjectItem.Object ≠ some Object then .error .freeMismatch
    else
      match RemoveObjectFromDeleteListenersWith OnDeleted A Object with
      | .error e => .error e
      | .ok A1 => FreeUObjectIndex A1 Object

/-- The slot at the index `k` holds the object, whose `InternalIndex` is `k`. -/
def Occupied (k : Nat) (Object : ObjId) (X : FUObjectArray) : Prop :=
  X.InternalIndex Object = (k : Int) ∧ objectAt X k = some Object

/-- Calls to the listeners of a list that, made for a listener of the list in a state in
which `Holds`, return normally in a state in which `Holds`, are recorded as the one
notification `ev` and record nothing else, and leave the list as it is. Nothing is asked of
a call made in a state in which `Holds` fails. -/
def KeepsListWhile (Holds : FUObjectArray → Prop) (list : FUObjectArray → List ListenerId)
    (ev : ListenerId → Notification)
    (call : ListenerId → FUObjectArray → Except Fatal FUObjectArray) : Prop :=
  ∀ (L : ListenerId) (X : FUObjectArray), L ∈ list X → Holds X →
    ∃ Y, call L X = .ok Y ∧ Holds Y ∧ Y.Notified = X.Notified ++ [ev L] ∧ list Y = list X

/-- Calls to the listeners of a list that, made for a listener of the list in a state in
which `Holds`, return normally in a state in which `Holds`, are recorded as the one
notification `ev` and record nothing else, and either leave the list as it is or take that
listener out of it the way `RemoveSingleSwap` does. Nothing is asked of a call made in a
state in which `Holds` fails. -/
def SelfRemovingWhile (Holds : FUObjectArray → Prop) (list : FUObjectArray → List ListenerId)
    (ev : ListenerId → Notification)
    (call : ListenerId → FUObjectArray → Except Fatal FUObjectArray) : Prop :=
  ∀ (L : ListenerId) (X : FUObjectArray), L ∈ list X → Holds X →
    ∃ Y, call L X = .ok Y ∧ Holds Y ∧ Y.Notified = X.Notified ++ [ev L] ∧
      (list Y = list X ∨ list Y = (RemoveSingleSwap (list X) L).2)

/-- A body of `NotifyUObjectCreated` that looks the object up at the index it is given, as a
listener that reads the flags of the new object does: a slot that does not hold the object
is fatal for it, with `Failure`; otherwise it does nothing. -/
def inspectOnCreated (Failure : Fatal) :
    ListenerId → ObjId → Int → FUObjectArray → Except Fatal FUObjectArray :=
  fun _ Object Index A =>
    match IndexToObject A Index with
    | .error _ => .error Failure
    | .ok ObjectItem => if ObjectItem.Object = some Object then .ok A else .error Failure

/-- A body of `NotifyUObjectDeleted` that looks the object up at the index it is given, as a
listener that reads the flags of the dying object does: a slot that does not hold the object
is fatal for it, with `Failure`; otherwise it deregisters the listener it is run for if the
predicate says so, and does nothing else. -/
def inspectOnDeleted (Deregisters : ListenerId → Bool) (Failure : Fatal) :
    ListenerId → ObjId → Int → FUObjectArray → Except Fatal FUObjectArray :=
  fun Listener Object Index A =>
    match IndexToObject A Index with
    | .error _ => .error Failure
    | .ok ObjectItem =>
      if ObjectItem.Object = some Object then
        deregisterOnDeleted Deregisters Listener Object Index A
      else .error Failure

/-- A body of `NotifyUObjectCreated` that deregisters the listener it is run for if the
predicate says so, and does nothing otherwise. -/
def deregisterOnCreated (Deregisters : ListenerId → Bool) :
    ListenerId → ObjId → Int → FUObjectArray → Except Fatal FUObjectArray :=
  fun Listener _ _ A =>
    if Deregisters Listener then RemoveUObjectCreateListener A Listener else .ok A

/-- A body of `NotifyUObjectDeleted` with which the listener `Remover` deregisters the
listener `Removed`; the other listeners do nothing. -/
def removeOtherOnDeleted (Remover Removed : ListenerId) :
    ListenerId → ObjId → Int → FUObjectArray → Except Fatal FUObjectArray :=
  fun Listener _ _ A =>
    if Listener = Remover then RemoveUObjectDeleteListener A Removed else .ok A

/-- A body of `NotifyUObjectDeleted` with which the listener `Freer` frees the index of the
object itself; the other listeners do nothing. -/
def freeOnDeleted (Freer : ListenerId) :
    ListenerId → ObjId → Int → FUObjectArray → Except Fatal FUObjectArray :=
  fun Listener Object _ A => if Listener = Freer then FreeUObjectIndex A Object else .ok A

/-- The state a run of `AllocateUObjectIndexWith` ends in, and the freshly constructed
registry if the run is fatal or out of fuel. -/
def endOf (r : Option (Except Fatal FUObjectArray)) : FUObjectArray :=
  match r with
  | some r1 => stateOf r1
  | none => stateOf (.error .invalidIndex)

/-! ### The object counts -/

/-- Address of a `UClass` instance, the type descriptor of an object. -/
abbrev ClassId := Nat

/-- What `DumpUObjectCountsToLog` takes from the reflection system, which is outside the
registry: the class of an object, and whether an object is itself a class. -/
structure Reflection where
  /-- The answer of `Object->GetClass()`. -/
  GetClass : ObjId → ClassId
  /-- The answer of `Object->IsA(UClass::StaticClass())`. -/
  IsAClass : ObjId → Bool

/-- The local `struct FClassEntry` of `DumpUObjectCountsToLog` (lines 446-450). -/
structure FClassEntry where
  Class : Option ClassId
  NumInstances : Nat
deriving DecidableEq, Repr

/-- An entry as its member initializers leave it: `Class = nullptr`, `NumInstances = 0`. -/
def FClassEntry.fresh : FClassEntry := { Class := none, NumInstances := 0 }

/-- Modelled from the spec: `TMap::FindOrAdd` lives in a missing container header; the map
is kept as its pairs of key and value, in the order in which the keys were added, and a key
that is absent is added with a fresh value. -/
def FindOrAdd (Map : List (ClassId × FClassEntry)) (Key : ClassId) :
    List (ClassId × FClassEntry) :=
  if Map.any (fun Pair => Pair.1 == Key) then Map else Map ++ [(Key, FClassEntry.fresh)]

/-- A write through the reference that `FindOrAdd` answers: the value of the key is
replaced. -/
def updateValue (Map : List (ClassId × FClassEntry)) (Key : ClassId)
    (f : FClassEntry → FClassEntry) : List (ClassId × FClassEntry) :=
  Map.map (fun Pair => if Pair.1 = Key then (Pair.1, f Pair.2) else Pair)

/-- Lines 469-474 of `DumpUObjectCountsToLog`: one object is counted for its class. -/
def countObject (R : Reflection) (ClassCountMap : List (ClassId × FClassEntry))
    (Object : ObjId) : List (ClassId × FClassEntry) :=
  let ObjectClass := R.GetClass Object
  updateValue (FindOrAdd ClassCountMap ObjectClass) ObjectClass
    (fun ClassEntry =>
      { Class := some ObjectClass, NumInstances := ClassEntry.NumInstances + 1 })

/-- Lines 464-476 of `DumpUObjectCountsToLog`: the loop over all slots that fills
`ClassCountMap` and counts `NumUObjects`, started from a map and a count. -/
def countObjectsFrom (R : Reflection) (Start : List (ClassId × FClassEntry) × Nat)
    (Slots : List FUObjectItem) : List (ClassId × FClassEntry) × Nat :=
  Slots.foldl
    (fun Counted ObjectItem =>
      match ObjectItem.Object with
      | some Object => (countObject R Counted.1 Object, Counted.2 + 1)
      | none => Counted)
    Start

/-- Lines 453-461 of `DumpUObjectCountsToLog`: the number of objects that are classes. -/
def countClasses (R : Reflection) (Slots : List FUObjectItem) : Nat :=
  Slots.foldl
    (fun NumClasses ObjectItem =>
      match ObjectItem.Object with
      | some Object => if R.IsAClass Object then NumClasses + 1 else NumClasses
      | none => NumClasses)
    0

/-- Modelled from the spec: `TArray::Sort` lives in a missing header; with the predicate of
line 481, `A.NumInstances > B.NumInstances`, it sorts the entries descending by count. The
order among entries of equal count, which the predicate leaves open, is that of a stable
sort here. -/
def sortByNumInstances (ClassArray : List FClassEntry) : List FClassEntry :=
  ClassArray.insertionSort (fun A B => B.NumInstances ≤ A.NumInstances)

/-- The constant `MinInstanceNum` of line 483. -/
def MinInstanceNum : Nat := 10

/-- A line written to the log by `DumpUObjectCountsToLog`, with the numbers it shows. -/
inductive LogLine where
  /-- Line 445. -/
  | dumping
  /-- Line 494: the instances of one class. -/
  | instancesOf (NumInstances : Nat) (Class : Option ClassId)
  /-- Line 508: the instances skipped once the printed part was large enough. -/
  | remaining (NumInstancesSkipped : Nat) (Printed : Nat × Nat) (NumClassesSkipped : Nat)
  /-- Line 512: the instances skipped for classes with few instances. -/
  | fewInstances (NumInstancesSkipped NumClassesSkipped Threshold : Nat)
  /-- Line 515. -/
  | total (NumUObjects NumClasses : Nat)
deriving DecidableEq, Repr

/-- The comparison `PercentOfInstancesPrinted <= MaxPrintedInstancePercent` of lines 492 and
506, on the two counts the percentage was computed from (`0` of `1` before anything is
printed). The quotient of two `int32` counts rounded to a `double` is at most the `double`
nearest to `0.95` exactly when the quotient is at most `95/100`: a quotient above `95/100`
is above it by `1/(20 * 2^31)` or more, which is far more than the rounding. -/
def withinPrintedPercent (Printed : Nat × Nat) : Bool :=
  decide (100 * Printed.1 ≤ 95 * Printed.2)

/-- The local variables of the printing loop of `DumpUObjectCountsToLog` (lines 485-488),
with the lines written so far. -/
structure PrintState where
  Lines : List LogLine
  NumClassesSkipped : Nat
  NumInstancesSkipped : Nat
  NumInstancesPrinted : Nat
  /-- The counts of which `PercentOfInstancesPrinted` is the quotient. -/
  PercentOfInstancesPrinted : Nat × Nat

/-- Lines 490-503 of `DumpUObjectCountsToLog`: the body of the printing loop. -/
def printEntry (NumUObjects : Nat) (S : PrintState) (ClassEntry : FClassEntry) : PrintState :=
  if ClassEntry.NumInstances > MinInstanceNum ∧
      withinPrintedPercent S.PercentOfInstancesPrinted = true then
    { S with
      Lines := S.Lines ++ [LogLine.instancesOf ClassEntry.NumInstances ClassEntry.Class]
      NumInstancesPrinted := S.NumInstancesPrinted + ClassEntry.NumInstances
      PercentOfInstancesPrinted :=
        (S.NumInstancesPrinted + ClassEntry.NumInstances, NumUObjects) }
  else
    { S with
      NumClassesSkipped := S.NumClassesSkipped + 1
      NumInstancesSkipped := S.NumInstancesSkipped + ClassEntry.NumInstances }

/-- Lines 504-514 of `DumpUObjectCountsToLog`: the summary line for what was skipped. -/
def summaryLines (S : PrintState) : List LogLine :=
  if S.NumInstancesSkipped > 0 then
    if withinPrintedPercent S.PercentOfInstancesPrinted = false then
      [LogLine.remaining S.NumInstancesSkipped S.PercentOfInstancesPrinted S.NumClassesSkipped]
    else [LogLine.fewInstances S.NumInstancesSkipped S.NumClassesSkipped MinInstanceNum]
  else []

/-- What `DumpUObjectCountsToLog` computes and writes. -/
structure CensusReport where
  /-- The sorted `ClassArray`. -/
  ClassArray : List FClassEntry
  NumUObjects : Nat
  NumClasses : Nat
  NumClassesSkipped : Nat
  NumInstancesSkipped : Nat
  NumInstancesPrinted : Nat
  /-- The lines written to the log, in order. -/
  Lines : List LogLine

/-- The function `FUObjectArray::DumpUObjectCountsToLog` (lines 443-518). It is a `const`
member: no state is returned. -/
def DumpUObjectCountsToLog (R : Reflection) (A : FUObjectArray) : CensusReport :=
  let NumClasses := countClasses R A.ObjObjects
  let Counted := countObjectsFrom R ([], 0) A.ObjObjects
  let NumUObjects := Counted.2
  let ClassArray := sortByNumInstances (Counted.1.map Prod.snd)
  let S := ClassArray.foldl (printEntry NumUObjects)
    { Lines := [LogLine.dumping], NumClassesSkipped := 0, NumInstancesSkipped := 0,
      NumInstancesPrinted := 0, PercentOfInstancesPrinted := (0, 1) }
  { ClassArray := ClassArray
    NumUObjects := NumUObjects
    NumClasses := NumClasses
    NumClassesSkipped := S.NumClassesSkipped
    NumInstancesSkipped := S.NumInstancesSkipped
    NumInstancesPrinted := S.NumInstancesPrinted
    Lines := S.Lines ++ summaryLines S ++ [LogLine.total NumUObjects NumClasses] }

/-- The objects of the occupied slots, in the order of the slots. -/
def liveObjects (A : FUObjectArray) : List ObjId :=
  A.ObjObjects.filterMap (fun ObjectItem => ObjectItem.Object)

/-- The classes of the objects of the occupied slots, one for every occupied slot. -/
def liveClasses (R : Reflection) (A : FUObjectArray) : List ClassId :=
  (liveObjects A).map R.GetClass

/-- The number of instances that the lines for single classes show. -/
def printedInstances : List LogLine → Nat
  | [] => 0
  | LogLine.instancesOf NumInstances _ :: Lines => NumInstances + printedInstances Lines
  | _ :: Lines => printedInstances Lines

/-- The number of instances that the summary lines show. -/
def foldedInstances : List LogLine → Nat
  | [] => 0
  | LogLine.remaining NumInstancesSkipped _ _ :: Lines =>
    NumInstancesSkipped + foldedInstances Lines
  | LogLine.fewInstances NumInstancesSkipped _ _ :: Lines =>
    NumInstancesSkipped + foldedInstances Lines
  | _ :: Lines => foldedInstances Lines

/-- The map holds the classes of a list of classes, each class once, and with each class
an entry of that class whose count is the number of occurrences of the class in the list. -/
def CountedFor (Map : List (ClassId × FClassEntry)) (Classes : List ClassId) : Prop :=
  (Map.map Prod.fst).Nodup ∧
  (∀ Pair ∈ Map, Pair.2.Class = some Pair.1 ∧
    Pair.2.NumInstances = Classes.count Pair.1 ∧ Pair.1 ∈ Classes) ∧
  (∀ Class ∈ Classes, Class ∈ Map.map Prod.fst)

/-- A sample reflection system: the objects below `20` are of class `0` and the others of
class `1`, and no object is a class. -/
def sampleReflection : Reflection :=
  { GetClass := fun Object => if Object < 20 then 0 else 1
    IsAClass := fun _ => false }

/-! ## How each function changes the state -/

theorem IndexToObject_ok {A : FUObjectArray} {Index : Int} {ObjectItem : FUObjectItem}
    (h : IndexToObject A Index = .ok ObjectItem) :
    0 ≤ Index ∧ A.ObjObjects[Index.toNat]? = some ObjectItem := by
  unfold IndexToObject at h
  split at h
  · cases h
  · split at h
    · rename_i heq
      cases h
      exact ⟨by omega, heq⟩
    · cases h

theorem IndexToObject_of_getElem {A : FUObjectArray} {i : Nat} {ObjectItem : FUObjectItem}
    (h : A.ObjObjects[i]? = some ObjectItem) : IndexToObject A (i : Int) = .ok ObjectItem := by
  unfold IndexToObject
  have h0 : ¬ ((i : Int) < 0) := by omega
  simp [h0, h]

theorem AddSingle_ok {A A1 : FUObjectArray} {Index : Int}
    (h : AddSingle A = .ok (Index, A1)) :
    Index = A.Num ∧ A.Num + 1 ≤ A.MaxElements ∧
      A1 = { A with ObjObjects := A.ObjObjects ++ [FUObjectItem.empty] } := by
  unfold AddSingle AddRange at h
  split at h
  · cases h
  · rename_i hle
    cases h
    refine ⟨rfl, by omega, ?_⟩
    simp [List.replicate]

theorem selectDisregardIndex_ok {A A1 : FUObjectArray} {Index : Int}
    (h : selectDisregardIndex A = .ok (Index, A1)) :
    Index = A.ObjLastNonGCIndex + 1 ∧
    ((A.ObjLastNonGCIndex + 1 < A.MaxObjectsNotConsideredByGC ∧
        A1 = { A with ObjLastNonGCIndex := A.ObjLastNonGCIndex + 1 }) ∨
     (A.MaxObjectsNotConsideredByGC ≤ A.ObjLastNonGCIndex + 1 ∧ A.ObjFirstGCIndex < 0 ∧
        A.Num = A.ObjLastNonGCIndex + 1 ∧ A.Num + 1 ≤ A.MaxElements ∧
        A1 = { A with ObjLastNonGCIndex := A.ObjLastNonGCIndex + 1
                      MaxObjectsNotConsideredByGC := A.ObjLastNonGCIndex + 2
                      ObjObjects := A.ObjObjects ++ [FUObjectItem.empty] })) := by
  unfold selectDisregardIndex at h
  simp only at h
  by_cases hfull : A.ObjLastNonGCIndex + 1 ≥ A.MaxObjectsNotConsideredByGC ∧ A.ObjFirstGCIndex ≥ 0
  · simp [hfull] at h
  · simp only [hfull, if_false] at h
    by_cases hge : A.ObjLastNonGCIndex + 1 ≥ A.MaxObjectsNotConsideredByGC
    · simp only [hge, if_true] at h
      cases hadd : AddSingle { A with ObjLastNonGCIndex := A.ObjLastNonGCIndex + 1 } with
      | error e => simp [hadd] at h
      | ok p =>
        obtain ⟨Index2, A2⟩ := p
        obtain ⟨hi, hcap, hA2⟩ := AddSingle_ok hadd
        simp only [hadd] at h
        subst hA2
        simp only [FUObjectArray.Num] at hi hcap
        by_cases hcheck : Index2 = A.ObjLastNonGCIndex + 1
        · simp only [hcheck, if_true, Except.ok.injEq, Prod.mk.injEq] at h
          obtain ⟨h1, h2⟩ := h
          have hneg : A.ObjFirstGCIndex < 0 := by
            by_contra hc
            exact hfull ⟨hge, by omega⟩
          refine ⟨by omega, Or.inr ⟨hge, hneg, ?_, ?_, ?_⟩⟩
          · simp only [FUObjectArray.Num]; omega
          · simp only [FUObjectArray.Num]; omega
          · rw [← h2]
            have : max A.MaxObjectsNotConsideredByGC (A.ObjLastNonGCIndex + 1 + 1)
                = A.ObjLastNonGCIndex + 2 := by omega
            simp [this]
        · simp [hcheck] at h
    · simp only [hge, if_false, Except.ok.injEq, Prod.mk.injEq] at h
      obtain ⟨h1, h2⟩ := h
      refine ⟨h1.symm, Or.inl ⟨by omega, ?_⟩⟩
      rw [← h2]
      have : max A.MaxObjectsNotConsideredByGC (A.ObjLastNonGCIndex + 1 + 1)
          = A.MaxObjectsNotConsideredByGC := by omega
      simp [this]

theorem selectGCIndex_ok {A A1 : FUObjectArray} {Index : Int}
    (h : selectGCIndex A = .ok (Index, A1)) :
    A.ObjFirstGCIndex ≤ Index ∧ A.ObjLastNonGCIndex < Index ∧
    ((∃ rest, A.ObjAvailableList = rest ++ [Index] ∧
        A1 = { A with ObjAvailableList := rest }) ∨
     (A.ObjAvailableList = [] ∧ 0 ≤ A.ObjFirstGCIndex ∧ Index = A.Num ∧
        A.Num + 1 ≤ A.MaxElements ∧
        A1 = { A with ObjObjects := A.ObjObjects ++ [FUObjectItem.empty] })) := by
  unfold selectGCIndex at h
  simp only at h
  cases hlast : A.ObjAvailableList.getLast? with
  | some x =>
    simp only [hlast] at h
    by_cases hcheck : x ≥ A.ObjFirstGCIndex ∧ x > A.ObjLastNonGCIndex
    · simp only [hcheck, and_self, if_true, Except.ok.injEq, Prod.mk.injEq] at h
      obtain ⟨h1, h2⟩ := h
      subst h1
      obtain ⟨rest, hrest⟩ := List.getLast?_eq_some_iff.mp hlast
      refine ⟨by omega, by omega, Or.inl ⟨rest, hrest, ?_⟩⟩
      rw [← h2, hrest]
      simp
    · simp [hcheck] at h
  | none =>
    simp only [hlast] at h
    have hnil : A.ObjAvailableList = [] := List.getLast?_eq_none_iff.mp hlast
    by_cases hfirst : A.ObjFirstGCIndex ≥ 0
    · simp only [hfirst, if_true] at h
      cases hadd : AddSingle A with
      | error e => simp [hadd] at h
      | ok p =>
        obtain ⟨Index2, A2⟩ := p
        obtain ⟨hi, hcap, hA2⟩ := AddSingle_ok hadd
        simp only [hadd] at h
        subst hA2
        by_cases hcheck : Index2 ≥ A.ObjFirstGCIndex ∧ Index2 > A.ObjLastNonGCIndex
        · simp only [hcheck, and_self, if_true, Except.ok.injEq, Prod.mk.injEq] at h
          obtain ⟨h1, h2⟩ := h
          subst h1
          exact ⟨by omega, by omega, Or.inr ⟨hnil, by omega, hi, hcap, h2.symm⟩⟩
        · simp [hcheck] at h
    · simp [hfirst] at h

theorem publish_ok {B : Build} {A A2 : FUObjectArray} {Object : ObjId} {InitialFlags : Nat}
    {Index SerialNumber : Int}
    (h : publish B A Object InitialFlags Index SerialNumber = .ok A2) :
    ∃ (i : Nat) (Old : FUObjectItem), Index = (i : Int) ∧ A.ObjObjects[i]? = some Old ∧
      Old.Object = none ∧
      A2 = { A with
        ObjObjects := A.ObjObjects.set i
          { Object := some Object, Flags := B.PendingConstruction ||| InitialFlags,
            ClusterRootIndex := 0, SerialNumber := SerialNumber }
        InternalIndex := Function.update A.InternalIndex Object Index } := by
  unfold publish at h
  cases hidx : IndexToObject A Index with
  | error e => simp [hidx] at h
  | ok Old =>
    obtain ⟨h0, hget⟩ := IndexToObject_ok hidx
    simp only [hidx] at h
    split at h
    · cases h
    · rename_i hnone
      simp only [Except.ok.injEq] at h
      refine ⟨Index.toNat, Old, by omega, hget, by simpa using hnone, ?_⟩
      rw [← h]
      simp [setItem]

theorem FreeUObjectIndex_ok {A A1 : FUObjectArray} {Object : ObjId}
    (h : FreeUObjectIndex A Object = .ok A1) :
    ∃ (i : Nat) (Old : FUObjectItem), A.InternalIndex Object = (i : Int) ∧
      A.ObjObjects[i]? = some Old ∧ Old.Object = some Object ∧
      A1 = { A with
        ObjObjects := A.ObjObjects.set i FUObjectItem.empty
        ObjAvailableList :=
          if (i : Int) > A.ObjLastNonGCIndex ∧ A.GExitPurge = false ∧
              A.bShouldRecycleObjectIndices = true
          then A.ObjAvailableList ++ [(i : Int)] else A.ObjAvailableList } := by
  unfold FreeUObjectIndex at h
  cases hidx : IndexToObject A (A.InternalIndex Object) with
  | error e => simp [hidx] at h
  | ok Old =>
    obtain ⟨h0, hget⟩ := IndexToObject_ok hidx
    simp only [hidx] at h
    split at h
    · cases h
    · rename_i hsome
      have hi : A.InternalIndex Object = ((A.InternalIndex Object).toNat : Int) := by omega
      refine ⟨(A.InternalIndex Object).toNat, Old, hi, hget, by simpa using hsome, ?_⟩
      rw [← hi]
      split at h
      · rename_i hc
        simp only [setItem, Bool.not_eq_true', decide_eq_true_eq] at hc
        simp only [Except.ok.injEq] at h
        rw [← h]
        simp [setItem, FUObjectItem.empty, hc]
      · rename_i hc
        simp only [setItem, Bool.not_eq_true', decide_eq_true_eq] at hc
        simp only [Except.ok.injEq] at h
        rw [← h]
        simp [setItem, FUObjectItem.empty, hc]

/-! ## Slots seen through `objectAt` and `serialAt` -/

theorem objectAt_append_empty (A : FUObjectArray) (l : List FUObjectItem) (i : Nat)
    (h : A.ObjObjects = l ++ [FUObjectItem.empty]) :
    objectAt A i = match l[i]? with
      | some ObjectItem => ObjectItem.Object
      | none => none := by
  unfold objectAt
  rw [h, List.getElem?_append]
  by_cases hi : i < l.length
  · simp [hi]
  · have hnone : l[i]? = none := by simp; omega
    simp only [hi, if_false, hnone]
    by_cases h0 : i - l.length = 0
    · simp [h0, FUObjectItem.empty]
    · have : ([FUObjectItem.empty] : List FUObjectItem)[i - l.length]? = none := by
        simp; omega
      simp [this]

theorem serialAt_append_empty (A : FUObjectArray) (l : List FUObjectItem) (i : Nat)
    (h : A.ObjObjects = l ++ [FUObjectItem.empty]) :
    serialAt A i = match l[i]? with
      | some ObjectItem => ObjectItem.SerialNumber
      | none => 0 := by
  unfold serialAt
  rw [h, List.getElem?_append]
  by_cases hi : i < l.length
  · simp [hi]
  · have hnone : l[i]? = none := by simp; omega
    simp only [hi, if_false, hnone]
    by_cases h0 : i - l.length = 0
    · simp [h0, FUObjectItem.empty]
    · have : ([FUObjectItem.empty] : List FUObjectItem)[i - l.length]? = none := by
        simp; omega
      simp [this]

/-- The choice of the index leaves every slot's object and serial number, and the objects'
`InternalIndex`, as they were. -/
theorem selectIndex_frame {A A1 : FUObjectArray} {AlreadyAllocatedIndex Index : Int}
    (h : selectIndex A AlreadyAllocatedIndex = .ok (Index, A1)) :
    (∀ i, objectAt A1 i = objectAt A i) ∧ (∀ i, serialAt A1 i = serialAt A i) ∧
    A1.InternalIndex = A.InternalIndex ∧ A1.PrimarySerialNumber = A.PrimarySerialNumber ∧
    A.ObjLastNonGCIndex ≤ A1.ObjLastNonGCIndex := by
  unfold selectIndex at h
  by_cases hexp : AlreadyAllocatedIndex ≥ 0
  · simp only [hexp, if_true, Except.ok.injEq, Prod.mk.injEq] at h
    obtain ⟨-, rfl⟩ := h
    simp
  · simp only [hexp, if_false] at h
    split at h
    · obtain ⟨-, hcase⟩ := selectDisregardIndex_ok h
      rcases hcase with ⟨-, rfl⟩ | ⟨-, -, -, -, rfl⟩
      · refine ⟨fun i => rfl, fun i => rfl, rfl, rfl, ?_⟩
        simp
      · refine ⟨fun i => ?_, fun i => ?_, rfl, rfl, ?_⟩
        · rw [objectAt_append_empty _ A.ObjObjects i rfl]; rfl
        · rw [serialAt_append_empty _ A.ObjObjects i rfl]; rfl
        · simp
    · obtain ⟨-, -, hcase⟩ := selectGCIndex_ok h
      rcases hcase with ⟨rest, -, rfl⟩ | ⟨-, -, -, -, rfl⟩
      · exact ⟨fun i => rfl, fun i => rfl, rfl, rfl, le_refl _⟩
      · refine ⟨fun i => ?_, fun i => ?_, rfl, rfl, le_refl _⟩
        · rw [objectAt_append_empty _ A.ObjObjects i rfl]; rfl
        · rw [serialAt_append_empty _ A.ObjObjects i rfl]; rfl

theorem AllocateUObjectIndex_ok {B : Build} {A A3 : FUObjectArray} {Object : ObjId}
    {InitialFlags : Nat} {AlreadyAllocatedIndex SerialNumber : Int}
    (h : AllocateUObjectIndex B A Object InitialFlags AlreadyAllocatedIndex SerialNumber
      = .ok A3) :
    A.InternalIndex Object = INDEX_NONE ∧
    ∃ Index A1 A2, selectIndex A AlreadyAllocatedIndex = .ok (Index, A1) ∧
      publish B A1 Object InitialFlags Index SerialNumber = .ok A2 ∧
      A3 = notifyCreated A2 Object Index := by
  unfold AllocateUObjectIndex at h
  by_cases hnone : A.InternalIndex Object = INDEX_NONE
  · simp only [hnone, ne_eq, not_true_eq_false, if_false] at h
    cases hsel : selectIndex A AlreadyAllocatedIndex with
    | error e => simp [hsel] at h
    | ok p =>
      obtain ⟨Index, A1⟩ := p
      simp only [hsel] at h
      cases hpub : publish B A1 Object InitialFlags Index SerialNumber with
      | error e => simp [hpub] at h
      | ok A2 =>
        simp only [hpub, Except.ok.injEq] at h
        exact ⟨hnone, Index, A1, A2, rfl, hpub, h.symm⟩
  · simp [hnone] at h

/-- What a successful `AllocateUObjectIndex` does to the slots: one slot, empty before and
chosen by `selectIndex`, receives the object; every other slot keeps its object. -/
theorem AllocateUObjectIndex_slots {B : Build} {A A3 : FUObjectArray} {Object : ObjId}
    {InitialFlags : Nat} {AlreadyAllocatedIndex SerialNumber : Int}
    (h : AllocateUObjectIndex B A Object InitialFlags AlreadyAllocatedIndex SerialNumber
      = .ok A3) :
    A.InternalIndex Object = INDEX_NONE ∧
    ∃ k : Nat, objectAt A k = none ∧ A3.InternalIndex = Function.update A.InternalIndex Object k ∧
      (∀ i, objectAt A3 i = if i = k then some Object else objectAt A i) ∧
      (∀ i, serialAt A3 i = if i = k then SerialNumber else serialAt A i) ∧
      A3.PrimarySerialNumber = A.PrimarySerialNumber := by
  obtain ⟨hnone, Index, A1, A2, hsel, hpub, rfl⟩ := AllocateUObjectIndex_ok h
  obtain ⟨hobj, hser, hint, hprim, -⟩ := selectIndex_frame hsel
  obtain ⟨k, Old, rfl, hget, hold, rfl⟩ := publish_ok hpub
  refine ⟨hnone, k, ?_, ?_, fun i => ?_, fun i => ?_, ?_⟩
  · rw [← hobj k]; simp [objectAt, hget, hold]
  · simp [notifyCreated, hint]
  · rw [← hobj i]
    have hk : k < A1.ObjObjects.length := by
      rcases Nat.lt_or_ge k A1.ObjObjects.length with hlt | hge
      · exact hlt
      · have : A1.ObjObjects[k]? = none := by simp; omega
        rw [this] at hget; cases hget
    by_cases hik : i = k
    · subst hik
      simp [objectAt, notifyCreated, hk]
    · have hki : ¬ k = i := fun hc => hik hc.symm
      simp [objectAt, notifyCreated, List.getElem?_set, hik, hki]
  · rw [← hser i]
    have hk : k < A1.ObjObjects.length := by
      rcases Nat.lt_or_ge k A1.ObjObjects.length with hlt | hge
      · exact hlt
      · have : A1.ObjObjects[k]? = none := by simp; omega
        rw [this] at hget; cases hget
    by_cases hik : i = k
    · subst hik
      simp [serialAt, notifyCreated, hk]
    · have hki : ¬ k = i := fun hc => hik hc.symm
      simp [serialAt, notifyCreated, List.getElem?_set, hik, hki]
  · simp [notifyCreated, hprim]

theorem lt_length_of_getElem? {α : Type} {l : List α} {k : Nat} {a : α}
    (h : l[k]? = some a) : k < l.length := by
  rcases Nat.lt_or_ge k l.length with hlt | hge
  · exact hlt
  · have : l[k]? = none := by simp; omega
    rw [this] at h; cases h

theorem objectAt_set {A A1 : FUObjectArray} {k : Nat} {x : FUObjectItem}
    (h : A1.ObjObjects = A.ObjObjects.set k x) (hk : k < A.ObjObjects.length)
    (i : Nat) : objectAt A1 i = if i = k then x.Object else objectAt A i := by
  by_cases hik : i = k
  · subst hik
    simp [objectAt, h, hk]
  · have hki : ¬ k = i := fun hc => hik hc.symm
    simp [objectAt, h, List.getElem?_set, hik, hki]

theorem serialAt_set {A A1 : FUObjectArray} {k : Nat} {x : FUObjectItem}
    (h : A1.ObjObjects = A.ObjObjects.set k x) (hk : k < A.ObjObjects.length)
    (i : Nat) : serialAt A1 i = if i = k then x.SerialNumber else serialAt A i := by
  by_cases hik : i = k
  · subst hik
    simp [serialAt, h, hk]
  · have hki : ¬ k = i := fun hc => hik hc.symm
    simp [serialAt, h, List.getElem?_set, hik, hki]

theorem commitRootSet_Object (B : Build) (ObjectItem : FUObjectItem) :
    (commitRootSet B ObjectItem).Object = ObjectItem.Object := by
  unfold commitRootSet
  split
  · rfl
  · split
    · rfl
    · split <;> rfl

theorem commitRootSet_SerialNumber (B : Build) (ObjectItem : FUObjectItem) :
    (commitRootSet B ObjectItem).SerialNumber = ObjectItem.SerialNumber := by
  unfold commitRootSet
  split
  · rfl
  · split
    · rfl
    · split <;> rfl

theorem objectAt_map_commit {B : Build} {A A1 : FUObjectArray}
    (h : A1.ObjObjects = A.ObjObjects.map (commitRootSet B)) (i : Nat) :
    objectAt A1 i = objectAt A i := by
  unfold objectAt
  rw [h, List.getElem?_map]
  cases A.ObjObjects[i]? with
  | none => rfl
  | some ObjectItem => simp [commitRootSet_Object]

theorem serialAt_map_commit {B : Build} {A A1 : FUObjectArray}
    (h : A1.ObjObjects = A.ObjObjects.map (commitRootSet B)) (i : Nat) :
    serialAt A1 i = serialAt A i := by
  unfold serialAt
  rw [h, List.getElem?_map]
  cases A.ObjObjects[i]? with
  | none => rfl
  | some ObjectItem => simp [commitRootSet_SerialNumber]

theorem CloseDisregardForGC_ok {B : Build} {A A1 : FUObjectArray}
    (h : CloseDisregardForGC B A = .ok A1) :
    A.OpenForDisregardForGC = true ∧
    A1 = { A with
      ObjObjects := closedSlots B A
      ObjFirstGCIndex := max A.ObjFirstGCIndex (A.ObjLastNonGCIndex + 1)
      OpenForDisregardForGC := false
      GIsInitialLoad := false } := by
  unfold CloseDisregardForGC at h
  by_cases hopen : A.OpenForDisregardForGC = true
  · simp only [hopen, Bool.not_true, Bool.false_eq_true, if_false, Except.ok.injEq] at h
    refine ⟨hopen, ?_⟩
    rw [← h]
    unfold closedSlots
    cases hexit : A.EngineExitRequested <;> cases hload : A.GIsInitialLoad <;>
      simp [hexit, hload]
  · simp [hopen] at h

theorem CloseDisregardForGC_of_open (B : Build) (A : FUObjectArray)
    (hopen : A.OpenForDisregardForGC = true) :
    CloseDisregardForGC B A = .ok { A with
      ObjObjects := closedSlots B A
      ObjFirstGCIndex := max A.ObjFirstGCIndex (A.ObjLastNonGCIndex + 1)
      OpenForDisregardForGC := false
      GIsInitialLoad := false } := by
  unfold CloseDisregardForGC closedSlots
  cases hexit : A.EngineExitRequested <;> cases hload : A.GIsInitialLoad <;>
    simp [hopen, hexit, hload]

theorem objectAt_closedSlots {B : Build} {A A1 : FUObjectArray}
    (h : A1.ObjObjects = closedSlots B A) (i : Nat) : objectAt A1 i = objectAt A i := by
  unfold closedSlots at h
  split at h
  · exact objectAt_map_commit h i
  · unfold objectAt; rw [h]

theorem serialAt_closedSlots {B : Build} {A A1 : FUObjectArray}
    (h : A1.ObjObjects = closedSlots B A) (i : Nat) : serialAt A1 i = serialAt A i := by
  unfold closedSlots at h
  split at h
  · exact serialAt_map_commit h i
  · unfold serialAt; rw [h]

theorem length_closedSlots (B : Build) (A : FUObjectArray) :
    (closedSlots B A).length = A.ObjObjects.length := by
  unfold closedSlots
  split <;> simp

theorem DisableDisregardForGC_ok {B : Build} {A A1 : FUObjectArray}
    (h : DisableDisregardForGC B A = .ok A1) :
    A1 = { A with
      ObjObjects := if A.OpenForDisregardForGC then closedSlots B A else A.ObjObjects
      MaxObjectsNotConsideredByGC := 0
      ObjFirstGCIndex :=
        if A.OpenForDisregardForGC then max 0 (A.ObjLastNonGCIndex + 1) else 0
      OpenForDisregardForGC := false
      GIsInitialLoad := if A.OpenForDisregardForGC then false else A.GIsInitialLoad } := by
  unfold DisableDisregardForGC at h
  simp only at h
  by_cases hopen : A.OpenForDisregardForGC = true
  · simp only [hopen, if_true] at h
    obtain ⟨-, hA1⟩ := CloseDisregardForGC_ok h
    rw [hA1]
    simp [closedSlots, hopen]
  · simp only [Bool.not_eq_true] at hopen
    simp only [hopen, Bool.false_eq_true, if_false, Except.ok.injEq] at h
    rw [← h]
    simp [hopen]

theorem OpenDisregardForGC_ok {A A1 : FUObjectArray} (h : OpenDisregardForGC A = .ok A1) :
    A.OpenForDisregardForGC = false ∧ A1 = { A with OpenForDisregardForGC := true } := by
  unfold OpenDisregardForGC at h
  by_cases hopen : A.OpenForDisregardForGC = true
  · simp [hopen] at h
  · simp only [Bool.not_eq_true] at hopen
    simp only [hopen, Bool.false_eq_true, if_false, Except.ok.injEq] at h
    exact ⟨hopen, h.symm⟩

theorem RemoveObjectFromDeleteListeners_ok {A A1 : FUObjectArray} {Object : ObjId}
    (h : RemoveObjectFromDeleteListeners A Object = .ok A1) :
    0 ≤ A.InternalIndex Object ∧
    A1 = { A with
      Notified := A.Notified ++ A.UObjectDeleteListeners.reverse.map
        (fun Listener => Notification.NotifyUObjectDeleted Listener Object
          (A.InternalIndex Object)) } := by
  unfold RemoveObjectFromDeleteListeners at h
  simp only at h
  by_cases hneg : A.InternalIndex Object < 0
  · simp [hneg] at h
  · simp only [hneg, if_false, Except.ok.injEq] at h
    exact ⟨by omega, h.symm⟩

theorem ResetSerialNumber_ok {A A1 : FUObjectArray} {Object : ObjId}
    (h : ResetSerialNumber A Object = .ok A1) :
    ∃ (k : Nat) (Old : FUObjectItem), A.InternalIndex Object = (k : Int) ∧
      A.ObjObjects[k]? = some Old ∧
      A1 = { A with ObjObjects := A.ObjObjects.set k { Old with SerialNumber := 0 } } := by
  unfold ResetSerialNumber at h
  simp only at h
  cases hidx : IndexToObject A (A.InternalIndex Object) with
  | error e => simp [hidx] at h
  | ok Old =>
    obtain ⟨h0, hget⟩ := IndexToObject_ok hidx
    simp only [hidx, Except.ok.injEq] at h
    refine ⟨(A.InternalIndex Object).toNat, Old, by omega, hget, ?_⟩
    rw [← h]
    simp [setItem]

/-- A successful `AllocateSerialNumber`: either the slot already has a serial number, which
is answered with the state unchanged, or the incremented counter is stored and answered. -/
theorem AllocateSerialNumber_ok {B : Build} {A A1 : FUObjectArray} {Index SerialNumber : Int}
    (h : AllocateSerialNumber B A Index = .ok (SerialNumber, A1)) :
    ∃ (k : Nat) (Old : FUObjectItem), Index = (k : Int) ∧ A.ObjObjects[k]? = some Old ∧
      (B.DO_GUARD_SLOW = true → B.START_SERIAL_NUMBER < SerialNumber) ∧
      ((Old.SerialNumber ≠ 0 ∧ SerialNumber = Old.SerialNumber ∧ A1 = A) ∨
       (Old.SerialNumber = 0 ∧ SerialNumber = wrapInt32 (A.PrimarySerialNumber + 1) ∧
        B.START_SERIAL_NUMBER < SerialNumber ∧
        A1 = { A with
          PrimarySerialNumber := SerialNumber
          ObjObjects := A.ObjObjects.set k { Old with SerialNumber := SerialNumber } })) := by
  unfold AllocateSerialNumber at h
  cases hidx : IndexToObject A Index with
  | error e => simp [hidx] at h
  | ok Old =>
    obtain ⟨h0, hget⟩ := IndexToObject_ok hidx
    simp only [hidx] at h
    refine ⟨Index.toNat, Old, by omega, hget, ?_⟩
    by_cases hzero : Old.SerialNumber = 0
    · simp only [hzero, if_true] at h
      by_cases hover : wrapInt32 (A.PrimarySerialNumber + 1) ≤ B.START_SERIAL_NUMBER
      · simp [hover] at h
      · simp only [hover, if_false] at h
        have hgt : wrapInt32 (A.PrimarySerialNumber + 1) > B.START_SERIAL_NUMBER := by omega
        simp only [hgt, decide_True, Bool.not_true, Bool.and_false, Bool.false_eq_true,
          if_false, Except.ok.injEq, Prod.mk.injEq] at h
        obtain ⟨h1, h2⟩ := h
        subst h1
        refine ⟨fun _ => by omega, Or.inr ⟨hzero, rfl, by omega, ?_⟩⟩
        rw [← h2]
        simp [setItem]
    · simp only [hzero, if_false] at h
      by_cases hslow : B.DO_GUARD_SLOW && !decide (Old.SerialNumber > B.START_SERIAL_NUMBER)
      · simp [hslow] at h
      · simp only [hslow, if_false] at h
        cases h
        refine ⟨fun hg => ?_, Or.inl ⟨hzero, rfl, rfl⟩⟩
        simp only [hg, Bool.true_and, Bool.not_eq_true', decide_eq_false_iff_not, not_not,
          Bool.not_eq_true] at hslow
        simpa using hslow

theorem FreeUObjectIndex_slots {A A1 : FUObjectArray} {Object : ObjId}
    (h : FreeUObjectIndex A Object = .ok A1) :
    ∃ k : Nat, A.InternalIndex Object = (k : Int) ∧ objectAt A k = some Object ∧
      A1.InternalIndex = A.InternalIndex ∧
      (∀ i, objectAt A1 i = if i = k then none else objectAt A i) ∧
      (∀ i, serialAt A1 i = if i = k then 0 else serialAt A i) ∧
      A1.PrimarySerialNumber = A.PrimarySerialNumber := by
  obtain ⟨k, Old, hk, hget, hold, rfl⟩ := FreeUObjectIndex_ok h
  have hlen := lt_length_of_getElem? hget
  refine ⟨k, hk, by simp [objectAt, hget, hold], rfl, fun i => ?_, fun i => ?_, rfl⟩
  · rw [objectAt_set (A := A) (k := k) (x := FUObjectItem.empty) rfl hlen i]
    rfl
  · rw [serialAt_set (A := A) (k := k) (x := FUObjectItem.empty) rfl hlen i]
    rfl

theorem AllocateObjectPool_ok {A A1 : FUObjectArray} {InMaxUObjects Reserve : Int}
    {bPreAllocateObjectArray : Bool}
    (h : AllocateObjectPool A InMaxUObjects Reserve bPreAllocateObjectArray = .ok A1) :
    A.ObjObjects = [] ∧ 0 < InMaxUObjects ∧ Reserve ≤ InMaxUObjects ∧
    A1 = { A with
      MaxObjectsNotConsideredByGC := Reserve
      ObjFirstGCIndex := if 0 < Reserve then -1 else 0
      MaxElements := InMaxUObjects
      ObjObjects := List.replicate Reserve.toNat FUObjectItem.empty } := by
  unfold AllocateObjectPool at h
  simp only [FUObjectArray.Num, DisregardForGCEnabled] at h
  by_cases hnum : (A.ObjObjects.length : Int) ≠ 0
  · simp [hnum] at h
  · simp only [hnum, if_false] at h
    have hnil : A.ObjObjects = [] := by
      have : A.ObjObjects.length = 0 := by omega
      exact List.length_eq_zero.mp this
    by_cases hmax : InMaxUObjects ≤ 0
    · simp [hmax] at h
    · simp only [hmax, if_false] at h
      by_cases hres : Reserve > 0
      · simp only [hres, if_true] at h
        unfold AddRange at h
        simp only [FUObjectArray.Num] at h
        by_cases hcap : (A.ObjObjects.length : Int) + Reserve > InMaxUObjects
        · simp [hcap] at h
        · simp only [hcap, if_false, Except.ok.injEq] at h
          rw [hnil] at hcap
          simp only [List.length_nil, Nat.cast_zero, zero_add] at hcap
          refine ⟨hnil, by omega, by omega, ?_⟩
          rw [← h]
          have h1 : (0 : Int) < Reserve := hres
          simp [hnil, h1]
      · simp only [hres, if_false, Except.ok.injEq] at h
        refine ⟨hnil, by omega, by omega, ?_⟩
        rw [← h]
        have h1 : ¬ (0 : Int) < Reserve := hres
        have h2 : Reserve.toNat = 0 := by omega
        simp [hnil, h1, h2]

theorem objectAt_replicate_empty {A : FUObjectArray} {n : Nat}
    (h : A.ObjObjects = List.replicate n FUObjectItem.empty) (i : Nat) :
    objectAt A i = none := by
  unfold objectAt
  rw [h, List.getElem?_replicate]
  by_cases hi : i < n <;> simp [hi, FUObjectItem.empty]

theorem serialAt_replicate_empty {A : FUObjectArray} {n : Nat}
    (h : A.ObjObjects = List.replicate n FUObjectItem.empty) (i : Nat) :
    serialAt A i = 0 := by
  unfold serialAt
  rw [h, List.getElem?_replicate]
  by_cases hi : i < n <;> simp [hi, FUObjectItem.empty]

/-- The state right after start: the constructor's values, the reserve and the capacity. -/
theorem initRegistry_ok {B : Build} {InternalIndex : ObjId → Int}
    {bRecycle GExitPurge GIsInitialLoad EngineExitRequested : Bool}
    {InMaxUObjects Reserve : Int} {bPreAllocateObjectArray : Bool} {A0 : FUObjectArray}
    (h : initRegistry B InternalIndex bRecycle GExitPurge GIsInitialLoad EngineExitRequested
      InMaxUObjects Reserve bPreAllocateObjectArray = .ok A0) :
    0 < InMaxUObjects ∧ Reserve ≤ InMaxUObjects ∧
    A0 = { construct B InternalIndex bRecycle GExitPurge GIsInitialLoad EngineExitRequested with
      MaxObjectsNotConsideredByGC := Reserve
      ObjFirstGCIndex := if 0 < Reserve then -1 else 0
      MaxElements := InMaxUObjects
      ObjObjects := List.replicate Reserve.toNat FUObjectItem.empty } := by
  unfold initRegistry at h
  obtain ⟨-, h1, h2, h3⟩ := AllocateObjectPool_ok h
  exact ⟨h1, h2, h3⟩

theorem objectAt_disabled {B : Build} {A A1 : FUObjectArray}
    (h : A1.ObjObjects = if A.OpenForDisregardForGC then closedSlots B A else A.ObjObjects)
    (i : Nat) : objectAt A1 i = objectAt A i := by
  split at h
  · exact objectAt_closedSlots h i
  · unfold objectAt; rw [h]

theorem serialAt_disabled {B : Build} {A A1 : FUObjectArray}
    (h : A1.ObjObjects = if A.OpenForDisregardForGC then closedSlots B A else A.ObjObjects)
    (i : Nat) : serialAt A1 i = serialAt A i := by
  split at h
  · exact serialAt_closedSlots h i
  · unfold serialAt; rw [h]

/-! ## Uniqueness of objects among the slots -/

theorem step_SlotsMatchIndex {B : Build} {A A1 : FUObjectArray} {op : Op}
    (hinv : SlotsMatchIndex A) (h : step B A op = .ok A1) : SlotsMatchIndex A1 := by
  cases op with
  | allocate Object InitialFlags AlreadyAllocatedIndex SerialNumber =>
    obtain ⟨hnone, k, -, hint, hobj, -, -⟩ := AllocateUObjectIndex_slots h
    intro i O hO
    rw [hobj i] at hO
    rw [hint]
    by_cases hik : i = k
    · simp only [hik, if_true, Option.some.injEq] at hO
      subst hO
      simp [hik]
    · simp only [hik, if_false] at hO
      have hiO := hinv i O hO
      by_cases hOO : O = Object
      · subst hOO
        rw [hnone] at hiO
        simp only [INDEX_NONE] at hiO
        omega
      · simp [Function.update, hOO, hiO]
  | free Object =>
    obtain ⟨k, -, -, hint, hobj, -, -⟩ := FreeUObjectIndex_slots h
    intro i O hO
    rw [hobj i] at hO
    rw [hint]
    by_cases hik : i = k
    · simp [hik] at hO
    · simp only [hik, if_false] at hO
      exact hinv i O hO
  | notifyDeleted Object =>
    obtain ⟨-, rfl⟩ := RemoveObjectFromDeleteListeners_ok h
    exact hinv
  | openDisregard =>
    obtain ⟨-, rfl⟩ := OpenDisregardForGC_ok h
    exact hinv
  | closeDisregard =>
    obtain ⟨-, rfl⟩ := CloseDisregardForGC_ok h
    intro i O hO
    rw [objectAt_closedSlots (B := B) (A := A) rfl i] at hO
    exact hinv i O hO
  | disableDisregard =>
    have hA1 := DisableDisregardForGC_ok h
    intro i O hO
    have hint : A1.InternalIndex = A.InternalIndex := by rw [hA1]
    rw [objectAt_disabled (B := B) (A := A) (by rw [hA1]) i] at hO
    rw [hint]
    exact hinv i O hO
  | serialOf Index =>
    simp only [step] at h
    cases hser : AllocateSerialNumber B A Index with
    | error e => simp [hser] at h
    | ok p =>
      obtain ⟨SerialNumber, A2⟩ := p
      simp only [hser, Except.ok.injEq] at h
      subst h
      obtain ⟨k, Old, -, hget, -, hcase⟩ := AllocateSerialNumber_ok hser
      rcases hcase with ⟨-, -, rfl⟩ | ⟨-, -, -, rfl⟩
      · exact hinv
      · intro i O hO
        rw [objectAt_set (A := A) (k := k) rfl (lt_length_of_getElem? hget) i] at hO
        apply hinv i O
        by_cases hik : i = k
        · simp only [hik, if_true] at hO
          simp [objectAt, hik, hget, hO]
        · simpa [hik] using hO
  | resetSerial Object =>
    obtain ⟨k, Old, -, hget, rfl⟩ := ResetSerialNumber_ok h
    intro i O hO
    rw [objectAt_set (A := A) (k := k) rfl (lt_length_of_getElem? hget) i] at hO
    apply hinv i O
    by_cases hik : i = k
    · simp only [hik, if_true] at hO
      simp [objectAt, hik, hget, hO]
    · simpa [hik] using hO

theorem run_cons_ok {B : Build} {A A2 : FUObjectArray} {op : Op} {ops : List Op}
    (h : run B A (op :: ops) = .ok A2) :
    ∃ A1, step B A op = .ok A1 ∧ run B A1 ops = .ok A2 := by
  simp only [run] at h
  cases hstep : step B A op with
  | error e => simp [hstep] at h
  | ok A1 =>
    simp only [hstep] at h
    exact ⟨A1, rfl, h⟩

/-- A property kept by every successful operation holds after every successful run. -/
theorem run_induction {B : Build} (P : FUObjectArray → Prop)
    (hstep : ∀ A A1 op, P A → step B A op = .ok A1 → P A1)
    {A A2 : FUObjectArray} {ops : List Op} (h0 : P A) (h : run B A ops = .ok A2) : P A2 := by
  induction ops generalizing A with
  | nil =>
    simp only [run, Except.ok.injEq] at h
    exact h ▸ h0
  | cons op ops ih =>
    obtain ⟨A1, h1, h2⟩ := run_cons_ok h
    exact ih (hstep A A1 op h0 h1) h2

theorem init_SlotsMatchIndex {B : Build} {InternalIndex : ObjId → Int}
    {bRecycle GExitPurge GIsInitialLoad EngineExitRequested : Bool}
    {InMaxUObjects Reserve : Int} {bPreAllocateObjectArray : Bool} {A0 : FUObjectArray}
    (h : initRegistry B InternalIndex bRecycle GExitPurge GIsInitialLoad EngineExitRequested
      InMaxUObjects Reserve bPreAllocateObjectArray = .ok A0) : SlotsMatchIndex A0 := by
  obtain ⟨-, -, rfl⟩ := initRegistry_ok h
  intro i O hO
  rw [objectAt_replicate_empty (n := Reserve.toNat) rfl i] at hO
  cases hO

/-- C1: in every state reached from a started registry by public operations, every occupied
slot holds an object whose internal index is that slot's index, and hence no two distinct
slots hold the same object. -/
theorem C1_uniqueness (B : Build) (InternalIndex : ObjId → Int)
    (bRecycle GExitPurge GIsInitialLoad EngineExitRequested : Bool)
    (InMaxUObjects Reserve : Int) (bPreAllocateObjectArray : Bool) (ops : List Op)
    (A0 A : FUObjectArray)
    (hinit : initRegistry B InternalIndex bRecycle GExitPurge GIsInitialLoad
      EngineExitRequested InMaxUObjects Reserve bPreAllocateObjectArray = .ok A0)
    (hrun : run B A0 ops = .ok A) :
    SlotsMatchIndex A ∧
    ∀ (i j : Nat) (Object : ObjId),
      objectAt A i = some Object → objectAt A j = some Object → i = j := by
  have hinv : SlotsMatchIndex A :=
    run_induction SlotsMatchIndex (fun _ _ _ hP hs => step_SlotsMatchIndex hP hs)
      (init_SlotsMatchIndex hinit) hrun
  refine ⟨hinv, fun i j Object hi hj => ?_⟩
  have h1 := hinv i Object hi
  have h2 := hinv j Object hj
  omega

theorem C1_uniqueness_witness :
    sampleInit sampleBuild 8 2 = .ok (stateOf (sampleInit sampleBuild 8 2)) ∧
    run sampleBuild (stateOf (sampleInit sampleBuild 8 2))
      [.allocate 7 0 (-1) 0, .allocate 9 0 (-1) 0, .closeDisregard,
        .allocate 11 0 (-1) 0, .free 9, .allocate 12 0 (-1) 0]
      = .ok (stateOf (sampleRun sampleBuild 8 2
        [.allocate 7 0 (-1) 0, .allocate 9 0 (-1) 0, .closeDisregard,
          .allocate 11 0 (-1) 0, .free 9, .allocate 12 0 (-1) 0])) ∧
    (SlotsMatchIndex (stateOf (sampleRun sampleBuild 8 2
        [.allocate 7 0 (-1) 0, .allocate 9 0 (-1) 0, .closeDisregard,
          .allocate 11 0 (-1) 0, .free 9, .allocate 12 0 (-1) 0])) ∧
      ∀ (i j : Nat) (Object : ObjId),
        objectAt (stateOf (sampleRun sampleBuild 8 2
          [.allocate 7 0 (-1) 0, .allocate 9 0 (-1) 0, .closeDisregard,
            .allocate 11 0 (-1) 0, .free 9, .allocate 12 0 (-1) 0])) i = some Object →
        objectAt (stateOf (sampleRun sampleBuild 8 2
          [.allocate 7 0 (-1) 0, .allocate 9 0 (-1) 0, .closeDisregard,
            .allocate 11 0 (-1) 0, .free 9, .allocate 12 0 (-1) 0])) j = some Object →
        i = j) :=
  ⟨rfl, rfl,
    C1_uniqueness sampleBuild (fun _ => INDEX_NONE) true false true false 8 2 false
      [.allocate 7 0 (-1) 0, .allocate 9 0 (-1) 0, .closeDisregard,
        .allocate 11 0 (-1) 0, .free 9, .allocate 12 0 (-1) 0]
      (stateOf (sampleInit sampleBuild 8 2))
      (stateOf (sampleRun sampleBuild 8 2
        [.allocate 7 0 (-1) 0, .allocate 9 0 (-1) 0, .closeDisregard,
          .allocate 11 0 (-1) 0, .free 9, .allocate 12 0 (-1) 0])) rfl rfl⟩

/-! ## Index collision -/

theorem publish_occupied {B : Build} {A : FUObjectArray} {Object O : ObjId}
    {InitialFlags k : Nat} {SerialNumber : Int} (hocc : objectAt A k = some O) :
    publish B A Object InitialFlags (k : Int) SerialNumber = .error .indexCollision := by
  unfold objectAt at hocc
  cases hget : A.ObjObjects[k]? with
  | none => simp [hget] at hocc
  | some Old =>
    simp only [hget] at hocc
    unfold publish
    rw [IndexToObject_of_getElem hget]
    simp [hocc]

/-- C2: if the slot chosen for an allocate call (explicit index, next disregard slot, popped
free-list index or appended slot) already holds an object, the call is fatal, with the index
collision error once the entry check on the object has passed; and a successful allocate
leaves every occupied slot with the object it held. -/
theorem C2_index_collision_fatal (B : Build) (A : FUObjectArray) (Object : ObjId)
    (InitialFlags : Nat) (AlreadyAllocatedIndex SerialNumber : Int) :
    (∀ (Index : Int) (A1 : FUObjectArray) (k : Nat) (O : ObjId),
      selectIndex A AlreadyAllocatedIndex = .ok (Index, A1) → Index = (k : Int) →
      objectAt A1 k = some O →
      AllocateUObjectIndex B A Object InitialFlags AlreadyAllocatedIndex SerialNumber =
        .error (if A.InternalIndex Object = INDEX_NONE then Fatal.indexCollision
                else Fatal.checkInternalIndexNone)) ∧
    (∀ (A3 : FUObjectArray),
      AllocateUObjectIndex B A Object InitialFlags AlreadyAllocatedIndex SerialNumber = .ok A3 →
      ∀ (i : Nat) (O : ObjId), objectAt A i = some O → objectAt A3 i = some O) := by
  constructor
  · intro Index A1 k O hsel hk hocc
    subst hk
    unfold AllocateUObjectIndex
    by_cases hnone : A.InternalIndex Object = INDEX_NONE
    · simp only [hnone, ne_eq, not_true_eq_false, if_false, if_true, hsel]
      rw [publish_occupied hocc]
    · simp [hnone]
  · intro A3 h i O hO
    obtain ⟨-, k, hfree, -, hobj, -, -⟩ := AllocateUObjectIndex_slots h
    rw [hobj i]
    by_cases hik : i = k
    · subst hik
      rw [hfree] at hO
      cases hO
    · simp [hik, hO]

theorem C2_index_collision_fatal_witness :
    selectIndex (stateOf (sampleRun sampleBuild 8 0 [.allocate 7 0 (-1) 0])) 0
      = .ok (0, stateOf (sampleRun sampleBuild 8 0 [.allocate 7 0 (-1) 0])) ∧
    objectAt (stateOf (sampleRun sampleBuild 8 0 [.allocate 7 0 (-1) 0])) 0 = some 7 ∧
    AllocateUObjectIndex sampleBuild
      (stateOf (sampleRun sampleBuild 8 0 [.allocate 7 0 (-1) 0])) 9 0 0 0
      = .error Fatal.indexCollision :=
  ⟨rfl, rfl,
    (C2_index_collision_fatal sampleBuild
      (stateOf (sampleRun sampleBuild 8 0 [.allocate 7 0 (-1) 0])) 9 0 0 0).1
      0 (stateOf (sampleRun sampleBuild 8 0 [.allocate 7 0 (-1) 0])) 0 7 rfl rfl rfl⟩

/-! ## The bounds of the disregard pool -/

theorem selectIndex_cases {A A1 : FUObjectArray} {AlreadyAllocatedIndex Index : Int}
    (h : selectIndex A AlreadyAllocatedIndex = .ok (Index, A1)) :
    (0 ≤ AlreadyAllocatedIndex ∧ Index = AlreadyAllocatedIndex ∧ A1 = A) ∨
    (AlreadyAllocatedIndex < 0 ∧ A.OpenForDisregardForGC = true ∧
      0 < A.MaxObjectsNotConsideredByGC ∧ selectDisregardIndex A = .ok (Index, A1)) ∨
    (AlreadyAllocatedIndex < 0 ∧
      ¬ (A.OpenForDisregardForGC = true ∧ 0 < A.MaxObjectsNotConsideredByGC) ∧
      selectGCIndex A = .ok (Index, A1)) := by
  unfold selectIndex at h
  by_cases hexp : AlreadyAllocatedIndex ≥ 0
  · simp only [hexp, if_true, Except.ok.injEq, Prod.mk.injEq] at h
    exact Or.inl ⟨hexp, h.1.symm, h.2.symm⟩
  · simp only [hexp, if_false] at h
    by_cases hdis : A.OpenForDisregardForGC = true ∧ 0 < A.MaxObjectsNotConsideredByGC
    · have : (A.OpenForDisregardForGC && DisregardForGCEnabled A) = true := by
        simp [DisregardForGCEnabled, hdis.1, hdis.2]
      simp only [this, if_true] at h
      exact Or.inr (Or.inl ⟨by omega, hdis.1, hdis.2, h⟩)
    · have : ¬ (A.OpenForDisregardForGC && DisregardForGCEnabled A) = true := by
        simpa [DisregardForGCEnabled] using hdis
      simp only [this, if_false] at h
      exact Or.inr (Or.inr ⟨by omega, hdis, h⟩)

/-- What a successful `AllocateUObjectIndex` leaves alone among the bounds and switches. -/
theorem AllocateUObjectIndex_bounds {B : Build} {A A3 : FUObjectArray} {Object : ObjId}
    {InitialFlags : Nat} {AlreadyAllocatedIndex SerialNumber : Int}
    (h : AllocateUObjectIndex B A Object InitialFlags AlreadyAllocatedIndex SerialNumber
      = .ok A3) :
    A3.ObjFirstGCIndex = A.ObjFirstGCIndex ∧ A.ObjLastNonGCIndex ≤ A3.ObjLastNonGCIndex ∧
    A3.OpenForDisregardForGC = A.OpenForDisregardForGC ∧
    A3.bShouldRecycleObjectIndices = A.bShouldRecycleObjectIndices ∧
    A3.GExitPurge = A.GExitPurge ∧ A3.MaxElements = A.MaxElements := by
  obtain ⟨-, Index, A1, A2, hsel, hpub, rfl⟩ := AllocateUObjectIndex_ok h
  obtain ⟨k, Old, -, -, -, rfl⟩ := publish_ok hpub
  simp only [notifyCreated]
  rcases selectIndex_cases hsel with ⟨-, -, rfl⟩ | ⟨-, -, -, hd⟩ | ⟨-, -, hg⟩
  · simp
  · obtain ⟨-, hcase⟩ := selectDisregardIndex_ok hd
    rcases hcase with ⟨-, rfl⟩ | ⟨-, -, -, -, rfl⟩ <;> simp
  · obtain ⟨-, -, hcase⟩ := selectGCIndex_ok hg
    rcases hcase with ⟨rest, -, rfl⟩ | ⟨-, -, -, -, rfl⟩ <;> simp

theorem step_BoundsOrdered {B : Build} {A A1 : FUObjectArray} {op : Op}
    (hinv : BoundsOrdered A) (h : step B A op = .ok A1) : BoundsOrdered A1 := by
  obtain ⟨h1, h2⟩ := hinv
  cases op with
  | allocate Object InitialFlags AlreadyAllocatedIndex SerialNumber =>
    obtain ⟨hf, hl, -⟩ := AllocateUObjectIndex_bounds h
    exact ⟨by rw [hf]; omega, by omega⟩
  | free Object =>
    obtain ⟨k, Old, -, -, -, rfl⟩ := FreeUObjectIndex_ok h
    exact ⟨h1, h2⟩
  | notifyDeleted Object =>
    obtain ⟨-, rfl⟩ := RemoveObjectFromDeleteListeners_ok h
    exact ⟨h1, h2⟩
  | openDisregard =>
    obtain ⟨-, rfl⟩ := OpenDisregardForGC_ok h
    exact ⟨h1, h2⟩
  | closeDisregard =>
    obtain ⟨-, rfl⟩ := CloseDisregardForGC_ok h
    refine ⟨?_, h2⟩
    simp only
    omega
  | disableDisregard =>
    have hA1 := DisableDisregardForGC_ok h
    subst hA1
    refine ⟨?_, h2⟩
    simp only
    split <;> omega
  | serialOf Index =>
    simp only [step] at h
    cases hser : AllocateSerialNumber B A Index with
    | error e => simp [hser] at h
    | ok p =>
      obtain ⟨SerialNumber, A2⟩ := p
      simp only [hser, Except.ok.injEq] at h
      subst h
      obtain ⟨k, Old, -, -, -, hcase⟩ := AllocateSerialNumber_ok hser
      rcases hcase with ⟨-, -, rfl⟩ | ⟨-, -, -, rfl⟩
      · exact ⟨h1, h2⟩
      · exact ⟨h1, h2⟩
  | resetSerial Object =>
    obtain ⟨k, Old, -, -, rfl⟩ := ResetSerialNumber_ok h
    exact ⟨h1, h2⟩

theorem init_BoundsOrdered {B : Build} {InternalIndex : ObjId → Int}
    {bRecycle GExitPurge GIsInitialLoad EngineExitRequested : Bool}
    {InMaxUObjects Reserve : Int} {bPreAllocateObjectArray : Bool} {A0 : FUObjectArray}
    (h : initRegistry B InternalIndex bRecycle GExitPurge GIsInitialLoad EngineExitRequested
      InMaxUObjects Reserve bPreAllocateObjectArray = .ok A0) : BoundsOrdered A0 := by
  obtain ⟨-, -, rfl⟩ := initRegistry_ok h
  simp only [BoundsOrdered, construct, INDEX_NONE]
  constructor
  · split <;> omega
  · omega

/-! ## Recycling of freed indices -/

theorem objectAt_some {A : FUObjectArray} {i : Nat} {Object : ObjId}
    (h : objectAt A i = some Object) :
    ∃ Old, A.ObjObjects[i]? = some Old ∧ Old.Object = some Object := by
  unfold objectAt at h
  cases hget : A.ObjObjects[i]? with
  | none => simp [hget] at h
  | some Old => exact ⟨Old, rfl, by simpa [hget] using h⟩

/-- Freeing the object of an occupied slot whose index it carries succeeds. -/
theorem FreeUObjectIndex_of_slot {A : FUObjectArray} {Object : ObjId} {i : Nat}
    (hidx : A.InternalIndex Object = (i : Int)) (hobj : objectAt A i = some Object) :
    FreeUObjectIndex A Object = .ok { A with
      ObjObjects := A.ObjObjects.set i FUObjectItem.empty
      ObjAvailableList :=
        if (i : Int) > A.ObjLastNonGCIndex ∧ A.GExitPurge = false ∧
            A.bShouldRecycleObjectIndices = true
        then A.ObjAvailableList ++ [(i : Int)] else A.ObjAvailableList } := by
  obtain ⟨Old, hget, hold⟩ := objectAt_some hobj
  unfold FreeUObjectIndex
  simp only [hidx, IndexToObject_of_getElem hget, hold, ne_eq, not_true_eq_false, if_false]
  by_cases hc : (i : Int) > A.ObjLastNonGCIndex ∧ A.GExitPurge = false ∧
      A.bShouldRecycleObjectIndices = true
  · simp [setItem, FUObjectItem.empty, hc]
  · rw [if_neg hc, if_neg (by simpa [setItem] using hc)]
    simp [setItem, FUObjectItem.empty]

/-- Publishing into an empty slot succeeds. -/
theorem publish_of_empty {B : Build} {A : FUObjectArray} {Object : ObjId} {InitialFlags : Nat}
    {SerialNumber : Int} {i : Nat} {Old : FUObjectItem}
    (hget : A.ObjObjects[i]? = some Old) (hold : Old.Object = none) :
    publish B A Object InitialFlags (i : Int) SerialNumber = .ok { A with
      ObjObjects := A.ObjObjects.set i
        { Object := some Object, Flags := B.PendingConstruction ||| InitialFlags,
          ClusterRootIndex := 0, SerialNumber := SerialNumber }
      InternalIndex := Function.update A.InternalIndex Object (i : Int) } := by
  unfold publish
  simp [IndexToObject_of_getElem hget, hold, setItem]

/-- The regular pool pops the last recycled index when it passes the range check. -/
theorem selectGCIndex_of_pop {A : FUObjectArray} {rest : List Int} {x : Int}
    (hlist : A.ObjAvailableList = rest ++ [x])
    (hfirst : A.ObjFirstGCIndex ≤ x) (hlast : A.ObjLastNonGCIndex < x) :
    selectGCIndex A = .ok (x, { A with ObjAvailableList := rest }) := by
  unfold selectGCIndex
  have hc : x ≥ A.ObjFirstGCIndex ∧ x > A.ObjLastNonGCIndex := ⟨hfirst, hlast⟩
  simp [hlist, hc]

theorem AllocateUObjectIndex_of {B : Build} {A A1 A2 : FUObjectArray} {Object : ObjId}
    {InitialFlags : Nat} {AlreadyAllocatedIndex SerialNumber Index : Int}
    (hnone : A.InternalIndex Object = INDEX_NONE)
    (hsel : selectIndex A AlreadyAllocatedIndex = .ok (Index, A1))
    (hpub : publish B A1 Object InitialFlags Index SerialNumber = .ok A2) :
    AllocateUObjectIndex B A Object InitialFlags AlreadyAllocatedIndex SerialNumber
      = .ok (notifyCreated A2 Object Index) := by
  unfold AllocateUObjectIndex
  simp [hnone, hsel, hpub]

theorem selectIndex_of_regular {A : FUObjectArray} {AlreadyAllocatedIndex : Int}
    (hidx : AlreadyAllocatedIndex < 0)
    (hgen : ¬ (A.OpenForDisregardForGC = true ∧ 0 < A.MaxObjectsNotConsideredByGC)) :
    selectIndex A AlreadyAllocatedIndex = selectGCIndex A := by
  unfold selectIndex
  have h1 : ¬ AlreadyAllocatedIndex ≥ 0 := by omega
  have h2 : ¬ (A.OpenForDisregardForGC && DisregardForGCEnabled A) = true := by
    simpa [DisregardForGCEnabled] using hgen
  simp [h1, h2]

theorem selectIndex_of_disregard {A : FUObjectArray} {AlreadyAllocatedIndex : Int}
    (hidx : AlreadyAllocatedIndex < 0)
    (hopen : A.OpenForDisregardForGC = true) (hmax : 0 < A.MaxObjectsNotConsideredByGC) :
    selectIndex A AlreadyAllocatedIndex = selectDisregardIndex A := by
  unfold selectIndex
  have h1 : ¬ AlreadyAllocatedIndex ≥ 0 := by omega
  have h2 : (A.OpenForDisregardForGC && DisregardForGCEnabled A) = true := by
    simp [DisregardForGCEnabled, hopen, hmax]
  simp [h1, h2]

/-- With the regular pool in use, recycling on and no exit purge, freeing the object of a
slot above the disregard range and allocating a new object reuses exactly that slot. -/
theorem free_then_allocate_recycles {B : Build} {A : FUObjectArray}
    {Object Object2 : ObjId} {i InitialFlags : Nat} {AlreadyAllocatedIndex SerialNumber : Int}
    (hmatch : SlotsMatchIndex A) (hbounds : BoundsOrdered A)
    (hgen : ¬ (A.OpenForDisregardForGC = true ∧ 0 < A.MaxObjectsNotConsideredByGC))
    (hrec : A.bShouldRecycleObjectIndices = true) (hpurge : A.GExitPurge = false)
    (hobj : objectAt A i = some Object) (hgt : A.ObjLastNonGCIndex < (i : Int))
    (hnew : A.InternalIndex Object2 = INDEX_NONE) (hidx : AlreadyAllocatedIndex < 0) :
    ∃ A1 A2, FreeUObjectIndex A Object = .ok A1 ∧
      AllocateUObjectIndex B A1 Object2 InitialFlags AlreadyAllocatedIndex SerialNumber
        = .ok A2 ∧
      A2.InternalIndex Object2 = (i : Int) ∧ objectAt A2 i = some Object2 ∧
      A2.ObjObjects.length = A.ObjObjects.length ∧
      A2.ObjAvailableList = A.ObjAvailableList := by
  have hI := hmatch i Object hobj
  obtain ⟨Old, hget, hold⟩ := objectAt_some hobj
  have hlen := lt_length_of_getElem? hget
  have hfree := FreeUObjectIndex_of_slot hI hobj
  have hc : (i : Int) > A.ObjLastNonGCIndex ∧ A.GExitPurge = false ∧
      A.bShouldRecycleObjectIndices = true := ⟨hgt, hpurge, hrec⟩
  rw [if_pos hc] at hfree
  obtain ⟨A1, hA1⟩ : ∃ A1 : FUObjectArray, A1 = { A with
      ObjObjects := A.ObjObjects.set i FUObjectItem.empty
      ObjAvailableList := A.ObjAvailableList ++ [(i : Int)] } := ⟨_, rfl⟩
  rw [← hA1] at hfree
  have hA1list : A1.ObjAvailableList = A.ObjAvailableList ++ [(i : Int)] := by rw [hA1]
  have hA1first : A1.ObjFirstGCIndex = A.ObjFirstGCIndex := by rw [hA1]
  have hA1last : A1.ObjLastNonGCIndex = A.ObjLastNonGCIndex := by rw [hA1]
  have hA1gen : ¬ (A1.OpenForDisregardForGC = true ∧ 0 < A1.MaxObjectsNotConsideredByGC) := by
    rw [hA1]; exact hgen
  have hA1new : A1.InternalIndex Object2 = INDEX_NONE := by rw [hA1]; exact hnew
  have hA1objs : A1.ObjObjects = A.ObjObjects.set i FUObjectItem.empty := by rw [hA1]
  have hsel : selectIndex A1 AlreadyAllocatedIndex
      = .ok ((i : Int), { A1 with ObjAvailableList := A.ObjAvailableList }) := by
    rw [selectIndex_of_regular hidx hA1gen]
    refine selectGCIndex_of_pop hA1list ?_ ?_
    · have := hbounds.1; omega
    · omega
  have hgetA1 : A1.ObjObjects[i]? = some FUObjectItem.empty := by
    rw [hA1objs]; simp [hlen]
  have hpub := @publish_of_empty B { A1 with ObjAvailableList := A.ObjAvailableList }
    Object2 InitialFlags SerialNumber i FUObjectItem.empty hgetA1 rfl
  refine ⟨A1, _, hfree, AllocateUObjectIndex_of hA1new hsel hpub, ?_, ?_, ?_, ?_⟩
  · simp [notifyCreated]
  · have hlen1 : i < A1.ObjObjects.length := by rw [hA1objs]; simpa using hlen
    simp [notifyCreated, objectAt, hlen1]
  · simp [notifyCreated, hA1objs]
  · simp [notifyCreated]

/-- C3: in every state reached from a started registry in which allocation takes the regular
pool (pool closed or disregard optimization off), with recycling on and no exit purge,
freeing the object at an index above the disregard range and then allocating a new object
without explicit index both succeed, the new object gets exactly the freed index, and the
slot table does not grow. -/
theorem C3_recycling (B : Build) (InternalIndex : ObjId → Int)
    (bRecycle GExitPurge GIsInitialLoad EngineExitRequested : Bool)
    (InMaxUObjects Reserve : Int) (bPreAllocateObjectArray : Bool) (ops : List Op)
    (A0 A : FUObjectArray) (Object Object2 : ObjId) (i InitialFlags : Nat)
    (AlreadyAllocatedIndex SerialNumber : Int)
    (hinit : initRegistry B InternalIndex bRecycle GExitPurge GIsInitialLoad
      EngineExitRequested InMaxUObjects Reserve bPreAllocateObjectArray = .ok A0)
    (hrun : run B A0 ops = .ok A)
    (hgen : A.OpenForDisregardForGC = false ∨ DisregardForGCEnabled A = false)
    (hrec : A.bShouldRecycleObjectIndices = true) (hpurge : A.GExitPurge = false)
    (hobj : objectAt A i = some Object) (hgt : A.ObjLastNonGCIndex < (i : Int))
    (hnew : A.InternalIndex Object2 = INDEX_NONE) (hidx : AlreadyAllocatedIndex < 0) :
    ∃ A1 A2, FreeUObjectIndex A Object = .ok A1 ∧
      AllocateUObjectIndex B A1 Object2 InitialFlags AlreadyAllocatedIndex SerialNumber
        = .ok A2 ∧
      A2.InternalIndex Object2 = (i : Int) ∧ objectAt A2 i = some Object2 ∧
      A2.ObjObjects.length = A.ObjObjects.length ∧
      A2.ObjAvailableList = A.ObjAvailableList := by
  have hmatch : SlotsMatchIndex A :=
    run_induction SlotsMatchIndex (fun _ _ _ hP hs => step_SlotsMatchIndex hP hs)
      (init_SlotsMatchIndex hinit) hrun
  have hbounds : BoundsOrdered A :=
    run_induction BoundsOrdered (fun _ _ _ hP hs => step_BoundsOrdered hP hs)
      (init_BoundsOrdered hinit) hrun
  have hgen2 : ¬ (A.OpenForDisregardForGC = true ∧ 0 < A.MaxObjectsNotConsideredByGC) := by
    rintro ⟨h1, h2⟩
    rcases hgen with h | h
    · rw [h1] at h; cases h
    · simp [DisregardForGCEnabled, h2] at h
  exact free_then_allocate_recycles hmatch hbounds hgen2 hrec hpurge hobj hgt hnew hidx

theorem C3_recycling_witness :
    sampleInit sampleBuild 8 2 = .ok (stateOf (sampleInit sampleBuild 8 2)) ∧
    run sampleBuild (stateOf (sampleInit sampleBuild 8 2))
      [.allocate 7 0 (-1) 0, .allocate 9 0 (-1) 0, .closeDisregard,
        .allocate 11 0 (-1) 0, .allocate 12 0 (-1) 0]
      = .ok (stateOf (sampleRun sampleBuild 8 2
        [.allocate 7 0 (-1) 0, .allocate 9 0 (-1) 0, .closeDisregard,
          .allocate 11 0 (-1) 0, .allocate 12 0 (-1) 0])) ∧
    objectAt (stateOf (sampleRun sampleBuild 8 2
        [.allocate 7 0 (-1) 0, .allocate 9 0 (-1) 0, .closeDisregard,
          .allocate 11 0 (-1) 0, .allocate 12 0 (-1) 0])) 2 = some 11 ∧
    ∃ A1 A2,
      FreeUObjectIndex (stateOf (sampleRun sampleBuild 8 2
        [.allocate 7 0 (-1) 0, .allocate 9 0 (-1) 0, .closeDisregard,
          .allocate 11 0 (-1) 0, .allocate 12 0 (-1) 0])) 11 = .ok A1 ∧
      AllocateUObjectIndex sampleBuild A1 13 0 (-1) 0 = .ok A2 ∧
      A2.InternalIndex 13 = ((2 : Nat) : Int) ∧ objectAt A2 2 = some 13 ∧
      A2.ObjObjects.length = (stateOf (sampleRun sampleBuild 8 2
        [.allocate 7 0 (-1) 0, .allocate 9 0 (-1) 0, .closeDisregard,
          .allocate 11 0 (-1) 0, .allocate 12 0 (-1) 0])).ObjObjects.length ∧
      A2.ObjAvailableList = (stateOf (sampleRun sampleBuild 8 2
        [.allocate 7 0 (-1) 0, .allocate 9 0 (-1) 0, .closeDisregard,
          .allocate 11 0 (-1) 0, .allocate 12 0 (-1) 0])).ObjAvailableList :=
  ⟨rfl, rfl, rfl,
    C3_recycling sampleBuild (fun _ => INDEX_NONE) true false true false 8 2 false
      [.allocate 7 0 (-1) 0, .allocate 9 0 (-1) 0, .closeDisregard,
        .allocate 11 0 (-1) 0, .allocate 12 0 (-1) 0]
      (stateOf (sampleInit sampleBuild 8 2))
      (stateOf (sampleRun sampleBuild 8 2
        [.allocate 7 0 (-1) 0, .allocate 9 0 (-1) 0, .closeDisregard,
          .allocate 11 0 (-1) 0, .allocate 12 0 (-1) 0]))
      11 13 2 0 (-1) 0 rfl rfl (Or.inl rfl) rfl rfl rfl (by decide) rfl (by decide)⟩

/-! ## Permanence of disregard indices -/

/-- The index a successful `AllocateUObjectIndex` gives, by the path taken. -/
theorem AllocateUObjectIndex_index {B : Build} {A A3 : FUObjectArray} {Object : ObjId}
    {InitialFlags : Nat} {AlreadyAllocatedIndex SerialNumber : Int}
    (h : AllocateUObjectIndex B A Object InitialFlags AlreadyAllocatedIndex SerialNumber
      = .ok A3) :
    0 ≤ A3.InternalIndex Object ∧
    (0 ≤ AlreadyAllocatedIndex → A3.InternalIndex Object = AlreadyAllocatedIndex) ∧
    (AlreadyAllocatedIndex < 0 → A.OpenForDisregardForGC = true →
      0 < A.MaxObjectsNotConsideredByGC →
      A3.InternalIndex Object = A.ObjLastNonGCIndex + 1 ∧
      A3.ObjLastNonGCIndex = A.ObjLastNonGCIndex + 1) ∧
    (AlreadyAllocatedIndex < 0 →
      ¬ (A.OpenForDisregardForGC = true ∧ 0 < A.MaxObjectsNotConsideredByGC) →
      A.ObjLastNonGCIndex < A3.InternalIndex Object ∧
      A.ObjFirstGCIndex ≤ A3.InternalIndex Object ∧
      A3.ObjLastNonGCIndex = A.ObjLastNonGCIndex) := by
  obtain ⟨-, Index, A1, A2, hsel, hpub, rfl⟩ := AllocateUObjectIndex_ok h
  obtain ⟨k, Old, rfl, -, -, rfl⟩ := publish_ok hpub
  simp only [notifyCreated, Function.update_same]
  refine ⟨by omega, ?_⟩
  rcases selectIndex_cases hsel with ⟨h0, hk, rfl⟩ | ⟨hneg, hopen, hmax, hd⟩ | ⟨hneg, hgen, hg⟩
  · refine ⟨fun _ => hk, fun hc => ?_, fun hc => ?_⟩ <;> omega
  · obtain ⟨hk, hcase⟩ := selectDisregardIndex_ok hd
    refine ⟨fun hc => by omega, fun _ _ _ => ⟨hk, ?_⟩, fun _ hc => absurd ⟨hopen, hmax⟩ hc⟩
    rcases hcase with ⟨-, rfl⟩ | ⟨-, -, -, -, rfl⟩ <;> rfl
  · obtain ⟨hfirst, hlast, hcase⟩ := selectGCIndex_ok hg
    refine ⟨fun hc => by omega, fun _ ho hm => absurd ⟨ho, hm⟩ hgen,
      fun _ _ => ⟨hlast, hfirst, ?_⟩⟩
    rcases hcase with ⟨rest, -, rfl⟩ | ⟨-, -, -, -, rfl⟩ <;> rfl

/-- No operation lowers `ObjLastNonGCIndex`, and no operation changes the internal index of
an object that already has one. -/
theorem step_last_and_index {B : Build} {A A1 : FUObjectArray} {op : Op}
    (h : step B A op = .ok A1) :
    A.ObjLastNonGCIndex ≤ A1.ObjLastNonGCIndex ∧
    ∀ O, A.InternalIndex O ≠ INDEX_NONE → A1.InternalIndex O = A.InternalIndex O := by
  cases op with
  | allocate Object InitialFlags AlreadyAllocatedIndex SerialNumber =>
    obtain ⟨-, hl, -⟩ := AllocateUObjectIndex_bounds h
    obtain ⟨hnone, k, -, hint, -, -, -⟩ := AllocateUObjectIndex_slots h
    refine ⟨hl, fun O hO => ?_⟩
    rw [hint]
    have hne : O ≠ Object := fun hc => hO (hc ▸ hnone)
    simp [Function.update, hne]
  | free Object =>
    obtain ⟨k, Old, -, -, -, rfl⟩ := FreeUObjectIndex_ok h
    exact ⟨le_refl _, fun _ _ => rfl⟩
  | notifyDeleted Object =>
    obtain ⟨-, rfl⟩ := RemoveObjectFromDeleteListeners_ok h
    exact ⟨le_refl _, fun _ _ => rfl⟩
  | openDisregard =>
    obtain ⟨-, rfl⟩ := OpenDisregardForGC_ok h
    exact ⟨le_refl _, fun _ _ => rfl⟩
  | closeDisregard =>
    obtain ⟨-, rfl⟩ := CloseDisregardForGC_ok h
    exact ⟨le_refl _, fun _ _ => rfl⟩
  | disableDisregard =>
    have hA1 := DisableDisregardForGC_ok h
    subst hA1
    exact ⟨le_refl _, fun _ _ => rfl⟩
  | serialOf Index =>
    simp only [step] at h
    cases hser : AllocateSerialNumber B A Index with
    | error e => simp [hser] at h
    | ok p =>
      obtain ⟨SerialNumber, A2⟩ := p
      simp only [hser, Except.ok.injEq] at h
      subst h
      obtain ⟨k, Old, -, -, -, hcase⟩ := AllocateSerialNumber_ok hser
      rcases hcase with ⟨-, -, rfl⟩ | ⟨-, -, -, rfl⟩
      · exact ⟨le_refl _, fun _ _ => rfl⟩
      · exact ⟨le_refl _, fun _ _ => rfl⟩
  | resetSerial Object =>
    obtain ⟨k, Old, -, -, rfl⟩ := ResetSerialNumber_ok h
    exact ⟨le_refl _, fun _ _ => rfl⟩

/-- C4: an index given by the disregard path of allocate stays at or below
`ObjLastNonGCIndex` and stays the object's internal index through every later sequence of
operations (closing the pool included); so a later free of that object leaves the free list
as it is, and no later allocate through the regular pool, whose index is popped from the
free list or appended, obtains that index. -/
theorem C4_disregard_permanence (B : Build) (A A1 A2 : FUObjectArray) (Object : ObjId)
    (InitialFlags : Nat) (AlreadyAllocatedIndex SerialNumber : Int) (ops : List Op)
    (hopen : A.OpenForDisregardForGC = true) (hen : DisregardForGCEnabled A = true)
    (hidx : AlreadyAllocatedIndex < 0)
    (halloc : AllocateUObjectIndex B A Object InitialFlags AlreadyAllocatedIndex SerialNumber
      = .ok A1)
    (hrun : run B A1 ops = .ok A2) :
    A2.InternalIndex Object = A1.InternalIndex Object ∧
    A1.InternalIndex Object ≤ A2.ObjLastNonGCIndex ∧
    (∀ A3, FreeUObjectIndex A2 Object = .ok A3 →
      A3.ObjAvailableList = A2.ObjAvailableList) ∧
    (∀ (Object2 : ObjId) (InitialFlags2 : Nat) (Index2 SerialNumber2 : Int) (A3 : FUObjectArray),
      Index2 < 0 → (A2.OpenForDisregardForGC = false ∨ DisregardForGCEnabled A2 = false) →
      AllocateUObjectIndex B A2 Object2 InitialFlags2 Index2 SerialNumber2 = .ok A3 →
      A3.InternalIndex Object2 ≠ A1.InternalIndex Object) := by
  have hmax : 0 < A.MaxObjectsNotConsideredByGC := by
    simpa [DisregardForGCEnabled] using hen
  obtain ⟨h0, -, hdis, -⟩ := AllocateUObjectIndex_index halloc
  obtain ⟨hk, hlast⟩ := hdis hidx hopen hmax
  have hinv : A2.InternalIndex Object = A1.InternalIndex Object ∧
      A1.InternalIndex Object ≤ A2.ObjLastNonGCIndex := by
    refine run_induction
      (fun A' => A'.InternalIndex Object = A1.InternalIndex Object ∧
        A1.InternalIndex Object ≤ A'.ObjLastNonGCIndex)
      (fun X Y op hP hs => ?_) ⟨rfl, by omega⟩ hrun
    obtain ⟨hmono, hstable⟩ := step_last_and_index hs
    have hne : X.InternalIndex Object ≠ INDEX_NONE := by
      rw [hP.1]; simp only [INDEX_NONE]; omega
    exact ⟨by rw [hstable Object hne]; exact hP.1, le_trans hP.2 hmono⟩
  refine ⟨hinv.1, hinv.2, fun A3 hfree => ?_, fun Object2 F2 Index2 S2 A3 hneg hgen h3 => ?_⟩
  · obtain ⟨i, Old, hi, -, -, rfl⟩ := FreeUObjectIndex_ok hfree
    have hc : ¬ ((i : Int) > A2.ObjLastNonGCIndex ∧ A2.GExitPurge = false ∧
        A2.bShouldRecycleObjectIndices = true) := by
      rintro ⟨hgt, -, -⟩
      have := hinv.2
      rw [← hinv.1, hi] at this
      omega
    simp only [hc, if_false]
  · have hgen2 : ¬ (A2.OpenForDisregardForGC = true ∧ 0 < A2.MaxObjectsNotConsideredByGC) := by
      rintro ⟨h1, h2⟩
      rcases hgen with h | h
      · rw [h1] at h; cases h
      · simp [DisregardForGCEnabled, h2] at h
    obtain ⟨-, -, -, hreg⟩ := AllocateUObjectIndex_index h3
    obtain ⟨hgt, -, -⟩ := hreg hneg hgen2
    have := hinv.2
    omega

/-! ## The paths of `AllocateUObjectIndex` without an explicit index -/

/-- A successful `AllocateUObjectIndex` without explicit index took one of four paths: a slot
of the reserved disregard range, a slot appended to the disregard range, a popped recycled
index, or a slot appended to the regular pool. -/
theorem AllocateUObjectIndex_paths {B : Build} {A A3 : FUObjectArray} {Object : ObjId}
    {InitialFlags : Nat} {AlreadyAllocatedIndex SerialNumber : Int}
    (h : AllocateUObjectIndex B A Object InitialFlags AlreadyAllocatedIndex SerialNumber
      = .ok A3) (hneg : AlreadyAllocatedIndex < 0) :
    ∃ k : Nat, A3.InternalIndex Object = (k : Int) ∧ objectAt A k = none ∧
      (∀ i, objectAt A3 i = if i = k then some Object else objectAt A i) ∧
      A3.ObjFirstGCIndex = A.ObjFirstGCIndex ∧
      ((A.OpenForDisregardForGC = true ∧ 0 < A.MaxObjectsNotConsideredByGC ∧
          (k : Int) = A.ObjLastNonGCIndex + 1 ∧ (k : Int) < A.MaxObjectsNotConsideredByGC ∧
          A3.ObjLastNonGCIndex = (k : Int) ∧
          A3.MaxObjectsNotConsideredByGC = A.MaxObjectsNotConsideredByGC ∧
          A3.ObjAvailableList = A.ObjAvailableList ∧
          A3.ObjObjects.length = A.ObjObjects.length) ∨
       (A.OpenForDisregardForGC = true ∧ 0 < A.MaxObjectsNotConsideredByGC ∧
          (k : Int) = A.ObjLastNonGCIndex + 1 ∧ A.MaxObjectsNotConsideredByGC ≤ (k : Int) ∧
          A.ObjFirstGCIndex < 0 ∧ k = A.ObjObjects.length ∧
          A3.ObjLastNonGCIndex = (k : Int) ∧
          A3.MaxObjectsNotConsideredByGC = (k : Int) + 1 ∧
          A3.ObjAvailableList = A.ObjAvailableList ∧
          A3.ObjObjects.length = A.ObjObjects.length + 1) ∨
       (¬ (A.OpenForDisregardForGC = true ∧ 0 < A.MaxObjectsNotConsideredByGC) ∧
          A.ObjAvailableList = A3.ObjAvailableList ++ [(k : Int)] ∧
          A.ObjFirstGCIndex ≤ (k : Int) ∧ A.ObjLastNonGCIndex < (k : Int) ∧
          A3.ObjLastNonGCIndex = A.ObjLastNonGCIndex ∧
          A3.MaxObjectsNotConsideredByGC = A.MaxObjectsNotConsideredByGC ∧
          A3.ObjObjects.length = A.ObjObjects.length) ∨
       (¬ (A.OpenForDisregardForGC = true ∧ 0 < A.MaxObjectsNotConsideredByGC) ∧
          A.ObjAvailableList = [] ∧ A3.ObjAvailableList = [] ∧
          0 ≤ A.ObjFirstGCIndex ∧ k = A.ObjObjects.length ∧
          A.ObjLastNonGCIndex < (k : Int) ∧
          A3.ObjLastNonGCIndex = A.ObjLastNonGCIndex ∧
          A3.MaxObjectsNotConsideredByGC = A.MaxObjectsNotConsideredByGC ∧
          A3.ObjObjects.length = A.ObjObjects.length + 1)) := by
  obtain ⟨-, k, hfree, hint, hobj, -, -⟩ := AllocateUObjectIndex_slots h
  obtain ⟨-, Index, A1, A2, hsel, hpub, rfl⟩ := AllocateUObjectIndex_ok h
  obtain ⟨k2, Old, rfl, -, -, rfl⟩ := publish_ok hpub
  have hk : k2 = k := by
    have := congrFun hint Object
    simp only [notifyCreated, Function.update_same] at this
    omega
  subst hk
  refine ⟨k2, by simp [notifyCreated], hfree, hobj, ?_⟩
  simp only [notifyCreated, List.length_set]
  rcases selectIndex_cases hsel with ⟨h0, -, -⟩ | ⟨-, hopen, hmax, hd⟩ | ⟨-, hgen, hg⟩
  · omega
  · obtain ⟨hk, hcase⟩ := selectDisregardIndex_ok hd
    rcases hcase with ⟨hlt, rfl⟩ | ⟨hge, hfirst, hnum, -, rfl⟩
    · refine ⟨rfl, Or.inl ⟨hopen, hmax, hk, by omega, hk.symm, rfl, rfl, rfl⟩⟩
    · simp only [FUObjectArray.Num] at hnum
      refine ⟨rfl, Or.inr (Or.inl ⟨hopen, hmax, hk, by omega, hfirst, by omega, hk.symm,
        by simp only; omega, rfl, by simp⟩)⟩
  · obtain ⟨hfirst, hlast, hcase⟩ := selectGCIndex_ok hg
    rcases hcase with ⟨rest, hrest, rfl⟩ | ⟨hnil, h0, hnum, -, rfl⟩
    · exact ⟨rfl, Or.inr (Or.inr (Or.inl ⟨hgen, hrest, hfirst, hlast, rfl, rfl, rfl⟩))⟩
    · simp only [FUObjectArray.Num] at hnum
      refine ⟨rfl, Or.inr (Or.inr (Or.inr ⟨hgen, hnil, hnil, h0, by omega, hlast, rfl, rfl,
        by simp⟩))⟩

/-! ## The layout of the two pools -/

theorem FreeUObjectIndex_fields {A A1 : FUObjectArray} {Object : ObjId}
    (h : FreeUObjectIndex A Object = .ok A1) :
    ∃ k : Nat, A.InternalIndex Object = (k : Int) ∧ objectAt A k = some Object ∧
      k < A.ObjObjects.length ∧
      (∀ i, objectAt A1 i = if i = k then none else objectAt A i) ∧
      A1.ObjFirstGCIndex = A.ObjFirstGCIndex ∧ A1.ObjLastNonGCIndex = A.ObjLastNonGCIndex ∧
      A1.MaxObjectsNotConsideredByGC = A.MaxObjectsNotConsideredByGC ∧
      A1.ObjObjects.length = A.ObjObjects.length ∧
      A1.ObjAvailableList =
        (if (k : Int) > A.ObjLastNonGCIndex ∧ A.GExitPurge = false ∧
            A.bShouldRecycleObjectIndices = true
         then A.ObjAvailableList ++ [(k : Int)] else A.ObjAvailableList) := by
  obtain ⟨k, hk, hobj, -, hobj1, -, -⟩ := FreeUObjectIndex_slots h
  obtain ⟨k2, Old, hk2, hget, -, rfl⟩ := FreeUObjectIndex_ok h
  have : k2 = k := by omega
  subst this
  exact ⟨k2, hk, hobj, lt_length_of_getElem? hget, hobj1, rfl, rfl, rfl, by simp, rfl⟩

/-- What the operations other than allocate and free leave alone. -/
theorem step_frame {B : Build} {A A1 : FUObjectArray} {op : Op}
    (h : step B A op = .ok A1)
    (hop : ∀ Object InitialFlags AlreadyAllocatedIndex SerialNumber,
      op ≠ .allocate Object InitialFlags AlreadyAllocatedIndex SerialNumber)
    (hop2 : ∀ Object, op ≠ .free Object) :
    (∀ i, objectAt A1 i = objectAt A i) ∧ A1.ObjObjects.length = A.ObjObjects.length ∧
    A1.ObjAvailableList = A.ObjAvailableList ∧
    A1.ObjLastNonGCIndex = A.ObjLastNonGCIndex ∧
    (A1.MaxObjectsNotConsideredByGC = A.MaxObjectsNotConsideredByGC ∨
      A1.MaxObjectsNotConsideredByGC = 0) ∧
    (0 ≤ A.ObjFirstGCIndex → 0 ≤ A1.ObjFirstGCIndex) := by
  cases op with
  | allocate Object InitialFlags AlreadyAllocatedIndex SerialNumber =>
    exact absurd rfl (hop Object InitialFlags AlreadyAllocatedIndex SerialNumber)
  | free Object => exact absurd rfl (hop2 Object)
  | notifyDeleted Object =>
    obtain ⟨-, rfl⟩ := RemoveObjectFromDeleteListeners_ok h
    exact ⟨fun _ => rfl, rfl, rfl, rfl, Or.inl rfl, fun h0 => h0⟩
  | openDisregard =>
    obtain ⟨-, rfl⟩ := OpenDisregardForGC_ok h
    exact ⟨fun _ => rfl, rfl, rfl, rfl, Or.inl rfl, fun h0 => h0⟩
  | closeDisregard =>
    obtain ⟨-, rfl⟩ := CloseDisregardForGC_ok h
    refine ⟨fun i => objectAt_closedSlots (B := B) (A := A) rfl i, length_closedSlots B A,
      rfl, rfl, Or.inl rfl, fun h0 => ?_⟩
    simp only
    omega
  | disableDisregard =>
    have hA1 := DisableDisregardForGC_ok h
    refine ⟨fun i => objectAt_disabled (B := B) (A := A) (by rw [hA1]) i, ?_, by rw [hA1],
      by rw [hA1], Or.inr (by rw [hA1]), fun _ => ?_⟩
    · rw [hA1]
      simp only
      split
      · exact length_closedSlots B A
      · rfl
    · rw [hA1]
      simp only
      split <;> omega
  | serialOf Index =>
    simp only [step] at h
    cases hser : AllocateSerialNumber B A Index with
    | error e => simp [hser] at h
    | ok p =>
      obtain ⟨SerialNumber, A2⟩ := p
      simp only [hser, Except.ok.injEq] at h
      subst h
      obtain ⟨k, Old, -, hget, -, hcase⟩ := AllocateSerialNumber_ok hser
      rcases hcase with ⟨-, -, rfl⟩ | ⟨-, -, -, rfl⟩
      · exact ⟨fun _ => rfl, rfl, rfl, rfl, Or.inl rfl, fun h0 => h0⟩
      · refine ⟨fun i => ?_, by simp, rfl, rfl, Or.inl rfl, fun h0 => h0⟩
        rw [objectAt_set (A := A) (k := k) rfl (lt_length_of_getElem? hget) i]
        by_cases hik : i = k
        · simp [objectAt, hik, hget]
        · simp [hik]
  | resetSerial Object =>
    obtain ⟨k, Old, -, hget, rfl⟩ := ResetSerialNumber_ok h
    refine ⟨fun i => ?_, by simp, rfl, rfl, Or.inl rfl, fun h0 => h0⟩
    rw [objectAt_set (A := A) (k := k) rfl (lt_length_of_getElem? hget) i]
    by_cases hik : i = k
    · simp [objectAt, hik, hget]
    · simp [hik]

theorem allocate_PoolLayout {B : Build} {A A3 : FUObjectArray} {Object : ObjId}
    {InitialFlags : Nat} {AlreadyAllocatedIndex SerialNumber : Int}
    (hinv : PoolLayout A)
    (h : AllocateUObjectIndex B A Object InitialFlags AlreadyAllocatedIndex SerialNumber
      = .ok A3) (hneg : AlreadyAllocatedIndex < 0) : PoolLayout A3 := by
  obtain ⟨hmax, hocc, havail, hnodup⟩ := hinv
  simp only [FUObjectArray.Num] at hmax
  obtain ⟨k, -, hfree, hobj, hfirst, hpath⟩ := AllocateUObjectIndex_paths h hneg
  rcases hpath with ⟨-, -, hk, hlt, hl3, hm3, ha3, hlen3⟩ |
      ⟨-, -, hk, hge, hf, hnum, hl3, hm3, ha3, hlen3⟩ |
      ⟨-, hlist, hkf, hkl, hl3, hm3, hlen3⟩ |
      ⟨-, hnil, hnil3, h0, hnum, hkl, hl3, hm3, hlen3⟩
  · -- a slot of the reserved disregard range
    refine ⟨?_, ?_, ?_, ?_⟩
    · simp only [FUObjectArray.Num]; omega
    · intro i O hO
      rw [hobj i] at hO
      by_cases hik : i = k
      · left; rw [hl3, hik]
      · simp only [hik, if_false] at hO
        rcases hocc i O hO with hle | ⟨g1, g2, g3⟩
        · left; omega
        · right; exact ⟨by omega, by omega, by omega⟩
    · intro x hx
      rw [ha3] at hx
      obtain ⟨⟨g1, g2, g3⟩, j, hj, hjlen, hjfree⟩ := havail x hx
      refine ⟨⟨by omega, by omega, by omega⟩, j, hj, by omega, ?_⟩
      rw [hobj j]
      have hjk : j ≠ k := by omega
      simp [hjk, hjfree]
    · rw [ha3]; exact hnodup
  · -- a slot appended to the disregard range
    have hempty : A.ObjAvailableList = [] := by
      cases hl : A.ObjAvailableList with
      | nil => rfl
      | cons x rest =>
        have hx : x ∈ A.ObjAvailableList := by rw [hl]; simp
        have := (havail x hx).1.1
        omega
    refine ⟨?_, ?_, ?_, ?_⟩
    · simp only [FUObjectArray.Num]; omega
    · intro i O hO
      rw [hobj i] at hO
      by_cases hik : i = k
      · left; rw [hl3, hik]
      · simp only [hik, if_false] at hO
        rcases hocc i O hO with hle | ⟨g1, g2, g3⟩
        · left; omega
        · omega
    · intro x hx
      rw [ha3, hempty] at hx
      cases hx
    · rw [ha3]; exact hnodup
  · -- a popped recycled index
    have hnodup2 : (A3.ObjAvailableList ++ [(k : Int)]).Nodup := hlist ▸ hnodup
    have hknot : (k : Int) ∉ A3.ObjAvailableList := by
      intro hmem
      have := List.disjoint_of_nodup_append hnodup2 hmem (by simp)
      exact this
    have hkmem : (k : Int) ∈ A.ObjAvailableList := by rw [hlist]; simp
    obtain ⟨⟨k1, k2, k3⟩, -⟩ := havail (k : Int) hkmem
    refine ⟨?_, ?_, ?_, ?_⟩
    · simp only [FUObjectArray.Num]; omega
    · intro i O hO
      rw [hobj i] at hO
      by_cases hik : i = k
      · right; rw [hik]; exact ⟨by omega, by omega, by omega⟩
      · simp only [hik, if_false] at hO
        rcases hocc i O hO with hle | ⟨g1, g2, g3⟩
        · left; omega
        · right; exact ⟨by omega, by omega, by omega⟩
    · intro x hx
      have hxA : x ∈ A.ObjAvailableList := by rw [hlist]; simp [hx]
      obtain ⟨⟨g1, g2, g3⟩, j, hj, hjlen, hjfree⟩ := havail x hxA
      refine ⟨⟨by omega, by omega, by omega⟩, j, hj, by omega, ?_⟩
      rw [hobj j]
      have hjk : j ≠ k := by
        intro hc
        apply hknot
        rw [← hc, ← hj]
        exact hx
      simp [hjk, hjfree]
    · exact (List.nodup_append.mp hnodup2).1
  · -- a slot appended to the regular pool
    refine ⟨?_, ?_, ?_, ?_⟩
    · simp only [FUObjectArray.Num]; omega
    · intro i O hO
      rw [hobj i] at hO
      by_cases hik : i = k
      · right; rw [hik]; exact ⟨by omega, by omega, by omega⟩
      · simp only [hik, if_false] at hO
        rcases hocc i O hO with hle | ⟨g1, g2, g3⟩
        · left; omega
        · right; exact ⟨by omega, by omega, by omega⟩
    · intro x hx
      rw [hnil3] at hx
      cases hx
    · rw [hnil3]; exact List.nodup_nil

theorem free_PoolLayout {A A1 : FUObjectArray} {Object : ObjId}
    (hinv : PoolLayout A) (h : FreeUObjectIndex A Object = .ok A1) : PoolLayout A1 := by
  obtain ⟨hmax, hocc, havail, hnodup⟩ := hinv
  simp only [FUObjectArray.Num] at hmax
  obtain ⟨k, -, hkobj, hklen, hobj, hf, hl, hm, hlen, ha⟩ := FreeUObjectIndex_fields h
  have hstay : ∀ x ∈ A.ObjAvailableList, GCRange A1 x ∧
      ∃ j : Nat, x = (j : Int) ∧ j < A1.ObjObjects.length ∧ objectAt A1 j = none := by
    intro x hx
    obtain ⟨⟨g1, g2, g3⟩, j, hj, hjlen, hjfree⟩ := havail x hx
    refine ⟨⟨by omega, by omega, by omega⟩, j, hj, by omega, ?_⟩
    rw [hobj j]
    split
    · rfl
    · exact hjfree
  refine ⟨?_, ?_, ?_, ?_⟩
  · simp only [FUObjectArray.Num]; omega
  · intro i O hO
    rw [hobj i] at hO
    by_cases hik : i = k
    · simp [hik] at hO
    · simp only [hik, if_false] at hO
      rcases hocc i O hO with hle | ⟨g1, g2, g3⟩
      · left; omega
      · right; exact ⟨by omega, by omega, by omega⟩
  · intro x hx
    rw [ha] at hx
    split at hx
    · rename_i hc
      rcases List.mem_append.mp hx with hx1 | hx1
      · exact hstay x hx1
      · simp only [List.mem_singleton] at hx1
        subst hx1
        rcases hocc k Object hkobj with hle | ⟨g1, g2, g3⟩
        · omega
        · refine ⟨⟨by omega, by omega, by omega⟩, k, rfl, by omega, ?_⟩
          rw [hobj k]; simp
    · exact hstay x hx
  · rw [ha]
    split
    · refine List.Nodup.append hnodup (List.nodup_singleton _) ?_
      intro x hx1 hx2
      simp only [List.mem_singleton] at hx2
      subst hx2
      obtain ⟨-, j, hj, -, hjfree⟩ := havail _ hx1
      have : j = k := by omega
      subst this
      rw [hkobj] at hjfree
      cases hjfree
    · exact hnodup

theorem step_PoolLayout {B : Build} {A A1 : FUObjectArray} {op : Op}
    (hinv : PoolLayout A) (hop : noExplicitIndex op = true) (h : step B A op = .ok A1) :
    PoolLayout A1 := by
  by_cases halloc : ∃ Object InitialFlags AlreadyAllocatedIndex SerialNumber,
      op = .allocate Object InitialFlags AlreadyAllocatedIndex SerialNumber
  · obtain ⟨Object, InitialFlags, AlreadyAllocatedIndex, SerialNumber, rfl⟩ := halloc
    simp only [noExplicitIndex, decide_eq_true_eq] at hop
    exact allocate_PoolLayout hinv h hop
  · by_cases hfree : ∃ Object, op = .free Object
    · obtain ⟨Object, rfl⟩ := hfree
      exact free_PoolLayout hinv h
    · have hop1 : ∀ Object InitialFlags AlreadyAllocatedIndex SerialNumber,
          op ≠ .allocate Object InitialFlags AlreadyAllocatedIndex SerialNumber :=
        fun a b c d hc => halloc ⟨a, b, c, d, hc⟩
      have hop2 : ∀ Object, op ≠ .free Object := fun a hc => hfree ⟨a, hc⟩
      obtain ⟨hobj, hlen, ha, hl, hm, hf⟩ := step_frame h hop1 hop2
      obtain ⟨hmax, hocc, havail, hnodup⟩ := hinv
      simp only [FUObjectArray.Num] at hmax
      have hG : ∀ x : Int, 0 ≤ x → GCRange A x → GCRange A1 x := by
        rintro x hx ⟨g1, g2, g3⟩
        refine ⟨hf g1, ?_, by omega⟩
        rcases hm with hm | hm <;> omega
      refine ⟨?_, ?_, ?_, ?_⟩
      · simp only [FUObjectArray.Num]
        rcases hm with hm | hm <;> omega
      · intro i O hO
        rw [hobj i] at hO
        rcases hocc i O hO with hle | hg
        · left; omega
        · right; exact hG _ (by omega) hg
      · intro x hx
        rw [ha] at hx
        obtain ⟨hg, j, hj, hjlen, hjfree⟩ := havail x hx
        exact ⟨hG x (by omega) hg, j, hj, by omega, by rw [hobj j]; exact hjfree⟩
      · rw [ha]; exact hnodup

/-- No operation changes the recycling switch or the exit purge flag. -/
theorem step_flags {B : Build} {A A1 : FUObjectArray} {op : Op}
    (h : step B A op = .ok A1) :
    A1.bShouldRecycleObjectIndices = A.bShouldRecycleObjectIndices ∧
    A1.GExitPurge = A.GExitPurge := by
  cases op with
  | allocate Object InitialFlags AlreadyAllocatedIndex SerialNumber =>
    obtain ⟨-, -, -, hr, hp, -⟩ := AllocateUObjectIndex_bounds h
    exact ⟨hr, hp⟩
  | free Object =>
    obtain ⟨k, Old, -, -, -, rfl⟩ := FreeUObjectIndex_ok h
    exact ⟨rfl, rfl⟩
  | notifyDeleted Object =>
    obtain ⟨-, rfl⟩ := RemoveObjectFromDeleteListeners_ok h
    exact ⟨rfl, rfl⟩
  | openDisregard =>
    obtain ⟨-, rfl⟩ := OpenDisregardForGC_ok h
    exact ⟨rfl, rfl⟩
  | closeDisregard =>
    obtain ⟨-, rfl⟩ := CloseDisregardForGC_ok h
    exact ⟨rfl, rfl⟩
  | disableDisregard =>
    have hA1 := DisableDisregardForGC_ok h
    subst hA1
    exact ⟨rfl, rfl⟩
  | serialOf Index =>
    simp only [step] at h
    cases hser : AllocateSerialNumber B A Index with
    | error e => simp [hser] at h
    | ok p =>
      obtain ⟨SerialNumber, A2⟩ := p
      simp only [hser, Except.ok.injEq] at h
      subst h
      obtain ⟨k, Old, -, -, -, hcase⟩ := AllocateSerialNumber_ok hser
      rcases hcase with ⟨-, -, rfl⟩ | ⟨-, -, -, rfl⟩
      · exact ⟨rfl, rfl⟩
      · exact ⟨rfl, rfl⟩
  | resetSerial Object =>
    obtain ⟨k, Old, -, -, rfl⟩ := ResetSerialNumber_ok h
    exact ⟨rfl, rfl⟩

theorem step_RecycledAll {B : Build} {A A1 : FUObjectArray} {op : Op} {Reserve : Int}
    (hrec : A.bShouldRecycleObjectIndices = true) (hpurge : A.GExitPurge = false)
    (hinv : RecycledAll Reserve A) (hop : noExplicitIndex op = true)
    (h : step B A op = .ok A1) : RecycledAll Reserve A1 := by
  by_cases halloc : ∃ Object InitialFlags AlreadyAllocatedIndex SerialNumber,
      op = .allocate Object InitialFlags AlreadyAllocatedIndex SerialNumber
  · obtain ⟨Object, InitialFlags, AlreadyAllocatedIndex, SerialNumber, rfl⟩ := halloc
    simp only [noExplicitIndex, decide_eq_true_eq] at hop
    obtain ⟨k, -, hfree, hobj, hfirst, hpath⟩ := AllocateUObjectIndex_paths h hop
    intro i hi hR hL hnone
    rw [hobj i] at hnone
    have hik : i ≠ k := by
      intro hc
      simp [hc] at hnone
    simp only [hik, if_false] at hnone
    rcases hpath with ⟨-, -, hk, hlt, hl3, hm3, ha3, hlen3⟩ |
        ⟨-, -, hk, hge, hf, hnum, hl3, hm3, ha3, hlen3⟩ |
        ⟨-, hlist, hkf, hkl, hl3, hm3, hlen3⟩ |
        ⟨-, hnil, hnil3, h0, hnum, hkl, hl3, hm3, hlen3⟩
    · rw [ha3]
      exact hinv i (by omega) hR (by omega) hnone
    · omega
    · have := hinv i (by omega) hR (by omega) hnone
      rw [hlist] at this
      rcases List.mem_append.mp this with hm | hm
      · exact hm
      · simp only [List.mem_singleton] at hm
        omega
    · have := hinv i (by omega) hR (by omega) hnone
      rw [hnil] at this
      cases this
  · by_cases hfree : ∃ Object, op = .free Object
    · obtain ⟨Object, rfl⟩ := hfree
      obtain ⟨k, -, hkobj, hklen, hobj, hf, hl, hm, hlen, ha⟩ := FreeUObjectIndex_fields h
      intro i hi hR hL hnone
      rw [ha]
      by_cases hik : i = k
      · subst hik
        have hc : (i : Int) > A.ObjLastNonGCIndex ∧ A.GExitPurge = false ∧
            A.bShouldRecycleObjectIndices = true := ⟨by omega, hpurge, hrec⟩
        rw [if_pos hc]
        simp
      · rw [hobj i] at hnone
        simp only [hik, if_false] at hnone
        have := hinv i (by omega) hR (by omega) hnone
        split
        · exact List.mem_append_left _ this
        · exact this
    · have hop1 : ∀ Object InitialFlags AlreadyAllocatedIndex SerialNumber,
          op ≠ .allocate Object InitialFlags AlreadyAllocatedIndex SerialNumber :=
        fun a b c d hc => halloc ⟨a, b, c, d, hc⟩
      have hop2 : ∀ Object, op ≠ .free Object := fun a hc => hfree ⟨a, hc⟩
      obtain ⟨hobj, hlen, ha, hl, hm, hf⟩ := step_frame h hop1 hop2
      intro i hi hR hL hnone
      rw [ha]
      rw [hobj i] at hnone
      exact hinv i (by omega) hR (by omega) hnone

/-- A property kept by every successful operation of a given kind holds after every
successful run of operations of that kind. -/
theorem run_induction_on {B : Build} (Q : Op → Bool) (P : FUObjectArray → Prop)
    (hstep : ∀ A A1 op, P A → Q op = true → step B A op = .ok A1 → P A1)
    {A A2 : FUObjectArray} {ops : List Op} (hops : ops.all Q = true) (h0 : P A)
    (h : run B A ops = .ok A2) : P A2 := by
  induction ops generalizing A with
  | nil =>
    simp only [run, Except.ok.injEq] at h
    exact h ▸ h0
  | cons op ops ih =>
    obtain ⟨A1, h1, h2⟩ := run_cons_ok h
    simp only [List.all_cons, Bool.and_eq_true] at hops
    exact ih hops.2 (hstep A A1 op h0 hops.1 h1) h2

theorem init_PoolLayout {B : Build} {InternalIndex : ObjId → Int}
    {bRecycle GExitPurge GIsInitialLoad EngineExitRequested : Bool}
    {InMaxUObjects Reserve : Int} {bPreAllocateObjectArray : Bool} {A0 : FUObjectArray}
    (h : initRegistry B InternalIndex bRecycle GExitPurge GIsInitialLoad EngineExitRequested
      InMaxUObjects Reserve bPreAllocateObjectArray = .ok A0) :
    PoolLayout A0 ∧ RecycledAll Reserve A0 ∧ A0.bShouldRecycleObjectIndices = bRecycle ∧
    A0.GExitPurge = GExitPurge := by
  obtain ⟨-, -, rfl⟩ := initRegistry_ok h
  refine ⟨⟨?_, ?_, ?_, ?_⟩, ?_, rfl, rfl⟩
  · simp only [FUObjectArray.Num, List.length_replicate]
    omega
  · intro i O hO
    rw [objectAt_replicate_empty (n := Reserve.toNat) rfl i] at hO
    cases hO
  · intro x hx
    simp only [construct] at hx
    cases hx
  · simp only [construct]
    exact List.nodup_nil
  · intro k hk hR
    simp only [List.length_replicate] at hk
    omega

/-- C5 (amended): in every state reached from a started registry by operations that do not
supply an explicit index, every index in the free list is above `ObjLastNonGCIndex` and is
the index of an existing empty slot, and no index is listed twice; and when recycling is on
and the process is not in exit purge, every empty slot above `ObjLastNonGCIndex` whose index
is at or beyond the reserve given at start is in the free list. -/
theorem C5_free_list_invariant (B : Build) (InternalIndex : ObjId → Int)
    (bRecycle GExitPurge GIsInitialLoad EngineExitRequested : Bool)
    (InMaxUObjects Reserve : Int) (bPreAllocateObjectArray : Bool) (ops : List Op)
    (A0 A : FUObjectArray)
    (hinit : initRegistry B InternalIndex bRecycle GExitPurge GIsInitialLoad
      EngineExitRequested InMaxUObjects Reserve bPreAllocateObjectArray = .ok A0)
    (hops : ops.all noExplicitIndex = true)
    (hrun : run B A0 ops = .ok A) :
    (∀ x ∈ A.ObjAvailableList, A.ObjLastNonGCIndex < x ∧
      ∃ k : Nat, x = (k : Int) ∧ k < A.ObjObjects.length ∧ objectAt A k = none) ∧
    A.ObjAvailableList.Nodup ∧
    (bRecycle = true → GExitPurge = false →
      ∀ k : Nat, k < A.ObjObjects.length → Reserve ≤ (k : Int) →
        A.ObjLastNonGCIndex < (k : Int) → objectAt A k = none →
        (k : Int) ∈ A.ObjAvailableList) := by
  obtain ⟨hlayout0, hall0, hrec0, hpurge0⟩ := init_PoolLayout hinit
  have hlayout : PoolLayout A :=
    run_induction_on noExplicitIndex PoolLayout
      (fun _ _ _ hP hQ hs => step_PoolLayout hP hQ hs) hops hlayout0 hrun
  obtain ⟨-, -, havail, hnodup⟩ := hlayout
  refine ⟨fun x hx => ?_, hnodup, fun hrec hpurge => ?_⟩
  · obtain ⟨⟨-, -, g3⟩, hk⟩ := havail x hx
    exact ⟨g3, hk⟩
  · have hall : A.bShouldRecycleObjectIndices = true ∧ A.GExitPurge = false ∧
        RecycledAll Reserve A := by
      refine run_induction_on noExplicitIndex
        (fun X => X.bShouldRecycleObjectIndices = true ∧ X.GExitPurge = false ∧
          RecycledAll Reserve X)
        (fun X Y op hP hQ hs => ?_) hops ⟨by rw [hrec0, hrec], by rw [hpurge0, hpurge], hall0⟩
        hrun
      obtain ⟨hr, hp⟩ := step_flags hs
      exact ⟨by rw [hr]; exact hP.1, by rw [hp]; exact hP.2.1,
        step_RecycledAll hP.1 hP.2.1 hP.2.2 hQ hs⟩
    exact hall.2.2

theorem C4_disregard_permanence_witness :
    (sampleState sampleBuild 8 2 []).OpenForDisregardForGC = true ∧
    DisregardForGCEnabled (sampleState sampleBuild 8 2 []) = true ∧
    AllocateUObjectIndex sampleBuild (sampleState sampleBuild 8 2 []) 7 0 (-1) 0
      = .ok (sampleState sampleBuild 8 2 [.allocate 7 0 (-1) 0]) ∧
    run sampleBuild (sampleState sampleBuild 8 2 [.allocate 7 0 (-1) 0])
      [.allocate 9 0 (-1) 0, .closeDisregard, .allocate 11 0 (-1) 0, .free 11]
      = .ok (sampleState sampleBuild 8 2 [.allocate 7 0 (-1) 0, .allocate 9 0 (-1) 0,
          .closeDisregard, .allocate 11 0 (-1) 0, .free 11]) ∧
    (sampleState sampleBuild 8 2 [.allocate 7 0 (-1) 0]).InternalIndex 7 = 0 ∧
    (sampleState sampleBuild 8 2 [.allocate 7 0 (-1) 0, .allocate 9 0 (-1) 0,
      .closeDisregard, .allocate 11 0 (-1) 0, .free 11]).ObjAvailableList = [2] ∧
    (∀ A3, FreeUObjectIndex (sampleState sampleBuild 8 2 [.allocate 7 0 (-1) 0,
        .allocate 9 0 (-1) 0, .closeDisregard, .allocate 11 0 (-1) 0, .free 11]) 7 = .ok A3 →
      A3.ObjAvailableList = (sampleState sampleBuild 8 2 [.allocate 7 0 (-1) 0,
        .allocate 9 0 (-1) 0, .closeDisregard, .allocate 11 0 (-1) 0,
        .free 11]).ObjAvailableList) :=
  ⟨rfl, rfl, rfl, rfl, rfl, rfl,
    (C4_disregard_permanence sampleBuild (sampleState sampleBuild 8 2 [])
      (sampleState sampleBuild 8 2 [.allocate 7 0 (-1) 0])
      (sampleState sampleBuild 8 2 [.allocate 7 0 (-1) 0, .allocate 9 0 (-1) 0,
        .closeDisregard, .allocate 11 0 (-1) 0, .free 11])
      7 0 (-1) 0 [.allocate 9 0 (-1) 0, .closeDisregard, .allocate 11 0 (-1) 0, .free 11]
      (by rfl) (by rfl) (by decide) (by rfl) (by rfl)).2.2.1⟩

/-- C5, as stated, fails in both directions. Right after a start with a reserve of two
slots, slot `0` is empty and above `ObjLastNonGCIndex` but not in the free list. And after
an allocate, a free and an allocate with the explicit index `0`, index `0` is in the free
list while slot `0` is occupied. In neither state is membership in the free list equivalent
to the slot being empty with an index above `ObjLastNonGCIndex`. -/
theorem C5_free_list_counterexample :
    (sampleRun sampleBuild 8 2 [] = .ok (sampleState sampleBuild 8 2 []) ∧
      objectAt (sampleState sampleBuild 8 2 []) 0 = none ∧
      0 < (sampleState sampleBuild 8 2 []).ObjObjects.length ∧
      (sampleState sampleBuild 8 2 []).ObjLastNonGCIndex < 0 ∧
      (0 : Int) ∉ (sampleState sampleBuild 8 2 []).ObjAvailableList ∧
      ¬ ((0 : Int) ∈ (sampleState sampleBuild 8 2 []).ObjAvailableList ↔
        (0 < (sampleState sampleBuild 8 2 []).ObjObjects.length ∧
          objectAt (sampleState sampleBuild 8 2 []) 0 = none ∧
          (sampleState sampleBuild 8 2 []).ObjLastNonGCIndex < 0))) ∧
    (sampleRun sampleBuild 8 0 [.allocate 7 0 (-1) 0, .free 7, .allocate 9 0 0 0]
        = .ok (sampleState sampleBuild 8 0
          [.allocate 7 0 (-1) 0, .free 7, .allocate 9 0 0 0]) ∧
      (0 : Int) ∈ (sampleState sampleBuild 8 0
        [.allocate 7 0 (-1) 0, .free 7, .allocate 9 0 0 0]).ObjAvailableList ∧
      objectAt (sampleState sampleBuild 8 0
        [.allocate 7 0 (-1) 0, .free 7, .allocate 9 0 0 0]) 0 = some 9 ∧
      ¬ ((0 : Int) ∈ (sampleState sampleBuild 8 0
          [.allocate 7 0 (-1) 0, .free 7, .allocate 9 0 0 0]).ObjAvailableList ↔
        (0 < (sampleState sampleBuild 8 0
            [.allocate 7 0 (-1) 0, .free 7, .allocate 9 0 0 0]).ObjObjects.length ∧
          objectAt (sampleState sampleBuild 8 0
            [.allocate 7 0 (-1) 0, .free 7, .allocate 9 0 0 0]) 0 = none ∧
          (sampleState sampleBuild 8 0
            [.allocate 7 0 (-1) 0, .free 7, .allocate 9 0 0 0]).ObjLastNonGCIndex < 0))) := by
  have h1 : objectAt (sampleState sampleBuild 8 2 []) 0 = none := rfl
  have h2 : 0 < (sampleState sampleBuild 8 2 []).ObjObjects.length := by decide
  have h3 : (sampleState sampleBuild 8 2 []).ObjLastNonGCIndex < 0 := by decide
  have h4 : (0 : Int) ∉ (sampleState sampleBuild 8 2 []).ObjAvailableList := by decide
  have h5 : (0 : Int) ∈ (sampleState sampleBuild 8 0
      [.allocate 7 0 (-1) 0, .free 7, .allocate 9 0 0 0]).ObjAvailableList := by decide
  have h6 : objectAt (sampleState sampleBuild 8 0
      [.allocate 7 0 (-1) 0, .free 7, .allocate 9 0 0 0]) 0 = some 9 := rfl
  refine ⟨⟨rfl, h1, h2, h3, h4, fun hiff => h4 (hiff.mpr ⟨h2, h1, h3⟩)⟩,
    rfl, h5, h6, fun hiff => ?_⟩
  have h7 := (hiff.mp h5).2.1
  rw [h6] at h7
  cases h7

theorem C5_free_list_invariant_witness :
    sampleInit sampleBuild 8 2 = .ok (sampleState sampleBuild 8 2 []) ∧
    List.all [Op.allocate 7 0 (-1) 0, .allocate 9 0 (-1) 0, .closeDisregard,
      .allocate 11 0 (-1) 0, .allocate 12 0 (-1) 0, .free 11] noExplicitIndex = true ∧
    run sampleBuild (sampleState sampleBuild 8 2 [])
      [.allocate 7 0 (-1) 0, .allocate 9 0 (-1) 0, .closeDisregard,
        .allocate 11 0 (-1) 0, .allocate 12 0 (-1) 0, .free 11]
      = .ok (sampleState sampleBuild 8 2
        [.allocate 7 0 (-1) 0, .allocate 9 0 (-1) 0, .closeDisregard,
          .allocate 11 0 (-1) 0, .allocate 12 0 (-1) 0, .free 11]) ∧
    (sampleState sampleBuild 8 2
      [.allocate 7 0 (-1) 0, .allocate 9 0 (-1) 0, .closeDisregard,
        .allocate 11 0 (-1) 0, .allocate 12 0 (-1) 0, .free 11]).ObjAvailableList = [2] ∧
    (∀ x ∈ (sampleState sampleBuild 8 2
        [.allocate 7 0 (-1) 0, .allocate 9 0 (-1) 0, .closeDisregard,
          .allocate 11 0 (-1) 0, .allocate 12 0 (-1) 0, .free 11]).ObjAvailableList,
      (sampleState sampleBuild 8 2
        [.allocate 7 0 (-1) 0, .allocate 9 0 (-1) 0, .closeDisregard,
          .allocate 11 0 (-1) 0, .allocate 12 0 (-1) 0, .free 11]).ObjLastNonGCIndex < x ∧
      ∃ k : Nat, x = (k : Int) ∧
        k < (sampleState sampleBuild 8 2
          [.allocate 7 0 (-1) 0, .allocate 9 0 (-1) 0, .closeDisregard,
            .allocate 11 0 (-1) 0, .allocate 12 0 (-1) 0, .free 11]).ObjObjects.length ∧
        objectAt (sampleState sampleBuild 8 2
          [.allocate 7 0 (-1) 0, .allocate 9 0 (-1) 0, .closeDisregard,
            .allocate 11 0 (-1) 0, .allocate 12 0 (-1) 0, .free 11]) k = none) :=
  ⟨rfl, rfl, rfl, rfl,
    (C5_free_list_invariant sampleBuild (fun _ => INDEX_NONE) true false true false 8 2 false
      [.allocate 7 0 (-1) 0, .allocate 9 0 (-1) 0, .closeDisregard,
        .allocate 11 0 (-1) 0, .allocate 12 0 (-1) 0, .free 11]
      (sampleState sampleBuild 8 2 [])
      (sampleState sampleBuild 8 2
        [.allocate 7 0 (-1) 0, .allocate 9 0 (-1) 0, .closeDisregard,
          .allocate 11 0 (-1) 0, .allocate 12 0 (-1) 0, .free 11])
      (by rfl) (by rfl) (by rfl)).1⟩

/-! ## Closing the disregard pool -/

set_option maxRecDepth 100000 in
/-- After a start with a reserve of 100 and 40 default allocate calls, the last disregard
index is 39, the declared maximum is still 100, and closing sets `ObjFirstGCIndex` to 40. -/
theorem close_after_forty :
    sampleRun sampleBuild 200 100 (allocateCalls 40)
        = .ok (sampleState sampleBuild 200 100 (allocateCalls 40)) ∧
      (sampleState sampleBuild 200 100 (allocateCalls 40)).ObjLastNonGCIndex = 39 ∧
      (sampleState sampleBuild 200 100 (allocateCalls 40)).MaxObjectsNotConsideredByGC = 100 ∧
      CloseDisregardForGC sampleBuild (sampleState sampleBuild 200 100 (allocateCalls 40))
        = .ok (sampleState sampleBuild 200 100 (allocateCalls 40 ++ [.closeDisregard])) ∧
      (sampleState sampleBuild 200 100
        (allocateCalls 40 ++ [.closeDisregard])).ObjFirstGCIndex = 40 := by
  refine ⟨?_, ?_, ?_, ?_, ?_⟩
  · rfl
  · rfl
  · rfl
  · rfl
  · rfl

/-- C6: closing an open pool succeeds and leaves the pool closed, with `ObjFirstGCIndex`
the larger of its old value and `ObjLastNonGCIndex + 1`, and with `ObjLastNonGCIndex` and
the declared maximum unchanged; after a start with a reserve of 100 and 40 allocations
through the disregard path, closing gives `ObjFirstGCIndex = 40`. -/
theorem C6_close_freezes_boundary :
    (∀ (B : Build) (A : FUObjectArray), A.OpenForDisregardForGC = true →
      ∃ A1, CloseDisregardForGC B A = .ok A1 ∧ A1.OpenForDisregardForGC = false ∧
        A1.ObjFirstGCIndex = max A.ObjFirstGCIndex (A.ObjLastNonGCIndex + 1) ∧
        A1.ObjLastNonGCIndex = A.ObjLastNonGCIndex ∧
        A1.MaxObjectsNotConsideredByGC = A.MaxObjectsNotConsideredByGC) ∧
    (sampleRun sampleBuild 200 100 (allocateCalls 40)
        = .ok (sampleState sampleBuild 200 100 (allocateCalls 40)) ∧
      (sampleState sampleBuild 200 100 (allocateCalls 40)).ObjLastNonGCIndex = 39 ∧
      (sampleState sampleBuild 200 100 (allocateCalls 40)).MaxObjectsNotConsideredByGC = 100 ∧
      CloseDisregardForGC sampleBuild (sampleState sampleBuild 200 100 (allocateCalls 40))
        = .ok (sampleState sampleBuild 200 100 (allocateCalls 40 ++ [.closeDisregard])) ∧
      (sampleState sampleBuild 200 100
        (allocateCalls 40 ++ [.closeDisregard])).ObjFirstGCIndex = 40) := by
  exact ⟨fun B A hopen => ⟨_, CloseDisregardForGC_of_open B A hopen, rfl, rfl, rfl, rfl⟩,
    close_after_forty⟩

theorem C6_close_freezes_boundary_witness :
    (sampleState sampleBuild 8 2 [.allocate 7 0 (-1) 0]).OpenForDisregardForGC = true ∧
    ∃ A1, CloseDisregardForGC sampleBuild (sampleState sampleBuild 8 2 [.allocate 7 0 (-1) 0])
        = .ok A1 ∧ A1.OpenForDisregardForGC = false ∧
      A1.ObjFirstGCIndex = max
        (sampleState sampleBuild 8 2 [.allocate 7 0 (-1) 0]).ObjFirstGCIndex
        ((sampleState sampleBuild 8 2 [.allocate 7 0 (-1) 0]).ObjLastNonGCIndex + 1) ∧
      A1.ObjLastNonGCIndex
        = (sampleState sampleBuild 8 2 [.allocate 7 0 (-1) 0]).ObjLastNonGCIndex ∧
      A1.MaxObjectsNotConsideredByGC
        = (sampleState sampleBuild 8 2 [.allocate 7 0 (-1) 0]).MaxObjectsNotConsideredByGC :=
  ⟨rfl, C6_close_freezes_boundary.1 sampleBuild
    (sampleState sampleBuild 8 2 [.allocate 7 0 (-1) 0]) rfl⟩

/-! ## Validity of an object reference -/

/-- C10: `IsValid` is a total function that answers a truth value and a warning and returns
no state; it answers true exactly when the object's internal index is not `INDEX_NONE`, lies
within the slot table and the slot there holds that very object; and it answers false, with
a warning of its own, for an `INDEX_NONE` index, an index outside the table, an empty slot
and a slot holding another object. -/
theorem C10_is_valid (A : FUObjectArray) (Object : ObjId) :
    ((IsValid A Object).1 = true ↔
      (A.InternalIndex Object ≠ INDEX_NONE ∧ 0 ≤ A.InternalIndex Object ∧
        A.InternalIndex Object < A.Num ∧
        objectAt A (A.InternalIndex Object).toNat = some Object)) ∧
    (A.InternalIndex Object = INDEX_NONE →
      IsValid A Object = (false, some IsValidWarning.notInGlobalArray)) ∧
    (A.InternalIndex Object ≠ INDEX_NONE →
      (A.InternalIndex Object < 0 ∨ A.Num ≤ A.InternalIndex Object) →
      IsValid A Object = (false, some IsValidWarning.invalidObjectIndex)) ∧
    (A.InternalIndex Object ≠ INDEX_NONE → 0 ≤ A.InternalIndex Object →
      A.InternalIndex Object < A.Num →
      objectAt A (A.InternalIndex Object).toNat = none →
      IsValid A Object = (false, some IsValidWarning.emptySlot)) ∧
    (∀ Other, A.InternalIndex Object ≠ INDEX_NONE → 0 ≤ A.InternalIndex Object →
      A.InternalIndex Object < A.Num →
      objectAt A (A.InternalIndex Object).toNat = some Other → Other ≠ Object →
      IsValid A Object = (false, some IsValidWarning.otherObjectInSlot)) := by
  have key : ∀ (hnone : A.InternalIndex Object ≠ INDEX_NONE) (h0 : 0 ≤ A.InternalIndex Object)
      (hlt : A.InternalIndex Object < A.Num),
      ∃ Slot, A.ObjObjects[(A.InternalIndex Object).toNat]? = some Slot ∧
        objectAt A (A.InternalIndex Object).toNat = Slot.Object ∧
        IsValid A Object =
          (if Slot.Object = none then (false, some IsValidWarning.emptySlot)
           else if Slot.Object ≠ some Object then (false, some IsValidWarning.otherObjectInSlot)
           else (true, none)) := by
    intro hnone h0 hlt
    simp only [FUObjectArray.Num] at hlt
    have hlen : (A.InternalIndex Object).toNat < A.ObjObjects.length := by omega
    have hget : A.ObjObjects[(A.InternalIndex Object).toNat]?
        = some (A.ObjObjects[(A.InternalIndex Object).toNat]) := List.getElem?_eq_getElem hlen
    refine ⟨_, hget, by simp [objectAt, hget], ?_⟩
    unfold IsValid
    have hv : IsValidIndex A (A.InternalIndex Object) = true := by
      simp [IsValidIndex, FUObjectArray.Num, h0]; omega
    simp only [hnone, if_false, hv, Bool.not_true, Bool.false_eq_true, hget]
  have outside : A.InternalIndex Object ≠ INDEX_NONE →
      (A.InternalIndex Object < 0 ∨ A.Num ≤ A.InternalIndex Object) →
      IsValid A Object = (false, some IsValidWarning.invalidObjectIndex) := by
    intro hnone hout
    unfold IsValid
    have hv : IsValidIndex A (A.InternalIndex Object) = false := by
      simp only [IsValidIndex, Bool.and_eq_false_iff, decide_eq_false_iff_not]
      rcases hout with h | h
      · left; omega
      · right; omega
    simp [hnone, hv]
  refine ⟨⟨fun hvalid => ?_, fun ⟨hnone, h0, hlt, hobj⟩ => ?_⟩, fun hnone => ?_, outside,
    fun hnone h0 hlt hobj => ?_, fun Other hnone h0 hlt hobj hne => ?_⟩
  · by_cases hnone : A.InternalIndex Object = INDEX_NONE
    · simp [IsValid, hnone] at hvalid
    · by_cases hin : 0 ≤ A.InternalIndex Object ∧ A.InternalIndex Object < A.Num
      · obtain ⟨Slot, -, hobj, hval⟩ := key hnone hin.1 hin.2
        refine ⟨hnone, hin.1, hin.2, ?_⟩
        rw [hobj]
        rw [hval] at hvalid
        by_cases h1 : Slot.Object = none
        · simp [h1] at hvalid
        · by_cases h2 : Slot.Object = some Object
          · exact h2
          · simp [h1, h2] at hvalid
      · have hout : A.InternalIndex Object < 0 ∨ A.Num ≤ A.InternalIndex Object := by omega
        rw [outside hnone hout] at hvalid
        cases hvalid
  · obtain ⟨Slot, -, hobj2, hval⟩ := key hnone h0 hlt
    rw [hval]
    rw [hobj2] at hobj
    simp [hobj]
  · simp [IsValid, hnone]
  · obtain ⟨Slot, -, hobj2, hval⟩ := key hnone h0 hlt
    rw [hval]
    rw [hobj2] at hobj
    simp [hobj]
  · obtain ⟨Slot, -, hobj2, hval⟩ := key hnone h0 hlt
    rw [hval]
    rw [hobj2] at hobj
    simp [hobj, hne]

theorem C10_is_valid_witness :
    IsValid (sampleState sampleBuild 8 0 [.allocate 7 0 (-1) 0, .allocate 9 0 (-1) 0, .free 9,
      .allocate 11 0 (-1) 0]) 7 = (true, none) ∧
    IsValid (sampleState sampleBuild 8 0 [.allocate 7 0 (-1) 0, .allocate 9 0 (-1) 0, .free 9,
      .allocate 11 0 (-1) 0]) 9 = (false, some IsValidWarning.otherObjectInSlot) ∧
    IsValid (sampleState sampleBuild 8 0 [.allocate 7 0 (-1) 0, .allocate 9 0 (-1) 0, .free 9])
      9 = (false, some IsValidWarning.emptySlot) ∧
    IsValid (sampleState sampleBuild 8 0 [.allocate 7 0 (-1) 0]) 9
      = (false, some IsValidWarning.notInGlobalArray) :=
  ⟨rfl,
    (C10_is_valid (sampleState sampleBuild 8 0 [.allocate 7 0 (-1) 0, .allocate 9 0 (-1) 0,
      .free 9, .allocate 11 0 (-1) 0]) 9).2.2.2.2 11 (by decide) (by decide) (by decide)
      (by rfl) (by decide),
    rfl, rfl⟩

/-! ## Serial numbers -/

theorem wrapInt32_of_range {x : Int} (h1 : -2147483648 ≤ x) (h2 : x ≤ 2147483647) :
    wrapInt32 x = x := by
  unfold wrapInt32
  omega

theorem wrapInt32_le (x : Int) : wrapInt32 x ≤ 2147483647 := by
  unfold wrapInt32
  omega

theorem wrapInt32_succ_of_gt {p s : Int} (hs : -2147483648 ≤ s) (hp1 : s ≤ p)
    (hp2 : p ≤ 2147483647) (hgt : s < wrapInt32 (p + 1)) : wrapInt32 (p + 1) = p + 1 := by
  unfold wrapInt32 at hgt ⊢
  omega

theorem serialAt_of_getElem {A : FUObjectArray} {k : Nat} {Old : FUObjectItem}
    (h : A.ObjObjects[k]? = some Old) : serialAt A k = Old.SerialNumber := by
  simp [serialAt, h]

/-- How one operation that supplies no serial number changes the stored serial numbers and
the counter: either the counter stays and every slot keeps its serial number or has it
zeroed, or one slot with serial number zero receives the incremented counter. -/
theorem step_serials {B : Build} {A A1 : FUObjectArray} {op : Op}
    (hop : defaultSerial op = true) (h : step B A op = .ok A1) :
    (A1.PrimarySerialNumber = A.PrimarySerialNumber ∧
      ∀ i, serialAt A1 i = serialAt A i ∨ serialAt A1 i = 0) ∨
    (∃ k : Nat, serialAt A k = 0 ∧
      A1.PrimarySerialNumber = wrapInt32 (A.PrimarySerialNumber + 1) ∧
      B.START_SERIAL_NUMBER < A1.PrimarySerialNumber ∧
      ∀ i, serialAt A1 i = if i = k then A1.PrimarySerialNumber else serialAt A i) := by
  cases op with
  | allocate Object InitialFlags AlreadyAllocatedIndex SerialNumber =>
    simp only [defaultSerial, decide_eq_true_eq] at hop
    subst hop
    obtain ⟨-, k, -, -, -, hser, hprim⟩ := AllocateUObjectIndex_slots h
    refine Or.inl ⟨hprim, fun i => ?_⟩
    rw [hser i]
    by_cases hik : i = k <;> simp [hik]
  | free Object =>
    obtain ⟨k, -, -, -, -, hser, hprim⟩ := FreeUObjectIndex_slots h
    refine Or.inl ⟨hprim, fun i => ?_⟩
    rw [hser i]
    by_cases hik : i = k <;> simp [hik]
  | notifyDeleted Object =>
    obtain ⟨-, rfl⟩ := RemoveObjectFromDeleteListeners_ok h
    exact Or.inl ⟨rfl, fun _ => Or.inl rfl⟩
  | openDisregard =>
    obtain ⟨-, rfl⟩ := OpenDisregardForGC_ok h
    exact Or.inl ⟨rfl, fun _ => Or.inl rfl⟩
  | closeDisregard =>
    obtain ⟨-, rfl⟩ := CloseDisregardForGC_ok h
    exact Or.inl ⟨rfl, fun i => Or.inl (serialAt_closedSlots (B := B) (A := A) rfl i)⟩
  | disableDisregard =>
    have hA1 := DisableDisregardForGC_ok h
    exact Or.inl ⟨by rw [hA1],
      fun i => Or.inl (serialAt_disabled (B := B) (A := A) (by rw [hA1]) i)⟩
  | serialOf Index =>
    simp only [step] at h
    cases hser : AllocateSerialNumber B A Index with
    | error e => simp [hser] at h
    | ok p =>
      obtain ⟨SerialNumber, A2⟩ := p
      simp only [hser, Except.ok.injEq] at h
      subst h
      obtain ⟨k, Old, -, hget, -, hcase⟩ := AllocateSerialNumber_ok hser
      rcases hcase with ⟨-, -, rfl⟩ | ⟨hzero, hv, hgt, rfl⟩
      · exact Or.inl ⟨rfl, fun _ => Or.inl rfl⟩
      · refine Or.inr ⟨k, by rw [serialAt_of_getElem hget, hzero], hv, hgt, fun i => ?_⟩
        rw [serialAt_set (A := A) (k := k) rfl (lt_length_of_getElem? hget) i]
  | resetSerial Object =>
    obtain ⟨k, Old, -, hget, rfl⟩ := ResetSerialNumber_ok h
    refine Or.inl ⟨rfl, fun i => ?_⟩
    rw [serialAt_set (A := A) (k := k) rfl (lt_length_of_getElem? hget) i]
    by_cases hik : i = k <;> simp [hik]

theorem step_SerialsBounded {B : Build} {A A1 : FUObjectArray} {op : Op}
    (hS : -2147483648 ≤ B.START_SERIAL_NUMBER)
    (hinv : SerialsBounded B A) (hop : defaultSerial op = true) (h : step B A op = .ok A1) :
    SerialsBounded B A1 ∧ A.PrimarySerialNumber ≤ A1.PrimarySerialNumber := by
  obtain ⟨hlo, hhi, hall⟩ := hinv
  rcases step_serials hop h with ⟨hprim, hser⟩ | ⟨k, hk, hprim, hgt, hser⟩
  · refine ⟨⟨by omega, by omega, fun i hi => ?_⟩, by omega⟩
    rcases hser i with hs | hs
    · rw [hs] at hi ⊢
      rw [hprim]
      exact hall i hi
    · exact absurd hs hi
  · rw [hprim] at hgt
    have hsucc := wrapInt32_succ_of_gt hS hlo hhi hgt
    rw [hsucc] at hprim
    have hle := wrapInt32_le (A.PrimarySerialNumber + 1)
    rw [hsucc] at hle
    refine ⟨⟨by omega, by omega, fun i hi => ?_⟩, by omega⟩
    rw [hser i] at hi ⊢
    by_cases hik : i = k
    · simp only [hik, if_true]
      omega
    · simp only [hik, if_false] at hi ⊢
      have := hall i hi
      omega

theorem step_SerialsDistinct {B : Build} {A A1 : FUObjectArray} {op : Op}
    (hS : -2147483648 ≤ B.START_SERIAL_NUMBER)
    (hb : SerialsBounded B A) (hinv : SerialsDistinct A)
    (hop : defaultSerial op = true) (h : step B A op = .ok A1) : SerialsDistinct A1 := by
  obtain ⟨hlo, hhi, hall⟩ := hb
  rcases step_serials hop h with ⟨hprim, hser⟩ | ⟨k, hk, hprim, hgt, hser⟩
  · intro i j hi hij
    have hsi : serialAt A1 i = serialAt A i := by
      rcases hser i with hs | hs
      · exact hs
      · exact absurd hs hi
    have hsj : serialAt A1 j = serialAt A j := by
      rcases hser j with hs | hs
      · exact hs
      · rw [hij] at hi; exact absurd hs hi
    rw [hsi] at hi
    rw [hsi, hsj] at hij
    exact hinv i j hi hij
  · rw [hprim] at hgt
    have hsucc := wrapInt32_succ_of_gt hS hlo hhi hgt
    rw [hsucc] at hprim
    intro i j hi hij
    rw [hser i] at hi
    rw [hser i, hser j] at hij
    by_cases hik : i = k <;> by_cases hjk : j = k
    · omega
    · simp only [hik, hjk, if_true, if_false] at hij
      have hj0 : serialAt A j ≠ 0 := by omega
      have := hall j hj0
      omega
    · simp only [hik, hjk, if_true, if_false] at hi hij
      have := hall i hi
      omega
    · simp only [hik, hjk, if_false] at hi hij
      exact hinv i j hi hij

theorem init_Serials {B : Build} {InternalIndex : ObjId → Int}
    {bRecycle GExitPurge GIsInitialLoad EngineExitRequested : Bool}
    {InMaxUObjects Reserve : Int} {bPreAllocateObjectArray : Bool} {A0 : FUObjectArray}
    (hS : B.START_SERIAL_NUMBER ≤ 2147483647)
    (h : initRegistry B InternalIndex bRecycle GExitPurge GIsInitialLoad EngineExitRequested
      InMaxUObjects Reserve bPreAllocateObjectArray = .ok A0) :
    SerialsBounded B A0 ∧ SerialsDistinct A0 := by
  obtain ⟨-, -, rfl⟩ := initRegistry_ok h
  have hz : ∀ i, serialAt { construct B InternalIndex bRecycle GExitPurge GIsInitialLoad
      EngineExitRequested with
      MaxObjectsNotConsideredByGC := Reserve
      ObjFirstGCIndex := if 0 < Reserve then -1 else 0
      MaxElements := InMaxUObjects
      ObjObjects := List.replicate Reserve.toNat FUObjectItem.empty } i = 0 :=
    fun i => serialAt_replicate_empty (n := Reserve.toNat) rfl i
  refine ⟨⟨le_refl _, hS, fun i hi => absurd (hz i) hi⟩, fun i j hi _ => absurd (hz i) hi⟩

theorem run_Serials {B : Build} {A A2 : FUObjectArray} {ops : List Op}
    (hS : -2147483648 ≤ B.START_SERIAL_NUMBER)
    (hb : SerialsBounded B A) (hd : SerialsDistinct A)
    (hops : ops.all defaultSerial = true) (hrun : run B A ops = .ok A2) :
    A.PrimarySerialNumber ≤ A2.PrimarySerialNumber ∧ SerialsBounded B A2 ∧
    SerialsDistinct A2 := by
  refine run_induction_on defaultSerial
    (fun X => A.PrimarySerialNumber ≤ X.PrimarySerialNumber ∧ SerialsBounded B X ∧
      SerialsDistinct X)
    (fun X Y op hP hQ hs => ?_) hops ⟨le_refl _, hb, hd⟩ hrun
  obtain ⟨hb2, hmono⟩ := step_SerialsBounded hS hP.2.1 hQ hs
  exact ⟨le_trans hP.1 hmono, hb2, step_SerialsDistinct hS hP.2.1 hP.2.2 hQ hs⟩

/-- C9 (amended): with a non-negative `int32` sentinel, along every run from a started
registry in which no allocate call supplies a serial number, the counter never decreases;
every non-zero serial number stored in a slot lies above the sentinel and at or below the
counter; no two slots store the same non-zero serial number; and a serial number newly
assigned by `AllocateSerialNumber` is the counter plus one, becomes the counter, and differs
from every serial number stored in any slot of the current state and of every earlier state
of the run. -/
theorem C9_serial_uniqueness (B : Build) (InternalIndex : ObjId → Int)
    (bRecycle GExitPurge GIsInitialLoad EngineExitRequested : Bool)
    (InMaxUObjects Reserve : Int) (bPreAllocateObjectArray : Bool) (ops1 ops2 : List Op)
    (A0 A1 A2 : FUObjectArray)
    (hS0 : 0 ≤ B.START_SERIAL_NUMBER) (hS1 : B.START_SERIAL_NUMBER ≤ 2147483647)
    (hinit : initRegistry B InternalIndex bRecycle GExitPurge GIsInitialLoad
      EngineExitRequested InMaxUObjects Reserve bPreAllocateObjectArray = .ok A0)
    (hops1 : ops1.all defaultSerial = true) (hops2 : ops2.all defaultSerial = true)
    (hrun1 : run B A0 ops1 = .ok A1) (hrun2 : run B A1 ops2 = .ok A2) :
    A1.PrimarySerialNumber ≤ A2.PrimarySerialNumber ∧
    (∀ i : Nat, serialAt A2 i ≠ 0 →
      B.START_SERIAL_NUMBER < serialAt A2 i ∧ serialAt A2 i ≤ A2.PrimarySerialNumber) ∧
    (∀ i j : Nat, serialAt A2 i ≠ 0 → serialAt A2 i = serialAt A2 j → i = j) ∧
    (∀ (k : Nat) (v : Int) (A3 : FUObjectArray), serialAt A2 k = 0 →
      AllocateSerialNumber B A2 (k : Int) = .ok (v, A3) →
      v = A2.PrimarySerialNumber + 1 ∧ A3.PrimarySerialNumber = v ∧
      (∀ i : Nat, serialAt A1 i ≠ v) ∧ (∀ i : Nat, serialAt A2 i ≠ v)) := by
  have hS : -2147483648 ≤ B.START_SERIAL_NUMBER := by omega
  obtain ⟨hb0, hd0⟩ := init_Serials hS1 hinit
  obtain ⟨-, hb1, hd1⟩ := run_Serials hS hb0 hd0 hops1 hrun1
  obtain ⟨hmono, hb2, hd2⟩ := run_Serials hS hb1 hd1 hops2 hrun2
  refine ⟨hmono, hb2.2.2, hd2, fun k v A3 hzero hser => ?_⟩
  obtain ⟨k2, Old, hk2, hget, -, hcase⟩ := AllocateSerialNumber_ok hser
  have hkk : k2 = k := by omega
  subst hkk
  rw [serialAt_of_getElem hget] at hzero
  rcases hcase with ⟨hnz, -, -⟩ | ⟨-, hv, hgt, hA3⟩
  · exact absurd hzero hnz
  · rw [hv] at hgt
    have hsucc := wrapInt32_succ_of_gt hS hb2.1 hb2.2.1 hgt
    rw [hsucc] at hv
    refine ⟨hv, by rw [hA3], fun i hi => ?_, fun i hi => ?_⟩
    · have hne : serialAt A1 i ≠ 0 := by
        rw [hi, hv]
        have := hb2.1
        omega
      have := (hb1.2.2 i hne).2
      omega
    · have hne : serialAt A2 i ≠ 0 := by
        rw [hi, hv]
        have := hb2.1
        omega
      have := (hb2.2.2 i hne).2
      omega

theorem C9_serial_uniqueness_witness :
    sampleInit sampleBuild 8 0 = .ok (sampleState sampleBuild 8 0 []) ∧
    run sampleBuild (sampleState sampleBuild 8 0 [])
      [.allocate 7 0 (-1) 0, .serialOf 0, .free 7]
      = .ok (sampleState sampleBuild 8 0 [.allocate 7 0 (-1) 0, .serialOf 0, .free 7]) ∧
    run sampleBuild (sampleState sampleBuild 8 0 [.allocate 7 0 (-1) 0, .serialOf 0, .free 7])
      [.allocate 9 0 (-1) 0]
      = .ok (sampleState sampleBuild 8 0
        [.allocate 7 0 (-1) 0, .serialOf 0, .free 7, .allocate 9 0 (-1) 0]) ∧
    serialAt (sampleState sampleBuild 8 0 [.allocate 7 0 (-1) 0, .serialOf 0]) 0 = 101 ∧
    AllocateSerialNumber sampleBuild (sampleState sampleBuild 8 0
        [.allocate 7 0 (-1) 0, .serialOf 0, .free 7, .allocate 9 0 (-1) 0]) 0
      = .ok (102, sampleState sampleBuild 8 0
        [.allocate 7 0 (-1) 0, .serialOf 0, .free 7, .allocate 9 0 (-1) 0, .serialOf 0]) ∧
    (sampleState sampleBuild 8 0 [.allocate 7 0 (-1) 0, .serialOf 0,
        .free 7]).PrimarySerialNumber
      ≤ (sampleState sampleBuild 8 0 [.allocate 7 0 (-1) 0, .serialOf 0, .free 7,
        .allocate 9 0 (-1) 0]).PrimarySerialNumber :=
  ⟨rfl, rfl, rfl, rfl, rfl,
    (C9_serial_uniqueness sampleBuild (fun _ => INDEX_NONE) true false true false 8 0 false
      [.allocate 7 0 (-1) 0, .serialOf 0, .free 7] [.allocate 9 0 (-1) 0]
      (sampleState sampleBuild 8 0 [])
      (sampleState sampleBuild 8 0 [.allocate 7 0 (-1) 0, .serialOf 0, .free 7])
      (sampleState sampleBuild 8 0
        [.allocate 7 0 (-1) 0, .serialOf 0, .free 7, .allocate 9 0 (-1) 0])
      (by decide) (by decide) (by rfl) (by rfl) (by rfl) (by rfl) (by rfl)).1⟩

/-- C9, as stated, fails when allocate is given a serial number: after one allocate call
with the serial number `5000` the slot stores a serial number above the counter, and an
allocate with the serial number `77`, a free and another allocate with `77` make two
allocation epochs of two objects observe the same non-zero serial number. -/
theorem C9_serial_uniqueness_counterexample :
    (sampleRun sampleBuild 8 0 [.allocate 7 0 (-1) 5000]
        = .ok (sampleState sampleBuild 8 0 [.allocate 7 0 (-1) 5000]) ∧
      serialAt (sampleState sampleBuild 8 0 [.allocate 7 0 (-1) 5000]) 0 = 5000 ∧
      (sampleState sampleBuild 8 0 [.allocate 7 0 (-1) 5000]).PrimarySerialNumber = 100 ∧
      ¬ (serialAt (sampleState sampleBuild 8 0 [.allocate 7 0 (-1) 5000]) 0
        ≤ (sampleState sampleBuild 8 0 [.allocate 7 0 (-1) 5000]).PrimarySerialNumber)) ∧
    (sampleRun sampleBuild 8 0 [.allocate 7 0 (-1) 77, .free 7, .allocate 9 0 (-1) 77]
        = .ok (sampleState sampleBuild 8 0
          [.allocate 7 0 (-1) 77, .free 7, .allocate 9 0 (-1) 77]) ∧
      objectAt (sampleState sampleBuild 8 0 [.allocate 7 0 (-1) 77]) 0 = some 7 ∧
      serialAt (sampleState sampleBuild 8 0 [.allocate 7 0 (-1) 77]) 0 = 77 ∧
      objectAt (sampleState sampleBuild 8 0 [.allocate 7 0 (-1) 77, .free 7]) 0 = none ∧
      objectAt (sampleState sampleBuild 8 0
        [.allocate 7 0 (-1) 77, .free 7, .allocate 9 0 (-1) 77]) 0 = some 9 ∧
      serialAt (sampleState sampleBuild 8 0
        [.allocate 7 0 (-1) 77, .free 7, .allocate 9 0 (-1) 77]) 0 = 77) := by
  refine ⟨⟨rfl, rfl, rfl, by decide⟩, rfl, rfl, rfl, rfl, rfl, rfl⟩

/-- On a slot whose serial number is zero, `AllocateSerialNumber` stores and answers the
counter plus one, unless the counter has reached the largest `int32`. -/
theorem AllocateSerialNumber_of_zero {B : Build} {A : FUObjectArray} {k : Nat}
    {Old : FUObjectItem} (hget : A.ObjObjects[k]? = some Old) (hzero : Old.SerialNumber = 0)
    (hS : 0 ≤ B.START_SERIAL_NUMBER)
    (hlo : B.START_SERIAL_NUMBER ≤ A.PrimarySerialNumber)
    (hhi : A.PrimarySerialNumber < 2147483647) :
    AllocateSerialNumber B A (k : Int) = .ok (A.PrimarySerialNumber + 1,
      { A with
        PrimarySerialNumber := A.PrimarySerialNumber + 1
        ObjObjects := A.ObjObjects.set k
          { Old with SerialNumber := A.PrimarySerialNumber + 1 } }) := by
  unfold AllocateSerialNumber
  have hw : wrapInt32 (A.PrimarySerialNumber + 1) = A.PrimarySerialNumber + 1 :=
    wrapInt32_of_range (by omega) (by omega)
  have h1 : ¬ (A.PrimarySerialNumber + 1 ≤ B.START_SERIAL_NUMBER) := by omega
  have h2 : A.PrimarySerialNumber + 1 > B.START_SERIAL_NUMBER := by omega
  simp [IndexToObject_of_getElem hget, hzero, hw, h1, h2, setItem]

/-- On a slot whose serial number is above the sentinel, `AllocateSerialNumber` answers it
and leaves the state as it is. -/
theorem AllocateSerialNumber_of_set {B : Build} {A : FUObjectArray} {k : Nat}
    {Old : FUObjectItem} (hget : A.ObjObjects[k]? = some Old)
    (hS : 0 ≤ B.START_SERIAL_NUMBER) (hgt : B.START_SERIAL_NUMBER < Old.SerialNumber) :
    AllocateSerialNumber B A (k : Int) = .ok (Old.SerialNumber, A) := by
  unfold AllocateSerialNumber
  have h1 : ¬ Old.SerialNumber = 0 := by omega
  have h2 : Old.SerialNumber > B.START_SERIAL_NUMBER := by omega
  simp [IndexToObject_of_getElem hget, h1, h2]

/-- C8 (amended): with a non-negative sentinel, for every index of an existing slot whose
stored serial number is zero or above the sentinel, in a state whose counter is at or above
the sentinel and below the largest `int32`, `AllocateSerialNumber` succeeds, answers a value
strictly greater than the sentinel and leaves that value stored in the slot: the stored
value with the state unchanged when it is not zero, and otherwise the counter plus one,
which becomes the counter. A second call on the same index answers the same value and
leaves the state, the counter included, unchanged. -/
theorem C8_serial_lazy_idempotent (B : Build) (A : FUObjectArray) (k : Nat)
    (hS : 0 ≤ B.START_SERIAL_NUMBER)
    (hlo : B.START_SERIAL_NUMBER ≤ A.PrimarySerialNumber)
    (hhi : A.PrimarySerialNumber < 2147483647)
    (hk : k < A.ObjObjects.length)
    (hser : serialAt A k = 0 ∨ B.START_SERIAL_NUMBER < serialAt A k) :
    ∃ (v : Int) (A1 : FUObjectArray),
      AllocateSerialNumber B A (k : Int) = .ok (v, A1) ∧
      B.START_SERIAL_NUMBER < v ∧ serialAt A1 k = v ∧
      (serialAt A k = 0 →
        v = A.PrimarySerialNumber + 1 ∧ A1.PrimarySerialNumber = A.PrimarySerialNumber + 1) ∧
      (serialAt A k ≠ 0 → v = serialAt A k ∧ A1 = A) ∧
      AllocateSerialNumber B A1 (k : Int) = .ok (v, A1) := by
  have hget : A.ObjObjects[k]? = some (A.ObjObjects[k]) := List.getElem?_eq_getElem hk
  have hsk := serialAt_of_getElem hget
  rcases hser with hzero | hgt
  · rw [hsk] at hzero
    have hfirst := AllocateSerialNumber_of_zero hget hzero hS hlo hhi
    obtain ⟨A1, hA1⟩ : ∃ A1 : FUObjectArray, A1 = { A with
        PrimarySerialNumber := A.PrimarySerialNumber + 1
        ObjObjects := A.ObjObjects.set k
          { A.ObjObjects[k] with SerialNumber := A.PrimarySerialNumber + 1 } } := ⟨_, rfl⟩
    rw [← hA1] at hfirst
    have hget1 : A1.ObjObjects[k]?
        = some { A.ObjObjects[k] with SerialNumber := A.PrimarySerialNumber + 1 } := by
      rw [hA1]; simp [hk]
    refine ⟨_, A1, hfirst, by omega, ?_, fun _ => ⟨rfl, by rw [hA1]⟩, fun hne => ?_, ?_⟩
    · rw [serialAt_of_getElem hget1]
    · rw [hsk] at hne; exact absurd hzero hne
    · exact AllocateSerialNumber_of_set hget1 hS (by simp only; omega)
  · rw [hsk] at hgt
    have hfirst := AllocateSerialNumber_of_set (A := A) hget hS hgt
    refine ⟨_, A, hfirst, hgt, hsk, fun hz => ?_, fun _ => ⟨hsk.symm, rfl⟩, hfirst⟩
    rw [hsk] at hz
    omega

theorem C8_serial_lazy_idempotent_witness :
    (0 : Int) ≤ sampleBuild.START_SERIAL_NUMBER ∧
    serialAt (sampleState sampleBuild 8 0 [.allocate 7 0 (-1) 0]) 0 = 0 ∧
    ∃ (v : Int) (A1 : FUObjectArray),
      AllocateSerialNumber sampleBuild (sampleState sampleBuild 8 0 [.allocate 7 0 (-1) 0])
        ((0 : Nat) : Int) = .ok (v, A1) ∧
      sampleBuild.START_SERIAL_NUMBER < v ∧ serialAt A1 0 = v ∧
      (serialAt (sampleState sampleBuild 8 0 [.allocate 7 0 (-1) 0]) 0 = 0 →
        v = (sampleState sampleBuild 8 0 [.allocate 7 0 (-1) 0]).PrimarySerialNumber + 1 ∧
        A1.PrimarySerialNumber
          = (sampleState sampleBuild 8 0 [.allocate 7 0 (-1) 0]).PrimarySerialNumber + 1) ∧
      (serialAt (sampleState sampleBuild 8 0 [.allocate 7 0 (-1) 0]) 0 ≠ 0 →
        v = serialAt (sampleState sampleBuild 8 0 [.allocate 7 0 (-1) 0]) 0 ∧
        A1 = sampleState sampleBuild 8 0 [.allocate 7 0 (-1) 0]) ∧
      AllocateSerialNumber sampleBuild A1 ((0 : Nat) : Int) = .ok (v, A1) :=
  ⟨by decide, rfl,
    C8_serial_lazy_idempotent sampleBuild (sampleState sampleBuild 8 0 [.allocate 7 0 (-1) 0])
      0 (by decide) (by decide) (by decide) (by decide) (Or.inl (by rfl))⟩

/-- C8, as stated, fails for a slot whose serial number was given to allocate: with the
serial number `5`, at or below the sentinel `100`, `AllocateSerialNumber` answers `5` when
`checkSlow` is compiled out and is fatal when it is compiled in. -/
theorem C8_serial_counterexample :
    sampleRun sampleBuild 8 0 [.allocate 7 0 (-1) 5]
      = .ok (sampleState sampleBuild 8 0 [.allocate 7 0 (-1) 5]) ∧
    AllocateSerialNumber sampleBuild (sampleState sampleBuild 8 0 [.allocate 7 0 (-1) 5]) 0
      = .ok (5, sampleState sampleBuild 8 0 [.allocate 7 0 (-1) 5]) ∧
    ¬ (sampleBuild.START_SERIAL_NUMBER < 5) ∧
    sampleRun guardedBuild 8 0 [.allocate 7 0 (-1) 5]
      = .ok (sampleState guardedBuild 8 0 [.allocate 7 0 (-1) 5]) ∧
    AllocateSerialNumber guardedBuild (sampleState guardedBuild 8 0 [.allocate 7 0 (-1) 5]) 0
      = .error Fatal.checkSlow := by
  refine ⟨rfl, rfl, by decide, rfl, rfl⟩

/-! ## Stale weak handles -/

/-- C7 (amended): let object `A` occupy slot `i`, its internal index, and let `s` be the
answer of `AllocateSerialNumber` for `i`. After freeing `A` and allocating a new object with
a supplied serial number other than `s`, the handle `(i, s)` is invalid: it is not the case
that slot `i` is occupied and stores the serial number `s`. With a non-negative sentinel
`s` is not zero, so the default serial number `0` is such a serial number. -/
theorem C7_stale_handle (B : Build) (A A1 A2 A3 : FUObjectArray) (ObjectA ObjectB : ObjId)
    (i InitialFlags : Nat) (s AlreadyAllocatedIndex SerialNumber : Int)
    (hocc : objectAt A i = some ObjectA) (hidx : A.InternalIndex ObjectA = (i : Int))
    (hserial : AllocateSerialNumber B A (i : Int) = .ok (s, A1))
    (hfree : FreeUObjectIndex A1 ObjectA = .ok A2)
    (halloc : AllocateUObjectIndex B A2 ObjectB InitialFlags AlreadyAllocatedIndex SerialNumber
      = .ok A3) :
    (0 ≤ B.START_SERIAL_NUMBER → s ≠ 0) ∧
    (SerialNumber ≠ s → ¬ (objectAt A3 i ≠ none ∧ serialAt A3 i = s)) := by
  constructor
  · intro hS
    obtain ⟨k, Old, -, -, -, hcase⟩ := AllocateSerialNumber_ok hserial
    rcases hcase with ⟨hnz, hv, -⟩ | ⟨-, -, hgt, -⟩
    · rw [hv]; exact hnz
    · omega
  · intro hne ⟨hoccupied, hs⟩
    have hidx1 : A1.InternalIndex ObjectA = (i : Int) := by
      obtain ⟨k, Old, -, -, -, hcase⟩ := AllocateSerialNumber_ok hserial
      rcases hcase with ⟨-, -, rfl⟩ | ⟨-, -, -, rfl⟩
      · exact hidx
      · exact hidx
    obtain ⟨k, hk, -, -, hobj2, -, -⟩ := FreeUObjectIndex_slots hfree
    have hki : k = i := by omega
    subst hki
    have hfree2 : objectAt A2 k = none := by rw [hobj2 k]; simp
    obtain ⟨-, j, -, -, hobj3, hser3, -⟩ := AllocateUObjectIndex_slots halloc
    rw [hobj3 k] at hoccupied
    rw [hser3 k] at hs
    by_cases hkj : k = j
    · simp only [hkj, if_true] at hs
      exact hne hs
    · simp only [hkj, if_false] at hoccupied
      exact hoccupied hfree2

theorem C7_stale_handle_witness :
    objectAt (sampleState sampleBuild 8 0 (allocateCalls 6)) 5 = some 5 ∧
    AllocateSerialNumber sampleBuild (sampleState sampleBuild 8 0 (allocateCalls 6)) 5
      = .ok (101, sampleState sampleBuild 8 0 (allocateCalls 6 ++ [.serialOf 5])) ∧
    FreeUObjectIndex (sampleState sampleBuild 8 0 (allocateCalls 6 ++ [.serialOf 5])) 5
      = .ok (sampleState sampleBuild 8 0 (allocateCalls 6 ++ [.serialOf 5, .free 5])) ∧
    AllocateUObjectIndex sampleBuild
      (sampleState sampleBuild 8 0 (allocateCalls 6 ++ [.serialOf 5, .free 5])) 9 0 (-1) 0
      = .ok (sampleState sampleBuild 8 0
        (allocateCalls 6 ++ [.serialOf 5, .free 5, .allocate 9 0 (-1) 0])) ∧
    objectAt (sampleState sampleBuild 8 0
      (allocateCalls 6 ++ [.serialOf 5, .free 5, .allocate 9 0 (-1) 0])) 5 = some 9 ∧
    ¬ (objectAt (sampleState sampleBuild 8 0
        (allocateCalls 6 ++ [.serialOf 5, .free 5, .allocate 9 0 (-1) 0])) 5 ≠ none ∧
      serialAt (sampleState sampleBuild 8 0
        (allocateCalls 6 ++ [.serialOf 5, .free 5, .allocate 9 0 (-1) 0])) 5 = 101) :=
  ⟨rfl, rfl, rfl, rfl, rfl,
    (C7_stale_handle sampleBuild (sampleState sampleBuild 8 0 (allocateCalls 6))
      (sampleState sampleBuild 8 0 (allocateCalls 6 ++ [.serialOf 5]))
      (sampleState sampleBuild 8 0 (allocateCalls 6 ++ [.serialOf 5, .free 5]))
      (sampleState sampleBuild 8 0
        (allocateCalls 6 ++ [.serialOf 5, .free 5, .allocate 9 0 (-1) 0]))
      5 9 5 0 101 (-1) 0 (by rfl) (by rfl) (by rfl) (by rfl) (by rfl)).2 (by decide)⟩

/-- C7, as stated, fails when the new object is allocated with the old serial number:
object `5` sits at index `5` with serial number `101`; after it is freed and object `9` is
allocated with the serial number `101`, slot `5` is occupied and stores `101`. -/
theorem C7_stale_handle_counterexample :
    sampleRun sampleBuild 8 0 (allocateCalls 6 ++ [.serialOf 5])
      = .ok (sampleState sampleBuild 8 0 (allocateCalls 6 ++ [.serialOf 5])) ∧
    objectAt (sampleState sampleBuild 8 0 (allocateCalls 6 ++ [.serialOf 5])) 5 = some 5 ∧
    serialAt (sampleState sampleBuild 8 0 (allocateCalls 6 ++ [.serialOf 5])) 5 = 101 ∧
    sampleRun sampleBuild 8 0 (allocateCalls 6 ++ [.serialOf 5, .free 5, .allocate 9 0 (-1) 101])
      = .ok (sampleState sampleBuild 8 0
        (allocateCalls 6 ++ [.serialOf 5, .free 5, .allocate 9 0 (-1) 101])) ∧
    objectAt (sampleState sampleBuild 8 0
      (allocateCalls 6 ++ [.serialOf 5, .free 5, .allocate 9 0 (-1) 101])) 5 = some 9 ∧
    serialAt (sampleState sampleBuild 8 0
      (allocateCalls 6 ++ [.serialOf 5, .free 5, .allocate 9 0 (-1) 101])) 5 = 101 := by
  refine ⟨rfl, rfl, rfl, rfl, rfl, rfl⟩

/-! ## The listener lists -/

/-- Removing, by a swap with the last element, an item that does not occur before its
position `pre.length`: the elements before stay, the elements after are kept up to order. -/
theorem RemoveSingleSwap_middle (pre rest : List ListenerId) (x : ListenerId)
    (hx : x ∉ pre) :
    ∃ rest2, RemoveSingleSwap (pre ++ x :: rest) x = (1, pre ++ rest2) ∧ rest2.Perm rest := by
  have hmem : x ∈ pre ++ x :: rest := by simp
  have hidx : List.indexOf x (pre ++ x :: rest) = pre.length := by
    rw [List.indexOf_append_of_not_mem hx, List.indexOf_cons_self]
    rfl
  unfold RemoveSingleSwap RemoveAtSwap
  rw [if_pos hmem, hidx]
  rcases List.eq_nil_or_concat rest with hnil | ⟨r, z, hr⟩
  · subst hnil
    refine ⟨[], ?_, List.Perm.refl _⟩
    have hlast : (pre ++ [x]).getLast? = some x := List.getLast?_concat pre
    rw [hlast]
    simp
  · rw [List.concat_eq_append] at hr
    subst hr
    refine ⟨z :: r, ?_, ?_⟩
    · have hlast : (pre ++ x :: (r ++ [z])).getLast? = some z := by
        have : pre ++ x :: (r ++ [z]) = (pre ++ x :: r) ++ [z] := by simp
        rw [this]
        exact List.getLast?_concat _
      rw [hlast]
      simp only [Prod.mk.injEq, true_and]
      rw [List.set_append_right _ _ (le_refl _)]
      simp only [Nat.sub_self, List.set_cons_zero]
      have : pre ++ z :: (r ++ [z]) = (pre ++ z :: r) ++ [z] := by simp
      rw [this, List.dropLast_concat]
    · exact (List.perm_append_singleton z r).symm

theorem RemoveSingleSwap_of_not_mem {l : List ListenerId} {x : ListenerId} (hx : x ∉ l) :
    RemoveSingleSwap l x = (0, l) := by
  unfold RemoveSingleSwap
  rw [if_neg hx]

theorem RemoveSingleSwap_count_of_mem {l : List ListenerId} {x : ListenerId} (hx : x ∈ l) :
    (RemoveSingleSwap l x).1 = 1 := by
  unfold RemoveSingleSwap
  rw [if_pos hx]

/-- On a list without repetitions a swap removal takes out the item, keeps every other
element, and leaves a list without repetitions. -/
theorem RemoveSingleSwap_nodup {l : List ListenerId} (x : ListenerId) (hl : l.Nodup) :
    (RemoveSingleSwap l x).2.Nodup ∧ x ∉ (RemoveSingleSwap l x).2 ∧
    ∀ y, y ≠ x → (y ∈ (RemoveSingleSwap l x).2 ↔ y ∈ l) := by
  by_cases hx : x ∈ l
  · obtain ⟨pre, rest, rfl⟩ := List.append_of_mem hx
    have hpre : x ∉ pre := by
      intro hc
      have := List.disjoint_of_nodup_append hl hc (by simp)
      exact this
    obtain ⟨rest2, heq, hperm⟩ := RemoveSingleSwap_middle pre rest x hpre
    rw [heq]
    have hnd : (pre ++ rest2).Nodup := by
      have h1 : (pre ++ rest2).Perm (pre ++ rest) := List.Perm.append_left pre hperm
      have h2 : (pre ++ rest).Nodup := by
        have := List.nodup_middle.mp hl
        exact (List.nodup_cons.mp this).2
      exact h1.nodup_iff.mpr h2
    have hxrest : x ∉ rest := by
      have := List.nodup_middle.mp hl
      have h3 := (List.nodup_cons.mp this).1
      intro hc
      exact h3 (List.mem_append_right _ hc)
    refine ⟨hnd, ?_, fun y hy => ?_⟩
    · simp only [List.mem_append, not_or]
      exact ⟨hpre, fun hc => hxrest (hperm.mem_iff.mp hc)⟩
    · simp only [List.mem_append, List.mem_cons, hperm.mem_iff, hy, false_or]
  · rw [RemoveSingleSwap_of_not_mem hx]
    exact ⟨hl, hx, fun _ _ => Iff.rfl⟩

theorem AddUObjectCreateListener_ok {A A1 : FUObjectArray} {Listener : ListenerId}
    (h : AddUObjectCreateListener A Listener = .ok A1) :
    Listener ∉ A.UObjectCreateListeners ∧
    A1 = { A with UObjectCreateListeners := A.UObjectCreateListeners ++ [Listener] } := by
  unfold AddUObjectCreateListener at h
  by_cases hmem : Listener ∈ A.UObjectCreateListeners
  · simp [hmem] at h
  · simp only [hmem, if_false, Except.ok.injEq] at h
    exact ⟨hmem, h.symm⟩

theorem AddUObjectDeleteListener_ok {A A1 : FUObjectArray} {Listener : ListenerId}
    (h : AddUObjectDeleteListener A Listener = .ok A1) :
    Listener ∉ A.UObjectDeleteListeners ∧
    A1 = { A with UObjectDeleteListeners := A.UObjectDeleteListeners ++ [Listener] } := by
  unfold AddUObjectDeleteListener at h
  by_cases hmem : Listener ∈ A.UObjectDeleteListeners
  · simp [hmem] at h
  · simp only [hmem, if_false, Except.ok.injEq] at h
    exact ⟨hmem, h.symm⟩

theorem RemoveUObjectCreateListener_ok {A A1 : FUObjectArray} {Listener : ListenerId}
    (h : RemoveUObjectCreateListener A Listener = .ok A1) :
    Listener ∈ A.UObjectCreateListeners ∧
    A1 = { A with
      UObjectCreateListeners := (RemoveSingleSwap A.UObjectCreateListeners Listener).2 } := by
  unfold RemoveUObjectCreateListener at h
  simp only at h
  by_cases hmem : Listener ∈ A.UObjectCreateListeners
  · simp only [RemoveSingleSwap_count_of_mem hmem, if_true, Except.ok.injEq] at h
    exact ⟨hmem, h.symm⟩
  · simp [RemoveSingleSwap_of_not_mem hmem] at h

theorem RemoveUObjectCreateListener_of_mem {A : FUObjectArray} {Listener : ListenerId}
    (hmem : Listener ∈ A.UObjectCreateListeners) :
    RemoveUObjectCreateListener A Listener = .ok { A with
      UObjectCreateListeners := (RemoveSingleSwap A.UObjectCreateListeners Listener).2 } := by
  unfold RemoveUObjectCreateListener
  simp [RemoveSingleSwap_count_of_mem hmem]

theorem RemoveUObjectDeleteListener_eq (A : FUObjectArray) (Listener : ListenerId) :
    RemoveUObjectDeleteListener A Listener = .ok { A with
      UObjectDeleteListeners := (RemoveSingleSwap A.UObjectDeleteListeners Listener).2 } := by
  rfl

/-- The listener operations keep both lists free of repetitions. -/
theorem stepListener_nodup {A A1 : FUObjectArray} {op : ListenerOp}
    (hc : A.UObjectCreateListeners.Nodup) (hd : A.UObjectDeleteListeners.Nodup)
    (h : stepListener A op = .ok A1) :
    A1.UObjectCreateListeners.Nodup ∧ A1.UObjectDeleteListeners.Nodup := by
  cases op with
  | addCreate Listener =>
    obtain ⟨hmem, rfl⟩ := AddUObjectCreateListener_ok h
    refine ⟨?_, hd⟩
    exact List.Nodup.append hc (List.nodup_singleton _) (by simpa using hmem)
  | removeCreate Listener =>
    obtain ⟨-, rfl⟩ := RemoveUObjectCreateListener_ok h
    exact ⟨(RemoveSingleSwap_nodup Listener hc).1, hd⟩
  | addDelete Listener =>
    obtain ⟨hmem, rfl⟩ := AddUObjectDeleteListener_ok h
    refine ⟨hc, ?_⟩
    exact List.Nodup.append hd (List.nodup_singleton _) (by simpa using hmem)
  | removeDelete Listener =>
    have h2 := RemoveUObjectDeleteListener_eq A Listener
    simp only [stepListener] at h
    rw [h2] at h
    simp only [Except.ok.injEq] at h
    subst h
    exact ⟨hc, (RemoveSingleSwap_nodup Listener hd).1⟩

theorem runListeners_cons_ok {A A2 : FUObjectArray} {op : ListenerOp} {ops : List ListenerOp}
    (h : runListeners A (op :: ops) = .ok A2) :
    ∃ A1, stepListener A op = .ok A1 ∧ runListeners A1 ops = .ok A2 := by
  simp only [runListeners] at h
  cases hstep : stepListener A op with
  | error e => simp [hstep] at h
  | ok A1 =>
    simp only [hstep] at h
    exact ⟨A1, rfl, h⟩

theorem runListeners_nodup {A A2 : FUObjectArray} {ops : List ListenerOp}
    (hc : A.UObjectCreateListeners.Nodup) (hd : A.UObjectDeleteListeners.Nodup)
    (h : runListeners A ops = .ok A2) :
    A2.UObjectCreateListeners.Nodup ∧ A2.UObjectDeleteListeners.Nodup := by
  induction ops generalizing A with
  | nil =>
    simp only [runListeners, Except.ok.injEq] at h
    subst h
    exact ⟨hc, hd⟩
  | cons op ops ih =>
    obtain ⟨A1, h1, h2⟩ := runListeners_cons_ok h
    obtain ⟨hc1, hd1⟩ := stepListener_nodup hc hd h1
    exact ih hc1 hd1 h2

/-- While no create listener is removed, the create listener list is the registration
order; likewise for the delete listeners. -/
theorem runListeners_registrationOrder {A A2 : FUObjectArray} {ops : List ListenerOp}
    (h : runListeners A ops = .ok A2) :
    (ops.all keepsCreateListeners = true →
      A2.UObjectCreateListeners = createRegistrationOrder ops A.UObjectCreateListeners) ∧
    (ops.all keepsDeleteListeners = true →
      A2.UObjectDeleteListeners = deleteRegistrationOrder ops A.UObjectDeleteListeners) := by
  induction ops generalizing A with
  | nil =>
    simp only [runListeners, Except.ok.injEq] at h
    subst h
    exact ⟨fun _ => rfl, fun _ => rfl⟩
  | cons op ops ih =>
    obtain ⟨A1, h1, h2⟩ := runListeners_cons_ok h
    obtain ⟨ihc, ihd⟩ := ih h2
    cases op with
    | addCreate Listener =>
      obtain ⟨-, rfl⟩ := AddUObjectCreateListener_ok h1
      refine ⟨fun hall => ?_, fun hall => ?_⟩
      · simp only [List.all_cons, Bool.and_eq_true] at hall
        simpa [createRegistrationOrder] using ihc hall.2
      · simp only [List.all_cons, Bool.and_eq_true] at hall
        simpa [deleteRegistrationOrder] using ihd hall.2
    | removeCreate Listener =>
      obtain ⟨-, rfl⟩ := RemoveUObjectCreateListener_ok h1
      refine ⟨fun hall => ?_, fun hall => ?_⟩
      · simp [keepsCreateListeners] at hall
      · simp only [List.all_cons, Bool.and_eq_true] at hall
        simpa [deleteRegistrationOrder] using ihd hall.2
    | addDelete Listener =>
      obtain ⟨-, rfl⟩ := AddUObjectDeleteListener_ok h1
      refine ⟨fun hall => ?_, fun hall => ?_⟩
      · simp only [List.all_cons, Bool.and_eq_true] at hall
        simpa [createRegistrationOrder] using ihc hall.2
      · simp only [List.all_cons, Bool.and_eq_true] at hall
        simpa [deleteRegistrationOrder] using ihd hall.2
    | removeDelete Listener =>
      have h3 := RemoveUObjectDeleteListener_eq A Listener
      simp only [stepListener] at h1
      rw [h3] at h1
      simp only [Except.ok.injEq] at h1
      subst h1
      refine ⟨fun hall => ?_, fun hall => ?_⟩
      · simp only [List.all_cons, Bool.and_eq_true] at hall
        simpa [createRegistrationOrder] using ihc hall.2
      · simp [keepsDeleteListeners] at hall

/-- C12: the registry with delete listener `1` and create listener `2` is told to remove
the delete listener `5`, which is not registered: `RemoveUObjectDeleteListener` returns
normally and leaves the registry as it is, where the claim has a fatal error; the sibling
`RemoveUObjectCreateListener` is fatal on the same absent listener, and both add functions
are fatal on a listener that is present. -/
theorem C12_remove_absent_delete_listener :
    (5 : ListenerId) ∉ (sampleListeners 8 0 [.addDelete 1, .addCreate 2]).UObjectDeleteListeners ∧
    RemoveUObjectDeleteListener (sampleListeners 8 0 [.addDelete 1, .addCreate 2]) 5
      = .ok (sampleListeners 8 0 [.addDelete 1, .addCreate 2]) ∧
    RemoveUObjectCreateListener (sampleListeners 8 0 [.addDelete 1, .addCreate 2]) 5
      = .error Fatal.checkNumRemoved ∧
    AddUObjectDeleteListener (sampleListeners 8 0 [.addDelete 1, .addCreate 2]) 1
      = .error Fatal.checkListenerAbsent ∧
    AddUObjectCreateListener (sampleListeners 8 0 [.addDelete 1, .addCreate 2]) 2
      = .error Fatal.checkListenerAbsent := by
  refine ⟨by decide, rfl, rfl, rfl, rfl⟩

/-! ## Notifications of creation and deletion -/

/-- The choice of the index touches neither the listener lists nor the record of calls. -/
theorem selectIndex_listeners {A A1 : FUObjectArray} {AlreadyAllocatedIndex Index : Int}
    (h : selectIndex A AlreadyAllocatedIndex = .ok (Index, A1)) :
    A1.Notified = A.Notified ∧ A1.UObjectCreateListeners = A.UObjectCreateListeners ∧
    A1.UObjectDeleteListeners = A.UObjectDeleteListeners := by
  rcases selectIndex_cases h with ⟨-, -, rfl⟩ | ⟨-, -, -, hd⟩ | ⟨-, -, hg⟩
  · exact ⟨rfl, rfl, rfl⟩
  · obtain ⟨-, hcase⟩ := selectDisregardIndex_ok hd
    rcases hcase with ⟨-, rfl⟩ | ⟨-, -, -, -, rfl⟩ <;> exact ⟨rfl, rfl, rfl⟩
  · obtain ⟨-, -, hcase⟩ := selectGCIndex_ok hg
    rcases hcase with ⟨rest, -, rfl⟩ | ⟨-, -, -, -, rfl⟩ <;> exact ⟨rfl, rfl, rfl⟩

theorem count_map_of_nodup {α : Type} [DecidableEq α] (f : ListenerId → α)
    (hf : Function.Injective f) {l : List ListenerId} (hl : l.Nodup) {x : ListenerId}
    (hx : x ∈ l) : List.count (f x) (l.map f) = 1 :=
  List.count_eq_one_of_mem (hl.map hf) (List.mem_map_of_mem f hx)

theorem RemoveObjectFromDeleteListeners_of_index {A : FUObjectArray} {Object : ObjId}
    {k : Nat} (hidx : A.InternalIndex Object = (k : Int)) :
    RemoveObjectFromDeleteListeners A Object = .ok { A with
      Notified := A.Notified ++ A.UObjectDeleteListeners.reverse.map
        (fun Listener => Notification.NotifyUObjectDeleted Listener Object (k : Int)) } := by
  unfold RemoveObjectFromDeleteListeners
  have h0 : ¬ ((k : Int) < 0) := by omega
  simp [hidx, h0]

/-! ## Shutdown -/

/-- A loop down a listener list whose calls are recorded and either leave the list alone or
take the called listener out by a swap with the last element: every listener of the part
still to visit is called once, in reverse order, and the list ends as the listeners that
stayed, up to order. -/
theorem notifyDownFrom_selfRemoving
    (list : FUObjectArray → List ListenerId)
    (call : ListenerId → FUObjectArray → Except Fatal FUObjectArray)
    (R : ListenerId → Bool) (ev : ListenerId → Notification)
    (F : FUObjectArray → FUObjectArray → Prop)
    (hrefl : ∀ X, F X X) (htrans : ∀ X Y Z, F X Y → F Y Z → F X Z)
    (hcall : ∀ L X, L ∈ list X → ∃ Y, call L X = .ok Y ∧
      list Y = (if R L = true then (RemoveSingleSwap (list X) L).2 else list X) ∧
      Y.Notified = X.Notified ++ [ev L] ∧ F X Y) :
    ∀ (n : Nat) (pre rest : List ListenerId) (X : FUObjectArray), pre.length = n →
      list X = pre ++ rest → (pre ++ rest).Nodup →
      ∃ Y, notifyDownFrom list call n X = .ok Y ∧
        (list Y).Perm (pre.filter (fun L => !R L) ++ rest) ∧
        Y.Notified = X.Notified ++ pre.reverse.map ev ∧ F X Y := by
  intro n
  induction n with
  | zero =>
    intro pre rest X hlen hlist hnd
    have hpre : pre = [] := List.length_eq_zero.mp hlen
    subst hpre
    refine ⟨X, rfl, ?_, by simp, hrefl X⟩
    rw [hlist]
    simp
  | succ n ih =>
    intro pre rest X hlen hlist hnd
    rcases List.eq_nil_or_concat pre with hnil | ⟨p, x, hp⟩
    · subst hnil; simp at hlen
    · rw [List.concat_eq_append] at hp
      subst hp
      have hplen : p.length = n := by simpa using hlen
      have hlist2 : list X = p ++ x :: rest := by rw [hlist]; simp
      have hnd2 : (p ++ x :: rest).Nodup := by
        have : p ++ [x] ++ rest = p ++ x :: rest := by simp
        rw [← this]; exact hnd
      have hxp : x ∉ p := by
        intro hc
        exact List.disjoint_of_nodup_append hnd2 hc (by simp)
      have hget : (list X)[n]? = some x := by
        rw [hlist2, ← hplen, List.getElem?_append_right (le_refl _)]
        simp
      have hmem : x ∈ list X := by rw [hlist2]; simp
      obtain ⟨Y, hY, hlistY, hnotY, hFY⟩ := hcall x X hmem
      have hunfold : notifyDownFrom list call (n + 1) X = notifyDownFrom list call n Y := by
        simp only [notifyDownFrom, hget, hY]
      rw [hunfold]
      by_cases hR : R x = true
      · rw [if_pos hR, hlist2] at hlistY
        obtain ⟨rest2, heq, hperm⟩ := RemoveSingleSwap_middle p rest x hxp
        rw [heq] at hlistY
        have hnd3 : (p ++ rest2).Nodup := by
          have h1 : (p ++ rest2).Perm (p ++ rest) := List.Perm.append_left p hperm
          have h2 : (p ++ rest).Nodup := (List.nodup_cons.mp (List.nodup_middle.mp hnd2)).2
          exact h1.nodup_iff.mpr h2
        obtain ⟨Z, hZ, hpermZ, hnotZ, hFZ⟩ := ih p rest2 Y hplen hlistY hnd3
        refine ⟨Z, hZ, ?_, ?_, htrans X Y Z hFY hFZ⟩
        · refine hpermZ.trans ?_
          simp only [List.filter_append, List.filter_cons, hR, Bool.not_true,
            Bool.false_eq_true, if_false, List.filter_nil, List.append_nil]
          exact List.Perm.append_left _ hperm
        · rw [hnotZ, hnotY]
          simp
      · rw [if_neg hR, hlist2] at hlistY
        obtain ⟨Z, hZ, hpermZ, hnotZ, hFZ⟩ := ih p (x :: rest) Y hplen hlistY hnd2
        refine ⟨Z, hZ, ?_, ?_, htrans X Y Z hFY hFZ⟩
        · refine hpermZ.trans ?_
          have hRf : R x = false := by simpa using hR
          simp only [List.filter_append, List.filter_cons, hRf, Bool.not_false, if_true,
            List.filter_nil, List.append_assoc, List.singleton_append]
          exact List.Perm.refl _
        · rw [hnotZ, hnotY]
          simp

theorem callDeleteListenerShutdown_selfRemoving (D Cr : ListenerId → Bool) (L : ListenerId)
    (X : FUObjectArray) :
    ∃ Y, callDeleteListenerShutdown (selfRemoving D Cr) L X = .ok Y ∧
      Y.UObjectDeleteListeners = (if D L = true
        then (RemoveSingleSwap X.UObjectDeleteListeners L).2 else X.UObjectDeleteListeners) ∧
      Y.Notified = X.Notified ++ [Notification.DeleteListenerShutdown L] ∧
      Y.UObjectCreateListeners = X.UObjectCreateListeners := by
  by_cases hD : D L = true
  · refine ⟨{ X with
        Notified := X.Notified ++ [Notification.DeleteListenerShutdown L]
        UObjectDeleteListeners := (RemoveSingleSwap X.UObjectDeleteListeners L).2 },
      ?_, by simp [hD], rfl, rfl⟩
    simp only [callDeleteListenerShutdown, selfRemoving, hD, if_true]
    rfl
  · refine ⟨{ X with Notified := X.Notified ++ [Notification.DeleteListenerShutdown L] },
      ?_, by simp [hD], rfl, rfl⟩
    simp only [callDeleteListenerShutdown, selfRemoving, hD, if_false]
    rfl

theorem callCreateListenerShutdown_selfRemoving (D Cr : ListenerId → Bool) (L : ListenerId)
    (X : FUObjectArray) (hmem : L ∈ X.UObjectCreateListeners) :
    ∃ Y, callCreateListenerShutdown (selfRemoving D Cr) L X = .ok Y ∧
      Y.UObjectCreateListeners = (if Cr L = true
        then (RemoveSingleSwap X.UObjectCreateListeners L).2 else X.UObjectCreateListeners) ∧
      Y.Notified = X.Notified ++ [Notification.CreateListenerShutdown L] ∧
      Y.UObjectDeleteListeners = X.UObjectDeleteListeners := by
  by_cases hC : Cr L = true
  · refine ⟨{ X with
        Notified := X.Notified ++ [Notification.CreateListenerShutdown L]
        UObjectCreateListeners := (RemoveSingleSwap X.UObjectCreateListeners L).2 },
      ?_, by simp [hC], rfl, rfl⟩
    simp only [callCreateListenerShutdown, selfRemoving, hC, if_true]
    have hmem2 : L ∈ ({ X with Notified := X.Notified ++
        [Notification.CreateListenerShutdown L] } : FUObjectArray).UObjectCreateListeners :=
      hmem
    rw [RemoveUObjectCreateListener_of_mem hmem2]
  · refine ⟨{ X with Notified := X.Notified ++ [Notification.CreateListenerShutdown L] },
      ?_, by simp [hC], rfl, rfl⟩
    simp only [callCreateListenerShutdown, selfRemoving, hC, if_false]
    rfl

/-- The loop of `ShutdownUObjectArray` over delete listeners that do nothing or deregister
themselves. -/
theorem notifyDeleteListenersOfShutdown_selfRemoving (D Cr : ListenerId → Bool)
    (A : FUObjectArray) (hd : A.UObjectDeleteListeners.Nodup) :
    ∃ A1, notifyDeleteListenersOfShutdown (selfRemoving D Cr) A = .ok A1 ∧
      A1.UObjectDeleteListeners.Perm (A.UObjectDeleteListeners.filter (fun L => !D L)) ∧
      A1.Notified = A.Notified ++
        A.UObjectDeleteListeners.reverse.map Notification.DeleteListenerShutdown ∧
      A1.UObjectCreateListeners = A.UObjectCreateListeners := by
  have h := notifyDownFrom_selfRemoving (fun X => X.UObjectDeleteListeners)
    (callDeleteListenerShutdown (selfRemoving D Cr)) D Notification.DeleteListenerShutdown
    (fun X Y => Y.UObjectCreateListeners = X.UObjectCreateListeners)
    (fun _ => rfl) (fun X Y Z h1 h2 => h2.trans h1)
    (fun L X _ => callDeleteListenerShutdown_selfRemoving D Cr L X)
    A.UObjectDeleteListeners.length A.UObjectDeleteListeners [] A rfl (by simp)
    (by simpa using hd)
  obtain ⟨Y, hY, hperm, hnot, hF⟩ := h
  refine ⟨Y, hY, ?_, hnot, hF⟩
  simpa using hperm

/-- The loop of `ShutdownUObjectArray` over create listeners that do nothing or deregister
themselves. -/
theorem notifyCreateListenersOfShutdown_selfRemoving (D Cr : ListenerId → Bool)
    (A : FUObjectArray) (hc : A.UObjectCreateListeners.Nodup) :
    ∃ A1, notifyCreateListenersOfShutdown (selfRemoving D Cr) A = .ok A1 ∧
      A1.UObjectCreateListeners.Perm (A.UObjectCreateListeners.filter (fun L => !Cr L)) ∧
      A1.Notified = A.Notified ++
        A.UObjectCreateListeners.reverse.map Notification.CreateListenerShutdown ∧
      A1.UObjectDeleteListeners = A.UObjectDeleteListeners := by
  have h := notifyDownFrom_selfRemoving (fun X => X.UObjectCreateListeners)
    (callCreateListenerShutdown (selfRemoving D Cr)) Cr Notification.CreateListenerShutdown
    (fun X Y => Y.UObjectDeleteListeners = X.UObjectDeleteListeners)
    (fun _ => rfl) (fun X Y Z h1 h2 => h2.trans h1)
    (fun L X hmem => callCreateListenerShutdown_selfRemoving D Cr L X hmem)
    A.UObjectCreateListeners.length A.UObjectCreateListeners [] A rfl (by simp)
    (by simpa using hc)
  obtain ⟨Y, hY, hperm, hnot, hF⟩ := h
  refine ⟨Y, hY, ?_, hnot, hF⟩
  simpa using hperm

theorem filter_not_eq_nil_iff (R : ListenerId → Bool) (l : List ListenerId) :
    l.filter (fun L => !R L) = [] ↔ ∀ L ∈ l, R L = true := by
  rw [List.filter_eq_nil_iff]
  constructor
  · intro h L hL
    have := h L hL
    simpa using this
  · intro h L hL
    simp [h L hL]

theorem perm_filter_nil_iff {R : ListenerId → Bool} {l m : List ListenerId}
    (h : m.Perm (l.filter (fun L => !R L))) : m = [] ↔ ∀ L ∈ l, R L = true := by
  rw [← filter_not_eq_nil_iff]
  constructor
  · intro hm
    rw [hm] at h
    exact (List.Perm.nil_eq h).symm
  · intro hl
    rw [hl] at h
    exact List.Perm.eq_nil h

/-- Shutdown with listeners that do nothing or deregister themselves, on lists without
repetitions: the outcome of each of the two blocks of `ShutdownUObjectArray`. -/
theorem ShutdownUObjectArray_selfRemoving (D Cr : ListenerId → Bool) (A : FUObjectArray)
    (hd : A.UObjectDeleteListeners.Nodup) (hc : A.UObjectCreateListeners.Nodup) :
    ∃ A1, notifyDeleteListenersOfShutdown (selfRemoving D Cr) A = .ok A1 ∧
      A1.Notified = A.Notified ++
        A.UObjectDeleteListeners.reverse.map Notification.DeleteListenerShutdown ∧
      ((∃ L ∈ A.UObjectDeleteListeners, D L = false) →
        shutdownDeleteListeners (selfRemoving D Cr) A = .error Fatal.listenersRemain ∧
        ShutdownUObjectArray (selfRemoving D Cr) A = .error Fatal.listenersRemain) ∧
      ((∀ L ∈ A.UObjectDeleteListeners, D L = true) →
        ∃ A2, shutdownDeleteListeners (selfRemoving D Cr) A = .ok A1 ∧
          notifyCreateListenersOfShutdown (selfRemoving D Cr) A1 = .ok A2 ∧
          A2.Notified = A.Notified ++
            A.UObjectDeleteListeners.reverse.map Notification.DeleteListenerShutdown ++
            A.UObjectCreateListeners.reverse.map Notification.CreateListenerShutdown ∧
          ((∃ L ∈ A.UObjectCreateListeners, Cr L = false) →
            ShutdownUObjectArray (selfRemoving D Cr) A = .error Fatal.listenersRemain) ∧
          ((∀ L ∈ A.UObjectCreateListeners, Cr L = true) →
            ShutdownUObjectArray (selfRemoving D Cr) A = .ok A2 ∧
            A2.UObjectDeleteListeners = [] ∧ A2.UObjectCreateListeners = [])) := by
  obtain ⟨A1, hA1, hperm1, hnot1, hcreate1⟩ :=
    notifyDeleteListenersOfShutdown_selfRemoving D Cr A hd
  have hempty1 := perm_filter_nil_iff hperm1
  refine ⟨A1, hA1, hnot1, fun hstay => ?_, fun hall => ?_⟩
  · have hne : A1.UObjectDeleteListeners.length ≠ 0 := by
      intro hlen
      have hnil := List.length_eq_zero.mp hlen
      obtain ⟨L, hL, hDL⟩ := hstay
      have := hempty1.mp hnil L hL
      rw [hDL] at this
      cases this
    have h1 : shutdownDeleteListeners (selfRemoving D Cr) A = .error Fatal.listenersRemain := by
      simp only [shutdownDeleteListeners, hA1, hne, ne_eq, not_false_eq_true, if_true]
    exact ⟨h1, by simp only [ShutdownUObjectArray, h1]⟩
  · have hnil1 : A1.UObjectDeleteListeners = [] := hempty1.mpr hall
    have h1 : shutdownDeleteListeners (selfRemoving D Cr) A = .ok A1 := by
      simp [shutdownDeleteListeners, hA1, hnil1]
    have hc1 : A1.UObjectCreateListeners.Nodup := by rw [hcreate1]; exact hc
    obtain ⟨A2, hA2, hperm2, hnot2, hdelete2⟩ :=
      notifyCreateListenersOfShutdown_selfRemoving D Cr A1 hc1
    rw [hcreate1] at hperm2 hnot2
    have hempty2 := perm_filter_nil_iff hperm2
    refine ⟨A2, h1, hA2, by rw [hnot2, hnot1], fun hstay => ?_, fun hall2 => ?_⟩
    · have hne : A2.UObjectCreateListeners.length ≠ 0 := by
        intro hlen
        have hnil := List.length_eq_zero.mp hlen
        obtain ⟨L, hL, hCL⟩ := hstay
        have := hempty2.mp hnil L hL
        rw [hCL] at this
        cases this
      simp only [ShutdownUObjectArray, h1, shutdownCreateListeners, hA2, hne, ne_eq,
        not_false_eq_true, if_true]
    · have hnil2 : A2.UObjectCreateListeners = [] := hempty2.mpr hall2
      refine ⟨?_, by rw [hdelete2, hnil1], hnil2⟩
      simp [ShutdownUObjectArray, h1, shutdownCreateListeners, hA2, hnil2]

/-- C11 (amended): with listeners that, told of the shutdown, do nothing or deregister
themselves, and listener lists without repetitions: shutdown calls every delete listener
once, in the reverse order of the delete listener list; if a delete listener has not
deregistered, shutdown is fatal at that point and no create listener is called; otherwise
it calls every create listener once, in the reverse order of the create listener list, and
is fatal if a create listener has not deregistered and succeeds, with both lists empty, if
all have. So shutdown is fatal exactly when some listener does not deregister. Each list
has no repetitions and is the registration order as long as no listener has been removed
from it. -/
theorem C11_shutdown_contract :
    (∀ (D Cr : ListenerId → Bool) (A : FUObjectArray),
      A.UObjectDeleteListeners.Nodup → A.UObjectCreateListeners.Nodup →
      (∃ A1, notifyDeleteListenersOfShutdown (selfRemoving D Cr) A = .ok A1 ∧
        A1.Notified = A.Notified ++
          A.UObjectDeleteListeners.reverse.map Notification.DeleteListenerShutdown ∧
        ((∃ L ∈ A.UObjectDeleteListeners, D L = false) →
          shutdownDeleteListeners (selfRemoving D Cr) A = .error Fatal.listenersRemain ∧
          ShutdownUObjectArray (selfRemoving D Cr) A = .error Fatal.listenersRemain) ∧
        ((∀ L ∈ A.UObjectDeleteListeners, D L = true) →
          ∃ A2, shutdownDeleteListeners (selfRemoving D Cr) A = .ok A1 ∧
            notifyCreateListenersOfShutdown (selfRemoving D Cr) A1 = .ok A2 ∧
            A2.Notified = A.Notified ++
              A.UObjectDeleteListeners.reverse.map Notification.DeleteListenerShutdown ++
              A.UObjectCreateListeners.reverse.map Notification.CreateListenerShutdown ∧
            ((∃ L ∈ A.UObjectCreateListeners, Cr L = false) →
              ShutdownUObjectArray (selfRemoving D Cr) A = .error Fatal.listenersRemain) ∧
            ((∀ L ∈ A.UObjectCreateListeners, Cr L = true) →
              ShutdownUObjectArray (selfRemoving D Cr) A = .ok A2 ∧
              A2.UObjectDeleteListeners = [] ∧ A2.UObjectCreateListeners = []))) ∧
      ((∃ e, ShutdownUObjectArray (selfRemoving D Cr) A = .error e) ↔
        ((∃ L ∈ A.UObjectDeleteListeners, D L = false) ∨
          (∃ L ∈ A.UObjectCreateListeners, Cr L = false)))) ∧
    (∀ (A0 A : FUObjectArray) (lops : List ListenerOp),
      A0.UObjectCreateListeners = [] → A0.UObjectDeleteListeners = [] →
      runListeners A0 lops = .ok A →
      A.UObjectDeleteListeners.Nodup ∧ A.UObjectCreateListeners.Nodup ∧
      (lops.all keepsDeleteListeners = true →
        A.UObjectDeleteListeners = deleteRegistrationOrder lops []) ∧
      (lops.all keepsCreateListeners = true →
        A.UObjectCreateListeners = createRegistrationOrder lops [])) := by
  constructor
  · intro D Cr A hd hc
    have hmain := ShutdownUObjectArray_selfRemoving D Cr A hd hc
    refine ⟨hmain, ?_⟩
    obtain ⟨A1, -, -, hfatal1, hrest⟩ := hmain
    by_cases hdall : ∀ L ∈ A.UObjectDeleteListeners, D L = true
    · obtain ⟨A2, -, -, -, hfatal2, hok⟩ := hrest hdall
      by_cases hcall : ∀ L ∈ A.UObjectCreateListeners, Cr L = true
      · constructor
        · rintro ⟨e, he⟩
          rw [(hok hcall).1] at he
          cases he
        · rintro (⟨L, hL, hDL⟩ | ⟨L, hL, hCL⟩)
          · rw [hdall L hL] at hDL; cases hDL
          · rw [hcall L hL] at hCL; cases hCL
      · have hstay : ∃ L ∈ A.UObjectCreateListeners, Cr L = false := by
          by_contra hcon
          apply hcall
          intro L hL
          by_contra hne
          exact hcon ⟨L, hL, by simpa using hne⟩
        exact ⟨fun _ => Or.inr hstay, fun _ => ⟨_, hfatal2 hstay⟩⟩
    · have hstay : ∃ L ∈ A.UObjectDeleteListeners, D L = false := by
        by_contra hcon
        apply hdall
        intro L hL
        by_contra hne
        exact hcon ⟨L, hL, by simpa using hne⟩
      exact ⟨fun _ => Or.inl hstay, fun _ => ⟨_, (hfatal1 hstay).2⟩⟩
  · intro A0 A lops hc hd hrun
    obtain ⟨hndc, hndd⟩ := runListeners_nodup (by rw [hc]; exact List.nodup_nil)
      (by rw [hd]; exact List.nodup_nil) hrun
    obtain ⟨horderc, horderd⟩ := runListeners_registrationOrder hrun
    rw [hc] at horderc
    rw [hd] at horderd
    exact ⟨hndd, hndc, horderd, horderc⟩

theorem C11_shutdown_contract_witness :
    (sampleListeners 8 0 [.addDelete 1, .addCreate 2]).UObjectDeleteListeners = [1] ∧
    ShutdownUObjectArray (selfRemoving (fun _ => false) (fun _ => true))
      (sampleListeners 8 0 [.addDelete 1, .addCreate 2]) = .error Fatal.listenersRemain ∧
    ShutdownUObjectArray (selfRemoving (fun _ => true) (fun _ => true))
      (sampleListeners 8 0 [.addDelete 1, .addCreate 2])
      = .ok (stateOf (ShutdownUObjectArray (selfRemoving (fun _ => true) (fun _ => true))
        (sampleListeners 8 0 [.addDelete 1, .addCreate 2]))) ∧
    (stateOf (ShutdownUObjectArray (selfRemoving (fun _ => true) (fun _ => true))
      (sampleListeners 8 0 [.addDelete 1, .addCreate 2]))).Notified
      = [.DeleteListenerShutdown 1, .CreateListenerShutdown 2] ∧
    ((∃ e, ShutdownUObjectArray (selfRemoving (fun _ => false) (fun _ => true))
        (sampleListeners 8 0 [.addDelete 1, .addCreate 2]) = .error e) ↔
      ((∃ L ∈ (sampleListeners 8 0 [.addDelete 1, .addCreate 2]).UObjectDeleteListeners,
          (fun _ => false) L = false) ∨
        (∃ L ∈ (sampleListeners 8 0 [.addDelete 1, .addCreate 2]).UObjectCreateListeners,
          (fun _ => true) L = false))) :=
  ⟨rfl, rfl, rfl, rfl,
    (C11_shutdown_contract.1 (fun _ => false) (fun _ => true)
      (sampleListeners 8 0 [.addDelete 1, .addCreate 2]) (by decide) (by decide)).2⟩

/-- C11, as stated, fails on a delete listener that stays registered: shutdown then is
fatal right after the delete listeners have been called, and the create listener `2` is
never called. And after the delete listener `1` of `1`, `2`, `3` has been removed, which
moves `3` into its place, shutdown calls `2` before `3`, which is not the reverse of the
registration order `2`, `3`. -/
theorem C11_shutdown_counterexample :
    ((sampleListeners 8 0 [.addDelete 1, .addCreate 2]).UObjectCreateListeners = [2] ∧
      notifyDeleteListenersOfShutdown (selfRemoving (fun _ => false) (fun _ => true))
        (sampleListeners 8 0 [.addDelete 1, .addCreate 2])
        = .ok (stateOf (notifyDeleteListenersOfShutdown
          (selfRemoving (fun _ => false) (fun _ => true))
          (sampleListeners 8 0 [.addDelete 1, .addCreate 2]))) ∧
      (stateOf (notifyDeleteListenersOfShutdown
        (selfRemoving (fun _ => false) (fun _ => true))
        (sampleListeners 8 0 [.addDelete 1, .addCreate 2]))).Notified
        = [.DeleteListenerShutdown 1] ∧
      shutdownDeleteListeners (selfRemoving (fun _ => false) (fun _ => true))
        (sampleListeners 8 0 [.addDelete 1, .addCreate 2]) = .error Fatal.listenersRemain ∧
      ShutdownUObjectArray (selfRemoving (fun _ => false) (fun _ => true))
        (sampleListeners 8 0 [.addDelete 1, .addCreate 2]) = .error Fatal.listenersRemain) ∧
    (deleteRegistrationOrder [.addDelete 1, .addDelete 2, .addDelete 3, .removeDelete 1] []
        = [2, 3] ∧
      ShutdownUObjectArray (selfRemoving (fun _ => true) (fun _ => true))
        (sampleListeners 8 0 [.addDelete 1, .addDelete 2, .addDelete 3, .removeDelete 1])
        = .ok (stateOf (ShutdownUObjectArray (selfRemoving (fun _ => true) (fun _ => true))
          (sampleListeners 8 0
            [.addDelete 1, .addDelete 2, .addDelete 3, .removeDelete 1]))) ∧
      (stateOf (ShutdownUObjectArray (selfRemoving (fun _ => true) (fun _ => true))
        (sampleListeners 8 0
          [.addDelete 1, .addDelete 2, .addDelete 3, .removeDelete 1]))).Notified
        = [.DeleteListenerShutdown 2, .DeleteListenerShutdown 3]) := by
  refine ⟨⟨rfl, rfl, rfl, rfl, rfl⟩, rfl, rfl, rfl⟩

/-! ## Postconditions of allocate and free -/

/-- The choice of the index leaves the slot table as it is or appends one empty slot, whose
index is the index chosen; an explicit index is chosen as it is, with nothing changed. -/
theorem selectIndex_table {A A1 : FUObjectArray} {AlreadyAllocatedIndex Index : Int}
    (h : selectIndex A AlreadyAllocatedIndex = .ok (Index, A1)) :
    (A1.ObjObjects = A.ObjObjects ∨
      (A1.ObjObjects = A.ObjObjects ++ [FUObjectItem.empty] ∧ Index = A.Num)) ∧
    (0 ≤ AlreadyAllocatedIndex → Index = AlreadyAllocatedIndex ∧ A1 = A) := by
  rcases selectIndex_cases h with ⟨hpos, hidx, rfl⟩ | ⟨hneg, -, -, hsel⟩ | ⟨hneg, -, hsel⟩
  · exact ⟨Or.inl rfl, fun _ => ⟨hidx, rfl⟩⟩
  · refine ⟨?_, fun hpos => absurd hpos (by omega)⟩
    obtain ⟨hidx, ⟨-, rfl⟩ | ⟨-, -, hnum, -, rfl⟩⟩ := selectDisregardIndex_ok hsel
    · exact Or.inl rfl
    · exact Or.inr ⟨rfl, by rw [hidx, hnum]⟩
  · refine ⟨?_, fun hpos => absurd hpos (by omega)⟩
    obtain ⟨-, -, ⟨rest, -, rfl⟩ | ⟨-, -, hidx, -, rfl⟩⟩ := selectGCIndex_ok hsel
    · exact Or.inl rfl
    · exact Or.inr ⟨rfl, hidx⟩

/-- The slot written by a successful `AllocateUObjectIndex`, and what it leaves alone. -/
theorem AllocateUObjectIndex_post (B : Build) (A A3 : FUObjectArray) (Object : ObjId)
    (InitialFlags : Nat) (AlreadyAllocatedIndex SerialNumber : Int)
    (h : AllocateUObjectIndex B A Object InitialFlags AlreadyAllocatedIndex SerialNumber
      = .ok A3) :
    ∃ (k : Nat) (A1 : FUObjectArray),
      selectIndex A AlreadyAllocatedIndex = .ok ((k : Int), A1) ∧
      A3.ObjObjects[k]? = some
        { Object := some Object, Flags := B.PendingConstruction ||| InitialFlags,
          ClusterRootIndex := 0, SerialNumber := SerialNumber } ∧
      A3.InternalIndex Object = (k : Int) ∧
      (∀ O, O ≠ Object → A3.InternalIndex O = A.InternalIndex O) ∧
      (∀ i : Nat, i ≠ k → A3.ObjObjects[i]? = A.ObjObjects[i]?) ∧
      (0 ≤ AlreadyAllocatedIndex →
        (k : Int) = AlreadyAllocatedIndex ∧
        A3.ObjObjects.length = A.ObjObjects.length ∧
        A3.ObjAvailableList = A.ObjAvailableList ∧
        A3.ObjFirstGCIndex = A.ObjFirstGCIndex ∧
        A3.ObjLastNonGCIndex = A.ObjLastNonGCIndex ∧
        A3.MaxObjectsNotConsideredByGC = A.MaxObjectsNotConsideredByGC) := by
  obtain ⟨-, Index, A1, A2, hsel, hpub, rfl⟩ := AllocateUObjectIndex_ok h
  obtain ⟨k, Old, rfl, hget, -, rfl⟩ := publish_ok hpub
  obtain ⟨hframe, -, hint, -, -⟩ := selectIndex_frame hsel
  obtain ⟨htable, hexplicit⟩ := selectIndex_table hsel
  have hk : k < A1.ObjObjects.length := lt_length_of_getElem? hget
  refine ⟨k, A1, hsel, ?_, ?_, ?_, ?_, ?_⟩
  · simp [notifyCreated, hk]
  · simp [notifyCreated]
  · intro O hO
    simp [notifyCreated, Function.update, hO, hint]
  · intro i hik
    have hki : ¬ k = i := fun hc => hik hc.symm
    simp only [notifyCreated, List.getElem?_set, hki, if_false]
    rcases htable with htab | ⟨htab, hnum⟩
    · rw [htab]
    · rw [htab]
      have hklen : k = A.ObjObjects.length := by
        simp only [FUObjectArray.Num] at hnum
        omega
      rcases Nat.lt_or_ge i A.ObjObjects.length with hlt | hge
      · rw [List.getElem?_append_left hlt]
      · have h1 : (A.ObjObjects ++ [FUObjectItem.empty])[i]? = none := by
          rw [List.getElem?_eq_none]
          simp only [List.length_append, List.length_singleton]
          omega
        have h2 : A.ObjObjects[i]? = none := List.getElem?_eq_none hge
        rw [h1, h2]
  · intro hpos
    obtain ⟨hidx, rfl⟩ := hexplicit hpos
    refine ⟨hidx, ?_, rfl, rfl, rfl, rfl⟩
    simp [notifyCreated]

/-- C16: after a successful `AllocateUObjectIndex(Object, InitialFlags, AlreadyAllocatedIndex,
SerialNumber)` that selects the index `k`, the slot `k` holds the object, the flags
`PendingConstruction | InitialFlags`, cluster root `0` and the serial number passed, the
internal index of the object is `k` and that of every other object is unchanged, and every
other slot is unchanged; with an explicit index (`>= 0`), `k` is that index and the list of
recycled indices, both bounds of the disregard range and its declared size are unchanged. -/
theorem C16_publish_postcondition (B : Build) (A A3 : FUObjectArray) (Object : ObjId)
    (InitialFlags : Nat) (AlreadyAllocatedIndex SerialNumber : Int)
    (h : AllocateUObjectIndex B A Object InitialFlags AlreadyAllocatedIndex SerialNumber
      = .ok A3) :
    ∃ (k : Nat) (A1 : FUObjectArray),
      selectIndex A AlreadyAllocatedIndex = .ok ((k : Int), A1) ∧
      A3.ObjObjects[k]? = some
        { Object := some Object, Flags := B.PendingConstruction ||| InitialFlags,
          ClusterRootIndex := 0, SerialNumber := SerialNumber } ∧
      A3.InternalIndex Object = (k : Int) ∧
      (∀ O, O ≠ Object → A3.InternalIndex O = A.InternalIndex O) ∧
      (∀ i : Nat, i ≠ k → A3.ObjObjects[i]? = A.ObjObjects[i]?) ∧
      (0 ≤ AlreadyAllocatedIndex →
        (k : Int) = AlreadyAllocatedIndex ∧
        A3.ObjObjects.length = A.ObjObjects.length ∧
        A3.ObjAvailableList = A.ObjAvailableList ∧
        A3.ObjFirstGCIndex = A.ObjFirstGCIndex ∧
        A3.ObjLastNonGCIndex = A.ObjLastNonGCIndex ∧
        A3.MaxObjectsNotConsideredByGC = A.MaxObjectsNotConsideredByGC) :=
  AllocateUObjectIndex_post B A A3 Object InitialFlags AlreadyAllocatedIndex SerialNumber h

theorem C16_publish_postcondition_witness :
    AllocateUObjectIndex sampleBuild (sampleState sampleBuild 8 4 []) 7 4 2 55
      = .ok (sampleState sampleBuild 8 4 [.allocate 7 4 2 55]) ∧
    ∃ (k : Nat) (A1 : FUObjectArray),
      selectIndex (sampleState sampleBuild 8 4 []) 2 = .ok ((k : Int), A1) ∧
      (sampleState sampleBuild 8 4 [.allocate 7 4 2 55]).ObjObjects[k]? = some
        { Object := some 7, Flags := sampleBuild.PendingConstruction ||| 4,
          ClusterRootIndex := 0, SerialNumber := 55 } ∧
      (sampleState sampleBuild 8 4 [.allocate 7 4 2 55]).InternalIndex 7 = (k : Int) ∧
      (∀ O, O ≠ 7 → (sampleState sampleBuild 8 4 [.allocate 7 4 2 55]).InternalIndex O
        = (sampleState sampleBuild 8 4 []).InternalIndex O) ∧
      (∀ i : Nat, i ≠ k → (sampleState sampleBuild 8 4 [.allocate 7 4 2 55]).ObjObjects[i]?
        = (sampleState sampleBuild 8 4 []).ObjObjects[i]?) ∧
      ((0 : Int) ≤ 2 →
        (k : Int) = 2 ∧
        (sampleState sampleBuild 8 4 [.allocate 7 4 2 55]).ObjObjects.length
          = (sampleState sampleBuild 8 4 []).ObjObjects.length ∧
        (sampleState sampleBuild 8 4 [.allocate 7 4 2 55]).ObjAvailableList
          = (sampleState sampleBuild 8 4 []).ObjAvailableList ∧
        (sampleState sampleBuild 8 4 [.allocate 7 4 2 55]).ObjFirstGCIndex
          = (sampleState sampleBuild 8 4 []).ObjFirstGCIndex ∧
        (sampleState sampleBuild 8 4 [.allocate 7 4 2 55]).ObjLastNonGCIndex
          = (sampleState sampleBuild 8 4 []).ObjLastNonGCIndex ∧
        (sampleState sampleBuild 8 4 [.allocate 7 4 2 55]).MaxObjectsNotConsideredByGC
          = (sampleState sampleBuild 8 4 []).MaxObjectsNotConsideredByGC) :=
  ⟨rfl, C16_publish_postcondition sampleBuild (sampleState sampleBuild 8 4 [])
    (sampleState sampleBuild 8 4 [.allocate 7 4 2 55]) 7 4 2 55 (by rfl)⟩

/-- C17: `FreeUObjectIndex(Object)` is fatal exactly when the slot at the internal index of
the object does not hold that object (an index outside the table holds no object);
otherwise it leaves that slot with no object, flags `0`, cluster root `0` and serial number
`0`, leaves every other slot, both bounds of the disregard range, its declared size and
every internal index unchanged, and appends the index to the list of recycled indices
exactly when the index is above `ObjLastNonGCIndex`, `GExitPurge` is not set and recycling
is enabled. -/
theorem C17_free_postcondition (A : FUObjectArray) (Object : ObjId) :
    ((∃ e, FreeUObjectIndex A Object = .error e) ↔
      ¬ ∃ k : Nat, A.InternalIndex Object = (k : Int) ∧ objectAt A k = some Object) ∧
    (∀ k : Nat, A.InternalIndex Object = (k : Int) → objectAt A k = some Object →
      ∃ A1, FreeUObjectIndex A Object = .ok A1 ∧
        A1.ObjObjects[k]? = some
          { Object := none, Flags := 0, ClusterRootIndex := 0, SerialNumber := 0 } ∧
        (∀ i : Nat, i ≠ k → A1.ObjObjects[i]? = A.ObjObjects[i]?) ∧
        A1.ObjObjects.length = A.ObjObjects.length ∧
        A1.ObjFirstGCIndex = A.ObjFirstGCIndex ∧
        A1.ObjLastNonGCIndex = A.ObjLastNonGCIndex ∧
        A1.MaxObjectsNotConsideredByGC = A.MaxObjectsNotConsideredByGC ∧
        A1.InternalIndex = A.InternalIndex ∧
        A1.ObjAvailableList =
          (if (k : Int) > A.ObjLastNonGCIndex ∧ A.GExitPurge = false ∧
              A.bShouldRecycleObjectIndices = true
           then A.ObjAvailableList ++ [(k : Int)] else A.ObjAvailableList)) := by
  have hpost : ∀ k : Nat, A.InternalIndex Object = (k : Int) → objectAt A k = some Object →
      ∃ A1, FreeUObjectIndex A Object = .ok A1 ∧
        A1.ObjObjects[k]? = some
          { Object := none, Flags := 0, ClusterRootIndex := 0, SerialNumber := 0 } ∧
        (∀ i : Nat, i ≠ k → A1.ObjObjects[i]? = A.ObjObjects[i]?) ∧
        A1.ObjObjects.length = A.ObjObjects.length ∧
        A1.ObjFirstGCIndex = A.ObjFirstGCIndex ∧
        A1.ObjLastNonGCIndex = A.ObjLastNonGCIndex ∧
        A1.MaxObjectsNotConsideredByGC = A.MaxObjectsNotConsideredByGC ∧
        A1.InternalIndex = A.InternalIndex ∧
        A1.ObjAvailableList =
          (if (k : Int) > A.ObjLastNonGCIndex ∧ A.GExitPurge = false ∧
              A.bShouldRecycleObjectIndices = true
           then A.ObjAvailableList ++ [(k : Int)] else A.ObjAvailableList) := by
    intro k hidx hobj
    obtain ⟨Old, hget, -⟩ := objectAt_some hobj
    have hk : k < A.ObjObjects.length := lt_length_of_getElem? hget
    refine ⟨_, FreeUObjectIndex_of_slot hidx hobj, ?_, ?_, ?_, rfl, rfl, rfl, rfl, rfl⟩
    · simp [hk, FUObjectItem.empty]
    · intro i hik
      have hki : ¬ k = i := fun hc => hik hc.symm
      simp [List.getElem?_set, hki]
    · simp
  refine ⟨⟨?_, ?_⟩, hpost⟩
  · rintro ⟨e, he⟩ ⟨k, hidx, hobj⟩
    obtain ⟨A1, hok, -⟩ := hpost k hidx hobj
    rw [he] at hok
    cases hok
  · intro hnot
    cases hfree : FreeUObjectIndex A Object with
    | error e => exact ⟨e, rfl⟩
    | ok A1 =>
      obtain ⟨k, hidx, hobj, -⟩ := FreeUObjectIndex_slots hfree
      exact absurd ⟨k, hidx, hobj⟩ hnot

theorem C17_free_postcondition_witness :
    (sampleState sampleBuild 8 0 [.allocate 7 0 (-1) 0, .allocate 9 0 (-1) 0]).InternalIndex 9
      = ((1 : Nat) : Int) ∧
    objectAt (sampleState sampleBuild 8 0 [.allocate 7 0 (-1) 0, .allocate 9 0 (-1) 0]) 1
      = some 9 ∧
    FreeUObjectIndex
      (sampleState sampleBuild 8 0 [.allocate 7 0 (-1) 0, .allocate 9 0 (-1) 0]) 9
      = .ok (sampleState sampleBuild 8 0
        [.allocate 7 0 (-1) 0, .allocate 9 0 (-1) 0, .free 9]) ∧
    (sampleState sampleBuild 8 0 [.allocate 7 0 (-1) 0, .allocate 9 0 (-1) 0, .free 9]
      ).ObjAvailableList = [1] ∧
    FreeUObjectIndex
      (sampleState sampleBuild 8 0 [.allocate 7 0 (-1) 0, .allocate 9 0 (-1) 0, .free 9]) 9
      = .error Fatal.freeMismatch ∧
    ((∃ e, FreeUObjectIndex
        (sampleState sampleBuild 8 0 [.allocate 7 0 (-1) 0, .allocate 9 0 (-1) 0, .free 9]) 9
        = .error e) ↔
      ¬ ∃ k : Nat,
        (sampleState sampleBuild 8 0 [.allocate 7 0 (-1) 0, .allocate 9 0 (-1) 0, .free 9]
          ).InternalIndex 9 = (k : Int) ∧
        objectAt
          (sampleState sampleBuild 8 0 [.allocate 7 0 (-1) 0, .allocate 9 0 (-1) 0, .free 9]) k
          = some 9) :=
  ⟨rfl, rfl, rfl, rfl, rfl,
    (C17_free_postcondition
      (sampleState sampleBuild 8 0 [.allocate 7 0 (-1) 0, .allocate 9 0 (-1) 0, .free 9])
      9).1⟩

/-! ## The layout fields through an allocate call -/

/-- What a successful `AllocateUObjectIndex` does to the bounds, the declared size of the
disregard range, the number of slots and the list of recycled indices, path by path: an
explicit index, the disregard path within the declared range or growing it, and the regular
path popping a recycled index or appending a slot. -/
theorem AllocateUObjectIndex_layout {B : Build} {A A3 : FUObjectArray} {Object : ObjId}
    {InitialFlags : Nat} {AlreadyAllocatedIndex SerialNumber : Int}
    (h : AllocateUObjectIndex B A Object InitialFlags AlreadyAllocatedIndex SerialNumber
      = .ok A3) :
    A3.ObjFirstGCIndex = A.ObjFirstGCIndex ∧
    A3.OpenForDisregardForGC = A.OpenForDisregardForGC ∧
    A3.MaxElements = A.MaxElements ∧
    ((0 ≤ AlreadyAllocatedIndex ∧ A3.ObjLastNonGCIndex = A.ObjLastNonGCIndex ∧
        A3.MaxObjectsNotConsideredByGC = A.MaxObjectsNotConsideredByGC ∧
        A3.Num = A.Num ∧ A3.ObjAvailableList = A.ObjAvailableList) ∨
     (AlreadyAllocatedIndex < 0 ∧ A.OpenForDisregardForGC = true ∧
        0 < A.MaxObjectsNotConsideredByGC ∧
        A3.InternalIndex Object = A.ObjLastNonGCIndex + 1 ∧
        A3.ObjLastNonGCIndex = A.ObjLastNonGCIndex + 1 ∧
        A3.ObjAvailableList = A.ObjAvailableList ∧
        ((A.ObjLastNonGCIndex + 1 < A.MaxObjectsNotConsideredByGC ∧
            A3.MaxObjectsNotConsideredByGC = A.MaxObjectsNotConsideredByGC ∧
            A3.Num = A.Num) ∨
         (A.MaxObjectsNotConsideredByGC ≤ A.ObjLastNonGCIndex + 1 ∧ A.ObjFirstGCIndex < 0 ∧
            A.Num = A.ObjLastNonGCIndex + 1 ∧ A.Num + 1 ≤ A.MaxElements ∧
            A3.MaxObjectsNotConsideredByGC = A.ObjLastNonGCIndex + 2 ∧
            A3.Num = A.Num + 1))) ∨
     (AlreadyAllocatedIndex < 0 ∧
        ¬ (A.OpenForDisregardForGC = true ∧ 0 < A.MaxObjectsNotConsideredByGC) ∧
        A3.ObjLastNonGCIndex = A.ObjLastNonGCIndex ∧
        A3.MaxObjectsNotConsideredByGC = A.MaxObjectsNotConsideredByGC ∧
        ((∃ Index, A.ObjAvailableList = A3.ObjAvailableList ++ [Index] ∧ A3.Num = A.Num) ∨
         (A.ObjAvailableList = [] ∧ A3.ObjAvailableList = [] ∧ 0 ≤ A.ObjFirstGCIndex ∧
            A3.Num = A.Num + 1)))) := by
  obtain ⟨hf, -, ho, -, -, hm⟩ := AllocateUObjectIndex_bounds h
  refine ⟨hf, ho, hm, ?_⟩
  obtain ⟨-, Index, A1, A2, hsel, hpub, rfl⟩ := AllocateUObjectIndex_ok h
  obtain ⟨k, Old, rfl, hget, -, rfl⟩ := publish_ok hpub
  simp only [notifyCreated, FUObjectArray.Num, List.length_set, Function.update_same]
  rcases selectIndex_cases hsel with ⟨hpos, -, rfl⟩ | ⟨hneg, hopen, hmax, hd⟩ | ⟨hneg, hnot, hg⟩
  · exact Or.inl ⟨hpos, rfl, rfl, rfl, rfl⟩
  · refine Or.inr (Or.inl ⟨hneg, hopen, hmax, ?_⟩)
    obtain ⟨hidx, ⟨hroom, rfl⟩ | ⟨hfull, hfirst, hnum, hcap, rfl⟩⟩ := selectDisregardIndex_ok hd
    · exact ⟨hidx, rfl, rfl, Or.inl ⟨hroom, rfl, rfl⟩⟩
    · refine ⟨hidx, rfl, rfl, Or.inr ⟨hfull, hfirst, hnum, hcap, ?_, ?_⟩⟩
      · simp only
      · simp only [List.length_append, List.length_singleton]
        push_cast
        rfl
  · refine Or.inr (Or.inr ⟨hneg, hnot, ?_⟩)
    obtain ⟨-, -, ⟨rest, havail, rfl⟩ | ⟨havail, hfirst, -, -, rfl⟩⟩ := selectGCIndex_ok hg
    · exact ⟨rfl, rfl, Or.inl ⟨(k : Int), havail, rfl⟩⟩
    · refine ⟨rfl, rfl, Or.inr ⟨havail, havail, hfirst, ?_⟩⟩
      simp only [List.length_append, List.length_singleton]
      push_cast
      rfl

/-! ## The choice of the index, computed forwards -/

/-- The disregard path with room left in the declared range. -/
theorem selectDisregardIndex_of_room {A : FUObjectArray}
    (hroom : A.ObjLastNonGCIndex + 1 < A.MaxObjectsNotConsideredByGC) :
    selectDisregardIndex A
      = .ok (A.ObjLastNonGCIndex + 1,
        { A with ObjLastNonGCIndex := A.ObjLastNonGCIndex + 1 }) := by
  unfold selectDisregardIndex
  have h1 : ¬ (A.ObjLastNonGCIndex + 1 ≥ A.MaxObjectsNotConsideredByGC) := by omega
  have h2 : max A.MaxObjectsNotConsideredByGC (A.ObjLastNonGCIndex + 1 + 1)
      = A.MaxObjectsNotConsideredByGC := max_eq_left (by omega)
  simp only [h1, false_and, if_false, h2]

/-- The disregard path growing the declared range by one slot, below the capacity. -/
theorem selectDisregardIndex_of_grow {A : FUObjectArray}
    (hfull : A.MaxObjectsNotConsideredByGC ≤ A.ObjLastNonGCIndex + 1)
    (hfirst : A.ObjFirstGCIndex < 0) (hnum : A.Num = A.ObjLastNonGCIndex + 1)
    (hcap : A.Num + 1 ≤ A.MaxElements) :
    selectDisregardIndex A
      = .ok (A.ObjLastNonGCIndex + 1,
        { A with ObjLastNonGCIndex := A.ObjLastNonGCIndex + 1
                 MaxObjectsNotConsideredByGC := A.ObjLastNonGCIndex + 2
                 ObjObjects := A.ObjObjects ++ [FUObjectItem.empty] }) := by
  unfold selectDisregardIndex
  have h1 : A.ObjLastNonGCIndex + 1 ≥ A.MaxObjectsNotConsideredByGC := by omega
  have h2 : ¬ (A.ObjFirstGCIndex ≥ 0) := by omega
  have h3 : ¬ (A.Num + 1 > A.MaxElements) := by omega
  have h4 : max A.MaxObjectsNotConsideredByGC (A.ObjLastNonGCIndex + 1 + 1)
      = A.ObjLastNonGCIndex + 2 := by
    rw [max_eq_right (by omega)]
    omega
  simp only [FUObjectArray.Num] at hnum hcap
  have h5 : ¬ (A.MaxElements < A.ObjLastNonGCIndex + 1 + 1) := by omega
  simp [AddSingle, AddRange, FUObjectArray.Num, h1, h2, h4, h5, hnum]

/-- The disregard path growing the declared range is the overflow of the slot table at the
capacity. -/
theorem selectDisregardIndex_at_capacity {A : FUObjectArray}
    (hfull : A.MaxObjectsNotConsideredByGC ≤ A.ObjLastNonGCIndex + 1)
    (hfirst : A.ObjFirstGCIndex < 0) (hcap : A.MaxElements < A.Num + 1) :
    selectDisregardIndex A = .error Fatal.maxUObjectCountExceeded := by
  unfold selectDisregardIndex
  have h1 : A.ObjLastNonGCIndex + 1 ≥ A.MaxObjectsNotConsideredByGC := by omega
  have h2 : ¬ (A.ObjFirstGCIndex ≥ 0) := by omega
  have h3 : A.Num + 1 > A.MaxElements := by omega
  simp only [FUObjectArray.Num] at h3
  simp [AddSingle, AddRange, FUObjectArray.Num, h1, h2, h3]

/-- The disregard path past the declared range once the first collectable index is set. -/
theorem selectDisregardIndex_of_full {A : FUObjectArray}
    (hfull : A.MaxObjectsNotConsideredByGC ≤ A.ObjLastNonGCIndex + 1)
    (hfirst : 0 ≤ A.ObjFirstGCIndex) :
    selectDisregardIndex A = .error Fatal.disregardPoolFull := by
  unfold selectDisregardIndex
  have h1 : A.ObjLastNonGCIndex + 1 ≥ A.MaxObjectsNotConsideredByGC := by omega
  have h2 : A.ObjFirstGCIndex ≥ 0 := by omega
  simp [h1, h2]

/-- The regular path appending a slot, below the capacity. -/
theorem selectGCIndex_of_grow {A : FUObjectArray}
    (havail : A.ObjAvailableList = []) (hfirst : 0 ≤ A.ObjFirstGCIndex)
    (hge : A.ObjFirstGCIndex ≤ A.Num) (hlast : A.ObjLastNonGCIndex < A.Num)
    (hcap : A.Num + 1 ≤ A.MaxElements) :
    selectGCIndex A
      = .ok (A.Num, { A with ObjObjects := A.ObjObjects ++ [FUObjectItem.empty] }) := by
  unfold selectGCIndex
  have h1 : A.ObjFirstGCIndex ≥ 0 := by omega
  have h3 : ¬ (A.Num + 1 > A.MaxElements) := by omega
  simp only [FUObjectArray.Num] at hge hlast h3
  simp [AddSingle, AddRange, FUObjectArray.Num, havail, h1, h3, hge, hlast]

/-- The regular path appending a slot is the overflow of the slot table at the capacity. -/
theorem selectGCIndex_at_capacity {A : FUObjectArray}
    (havail : A.ObjAvailableList = []) (hfirst : 0 ≤ A.ObjFirstGCIndex)
    (hcap : A.MaxElements < A.Num + 1) :
    selectGCIndex A = .error Fatal.maxUObjectCountExceeded := by
  unfold selectGCIndex
  have h1 : A.ObjFirstGCIndex ≥ 0 := by omega
  have h3 : A.Num + 1 > A.MaxElements := by omega
  simp only [FUObjectArray.Num] at h3
  simp [AddSingle, AddRange, FUObjectArray.Num, havail, h1, h3]

/-- An allocate call whose choice of the index is fatal is fatal, for an object that is not
registered yet. -/
theorem AllocateUObjectIndex_of_select_error {B : Build} {A : FUObjectArray} {Object : ObjId}
    {InitialFlags : Nat} {AlreadyAllocatedIndex SerialNumber : Int} {e : Fatal}
    (hnone : A.InternalIndex Object = INDEX_NONE)
    (hsel : selectIndex A AlreadyAllocatedIndex = .error e) :
    AllocateUObjectIndex B A Object InitialFlags AlreadyAllocatedIndex SerialNumber
      = .error e := by
  unfold AllocateUObjectIndex
  simp [hnone, hsel]

/-- An allocate call for an object that is registered already is fatal. -/
theorem AllocateUObjectIndex_of_registered {B : Build} {A : FUObjectArray} {Object : ObjId}
    {InitialFlags : Nat} {AlreadyAllocatedIndex SerialNumber : Int}
    (hreg : A.InternalIndex Object ≠ INDEX_NONE) :
    AllocateUObjectIndex B A Object InitialFlags AlreadyAllocatedIndex SerialNumber
      = .error Fatal.checkInternalIndexNone := by
  unfold AllocateUObjectIndex
  simp [hreg]

/-- An allocate call whose choice of the index is fatal is fatal. -/
theorem AllocateUObjectIndex_fatal_of_select {B : Build} {A : FUObjectArray} {Object : ObjId}
    {InitialFlags : Nat} {AlreadyAllocatedIndex SerialNumber : Int} {e : Fatal}
    (hsel : selectIndex A AlreadyAllocatedIndex = .error e) :
    (∃ e2, AllocateUObjectIndex B A Object InitialFlags AlreadyAllocatedIndex SerialNumber
      = .error e2) ∧
    (A.InternalIndex Object = INDEX_NONE →
      AllocateUObjectIndex B A Object InitialFlags AlreadyAllocatedIndex SerialNumber
        = .error e) := by
  by_cases hnone : A.InternalIndex Object = INDEX_NONE
  · exact ⟨⟨e, AllocateUObjectIndex_of_select_error hnone hsel⟩,
      fun _ => AllocateUObjectIndex_of_select_error hnone hsel⟩
  · exact ⟨⟨_, AllocateUObjectIndex_of_registered hnone⟩, fun hc => absurd hc hnone⟩

/-! ## Capacity -/

theorem init_DefaultFill {B : Build} {InternalIndex : ObjId → Int}
    {bRecycle GExitPurge GIsInitialLoad EngineExitRequested : Bool}
    {InMaxUObjects Reserve : Int} {bPreAllocateObjectArray : Bool} {A0 : FUObjectArray}
    (h : initRegistry B InternalIndex bRecycle GExitPurge GIsInitialLoad EngineExitRequested
      InMaxUObjects Reserve bPreAllocateObjectArray = .ok A0) :
    DefaultFill Reserve 0 A0 ∧ A0.MaxElements = InMaxUObjects ∧
    A0.InternalIndex = InternalIndex ∧ Reserve ≤ InMaxUObjects := by
  obtain ⟨-, hle, rfl⟩ := initRegistry_ok h
  refine ⟨⟨rfl, ?_, ?_⟩, rfl, rfl, hle⟩
  · intro i _
    exact objectAt_replicate_empty (n := Reserve.toNat) rfl i
  · simp only [construct, INDEX_NONE, FUObjectArray.Num, List.length_replicate]
    by_cases hr : 0 < Reserve
    · left
      rw [if_pos hr]
      refine ⟨hr, trivial, by omega, by omega, ?_, ?_⟩
      · rw [max_eq_left (by omega)]
        omega
      · rw [max_eq_left (by omega)]
    · right
      rw [if_neg hr]
      refine ⟨by omega, rfl, trivial, ?_⟩
      omega

/-- Below the capacity, an allocate call without explicit index for an object that is not
registered succeeds on a registry filled by such calls only, and fills it by one more. -/
theorem allocate_DefaultFill {B : Build} {A : FUObjectArray} {Reserve Capacity : Int}
    {Count : Nat} {Object : ObjId} {InitialFlags : Nat}
    {AlreadyAllocatedIndex SerialNumber : Int}
    (hfill : DefaultFill Reserve Count A) (hmax : A.MaxElements = Capacity)
    (hroom : (Count : Int) < Capacity) (hneg : AlreadyAllocatedIndex < 0)
    (hnone : A.InternalIndex Object = INDEX_NONE) :
    ∃ A3, AllocateUObjectIndex B A Object InitialFlags AlreadyAllocatedIndex SerialNumber
        = .ok A3 ∧
      DefaultFill Reserve (Count + 1) A3 ∧ A3.MaxElements = Capacity ∧
      A3.InternalIndex Object = (Count : Int) ∧
      ∀ O, O ≠ Object → A3.InternalIndex O = A.InternalIndex O := by
  obtain ⟨havail, hempty, hcase⟩ := hfill
  have hslot : objectAt A Count = none := hempty Count (le_refl _)
  -- the call succeeds
  have hok : ∃ A3, AllocateUObjectIndex B A Object InitialFlags AlreadyAllocatedIndex
      SerialNumber = .ok A3 := by
    rcases hcase with ⟨hpos, hopen, hfirst, hlast, hnum, hdecl⟩ | ⟨hoff, hfirst, hlast, hnum⟩
    · have hsel := selectIndex_of_disregard hneg hopen hpos
      have hidx : A.ObjLastNonGCIndex + 1 = (Count : Int) := by omega
      by_cases hin : (Count : Int) < Reserve
      · have hroom2 : A.ObjLastNonGCIndex + 1 < A.MaxObjectsNotConsideredByGC := by
          rw [hdecl, hidx]
          exact lt_max_of_lt_left hin
        rw [selectDisregardIndex_of_room hroom2, hidx] at hsel
        have hlen : Count < A.ObjObjects.length := by
          simp only [FUObjectArray.Num] at hnum
          have : max Reserve (Count : Int) = Reserve := max_eq_left (by omega)
          omega
        have hget : A.ObjObjects[Count]? = some (A.ObjObjects.get ⟨Count, hlen⟩) := by
          simp [List.getElem?_eq_getElem hlen]
        have hold : (A.ObjObjects.get ⟨Count, hlen⟩).Object = none := by
          simpa [objectAt, hget] using hslot
        exact ⟨_, AllocateUObjectIndex_of hnone hsel (publish_of_empty hget hold)⟩
      · have hmaxeq : max Reserve (Count : Int) = (Count : Int) := max_eq_right (by omega)
        have hsel2 := selectDisregardIndex_of_grow (A := A) (by omega) hfirst (by omega)
          (by omega)
        rw [hsel2, hidx] at hsel
        have hlen : A.ObjObjects.length = Count := by
          simp only [FUObjectArray.Num] at hnum
          omega
        have hget : (A.ObjObjects ++ [FUObjectItem.empty])[Count]? = some FUObjectItem.empty := by
          rw [← hlen]
          simp
        exact ⟨_, AllocateUObjectIndex_of hnone hsel (publish_of_empty hget rfl)⟩
    · have hnot : ¬ (A.OpenForDisregardForGC = true ∧ 0 < A.MaxObjectsNotConsideredByGC) := by
        rintro ⟨-, hc⟩
        omega
      have hsel := selectIndex_of_regular (A := A) hneg hnot
      have hsel2 := selectGCIndex_of_grow havail (by omega) (by omega) (by omega)
        (by omega : A.Num + 1 ≤ A.MaxElements)
      rw [hsel2, hnum] at hsel
      have hlen : A.ObjObjects.length = Count := by
        simp only [FUObjectArray.Num] at hnum
        omega
      have hget : (A.ObjObjects ++ [FUObjectItem.empty])[Count]? = some FUObjectItem.empty := by
        rw [← hlen]
        simp
      exact ⟨_, AllocateUObjectIndex_of hnone hsel (publish_of_empty hget rfl)⟩
  obtain ⟨A3, h⟩ := hok
  refine ⟨A3, h, ?_⟩
  obtain ⟨-, hopen3, hmax3, -⟩ := AllocateUObjectIndex_layout h
  obtain ⟨-, k2, -, hint, -, -, -⟩ := AllocateUObjectIndex_slots h
  obtain ⟨k, hk, -, hobj, hfirst3, hpath⟩ := AllocateUObjectIndex_paths h hneg
  have hnumlen : A.Num = (A.ObjObjects.length : Int) := rfl
  have hnumlen3 : A3.Num = (A3.ObjObjects.length : Int) := rfl
  have hkCount : k = Count ∧ A3.ObjAvailableList = [] ∧
      ((0 < A3.MaxObjectsNotConsideredByGC ∧ A3.OpenForDisregardForGC = true ∧
          A3.ObjFirstGCIndex < 0 ∧ A3.ObjLastNonGCIndex = ((Count + 1 : Nat) : Int) - 1 ∧
          A3.Num = max Reserve ((Count + 1 : Nat) : Int) ∧
          A3.MaxObjectsNotConsideredByGC = max Reserve ((Count + 1 : Nat) : Int)) ∨
        (A3.MaxObjectsNotConsideredByGC ≤ 0 ∧ A3.ObjFirstGCIndex = 0 ∧
          A3.ObjLastNonGCIndex = -1 ∧ A3.Num = ((Count + 1 : Nat) : Int))) := by
    rcases hcase with ⟨hpos, hopen, hfirst, hlast, hnum, hdecl⟩ | ⟨hoff, hfirst, hlast, hnum⟩
    · rcases hpath with ⟨-, -, hk1, hk2, hl3, hd3, ha3, hlen3⟩ |
          ⟨-, -, hk1, hk2, -, hklen, hl3, hd3, ha3, hlen3⟩ |
          ⟨hnot, -⟩ | ⟨hnot, -⟩
      · refine ⟨by omega, by rw [ha3, havail], Or.inl ⟨by omega, by rw [hopen3, hopen],
          by omega, by omega, ?_, ?_⟩⟩
        · rw [hnumlen3, hlen3, ← hnumlen, hnum]
          omega
        · rw [hd3, hdecl]
          omega
      · refine ⟨by omega, by rw [ha3, havail], Or.inl ⟨by omega, by rw [hopen3, hopen],
          by omega, by omega, ?_, ?_⟩⟩
        · rw [hnumlen3, hlen3]
          omega
        · rw [hd3]
          omega
      · exact absurd ⟨hopen, hpos⟩ hnot
      · exact absurd ⟨hopen, hpos⟩ hnot
    · rcases hpath with ⟨-, hpos, -⟩ | ⟨-, hpos, -⟩ | ⟨-, ha, -⟩ |
          ⟨-, -, ha3, -, hklen, -, hl3, hd3, hlen3⟩
      · omega
      · omega
      · rw [havail] at ha
        exact absurd ha (by simp)
      · refine ⟨by omega, ha3, Or.inr ⟨by omega, by omega, by omega, ?_⟩⟩
        rw [hnumlen3, hlen3]
        omega
  obtain ⟨rfl, havail3, hcase3⟩ := hkCount
  refine ⟨⟨havail3, ?_, hcase3⟩, by rw [hmax3, hmax], hk, ?_⟩
  · intro i hi
    rw [hobj i]
    have hne : i ≠ k := by omega
    simp only [hne, if_false]
    exact hempty i (by omega)
  · intro O hO
    rw [hint]
    simp [Function.update, hO]

/-- Up to the capacity, allocate calls without explicit index for distinct objects that are
not registered all succeed on a registry filled by such calls only. -/
theorem run_allocateDefaults {B : Build} {Reserve Capacity : Int} (InitialFlags : Nat) :
    ∀ (Objects : List ObjId) (Count : Nat) (A : FUObjectArray),
      DefaultFill Reserve Count A → A.MaxElements = Capacity →
      ((Count + Objects.length : Nat) : Int) ≤ Capacity → Objects.Nodup →
      (∀ O ∈ Objects, A.InternalIndex O = INDEX_NONE) →
      ∃ A2, run B A (allocateDefaults Objects InitialFlags) = .ok A2 ∧
        DefaultFill Reserve (Count + Objects.length) A2 ∧ A2.MaxElements = Capacity := by
  intro Objects
  induction Objects with
  | nil =>
    intro Count A hfill hmax _ _ _
    exact ⟨A, rfl, hfill, hmax⟩
  | cons Object rest ih =>
    intro Count A hfill hmax hlen hnodup hfresh
    have hroom : (Count : Int) < Capacity := by
      simp only [List.length_cons] at hlen
      omega
    obtain ⟨A3, h3, hfill3, hmax3, -, hother⟩ :=
      @allocate_DefaultFill B A Reserve Capacity Count Object InitialFlags INDEX_NONE 0
        hfill hmax hroom (by decide) (hfresh Object (List.mem_cons_self _ _))
    obtain ⟨hnotin, hnodup2⟩ := List.nodup_cons.mp hnodup
    have hfresh3 : ∀ O ∈ rest, A3.InternalIndex O = INDEX_NONE := by
      intro O hO
      have hne : O ≠ Object := fun hc => hnotin (hc ▸ hO)
      rw [hother O hne]
      exact hfresh O (List.mem_cons_of_mem _ hO)
    have hlen2 : ((Count + 1 + rest.length : Nat) : Int) ≤ Capacity := by
      simp only [List.length_cons] at hlen
      have : Count + 1 + rest.length = Count + (rest.length + 1) := by omega
      rw [this]
      exact hlen
    obtain ⟨A2, hrun, hfill2, hmax2⟩ := ih (Count + 1) A3 hfill3 hmax3 hlen2 hnodup2 hfresh3
    refine ⟨A2, ?_, ?_, hmax2⟩
    · simp only [allocateDefaults, List.map_cons, run, step]
      rw [h3]
      exact hrun
    · have : Count + (Object :: rest).length = Count + 1 + rest.length := by
        simp only [List.length_cons]
        omega
      rw [this]
      exact hfill2

/-- At the capacity, the choice of an index without explicit index overflows the slot table
of a registry filled by allocate calls without explicit index only. -/
theorem selectIndex_at_capacity {A : FUObjectArray} {Reserve Capacity : Int} {Count : Nat}
    {AlreadyAllocatedIndex : Int}
    (hfill : DefaultFill Reserve Count A) (hmax : A.MaxElements = Capacity)
    (hfull : (Count : Int) = Capacity) (hres : Reserve ≤ Capacity)
    (hneg : AlreadyAllocatedIndex < 0) :
    selectIndex A AlreadyAllocatedIndex = .error Fatal.maxUObjectCountExceeded := by
  obtain ⟨havail, -, hcase⟩ := hfill
  rcases hcase with ⟨hpos, hopen, hfirst, hlast, hnum, hdecl⟩ | ⟨hoff, hfirst, hlast, hnum⟩
  · rw [selectIndex_of_disregard hneg hopen hpos]
    have hmaxeq : max Reserve (Count : Int) = (Count : Int) := max_eq_right (by omega)
    exact selectDisregardIndex_at_capacity (by omega) hfirst (by omega)
  · have hnot : ¬ (A.OpenForDisregardForGC = true ∧ 0 < A.MaxObjectsNotConsideredByGC) := by
      rintro ⟨-, hc⟩
      omega
    rw [selectIndex_of_regular hneg hnot]
    exact selectGCIndex_at_capacity havail (by omega) (by omega)

/-- C15: after `AllocateObjectPool` with a capacity of `InMaxUObjects` slots (such as `10`)
and any reserve, allocate calls without explicit index for that many distinct objects not
registered before all succeed and fill the table, and every further allocate call without
explicit index is fatal, by the overflow of the slot table if its object is not registered.
The overflow handler `FailMaxUObjectCountExceeded` always ends in the fatal error, and it
dumps the object counts before exactly when the console variable is not zero. -/
theorem C15_capacity_exhaustion :
    (∀ (B : Build) (InternalIndex : ObjId → Int)
      (bRecycle GExitPurge GIsInitialLoad EngineExitRequested : Bool)
      (InMaxUObjects Reserve : Int) (bPreAllocateObjectArray : Bool) (A0 : FUObjectArray)
      (Objects : List ObjId) (InitialFlags : Nat),
      initRegistry B InternalIndex bRecycle GExitPurge GIsInitialLoad EngineExitRequested
        InMaxUObjects Reserve bPreAllocateObjectArray = .ok A0 →
      Objects.Nodup → (∀ O ∈ Objects, InternalIndex O = INDEX_NONE) →
      (Objects.length : Int) = InMaxUObjects →
      ∃ A, run B A0 (allocateDefaults Objects InitialFlags) = .ok A ∧
        A.Num = InMaxUObjects ∧ A.MaxElements = InMaxUObjects ∧
        ∀ (Object : ObjId) (Flags : Nat) (AlreadyAllocatedIndex SerialNumber : Int),
          AlreadyAllocatedIndex < 0 →
          (∃ e, AllocateUObjectIndex B A Object Flags AlreadyAllocatedIndex SerialNumber
            = .error e) ∧
          (A.InternalIndex Object = INDEX_NONE →
            AllocateUObjectIndex B A Object Flags AlreadyAllocatedIndex SerialNumber
              = .error Fatal.maxUObjectCountExceeded)) ∧
    (∀ (Report : Type) (Dump : FUObjectArray → Report) (GVar : Int) (A : FUObjectArray)
      (MaxUObjects NewUObjectCount : Int),
      (FailMaxUObjectCountExceeded Dump GVar A MaxUObjects NewUObjectCount).2
        = Fatal.maxUObjectCountExceeded ∧
      ((FailMaxUObjectCountExceeded Dump GVar A MaxUObjects NewUObjectCount).1
        = some (Dump A) ↔ GVar ≠ 0) ∧
      ((FailMaxUObjectCountExceeded Dump GVar A MaxUObjects NewUObjectCount).1
        = none ↔ GVar = 0)) := by
  constructor
  · intro B InternalIndex bRecycle GExitPurge GIsInitialLoad EngineExitRequested
      InMaxUObjects Reserve bPreAllocateObjectArray A0 Objects InitialFlags hinit hnodup
      hfresh hlen
    obtain ⟨hfill0, hmax0, hint0, hres⟩ := init_DefaultFill hinit
    have hfresh0 : ∀ O ∈ Objects, A0.InternalIndex O = INDEX_NONE := by
      intro O hO
      rw [hint0]
      exact hfresh O hO
    obtain ⟨A, hrun, hfill, hmax⟩ := run_allocateDefaults InitialFlags Objects 0 A0 hfill0
      hmax0 (by rw [Nat.zero_add]; omega) hnodup hfresh0
    rw [Nat.zero_add] at hfill
    refine ⟨A, hrun, ?_, hmax, ?_⟩
    · obtain ⟨-, -, ⟨-, -, -, -, hnum, -⟩ | ⟨-, -, -, hnum⟩⟩ := hfill
      · rw [hnum, hlen]
        exact max_eq_right hres
      · rw [hnum, hlen]
    · intro Object Flags AlreadyAllocatedIndex SerialNumber hneg
      exact AllocateUObjectIndex_fatal_of_select
        (selectIndex_at_capacity hfill hmax hlen hres hneg)
  · intro Report Dump GVar A MaxUObjects NewUObjectCount
    unfold FailMaxUObjectCountExceeded
    by_cases hG : GVar = 0
    · simp [hG]
    · simp [hG]

set_option maxRecDepth 100000 in
theorem C15_capacity_exhaustion_witness :
    initRegistry sampleBuild (fun _ => INDEX_NONE) true false true false 10 0 false
      = .ok (sampleState sampleBuild 10 0 []) ∧
    run sampleBuild (sampleState sampleBuild 10 0 []) (allocateDefaults (List.range 10) 0)
      = .ok (sampleState sampleBuild 10 0 (allocateDefaults (List.range 10) 0)) ∧
    run sampleBuild (sampleState sampleBuild 10 0 []) (allocateDefaults (List.range 11) 0)
      = .error Fatal.maxUObjectCountExceeded ∧
    sampleRun sampleBuild 10 4 (allocateDefaults (List.range 11) 0)
      = .error Fatal.maxUObjectCountExceeded ∧
    ∃ A, run sampleBuild (sampleState sampleBuild 10 0 [])
        (allocateDefaults (List.range 10) 0) = .ok A ∧
      A.Num = 10 ∧ A.MaxElements = 10 ∧
      ∀ (Object : ObjId) (Flags : Nat) (AlreadyAllocatedIndex SerialNumber : Int),
        AlreadyAllocatedIndex < 0 →
        (∃ e, AllocateUObjectIndex sampleBuild A Object Flags AlreadyAllocatedIndex
          SerialNumber = .error e) ∧
        (A.InternalIndex Object = INDEX_NONE →
          AllocateUObjectIndex sampleBuild A Object Flags AlreadyAllocatedIndex SerialNumber
            = .error Fatal.maxUObjectCountExceeded) :=
  ⟨rfl, rfl, rfl, rfl,
    C15_capacity_exhaustion.1 sampleBuild (fun _ => INDEX_NONE) true false true false 10 0
      false (sampleState sampleBuild 10 0 []) (List.range 10) 0 (by rfl) (by decide)
      (fun _ _ => rfl) (by rfl)⟩

/-! ## The bounds of the disregard range through a run -/

/-- What the operations other than allocate do to the bounds, the declared size of the
disregard range, the open flag and the number of slots: nothing (free, the delete
notification, the serial number operations), or what open, close and disable do. -/
theorem step_other_layout {B : Build} {A A1 : FUObjectArray} {op : Op}
    (h : step B A op = .ok A1)
    (hop : ∀ Object InitialFlags AlreadyAllocatedIndex SerialNumber,
      op ≠ .allocate Object InitialFlags AlreadyAllocatedIndex SerialNumber) :
    A1.ObjLastNonGCIndex = A.ObjLastNonGCIndex ∧ A1.Num = A.Num ∧
    A1.MaxElements = A.MaxElements ∧
    ((A1.ObjFirstGCIndex = A.ObjFirstGCIndex ∧
        A1.OpenForDisregardForGC = A.OpenForDisregardForGC ∧
        A1.MaxObjectsNotConsideredByGC = A.MaxObjectsNotConsideredByGC) ∨
     (op = .openDisregard ∧ A.OpenForDisregardForGC = false ∧
        A1.OpenForDisregardForGC = true ∧
        A1.ObjFirstGCIndex = A.ObjFirstGCIndex ∧
        A1.MaxObjectsNotConsideredByGC = A.MaxObjectsNotConsideredByGC) ∨
     (op = .closeDisregard ∧ A.OpenForDisregardForGC = true ∧
        A1.OpenForDisregardForGC = false ∧
        A1.ObjFirstGCIndex = max A.ObjFirstGCIndex (A.ObjLastNonGCIndex + 1) ∧
        A1.MaxObjectsNotConsideredByGC = A.MaxObjectsNotConsideredByGC) ∨
     (op = .disableDisregard ∧ A1.OpenForDisregardForGC = false ∧
        A1.MaxObjectsNotConsideredByGC = 0 ∧
        A1.ObjFirstGCIndex
          = if A.OpenForDisregardForGC then max 0 (A.ObjLastNonGCIndex + 1) else 0)) := by
  cases op with
  | allocate Object InitialFlags AlreadyAllocatedIndex SerialNumber =>
    exact absurd rfl (hop Object InitialFlags AlreadyAllocatedIndex SerialNumber)
  | free Object =>
    obtain ⟨k, Old, -, -, -, rfl⟩ := FreeUObjectIndex_ok h
    exact ⟨rfl, by simp [FUObjectArray.Num], rfl, Or.inl ⟨rfl, rfl, rfl⟩⟩
  | notifyDeleted Object =>
    obtain ⟨-, rfl⟩ := RemoveObjectFromDeleteListeners_ok h
    exact ⟨rfl, rfl, rfl, Or.inl ⟨rfl, rfl, rfl⟩⟩
  | openDisregard =>
    obtain ⟨hclosed, rfl⟩ := OpenDisregardForGC_ok h
    exact ⟨rfl, rfl, rfl, Or.inr (Or.inl ⟨rfl, hclosed, rfl, rfl, rfl⟩)⟩
  | closeDisregard =>
    obtain ⟨hopen, rfl⟩ := CloseDisregardForGC_ok h
    refine ⟨rfl, ?_, rfl, Or.inr (Or.inr (Or.inl ⟨rfl, hopen, rfl, rfl, rfl⟩))⟩
    simp only [FUObjectArray.Num, length_closedSlots]
  | disableDisregard =>
    have hA1 := DisableDisregardForGC_ok h
    subst hA1
    refine ⟨rfl, ?_, rfl, Or.inr (Or.inr (Or.inr ⟨rfl, rfl, rfl, rfl⟩))⟩
    simp only [FUObjectArray.Num]
    split
    · rw [length_closedSlots]
    · rfl
  | serialOf Index =>
    simp only [step] at h
    cases hser : AllocateSerialNumber B A Index with
    | error e => simp [hser] at h
    | ok p =>
      obtain ⟨SerialNumber, A2⟩ := p
      simp only [hser, Except.ok.injEq] at h
      subst h
      obtain ⟨k, Old, -, -, -, hcase⟩ := AllocateSerialNumber_ok hser
      rcases hcase with ⟨-, -, rfl⟩ | ⟨-, -, -, rfl⟩
      · exact ⟨rfl, rfl, rfl, Or.inl ⟨rfl, rfl, rfl⟩⟩
      · exact ⟨rfl, by simp [FUObjectArray.Num], rfl, Or.inl ⟨rfl, rfl, rfl⟩⟩
  | resetSerial Object =>
    obtain ⟨k, Old, -, -, rfl⟩ := ResetSerialNumber_ok h
    exact ⟨rfl, by simp [FUObjectArray.Num], rfl, Or.inl ⟨rfl, rfl, rfl⟩⟩

/-- Either the operation is an allocate call or it is none. -/
theorem allocate_or_other (op : Op) :
    (∃ Object InitialFlags AlreadyAllocatedIndex SerialNumber,
      op = .allocate Object InitialFlags AlreadyAllocatedIndex SerialNumber) ∨
    (∀ Object InitialFlags AlreadyAllocatedIndex SerialNumber,
      op ≠ .allocate Object InitialFlags AlreadyAllocatedIndex SerialNumber) := by
  cases op with
  | allocate Object InitialFlags AlreadyAllocatedIndex SerialNumber =>
    exact Or.inl ⟨_, _, _, _, rfl⟩
  | free Object => exact Or.inr (fun _ _ _ _ hc => by cases hc)
  | notifyDeleted Object => exact Or.inr (fun _ _ _ _ hc => by cases hc)
  | openDisregard => exact Or.inr (fun _ _ _ _ hc => by cases hc)
  | closeDisregard => exact Or.inr (fun _ _ _ _ hc => by cases hc)
  | disableDisregard => exact Or.inr (fun _ _ _ _ hc => by cases hc)
  | serialOf Index => exact Or.inr (fun _ _ _ _ hc => by cases hc)
  | resetSerial Object => exact Or.inr (fun _ _ _ _ hc => by cases hc)

/-- No operation changes the capacity. -/
theorem step_MaxElements {B : Build} {A A1 : FUObjectArray} {op : Op}
    (h : step B A op = .ok A1) : A1.MaxElements = A.MaxElements := by
  rcases allocate_or_other op with ⟨Object, F, I, S, rfl⟩ | hother
  · exact (AllocateUObjectIndex_layout h).2.2.1
  · exact (step_other_layout h hother).2.2.1

/-- Once the first collectable index is set it stays set. -/
theorem step_first_set {B : Build} {A A1 : FUObjectArray} {op : Op}
    (h : step B A op = .ok A1) (hfirst : 0 ≤ A.ObjFirstGCIndex) :
    0 ≤ A1.ObjFirstGCIndex := by
  rcases allocate_or_other op with ⟨Object, F, I, S, rfl⟩ | hother
  · rw [(AllocateUObjectIndex_layout h).1]
    exact hfirst
  · obtain ⟨-, -, -, ⟨hf, -, -⟩ | ⟨-, -, -, hf, -⟩ | ⟨-, -, -, hf, -⟩ | ⟨-, -, -, hf⟩⟩ :=
      step_other_layout h hother
    · omega
    · omega
    · rw [hf]
      exact le_max_of_le_left hfirst
    · rw [hf]
      split
      · exact le_max_left _ _
      · exact le_refl _

/-- Once the declared size of the disregard range is zero it stays zero. -/
theorem step_max_zero {B : Build} {A A1 : FUObjectArray} {op : Op}
    (h : step B A op = .ok A1) (hzero : A.MaxObjectsNotConsideredByGC = 0) :
    A1.MaxObjectsNotConsideredByGC = 0 := by
  rcases allocate_or_other op with ⟨Object, F, I, S, rfl⟩ | hother
  · obtain ⟨-, -, -, ⟨-, -, hm, -⟩ | ⟨-, -, hpos, -⟩ | ⟨-, -, -, hm, -⟩⟩ :=
      AllocateUObjectIndex_layout h
    · omega
    · omega
    · omega
  · obtain ⟨-, -, -, ⟨-, -, hm⟩ | ⟨-, -, -, -, hm⟩ | ⟨-, -, -, -, hm⟩ | ⟨-, -, hm, -⟩⟩ :=
      step_other_layout h hother
    · omega
    · omega
    · omega
    · exact hm

/-- Every operation keeps `GrowthLayout`. -/
theorem step_GrowthLayout {B : Build} {A A1 : FUObjectArray} {op : Op}
    (hinv : GrowthLayout A) (h : step B A op = .ok A1) : GrowthLayout A1 := by
  obtain ⟨hlast, hunset, hin⟩ := hinv
  rcases allocate_or_other op with ⟨Object, F, I, S, rfl⟩ | hother
  · obtain ⟨hf, ho, -, hpath⟩ := AllocateUObjectIndex_layout h
    rcases hpath with ⟨-, hl, hm, hn, -⟩ | ⟨-, hopen, hpos, -, hl, -, hgrow⟩ |
        ⟨-, hnot, hl, hm, hn⟩
    · refine ⟨by omega, fun hneg => ?_, fun hp => by omega⟩
      obtain ⟨h1, h2, h3⟩ := hunset (by omega)
      exact ⟨by rw [ho, h1], by omega, by omega⟩
    · rcases hgrow with ⟨hroom, hm, hn⟩ | ⟨hfull, hfirst, hnum, -, hm, hn⟩
      · refine ⟨by omega, fun hneg => ?_, fun hp => by omega⟩
        obtain ⟨h1, h2, h3⟩ := hunset (by omega)
        exact ⟨by rw [ho, h1], by omega, by omega⟩
      · refine ⟨by omega, fun hneg => ?_, fun hp => by omega⟩
        exact ⟨by rw [ho, hopen], by omega, by omega⟩
    · refine ⟨by omega, fun hneg => ?_, fun hp => by omega⟩
      obtain ⟨h1, h2, -⟩ := hunset (by omega)
      exact absurd ⟨h1, h2⟩ hnot
  · obtain ⟨hl, hn, -, ⟨hf, ho, hm⟩ | ⟨-, hclosed, -, hf, hm⟩ | ⟨-, -, -, hf, hm⟩ |
        ⟨-, -, hm, hf⟩⟩ := step_other_layout h hother
    · refine ⟨by omega, fun hneg => ?_, fun hp => by omega⟩
      obtain ⟨h1, h2, h3⟩ := hunset (by omega)
      exact ⟨by rw [ho, h1], by omega, by omega⟩
    · refine ⟨by omega, fun hneg => ?_, fun hp => by omega⟩
      obtain ⟨h1, -, -⟩ := hunset (by omega)
      rw [hclosed] at h1
      cases h1
    · refine ⟨by omega, fun hneg => ?_, fun hp => by omega⟩
      have : 0 ≤ A1.ObjFirstGCIndex := by
        rw [hf]
        exact le_max_of_le_right (by omega)
      omega
    · refine ⟨by omega, fun hneg => ?_, fun hp => by omega⟩
      have : 0 ≤ A1.ObjFirstGCIndex := by
        rw [hf]
        split
        · exact le_max_left _ _
        · exact le_refl _
      omega

theorem init_GrowthLayout {B : Build} {InternalIndex : ObjId → Int}
    {bRecycle GExitPurge GIsInitialLoad EngineExitRequested : Bool}
    {InMaxUObjects Reserve : Int} {bPreAllocateObjectArray : Bool} {A0 : FUObjectArray}
    (h : initRegistry B InternalIndex bRecycle GExitPurge GIsInitialLoad EngineExitRequested
      InMaxUObjects Reserve bPreAllocateObjectArray = .ok A0) :
    GrowthLayout A0 ∧ A0.MaxElements = InMaxUObjects ∧ A0.ObjLastNonGCIndex = -1 := by
  obtain ⟨-, hle, rfl⟩ := initRegistry_ok h
  refine ⟨⟨?_, ?_, ?_⟩, rfl, rfl⟩
  · simp [construct, INDEX_NONE]
  · simp only [construct, FUObjectArray.Num, List.length_replicate]
    intro hneg
    by_cases hr : 0 < Reserve
    · exact ⟨trivial, hr, by omega⟩
    · rw [if_neg hr] at hneg
      omega
  · simp only [construct, INDEX_NONE]
    intro hp
    omega

/-- Every state of a run from the start has `GrowthLayout` and the capacity of the start. -/
theorem run_GrowthLayout {B : Build} {InternalIndex : ObjId → Int}
    {bRecycle GExitPurge GIsInitialLoad EngineExitRequested : Bool}
    {InMaxUObjects Reserve : Int} {bPreAllocateObjectArray : Bool} {A0 A : FUObjectArray}
    {ops : List Op}
    (h : initRegistry B InternalIndex bRecycle GExitPurge GIsInitialLoad EngineExitRequested
      InMaxUObjects Reserve bPreAllocateObjectArray = .ok A0)
    (hrun : run B A0 ops = .ok A) :
    GrowthLayout A ∧ A.MaxElements = InMaxUObjects := by
  obtain ⟨h0, hm0, -⟩ := init_GrowthLayout h
  exact run_induction (B := B)
    (fun X => GrowthLayout X ∧ X.MaxElements = InMaxUObjects)
    (fun X X1 op hX hstep => ⟨step_GrowthLayout hX.1 hstep, by
      rw [step_MaxElements hstep]; exact hX.2⟩)
    ⟨h0, hm0⟩ hrun

/-- An operation raises `ObjLastNonGCIndex` by one if it is an allocate call that takes the
disregard path, and leaves it as it is otherwise. -/
theorem step_last_count {B : Build} {A A1 : FUObjectArray} {op : Op}
    (h : step B A op = .ok A1) :
    A1.ObjLastNonGCIndex
      = A.ObjLastNonGCIndex + ((if takesDisregardPath A op then 1 else 0 : Nat) : Int) := by
  rcases allocate_or_other op with ⟨Object, F, I, S, rfl⟩ | hother
  · obtain ⟨-, -, -, ⟨hpos, hl, -⟩ | ⟨hneg, hopen, hmax, -, hl, -⟩ | ⟨hneg, hnot, hl, -⟩⟩ :=
      AllocateUObjectIndex_layout h
    · have : takesDisregardPath A (.allocate Object F I S) = false := by
        simp only [takesDisregardPath, Bool.and_eq_false_imp, decide_eq_true_eq]
        intro hc
        omega
      rw [this, hl]
      simp
    · have : takesDisregardPath A (.allocate Object F I S) = true := by
        simp [takesDisregardPath, DisregardForGCEnabled, hneg, hopen, hmax]
      rw [this, hl]
      simp
    · have : takesDisregardPath A (.allocate Object F I S) = false := by
        simp only [takesDisregardPath, DisregardForGCEnabled, Bool.and_eq_false_imp,
          decide_eq_true_eq, decide_eq_false_iff_not]
        intro _ hopen hpos
        exact hnot ⟨hopen, hpos⟩
      rw [this, hl]
      simp
  · have : takesDisregardPath A op = false := by
      cases op with
      | allocate Object F I S => exact absurd rfl (hother Object F I S)
      | _ => rfl
    rw [this, (step_other_layout h hother).1]
    simp

/-- The last disregard index counts the allocate calls of a run that took the disregard
path. -/
theorem run_last_count {B : Build} :
    ∀ (ops : List Op) (A A2 : FUObjectArray), run B A ops = .ok A2 →
      A2.ObjLastNonGCIndex = A.ObjLastNonGCIndex + (disregardAllocations B A ops : Int) := by
  intro ops
  induction ops with
  | nil =>
    intro A A2 h
    simp only [run, Except.ok.injEq] at h
    subst h
    simp [disregardAllocations]
  | cons op ops ih =>
    intro A A2 h
    obtain ⟨A1, h1, h2⟩ := run_cons_ok h
    rw [ih A1 A2 h2, step_last_count h1]
    simp only [disregardAllocations, h1]
    push_cast
    omega

/-! ## Growth of the disregard pool -/

/-- While the first collectable index is unset, an allocate call without explicit index at
the end of the declared disregard range, for an object that is not registered, succeeds
below the capacity: it appends one slot, which becomes the last disregard slot and holds the
object, and the declared size becomes the index of that slot plus one. -/
theorem allocate_grows {B : Build} {A : FUObjectArray} {Object : ObjId} {InitialFlags : Nat}
    {AlreadyAllocatedIndex SerialNumber : Int}
    (hlay : GrowthLayout A) (hopen : A.OpenForDisregardForGC = true)
    (hpos : 0 < A.MaxObjectsNotConsideredByGC) (hfirst : A.ObjFirstGCIndex < 0)
    (hneg : AlreadyAllocatedIndex < 0)
    (hfull : A.MaxObjectsNotConsideredByGC ≤ A.ObjLastNonGCIndex + 1)
    (hnone : A.InternalIndex Object = INDEX_NONE) (hcap : A.Num < A.MaxElements) :
    ∃ A3, AllocateUObjectIndex B A Object InitialFlags AlreadyAllocatedIndex SerialNumber
        = .ok A3 ∧
      A3.Num = A.Num + 1 ∧
      A3.ObjLastNonGCIndex = A.ObjLastNonGCIndex + 1 ∧
      A3.ObjLastNonGCIndex = A.Num ∧
      A3.InternalIndex Object = A3.ObjLastNonGCIndex ∧
      A3.MaxObjectsNotConsideredByGC = A3.ObjLastNonGCIndex + 1 ∧
      A3.ObjObjects[A.ObjObjects.length]? = some
        { Object := some Object, Flags := B.PendingConstruction ||| InitialFlags,
          ClusterRootIndex := 0, SerialNumber := SerialNumber } ∧
      (∀ i : Nat, i ≠ A.ObjObjects.length → A3.ObjObjects[i]? = A.ObjObjects[i]?) ∧
      A3.ObjFirstGCIndex = A.ObjFirstGCIndex ∧
      A3.OpenForDisregardForGC = true := by
  obtain ⟨-, hunset, hin⟩ := hlay
  obtain ⟨-, -, hnum⟩ := hunset hfirst
  have hlast := hin hpos
  have hidx : A.ObjLastNonGCIndex + 1 = ((A.ObjObjects.length : Nat) : Int) := by
    simp only [FUObjectArray.Num] at hnum
    omega
  have hsel := selectIndex_of_disregard hneg hopen hpos
  rw [selectDisregardIndex_of_grow hfull hfirst (by omega) (by omega), hidx] at hsel
  have hget : (A.ObjObjects ++ [FUObjectItem.empty])[A.ObjObjects.length]?
      = some FUObjectItem.empty := by simp
  have h3 := @AllocateUObjectIndex_of B A _ _ Object InitialFlags AlreadyAllocatedIndex
    SerialNumber _ hnone hsel (publish_of_empty hget rfl)
  refine ⟨_, h3, ?_⟩
  obtain ⟨hf3, ho3, -, hpath⟩ := AllocateUObjectIndex_layout h3
  obtain ⟨k, A1, -, hslot, hk, -, hrest, -⟩ :=
    AllocateUObjectIndex_post B A _ Object InitialFlags AlreadyAllocatedIndex SerialNumber h3
  rcases hpath with ⟨hc, -⟩ | ⟨-, -, -, hint, hl3, -, hgrow⟩ | ⟨-, hnot, -⟩
  · omega
  · rcases hgrow with ⟨hroom, -⟩ | ⟨-, -, -, -, hm3, hn3⟩
    · omega
    · have hklen : k = A.ObjObjects.length := by
        rw [hk] at hint
        omega
      subst hklen
      refine ⟨hn3, hl3, ?_, ?_, ?_, hslot, hrest, hf3, ?_⟩
      · rw [hl3]
        simp only [FUObjectArray.Num]
        omega
      · rw [hint, hl3]
      · rw [hm3, hl3]
        omega
      · rw [ho3, hopen]
  · exact absurd ⟨hopen, hpos⟩ hnot

/-- C18 (amended): in every state reached from the start, while the pool is open and
enabled and the first collectable index is unset, an allocate call without explicit index
at the end of the declared disregard range, for an object not registered yet and with the
slot table below its capacity, succeeds, grows the slot table by one slot whose index is the
new last disregard index, and raises the declared size to that index plus one. After every
successful allocate call on the disregard path, in any state, the last disregard index is
below the declared size and is the index the object received; and counted from the start,
the allocate call on the disregard path that follows `k - 1` such calls receives the index
`k - 1`. -/
theorem C18_disregard_pool_growth :
    (∀ (B : Build) (InternalIndex : ObjId → Int)
      (bRecycle GExitPurge GIsInitialLoad EngineExitRequested : Bool)
      (InMaxUObjects Reserve : Int) (bPreAllocateObjectArray : Bool) (A0 A : FUObjectArray)
      (ops : List Op) (Object : ObjId) (InitialFlags : Nat)
      (AlreadyAllocatedIndex SerialNumber : Int),
      initRegistry B InternalIndex bRecycle GExitPurge GIsInitialLoad EngineExitRequested
        InMaxUObjects Reserve bPreAllocateObjectArray = .ok A0 →
      run B A0 ops = .ok A →
      A.OpenForDisregardForGC = true → 0 < A.MaxObjectsNotConsideredByGC →
      A.ObjFirstGCIndex < 0 → AlreadyAllocatedIndex < 0 →
      A.MaxObjectsNotConsideredByGC ≤ A.ObjLastNonGCIndex + 1 →
      A.InternalIndex Object = INDEX_NONE → A.Num < InMaxUObjects →
      ∃ A3, AllocateUObjectIndex B A Object InitialFlags AlreadyAllocatedIndex SerialNumber
          = .ok A3 ∧
        A3.Num = A.Num + 1 ∧
        A3.ObjLastNonGCIndex = A.ObjLastNonGCIndex + 1 ∧
        A3.ObjLastNonGCIndex = A.Num ∧
        A3.InternalIndex Object = A3.ObjLastNonGCIndex ∧
        A3.MaxObjectsNotConsideredByGC = A3.ObjLastNonGCIndex + 1 ∧
        A3.ObjObjects[A.ObjObjects.length]? = some
          { Object := some Object, Flags := B.PendingConstruction ||| InitialFlags,
            ClusterRootIndex := 0, SerialNumber := SerialNumber } ∧
        (∀ i : Nat, i ≠ A.ObjObjects.length → A3.ObjObjects[i]? = A.ObjObjects[i]?) ∧
        A3.ObjFirstGCIndex = A.ObjFirstGCIndex ∧
        A3.OpenForDisregardForGC = true) ∧
    (∀ (B : Build) (A A3 : FUObjectArray) (Object : ObjId) (InitialFlags : Nat)
      (AlreadyAllocatedIndex SerialNumber : Int),
      AllocateUObjectIndex B A Object InitialFlags AlreadyAllocatedIndex SerialNumber
        = .ok A3 →
      AlreadyAllocatedIndex < 0 → A.OpenForDisregardForGC = true →
      0 < A.MaxObjectsNotConsideredByGC →
      A3.ObjLastNonGCIndex < A3.MaxObjectsNotConsideredByGC ∧
      A3.ObjLastNonGCIndex = A.ObjLastNonGCIndex + 1 ∧
      A3.InternalIndex Object = A3.ObjLastNonGCIndex) ∧
    (∀ (B : Build) (InternalIndex : ObjId → Int)
      (bRecycle GExitPurge GIsInitialLoad EngineExitRequested : Bool)
      (InMaxUObjects Reserve : Int) (bPreAllocateObjectArray : Bool) (A0 A A3 : FUObjectArray)
      (ops : List Op) (Object : ObjId) (InitialFlags : Nat)
      (AlreadyAllocatedIndex SerialNumber : Int),
      initRegistry B InternalIndex bRecycle GExitPurge GIsInitialLoad EngineExitRequested
        InMaxUObjects Reserve bPreAllocateObjectArray = .ok A0 →
      run B A0 ops = .ok A →
      AllocateUObjectIndex B A Object InitialFlags AlreadyAllocatedIndex SerialNumber
        = .ok A3 →
      AlreadyAllocatedIndex < 0 → A.OpenForDisregardForGC = true →
      0 < A.MaxObjectsNotConsideredByGC →
      A3.InternalIndex Object = (disregardAllocations B A0 ops : Int)) := by
  refine ⟨?_, ?_, ?_⟩
  · intro B InternalIndex bRecycle GExitPurge GIsInitialLoad EngineExitRequested
      InMaxUObjects Reserve bPreAllocateObjectArray A0 A ops Object InitialFlags
      AlreadyAllocatedIndex SerialNumber hinit hrun hopen hpos hfirst hneg hfull hnone hcap
    obtain ⟨hlay, hmax⟩ := run_GrowthLayout hinit hrun
    exact allocate_grows hlay hopen hpos hfirst hneg hfull hnone (by rw [hmax]; exact hcap)
  · intro B A A3 Object InitialFlags AlreadyAllocatedIndex SerialNumber h hneg hopen hpos
    obtain ⟨-, -, -, ⟨hc, -⟩ | ⟨-, -, -, hint, hl3, -, hgrow⟩ | ⟨-, hnot, -⟩⟩ :=
      AllocateUObjectIndex_layout h
    · omega
    · refine ⟨?_, hl3, by rw [hint, hl3]⟩
      rcases hgrow with ⟨hroom, hm3, -⟩ | ⟨-, -, -, -, hm3, -⟩
      · omega
      · omega
    · exact absurd ⟨hopen, hpos⟩ hnot
  · intro B InternalIndex bRecycle GExitPurge GIsInitialLoad EngineExitRequested
      InMaxUObjects Reserve bPreAllocateObjectArray A0 A A3 ops Object InitialFlags
      AlreadyAllocatedIndex SerialNumber hinit hrun h hneg hopen hpos
    obtain ⟨-, -, hlast0⟩ := init_GrowthLayout hinit
    have hcount := run_last_count ops A0 A hrun
    obtain ⟨-, -, -, ⟨hc, -⟩ | ⟨-, -, -, hint, -⟩ | ⟨-, hnot, -⟩⟩ :=
      AllocateUObjectIndex_layout h
    · omega
    · rw [hint, hcount, hlast0]
      omega
    · exact absurd ⟨hopen, hpos⟩ hnot

theorem C18_disregard_pool_growth_witness :
    initRegistry sampleBuild (fun _ => INDEX_NONE) true false true false 8 2 false
      = .ok (sampleState sampleBuild 8 2 []) ∧
    run sampleBuild (sampleState sampleBuild 8 2 []) (allocateDefaults [5, 6] 0)
      = .ok (sampleState sampleBuild 8 2 (allocateDefaults [5, 6] 0)) ∧
    (sampleState sampleBuild 8 2 (allocateDefaults [5, 6] 0)).MaxObjectsNotConsideredByGC
      = 2 ∧
    (sampleState sampleBuild 8 2 (allocateDefaults [5, 6] 0)).ObjLastNonGCIndex = 1 ∧
    AllocateUObjectIndex sampleBuild (sampleState sampleBuild 8 2 (allocateDefaults [5, 6] 0))
      7 0 INDEX_NONE 0
      = .ok (sampleState sampleBuild 8 2 (allocateDefaults [5, 6, 7] 0)) ∧
    (sampleState sampleBuild 8 2 (allocateDefaults [5, 6, 7] 0)).ObjObjects.length = 3 ∧
    (sampleState sampleBuild 8 2 (allocateDefaults [5, 6, 7] 0)).InternalIndex 7 = 2 ∧
    (sampleState sampleBuild 8 2 (allocateDefaults [5, 6, 7] 0)).MaxObjectsNotConsideredByGC
      = 3 ∧
    disregardAllocations sampleBuild (sampleState sampleBuild 8 2 [])
      (allocateDefaults [5, 6] 0) = 2 ∧
    (sampleState sampleBuild 8 2 (allocateDefaults [5, 6, 7] 0)).InternalIndex 7
      = (disregardAllocations sampleBuild (sampleState sampleBuild 8 2 [])
          (allocateDefaults [5, 6] 0) : Int) ∧
    ∃ A3, AllocateUObjectIndex sampleBuild
        (sampleState sampleBuild 8 2 (allocateDefaults [5, 6] 0)) 7 0 INDEX_NONE 0 = .ok A3 ∧
      A3.Num = (sampleState sampleBuild 8 2 (allocateDefaults [5, 6] 0)).Num + 1 ∧
      A3.MaxObjectsNotConsideredByGC = A3.ObjLastNonGCIndex + 1 :=
  ⟨rfl, rfl, rfl, rfl, rfl, rfl, rfl, rfl, rfl,
    C18_disregard_pool_growth.2.2 sampleBuild (fun _ => INDEX_NONE) true false true false 8 2
      false (sampleState sampleBuild 8 2 [])
      (sampleState sampleBuild 8 2 (allocateDefaults [5, 6] 0))
      (sampleState sampleBuild 8 2 (allocateDefaults [5, 6, 7] 0))
      (allocateDefaults [5, 6] 0) 7 0 INDEX_NONE 0 (by rfl) (by rfl) (by rfl) (by decide)
      (by rfl) (by decide),
    match C18_disregard_pool_growth.1 sampleBuild (fun _ => INDEX_NONE) true false true false
      8 2 false (sampleState sampleBuild 8 2 [])
      (sampleState sampleBuild 8 2 (allocateDefaults [5, 6] 0))
      (allocateDefaults [5, 6] 0) 7 0 INDEX_NONE 0 (by rfl) (by rfl) (by rfl) (by decide)
      (by decide) (by decide) (by decide) (by rfl) (by decide) with
    | ⟨A3, h1, h2, _, _, _, h6, _⟩ => ⟨A3, h1, h2, h6⟩⟩

/-- C18, as stated, fails at the capacity: after a start with a capacity of two slots, both
reserved for the disregard pool, and two allocate calls, the pool is open and enabled, the
first collectable index is unset and the next allocate call without explicit index would
exceed the declared size; it is fatal instead of growing the pool. -/
theorem C18_disregard_pool_growth_counterexample :
    run sampleBuild (sampleState sampleBuild 2 2 []) (allocateDefaults [5, 6] 0)
      = .ok (sampleState sampleBuild 2 2 (allocateDefaults [5, 6] 0)) ∧
    (sampleState sampleBuild 2 2 (allocateDefaults [5, 6] 0)).OpenForDisregardForGC = true ∧
    DisregardForGCEnabled (sampleState sampleBuild 2 2 (allocateDefaults [5, 6] 0)) = true ∧
    (sampleState sampleBuild 2 2 (allocateDefaults [5, 6] 0)).ObjFirstGCIndex = -1 ∧
    (sampleState sampleBuild 2 2 (allocateDefaults [5, 6] 0)).ObjLastNonGCIndex + 1
      = (sampleState sampleBuild 2 2 (allocateDefaults [5, 6] 0)).MaxObjectsNotConsideredByGC ∧
    (sampleState sampleBuild 2 2 (allocateDefaults [5, 6] 0)).InternalIndex 7 = INDEX_NONE ∧
    AllocateUObjectIndex sampleBuild (sampleState sampleBuild 2 2 (allocateDefaults [5, 6] 0))
      7 0 INDEX_NONE 0 = .error Fatal.maxUObjectCountExceeded := by
  refine ⟨rfl, rfl, rfl, rfl, rfl, rfl, rfl⟩

/-! ## Overflow of the disregard pool -/

/-- An allocate call that took the regular path was made with the first collectable index
set, in a state that has `GrowthLayout`. -/
theorem first_set_of_regular {A : FUObjectArray} {op : Op} (hlay : GrowthLayout A)
    (hreg : takesRegularPath A op = true) : 0 ≤ A.ObjFirstGCIndex := by
  by_contra hneg
  obtain ⟨hopen, hpos, -⟩ := hlay.2.1 (by omega)
  cases op with
  | allocate Object F I S =>
    simp [takesRegularPath, DisregardForGCEnabled, hopen, hpos] at hreg
  | _ => simp [takesRegularPath] at hreg

/-- The first collectable index stays set through a run. -/
theorem run_first_set {B : Build} {A A2 : FUObjectArray} {ops : List Op}
    (hfirst : 0 ≤ A.ObjFirstGCIndex) (hrun : run B A ops = .ok A2) :
    0 ≤ A2.ObjFirstGCIndex :=
  run_induction (B := B) (fun X => 0 ≤ X.ObjFirstGCIndex)
    (fun _ _ _ hX hstep => step_first_set hstep hX) hfirst hrun

/-- With the pool open and enabled, an allocate call without explicit index at the end of
the declared disregard range is fatal once the first collectable index is set. -/
theorem allocate_full {B : Build} {A : FUObjectArray} {Object : ObjId} {InitialFlags : Nat}
    {AlreadyAllocatedIndex SerialNumber : Int}
    (hopen : A.OpenForDisregardForGC = true) (hpos : 0 < A.MaxObjectsNotConsideredByGC)
    (hneg : AlreadyAllocatedIndex < 0)
    (hfull : A.MaxObjectsNotConsideredByGC ≤ A.ObjLastNonGCIndex + 1)
    (hfirst : 0 ≤ A.ObjFirstGCIndex) :
    (∃ e, AllocateUObjectIndex B A Object InitialFlags AlreadyAllocatedIndex SerialNumber
      = .error e) ∧
    (A.InternalIndex Object = INDEX_NONE →
      AllocateUObjectIndex B A Object InitialFlags AlreadyAllocatedIndex SerialNumber
        = .error Fatal.disregardPoolFull) := by
  apply AllocateUObjectIndex_fatal_of_select
  rw [selectIndex_of_disregard hneg hopen hpos]
  exact selectDisregardIndex_of_full hfull hfirst

/-- In a state reached from the start, with the pool open and enabled, an allocate call
without explicit index at the end of the declared disregard range, for an object that is
not registered yet, is fatal exactly when the first collectable index is set or the slot
table is at its capacity. -/
theorem disregard_overflow_fatal_iff {B : Build} {InternalIndex : ObjId → Int}
    {bRecycle GExitPurge GIsInitialLoad EngineExitRequested : Bool}
    {InMaxUObjects Reserve : Int} {bPreAllocateObjectArray : Bool} {A0 A : FUObjectArray}
    {ops : List Op} {Object : ObjId} {InitialFlags : Nat}
    {AlreadyAllocatedIndex SerialNumber : Int}
    (hinit : initRegistry B InternalIndex bRecycle GExitPurge GIsInitialLoad
      EngineExitRequested InMaxUObjects Reserve bPreAllocateObjectArray = .ok A0)
    (hrun : run B A0 ops = .ok A)
    (hopen : A.OpenForDisregardForGC = true) (hpos : 0 < A.MaxObjectsNotConsideredByGC)
    (hneg : AlreadyAllocatedIndex < 0)
    (hfull : A.MaxObjectsNotConsideredByGC ≤ A.ObjLastNonGCIndex + 1)
    (hnone : A.InternalIndex Object = INDEX_NONE) :
    ((∃ e, AllocateUObjectIndex B A Object InitialFlags AlreadyAllocatedIndex SerialNumber
        = .error e) ↔ (0 ≤ A.ObjFirstGCIndex ∨ InMaxUObjects ≤ A.Num)) ∧
    (A.ObjFirstGCIndex < 0 → A.Num < InMaxUObjects →
      ∃ A3, AllocateUObjectIndex B A Object InitialFlags AlreadyAllocatedIndex SerialNumber
        = .ok A3) := by
  obtain ⟨hlay, hmax⟩ := run_GrowthLayout hinit hrun
  have hgrow : A.ObjFirstGCIndex < 0 → A.Num < InMaxUObjects →
      ∃ A3, AllocateUObjectIndex B A Object InitialFlags AlreadyAllocatedIndex SerialNumber
        = .ok A3 := by
    intro hfirst hcap
    obtain ⟨A3, h3, -⟩ := @allocate_grows B A Object InitialFlags AlreadyAllocatedIndex
      SerialNumber hlay hopen hpos hfirst hneg hfull hnone (by rw [hmax]; exact hcap)
    exact ⟨A3, h3⟩
  refine ⟨⟨?_, ?_⟩, hgrow⟩
  · rintro ⟨e, he⟩
    by_contra hcon
    obtain ⟨A3, h3⟩ := hgrow (by omega) (by omega)
    rw [he] at h3
    cases h3
  · rintro (hfirst | hcap)
    · exact (allocate_full hopen hpos hneg hfull hfirst).1
    · by_cases hfirst : 0 ≤ A.ObjFirstGCIndex
      · exact (allocate_full hopen hpos hneg hfull hfirst).1
      · have hsel : selectIndex A AlreadyAllocatedIndex
            = .error Fatal.maxUObjectCountExceeded := by
          rw [selectIndex_of_disregard hneg hopen hpos]
          exact selectDisregardIndex_at_capacity hfull (by omega) (by omega)
        exact (AllocateUObjectIndex_fatal_of_select hsel).1

/-- C19 (amended): while the pool is open and enabled, an allocate call without explicit
index that would push the last disregard index past the declared size is fatal if an
allocate call took the regular path earlier in the run; and it is not fatal, for an object
not registered yet, while the first collectable index is still unset and the slot table is
below its capacity. -/
theorem C19_disregard_overflow_fatal :
    (∀ (B : Build) (InternalIndex : ObjId → Int)
      (bRecycle GExitPurge GIsInitialLoad EngineExitRequested : Bool)
      (InMaxUObjects Reserve : Int) (bPreAllocateObjectArray : Bool)
      (A0 A1 A2 A : FUObjectArray) (before after : List Op) (op : Op)
      (Object : ObjId) (InitialFlags : Nat) (AlreadyAllocatedIndex SerialNumber : Int),
      initRegistry B InternalIndex bRecycle GExitPurge GIsInitialLoad EngineExitRequested
        InMaxUObjects Reserve bPreAllocateObjectArray = .ok A0 →
      run B A0 before = .ok A1 → takesRegularPath A1 op = true → step B A1 op = .ok A2 →
      run B A2 after = .ok A →
      A.OpenForDisregardForGC = true → 0 < A.MaxObjectsNotConsideredByGC →
      AlreadyAllocatedIndex < 0 →
      A.MaxObjectsNotConsideredByGC ≤ A.ObjLastNonGCIndex + 1 →
      (∃ e, AllocateUObjectIndex B A Object InitialFlags AlreadyAllocatedIndex SerialNumber
        = .error e) ∧
      (A.InternalIndex Object = INDEX_NONE →
        AllocateUObjectIndex B A Object InitialFlags AlreadyAllocatedIndex SerialNumber
          = .error Fatal.disregardPoolFull)) ∧
    (∀ (B : Build) (InternalIndex : ObjId → Int)
      (bRecycle GExitPurge GIsInitialLoad EngineExitRequested : Bool)
      (InMaxUObjects Reserve : Int) (bPreAllocateObjectArray : Bool) (A0 A : FUObjectArray)
      (ops : List Op) (Object : ObjId) (InitialFlags : Nat)
      (AlreadyAllocatedIndex SerialNumber : Int),
      initRegistry B InternalIndex bRecycle GExitPurge GIsInitialLoad EngineExitRequested
        InMaxUObjects Reserve bPreAllocateObjectArray = .ok A0 →
      run B A0 ops = .ok A →
      A.OpenForDisregardForGC = true → 0 < A.MaxObjectsNotConsideredByGC →
      AlreadyAllocatedIndex < 0 →
      A.MaxObjectsNotConsideredByGC ≤ A.ObjLastNonGCIndex + 1 →
      A.InternalIndex Object = INDEX_NONE →
      A.ObjFirstGCIndex < 0 → A.Num < InMaxUObjects →
      ∃ A3, AllocateUObjectIndex B A Object InitialFlags AlreadyAllocatedIndex SerialNumber
        = .ok A3) := by
  refine ⟨?_, ?_⟩
  · intro B InternalIndex bRecycle GExitPurge GIsInitialLoad EngineExitRequested
      InMaxUObjects Reserve bPreAllocateObjectArray A0 A1 A2 A before after op Object
      InitialFlags AlreadyAllocatedIndex SerialNumber hinit hrun1 hreg hstep hrun2 hopen hpos
      hneg hfull
    obtain ⟨hlay1, -⟩ := run_GrowthLayout hinit hrun1
    have hfirst1 := first_set_of_regular hlay1 hreg
    have hfirst2 := step_first_set hstep hfirst1
    exact allocate_full hopen hpos hneg hfull (run_first_set hfirst2 hrun2)
  · intro B InternalIndex bRecycle GExitPurge GIsInitialLoad EngineExitRequested
      InMaxUObjects Reserve bPreAllocateObjectArray A0 A ops Object InitialFlags
      AlreadyAllocatedIndex SerialNumber hinit hrun hopen hpos hneg hfull hnone hfirst hcap
    exact (disregard_overflow_fatal_iff hinit hrun hopen hpos hneg hfull hnone).2 hfirst hcap

theorem C19_disregard_overflow_fatal_witness :
    run sampleBuild (sampleState sampleBuild 8 2 []) [.closeDisregard]
      = .ok (sampleState sampleBuild 8 2 [.closeDisregard]) ∧
    takesRegularPath (sampleState sampleBuild 8 2 [.closeDisregard])
      (.allocate 5 0 INDEX_NONE 0) = true ∧
    (sampleState sampleBuild 8 2 [.closeDisregard, .allocate 5 0 INDEX_NONE 0]).InternalIndex 5
      = 2 ∧
    (sampleState sampleBuild 8 2 [.closeDisregard, .allocate 5 0 INDEX_NONE 0,
      .openDisregard, .allocate 6 0 INDEX_NONE 0, .allocate 7 0 INDEX_NONE 0]
      ).ObjLastNonGCIndex = 1 ∧
    (sampleState sampleBuild 8 2 [.closeDisregard, .allocate 5 0 INDEX_NONE 0,
      .openDisregard, .allocate 6 0 INDEX_NONE 0, .allocate 7 0 INDEX_NONE 0]
      ).InternalIndex 9 = INDEX_NONE ∧
    ((∃ e, AllocateUObjectIndex sampleBuild
        (sampleState sampleBuild 8 2 [.closeDisregard, .allocate 5 0 INDEX_NONE 0,
          .openDisregard, .allocate 6 0 INDEX_NONE 0, .allocate 7 0 INDEX_NONE 0])
        9 0 INDEX_NONE 0 = .error e) ∧
      ((sampleState sampleBuild 8 2 [.closeDisregard, .allocate 5 0 INDEX_NONE 0,
          .openDisregard, .allocate 6 0 INDEX_NONE 0, .allocate 7 0 INDEX_NONE 0]
          ).InternalIndex 9 = INDEX_NONE →
        AllocateUObjectIndex sampleBuild
          (sampleState sampleBuild 8 2 [.closeDisregard, .allocate 5 0 INDEX_NONE 0,
            .openDisregard, .allocate 6 0 INDEX_NONE 0, .allocate 7 0 INDEX_NONE 0])
          9 0 INDEX_NONE 0 = .error Fatal.disregardPoolFull)) ∧
    (sampleState sampleBuild 8 2 (allocateDefaults [5, 6] 0)).ObjFirstGCIndex = -1 ∧
    (sampleState sampleBuild 8 2 (allocateDefaults [5, 6] 0)).Num = 2 ∧
    ∃ A3, AllocateUObjectIndex sampleBuild
      (sampleState sampleBuild 8 2 (allocateDefaults [5, 6] 0)) 7 0 INDEX_NONE 0 = .ok A3 :=
  ⟨rfl, rfl, rfl, rfl, rfl,
    C19_disregard_overflow_fatal.1 sampleBuild (fun _ => INDEX_NONE) true false true false
      8 2 false (sampleState sampleBuild 8 2 [])
      (sampleState sampleBuild 8 2 [.closeDisregard])
      (sampleState sampleBuild 8 2 [.closeDisregard, .allocate 5 0 INDEX_NONE 0])
      (sampleState sampleBuild 8 2 [.closeDisregard, .allocate 5 0 INDEX_NONE 0,
        .openDisregard, .allocate 6 0 INDEX_NONE 0, .allocate 7 0 INDEX_NONE 0])
      [.closeDisregard]
      [.openDisregard, .allocate 6 0 INDEX_NONE 0, .allocate 7 0 INDEX_NONE 0]
      (.allocate 5 0 INDEX_NONE 0) 9 0 INDEX_NONE 0
      (by rfl) (by rfl) (by rfl) (by rfl) (by rfl) (by rfl) (by decide) (by decide)
      (by decide),
    rfl, rfl,
    C19_disregard_overflow_fatal.2 sampleBuild (fun _ => INDEX_NONE) true false true false
      8 2 false (sampleState sampleBuild 8 2 [])
      (sampleState sampleBuild 8 2 (allocateDefaults [5, 6] 0))
      (allocateDefaults [5, 6] 0) 7 0 INDEX_NONE 0 (by rfl) (by rfl) (by rfl) (by decide)
      (by decide) (by decide) (by rfl) (by decide) (by decide)⟩

/-- C19, as stated, fails where no allocate call has taken the regular path. At the
capacity: after a start with two slots, both reserved, and two allocate calls, both on the
disregard path, the next one is fatal. After a close and a reopening: after a start with
eight slots, two reserved, a close, an open and two allocate calls, both on the disregard
path, the next one is fatal because the close has set the first collectable index. -/
theorem C19_disregard_overflow_counterexample :
    (run sampleBuild (sampleState sampleBuild 2 2 []) (allocateDefaults [5, 6] 0)
        = .ok (sampleState sampleBuild 2 2 (allocateDefaults [5, 6] 0)) ∧
      disregardAllocations sampleBuild (sampleState sampleBuild 2 2 [])
        (allocateDefaults [5, 6] 0) = 2 ∧
      (sampleState sampleBuild 2 2 (allocateDefaults [5, 6] 0)).OpenForDisregardForGC
        = true ∧
      DisregardForGCEnabled (sampleState sampleBuild 2 2 (allocateDefaults [5, 6] 0))
        = true ∧
      (sampleState sampleBuild 2 2 (allocateDefaults [5, 6] 0)).InternalIndex 7
        = INDEX_NONE ∧
      AllocateUObjectIndex sampleBuild
        (sampleState sampleBuild 2 2 (allocateDefaults [5, 6] 0)) 7 0 INDEX_NONE 0
        = .error Fatal.maxUObjectCountExceeded) ∧
    (run sampleBuild (sampleState sampleBuild 8 2 [])
        [.closeDisregard, .openDisregard, .allocate 5 0 INDEX_NONE 0,
          .allocate 6 0 INDEX_NONE 0]
        = .ok (sampleState sampleBuild 8 2 [.closeDisregard, .openDisregard,
          .allocate 5 0 INDEX_NONE 0, .allocate 6 0 INDEX_NONE 0]) ∧
      disregardAllocations sampleBuild (sampleState sampleBuild 8 2 [])
        [.closeDisregard, .openDisregard, .allocate 5 0 INDEX_NONE 0,
          .allocate 6 0 INDEX_NONE 0] = 2 ∧
      (sampleState sampleBuild 8 2 [.closeDisregard, .openDisregard,
        .allocate 5 0 INDEX_NONE 0, .allocate 6 0 INDEX_NONE 0]).OpenForDisregardForGC
        = true ∧
      DisregardForGCEnabled (sampleState sampleBuild 8 2 [.closeDisregard, .openDisregard,
        .allocate 5 0 INDEX_NONE 0, .allocate 6 0 INDEX_NONE 0]) = true ∧
      (sampleState sampleBuild 8 2 [.closeDisregard, .openDisregard,
        .allocate 5 0 INDEX_NONE 0, .allocate 6 0 INDEX_NONE 0]).InternalIndex 7
        = INDEX_NONE ∧
      AllocateUObjectIndex sampleBuild
        (sampleState sampleBuild 8 2 [.closeDisregard, .openDisregard,
          .allocate 5 0 INDEX_NONE 0, .allocate 6 0 INDEX_NONE 0]) 7 0 INDEX_NONE 0
        = .error Fatal.disregardPoolFull) := by
  refine ⟨⟨rfl, rfl, rfl, rfl, rfl, rfl⟩, rfl, rfl, rfl, rfl, rfl, rfl⟩

/-! ## Disabling the disregard pool -/

/-- The function `DisableDisregardForGC` never fails. -/
theorem DisableDisregardForGC_total (B : Build) (A : FUObjectArray) :
    ∃ A1, DisableDisregardForGC B A = .ok A1 := by
  unfold DisableDisregardForGC CloseDisregardForGC
  by_cases hopen : A.OpenForDisregardForGC = true
  · simp [hopen]
  · simp [hopen]

/-- The declared size of the disregard range stays zero through a run. -/
theorem run_max_zero {B : Build} {A A2 : FUObjectArray} {ops : List Op}
    (hzero : A.MaxObjectsNotConsideredByGC = 0) (hrun : run B A ops = .ok A2) :
    A2.MaxObjectsNotConsideredByGC = 0 :=
  run_induction (B := B) (fun X => X.MaxObjectsNotConsideredByGC = 0)
    (fun _ _ _ hX hstep => step_max_zero hstep hX) hzero hrun

/-- With a declared size of zero no operation takes the disregard path. -/
theorem takesDisregardPath_of_zero {A : FUObjectArray} (op : Op)
    (hzero : A.MaxObjectsNotConsideredByGC = 0) : takesDisregardPath A op = false := by
  cases op with
  | allocate Object F I S => simp [takesDisregardPath, DisregardForGCEnabled, hzero]
  | _ => rfl

/-- C20 (amended): for every registry state, `DisableDisregardForGC` succeeds, and after it
the pool is closed, the declared size is zero, and the first collectable index is zero if
the pool was closed before and the larger of zero and one past the last disregard index if
it was open. A later `OpenDisregardForGC` succeeds and sets the open flag again, but through
every later run the declared size stays zero, so the pool stays disabled and no later
allocate call takes the disregard path. -/
theorem C20_disable_terminal (B : Build) (A : FUObjectArray) :
    ∃ A1, DisableDisregardForGC B A = .ok A1 ∧
      A1.OpenForDisregardForGC = false ∧ A1.MaxObjectsNotConsideredByGC = 0 ∧
      DisregardForGCEnabled A1 = false ∧
      A1.ObjFirstGCIndex
        = (if A.OpenForDisregardForGC then max 0 (A.ObjLastNonGCIndex + 1) else 0) ∧
      0 ≤ A1.ObjFirstGCIndex ∧
      (∃ A2, OpenDisregardForGC A1 = .ok A2 ∧ A2.OpenForDisregardForGC = true ∧
        A2.MaxObjectsNotConsideredByGC = 0) ∧
      (∀ (ops : List Op) (A2 : FUObjectArray), run B A1 ops = .ok A2 →
        A2.MaxObjectsNotConsideredByGC = 0 ∧ DisregardForGCEnabled A2 = false ∧
        (∀ op, takesDisregardPath A2 op = false) ∧
        (∀ AlreadyAllocatedIndex : Int, AlreadyAllocatedIndex < 0 →
          selectIndex A2 AlreadyAllocatedIndex = selectGCIndex A2)) := by
  obtain ⟨A1, h⟩ := DisableDisregardForGC_total B A
  have hA1 := DisableDisregardForGC_ok h
  have hopen1 : A1.OpenForDisregardForGC = false := by rw [hA1]
  have hzero1 : A1.MaxObjectsNotConsideredByGC = 0 := by rw [hA1]
  have hfirst1 : A1.ObjFirstGCIndex
      = (if A.OpenForDisregardForGC then max 0 (A.ObjLastNonGCIndex + 1) else 0) := by
    rw [hA1]
  refine ⟨A1, h, hopen1, hzero1, ?_, hfirst1, ?_, ?_, ?_⟩
  · simp [DisregardForGCEnabled, hzero1]
  · rw [hfirst1]
    split
    · exact le_max_left _ _
    · exact le_refl _
  · refine ⟨{ A1 with OpenForDisregardForGC := true }, ?_, rfl, hzero1⟩
    simp [OpenDisregardForGC, hopen1]
  · intro ops A2 hrun
    have hzero2 := run_max_zero hzero1 hrun
    refine ⟨hzero2, ?_, fun op => takesDisregardPath_of_zero op hzero2, ?_⟩
    · simp [DisregardForGCEnabled, hzero2]
    · intro AlreadyAllocatedIndex hneg
      apply selectIndex_of_regular hneg
      rintro ⟨-, hc⟩
      omega

theorem C20_disable_terminal_witness :
    DisableDisregardForGC sampleBuild (sampleState sampleBuild 8 2 [])
      = .ok (sampleState sampleBuild 8 2 [.disableDisregard]) ∧
    (sampleState sampleBuild 8 2 [.disableDisregard]).ObjFirstGCIndex = 0 ∧
    run sampleBuild (sampleState sampleBuild 8 2 [.disableDisregard])
      [.openDisregard, .allocate 7 0 INDEX_NONE 0]
      = .ok (sampleState sampleBuild 8 2
        [.disableDisregard, .openDisregard, .allocate 7 0 INDEX_NONE 0]) ∧
    (sampleState sampleBuild 8 2
      [.disableDisregard, .openDisregard, .allocate 7 0 INDEX_NONE 0]).ObjLastNonGCIndex
      = -1 ∧
    (sampleState sampleBuild 8 2
      [.disableDisregard, .openDisregard, .allocate 7 0 INDEX_NONE 0]).InternalIndex 7
      = 2 ∧
    ∃ A1, DisableDisregardForGC sampleBuild (sampleState sampleBuild 8 2 []) = .ok A1 ∧
      A1.OpenForDisregardForGC = false ∧ A1.MaxObjectsNotConsideredByGC = 0 ∧
      DisregardForGCEnabled A1 = false ∧
      A1.ObjFirstGCIndex
        = (if (sampleState sampleBuild 8 2 []).OpenForDisregardForGC
            then max 0 ((sampleState sampleBuild 8 2 []).ObjLastNonGCIndex + 1) else 0) ∧
      0 ≤ A1.ObjFirstGCIndex ∧
      (∃ A2, OpenDisregardForGC A1 = .ok A2 ∧ A2.OpenForDisregardForGC = true ∧
        A2.MaxObjectsNotConsideredByGC = 0) ∧
      (∀ (ops : List Op) (A2 : FUObjectArray), run sampleBuild A1 ops = .ok A2 →
        A2.MaxObjectsNotConsideredByGC = 0 ∧ DisregardForGCEnabled A2 = false ∧
        (∀ op, takesDisregardPath A2 op = false) ∧
        (∀ AlreadyAllocatedIndex : Int, AlreadyAllocatedIndex < 0 →
          selectIndex A2 AlreadyAllocatedIndex = selectGCIndex A2)) :=
  ⟨rfl, rfl, rfl, rfl, rfl,
    C20_disable_terminal sampleBuild (sampleState sampleBuild 8 2 [])⟩

/-- C20, as stated, fails after an allocate call on the disregard path: the disable then
leaves the first collectable index at one, not zero; and the `OpenDisregardForGC` that
follows succeeds and sets the open flag. -/
theorem C20_disable_terminal_counterexample :
    run sampleBuild (sampleState sampleBuild 8 2 [])
      [.allocate 7 0 INDEX_NONE 0, .disableDisregard]
      = .ok (sampleState sampleBuild 8 2 [.allocate 7 0 INDEX_NONE 0, .disableDisregard]) ∧
    (sampleState sampleBuild 8 2
      [.allocate 7 0 INDEX_NONE 0, .disableDisregard]).OpenForDisregardForGC = false ∧
    (sampleState sampleBuild 8 2
      [.allocate 7 0 INDEX_NONE 0, .disableDisregard]).MaxObjectsNotConsideredByGC = 0 ∧
    (sampleState sampleBuild 8 2
      [.allocate 7 0 INDEX_NONE 0, .disableDisregard]).ObjFirstGCIndex = 1 ∧
    OpenDisregardForGC (sampleState sampleBuild 8 2
      [.allocate 7 0 INDEX_NONE 0, .disableDisregard])
      = .ok (sampleState sampleBuild 8 2
        [.allocate 7 0 INDEX_NONE 0, .disableDisregard, .openDisregard]) ∧
    (sampleState sampleBuild 8 2
      [.allocate 7 0 INDEX_NONE 0, .disableDisregard, .openDisregard]).OpenForDisregardForGC
      = true := by
  refine ⟨rfl, rfl, rfl, rfl, rfl, rfl⟩

/-! ## The regular pool -/

/-- The condition of line 201 is false exactly when the pool is not both open and enabled. -/
theorem regular_iff (A : FUObjectArray) :
    (A.OpenForDisregardForGC && DisregardForGCEnabled A) = false ↔
      ¬ (A.OpenForDisregardForGC = true ∧ 0 < A.MaxObjectsNotConsideredByGC) := by
  simp [DisregardForGCEnabled]

/-- The fatal conditions an allocate call can end in: the check at its entry, one of the
choice of the index, or one of the publication. -/
theorem AllocateUObjectIndex_error {B : Build} {A : FUObjectArray} {Object : ObjId}
    {InitialFlags : Nat} {AlreadyAllocatedIndex SerialNumber : Int} {e : Fatal}
    (h : AllocateUObjectIndex B A Object InitialFlags AlreadyAllocatedIndex SerialNumber
      = .error e) :
    (A.InternalIndex Object ≠ INDEX_NONE ∧ e = Fatal.checkInternalIndexNone) ∨
    (A.InternalIndex Object = INDEX_NONE ∧ selectIndex A AlreadyAllocatedIndex = .error e) ∨
    (A.InternalIndex Object = INDEX_NONE ∧
      ∃ Index A1, selectIndex A AlreadyAllocatedIndex = .ok (Index, A1) ∧
        (e = Fatal.invalidIndex ∨ e = Fatal.indexCollision)) := by
  unfold AllocateUObjectIndex at h
  by_cases hnone : A.InternalIndex Object = INDEX_NONE
  · simp only [hnone, ne_eq, not_true_eq_false, if_false] at h
    cases hsel : selectIndex A AlreadyAllocatedIndex with
    | error e2 =>
      simp only [hsel, Except.error.injEq] at h
      subst h
      exact Or.inr (Or.inl ⟨hnone, rfl⟩)
    | ok p =>
      obtain ⟨Index, A1⟩ := p
      simp only [hsel] at h
      refine Or.inr (Or.inr ⟨hnone, Index, A1, rfl, ?_⟩)
      unfold publish at h
      cases hidx : IndexToObject A1 Index with
      | error e3 =>
        simp only [hidx, Except.error.injEq] at h
        subst h
        unfold IndexToObject at hidx
        by_cases hneg : Index < 0
        · simp only [hneg, if_true, Except.error.injEq] at hidx
          exact Or.inl hidx.symm
        · simp only [hneg, if_false] at hidx
          cases hget : A1.ObjObjects[Index.toNat]? with
          | none =>
            simp only [hget, Except.error.injEq] at hidx
            exact Or.inl hidx.symm
          | some Old => simp [hget] at hidx
      | ok Old =>
        simp only [hidx] at h
        by_cases hocc : Old.Object ≠ none
        · rw [if_pos hocc] at h
          simp only [Except.error.injEq] at h
          exact Or.inr h.symm
        · rw [if_neg hocc] at h
          cases h
  · simp only [hnone, ne_eq, not_false_eq_true, if_true, Except.error.injEq] at h
    exact Or.inl ⟨hnone, h.symm⟩

/-- Every state of a run from the start without explicit indices has the pool layout, the
ordered bounds, the growth layout, and its last disregard index within the slot table. -/
theorem run_regular_layout {B : Build} {InternalIndex : ObjId → Int}
    {bRecycle GExitPurge GIsInitialLoad EngineExitRequested : Bool}
    {InMaxUObjects Reserve : Int} {bPreAllocateObjectArray : Bool} {A0 A : FUObjectArray}
    {ops : List Op}
    (hinit : initRegistry B InternalIndex bRecycle GExitPurge GIsInitialLoad
      EngineExitRequested InMaxUObjects Reserve bPreAllocateObjectArray = .ok A0)
    (hops : ops.all noExplicitIndex = true) (hrun : run B A0 ops = .ok A) :
    PoolLayout A ∧ BoundsOrdered A ∧ GrowthLayout A ∧ A.ObjLastNonGCIndex < A.Num := by
  obtain ⟨hlayout0, -, -, -⟩ := init_PoolLayout hinit
  obtain ⟨hgrow0, -, hlast0⟩ := init_GrowthLayout hinit
  have hbounds0 := init_BoundsOrdered hinit
  refine run_induction_on noExplicitIndex
    (fun X => PoolLayout X ∧ BoundsOrdered X ∧ GrowthLayout X ∧ X.ObjLastNonGCIndex < X.Num)
    (fun X Y op hP hQ hs => ?_) hops ⟨hlayout0, hbounds0, hgrow0, ?_⟩ hrun
  · obtain ⟨hlay, hb, hg, hl⟩ := hP
    refine ⟨step_PoolLayout hlay hQ hs, step_BoundsOrdered hb hs, step_GrowthLayout hg hs, ?_⟩
    rcases allocate_or_other op with ⟨Object, F, I, S, rfl⟩ | hother
    · obtain ⟨-, -, -, ⟨-, hl3, -, hn3, -⟩ | ⟨-, -, -, -, hl3, -, hgrow⟩ |
          ⟨-, -, hl3, -, hn3⟩⟩ := AllocateUObjectIndex_layout hs
      · omega
      · rcases hgrow with ⟨hroom, -, hn3⟩ | ⟨-, -, hnum, -, -, hn3⟩
        · have := hlay.1
          omega
        · omega
      · rcases hn3 with ⟨-, -, hn3⟩ | ⟨-, -, -, hn3⟩ <;> omega
    · obtain ⟨hl3, hn3, -⟩ := step_other_layout hs hother
      omega
  · rw [hlast0]
    simp only [FUObjectArray.Num]
    omega

/-- In a state with the pool layout, ordered bounds and the last disregard index within the
slot table, where the first collectable index is set, the regular path chooses a recycled
index or appends a slot, within the regular range, or overflows the slot table at the
capacity; neither of its two assertions fails. -/
theorem selectGCIndex_total {A : FUObjectArray} (hlay : PoolLayout A) (hb : BoundsOrdered A)
    (hl : A.ObjLastNonGCIndex < A.Num) (hfirst : 0 ≤ A.ObjFirstGCIndex) :
    (∃ rest Index, A.ObjAvailableList = rest ++ [Index] ∧
        selectGCIndex A = .ok (Index, { A with ObjAvailableList := rest }) ∧
        A.ObjFirstGCIndex ≤ Index ∧ A.ObjLastNonGCIndex < Index ∧
        ∃ k : Nat, Index = (k : Int) ∧ k < A.ObjObjects.length ∧ objectAt A k = none) ∨
    (A.ObjAvailableList = [] ∧ A.Num < A.MaxElements ∧
        selectGCIndex A
          = .ok (A.Num, { A with ObjObjects := A.ObjObjects ++ [FUObjectItem.empty] }) ∧
        A.ObjFirstGCIndex ≤ A.Num ∧ A.ObjLastNonGCIndex < A.Num) ∨
    (A.ObjAvailableList = [] ∧ A.MaxElements ≤ A.Num ∧
        selectGCIndex A = .error Fatal.maxUObjectCountExceeded) := by
  obtain ⟨hb1, hb2⟩ := hb
  rcases List.eq_nil_or_concat A.ObjAvailableList with hnil | ⟨rest, x, hx⟩
  · right
    by_cases hcap : A.Num < A.MaxElements
    · left
      exact ⟨hnil, hcap, selectGCIndex_of_grow hnil hfirst (by omega) hl (by omega),
        by omega, hl⟩
    · right
      exact ⟨hnil, by omega, selectGCIndex_at_capacity hnil hfirst (by omega)⟩
  · left
    rw [List.concat_eq_append] at hx
    obtain ⟨⟨-, -, hgt⟩, hslot⟩ := hlay.2.2.1 x (by rw [hx]; simp)
    exact ⟨rest, x, hx, selectGCIndex_of_pop hx (by omega) hgt, by omega, hgt, hslot⟩

/-- In every state reached from the start without explicit indices, an allocate call on the
regular path finds the first collectable index set, and it does not end in either of the
two assertions of the regular path; where it succeeds the index is within the regular
range. -/
theorem allocate_regular {B : Build} {A : FUObjectArray}
    (hlay : PoolLayout A) (hb : BoundsOrdered A) (hg : GrowthLayout A)
    (hl : A.ObjLastNonGCIndex < A.Num)
    (hreg : (A.OpenForDisregardForGC && DisregardForGCEnabled A) = false)
    (Object : ObjId) (InitialFlags : Nat) (AlreadyAllocatedIndex SerialNumber : Int)
    (hneg : AlreadyAllocatedIndex < 0) :
    0 ≤ A.ObjFirstGCIndex ∧
    selectIndex A AlreadyAllocatedIndex = selectGCIndex A ∧
    AllocateUObjectIndex B A Object InitialFlags AlreadyAllocatedIndex SerialNumber
      ≠ .error Fatal.checkFirstGCIndexValid ∧
    AllocateUObjectIndex B A Object InitialFlags AlreadyAllocatedIndex SerialNumber
      ≠ .error Fatal.checkIndexInGCRange ∧
    (∀ A3, AllocateUObjectIndex B A Object InitialFlags AlreadyAllocatedIndex SerialNumber
        = .ok A3 →
      A.ObjFirstGCIndex ≤ A3.InternalIndex Object ∧
      A.ObjLastNonGCIndex < A3.InternalIndex Object ∧
      A3.ObjFirstGCIndex = A.ObjFirstGCIndex ∧
      A3.ObjLastNonGCIndex = A.ObjLastNonGCIndex) ∧
    (A.InternalIndex Object = INDEX_NONE →
      (∃ A3, AllocateUObjectIndex B A Object InitialFlags AlreadyAllocatedIndex SerialNumber
        = .ok A3) ∨
      (A.ObjAvailableList = [] ∧ A.MaxElements ≤ A.Num ∧
        AllocateUObjectIndex B A Object InitialFlags AlreadyAllocatedIndex SerialNumber
          = .error Fatal.maxUObjectCountExceeded)) := by
  have hnot := (regular_iff A).mp hreg
  have hfirst : 0 ≤ A.ObjFirstGCIndex := by
    by_contra hc
    obtain ⟨h1, h2, -⟩ := hg.2.1 (by omega)
    exact hnot ⟨h1, h2⟩
  have hsel := selectIndex_of_regular (A := A) hneg hnot
  have htotal := selectGCIndex_total hlay hb hl hfirst
  have hne : ∀ e, (e = Fatal.checkFirstGCIndexValid ∨ e = Fatal.checkIndexInGCRange) →
      AllocateUObjectIndex B A Object InitialFlags AlreadyAllocatedIndex SerialNumber
        ≠ .error e := by
    intro e he herr
    rcases AllocateUObjectIndex_error herr with ⟨-, rfl⟩ | ⟨-, hse⟩ | ⟨-, -, -, -, rfl | rfl⟩
    · rcases he with he | he <;> cases he
    · rw [hsel] at hse
      rcases htotal with ⟨rest, Index, -, hok, -⟩ | ⟨-, -, hok, -⟩ | ⟨-, -, herr2⟩
      · rw [hok] at hse
        cases hse
      · rw [hok] at hse
        cases hse
      · rw [herr2] at hse
        simp only [Except.error.injEq] at hse
        subst hse
        rcases he with he | he <;> cases he
    · rcases he with he | he <;> cases he
    · rcases he with he | he <;> cases he
  refine ⟨hfirst, hsel, hne _ (Or.inl rfl), hne _ (Or.inr rfl), ?_, ?_⟩
  · intro A3 h3
    obtain ⟨-, -, -, hreg3⟩ := AllocateUObjectIndex_index h3
    obtain ⟨hl3, hf3, hlast3⟩ := hreg3 hneg hnot
    exact ⟨hf3, hl3, (AllocateUObjectIndex_layout h3).1, hlast3⟩
  · intro hnone
    rcases htotal with ⟨rest, Index, -, hok, -, -, k, rfl, hk, hempty⟩ | ⟨-, -, hok, -⟩ |
        ⟨havail, hcap, herr2⟩
    · left
      rw [hok] at hsel
      have hget : A.ObjObjects[k]? = some (A.ObjObjects.get ⟨k, hk⟩) := by
        simp [List.getElem?_eq_getElem hk]
      have hold : (A.ObjObjects.get ⟨k, hk⟩).Object = none := by
        simpa [objectAt, hget] using hempty
      exact ⟨_, @AllocateUObjectIndex_of B A { A with ObjAvailableList := rest } _ Object
        InitialFlags AlreadyAllocatedIndex SerialNumber _ hnone hsel
        (publish_of_empty (A := { A with ObjAvailableList := rest }) hget hold)⟩
    · left
      rw [hok] at hsel
      have hidx : A.Num = ((A.ObjObjects.length : Nat) : Int) := rfl
      rw [hidx] at hsel
      have hget : (A.ObjObjects ++ [FUObjectItem.empty])[A.ObjObjects.length]?
          = some FUObjectItem.empty := by simp
      exact ⟨_, @AllocateUObjectIndex_of B A
        { A with ObjObjects := A.ObjObjects ++ [FUObjectItem.empty] } _ Object
        InitialFlags AlreadyAllocatedIndex SerialNumber _ hnone hsel
        (publish_of_empty (A := { A with ObjObjects := A.ObjObjects ++ [FUObjectItem.empty] })
          hget rfl)⟩
    · right
      rw [herr2] at hsel
      exact ⟨havail, hcap, AllocateUObjectIndex_of_select_error hnone hsel⟩

/-- C23: in every state reached from the start through operations that supply no explicit
index, an allocate call that takes the regular path finds `ObjFirstGCIndex` set; the index
it chooses, popped from the list of recycled indices or newly appended, is at or above
`ObjFirstGCIndex` and above `ObjLastNonGCIndex`, and the only way the choice fails is the
overflow of the slot table at the capacity; so the call never ends in
`check(ObjFirstGCIndex >= 0)` or in the range assertion of line 230, and where it succeeds
the object has an index within the regular range and both bounds are unchanged. -/
theorem C23_general_pool_index_bound (B : Build) (InternalIndex : ObjId → Int)
    (bRecycle GExitPurge GIsInitialLoad EngineExitRequested : Bool)
    (InMaxUObjects Reserve : Int) (bPreAllocateObjectArray : Bool) (ops : List Op)
    (A0 A : FUObjectArray)
    (hinit : initRegistry B InternalIndex bRecycle GExitPurge GIsInitialLoad
      EngineExitRequested InMaxUObjects Reserve bPreAllocateObjectArray = .ok A0)
    (hops : ops.all noExplicitIndex = true)
    (hrun : run B A0 ops = .ok A)
    (hreg : (A.OpenForDisregardForGC && DisregardForGCEnabled A) = false)
    (Object : ObjId) (InitialFlags : Nat) (AlreadyAllocatedIndex SerialNumber : Int)
    (hneg : AlreadyAllocatedIndex < 0) :
    (0 ≤ A.ObjFirstGCIndex ∧
      selectIndex A AlreadyAllocatedIndex = selectGCIndex A ∧
      AllocateUObjectIndex B A Object InitialFlags AlreadyAllocatedIndex SerialNumber
        ≠ .error Fatal.checkFirstGCIndexValid ∧
      AllocateUObjectIndex B A Object InitialFlags AlreadyAllocatedIndex SerialNumber
        ≠ .error Fatal.checkIndexInGCRange ∧
      (∀ A3, AllocateUObjectIndex B A Object InitialFlags AlreadyAllocatedIndex SerialNumber
          = .ok A3 →
        A.ObjFirstGCIndex ≤ A3.InternalIndex Object ∧
        A.ObjLastNonGCIndex < A3.InternalIndex Object ∧
        A3.ObjFirstGCIndex = A.ObjFirstGCIndex ∧
        A3.ObjLastNonGCIndex = A.ObjLastNonGCIndex) ∧
      (A.InternalIndex Object = INDEX_NONE →
        (∃ A3, AllocateUObjectIndex B A Object InitialFlags AlreadyAllocatedIndex
          SerialNumber = .ok A3) ∨
        (A.ObjAvailableList = [] ∧ A.MaxElements ≤ A.Num ∧
          AllocateUObjectIndex B A Object InitialFlags AlreadyAllocatedIndex SerialNumber
            = .error Fatal.maxUObjectCountExceeded))) ∧
    ((∃ rest Index, A.ObjAvailableList = rest ++ [Index] ∧
        selectGCIndex A = .ok (Index, { A with ObjAvailableList := rest }) ∧
        A.ObjFirstGCIndex ≤ Index ∧ A.ObjLastNonGCIndex < Index ∧
        ∃ k : Nat, Index = (k : Int) ∧ k < A.ObjObjects.length ∧ objectAt A k = none) ∨
      (A.ObjAvailableList = [] ∧ A.Num < A.MaxElements ∧
        selectGCIndex A
          = .ok (A.Num, { A with ObjObjects := A.ObjObjects ++ [FUObjectItem.empty] }) ∧
        A.ObjFirstGCIndex ≤ A.Num ∧ A.ObjLastNonGCIndex < A.Num) ∨
      (A.ObjAvailableList = [] ∧ A.MaxElements ≤ A.Num ∧
        selectGCIndex A = .error Fatal.maxUObjectCountExceeded)) := by
  obtain ⟨hlay, hb, hg, hl⟩ := run_regular_layout hinit hops hrun
  have hmain := @allocate_regular B A hlay hb hg hl hreg Object InitialFlags
    AlreadyAllocatedIndex SerialNumber hneg
  exact ⟨hmain, selectGCIndex_total hlay hb hl hmain.1⟩

set_option maxRecDepth 100000 in
theorem C23_general_pool_index_bound_witness :
    run sampleBuild (sampleListeners 200 100 []) (allocateCalls 40 ++ [.closeDisregard])
      = .ok (sampleWorld 200 100 [] (allocateCalls 40 ++ [.closeDisregard])) ∧
    (sampleWorld 200 100 [] (allocateCalls 40 ++ [.closeDisregard])).ObjLastNonGCIndex
      = 39 ∧
    (sampleWorld 200 100 [] (allocateCalls 40 ++ [.closeDisregard])).ObjFirstGCIndex = 40 ∧
    AllocateUObjectIndex sampleBuild
      (sampleWorld 200 100 [] (allocateCalls 40 ++ [.closeDisregard])) 40 0 INDEX_NONE 0
      = .ok (stateOf (AllocateUObjectIndex sampleBuild
        (sampleWorld 200 100 [] (allocateCalls 40 ++ [.closeDisregard]))
        40 0 INDEX_NONE 0)) ∧
    (stateOf (AllocateUObjectIndex sampleBuild
      (sampleWorld 200 100 [] (allocateCalls 40 ++ [.closeDisregard]))
      40 0 INDEX_NONE 0)).InternalIndex 40 = 100 ∧
    (0 ≤ (sampleWorld 200 100 [] (allocateCalls 40 ++ [.closeDisregard])).ObjFirstGCIndex ∧
      AllocateUObjectIndex sampleBuild
        (sampleWorld 200 100 [] (allocateCalls 40 ++ [.closeDisregard])) 40 0 INDEX_NONE 0
        ≠ .error Fatal.checkFirstGCIndexValid ∧
      AllocateUObjectIndex sampleBuild
        (sampleWorld 200 100 [] (allocateCalls 40 ++ [.closeDisregard])) 40 0 INDEX_NONE 0
        ≠ .error Fatal.checkIndexInGCRange ∧
      (∀ A3, AllocateUObjectIndex sampleBuild
          (sampleWorld 200 100 [] (allocateCalls 40 ++ [.closeDisregard]))
          40 0 INDEX_NONE 0 = .ok A3 →
        (sampleWorld 200 100 [] (allocateCalls 40 ++ [.closeDisregard])).ObjFirstGCIndex
          ≤ A3.InternalIndex 40 ∧
        (sampleWorld 200 100 [] (allocateCalls 40 ++ [.closeDisregard])).ObjLastNonGCIndex
          < A3.InternalIndex 40)) := by
  have bound := C23_general_pool_index_bound sampleBuild (fun _ => INDEX_NONE) true false
    true false 200 100 false (allocateCalls 40 ++ [.closeDisregard])
    (sampleListeners 200 100 [])
    (sampleWorld 200 100 [] (allocateCalls 40 ++ [.closeDisregard]))
    (by rfl) (by rfl) (by rfl) (by rfl) 40 0 INDEX_NONE 0 (by decide)
  refine ⟨?_, ?_, ?_, ?_, ?_, bound.1.1, bound.1.2.2.1, bound.1.2.2.2.1,
    fun A3 h => ⟨(bound.1.2.2.2.2.1 A3 h).1, (bound.1.2.2.2.2.1 A3 h).2.1⟩⟩
  · rfl
  · rfl
  · rfl
  · rfl
  · rfl

/-! ## Listeners that remove themselves while they are notified -/

/-- A loop down a listener list without repetitions whose calls are recorded and either
leave the list alone or take the called listener out by a swap with the last element:
every index read is within the list, every listener of the part still to visit is called
once, in reverse order, and the list ends without repetitions and within what it was. -/
theorem notifyDownFrom_visits
    (list : FUObjectArray → List ListenerId)
    (call : ListenerId → FUObjectArray → Except Fatal FUObjectArray)
    (ev : ListenerId → Notification)
    (hcall : ∀ L X, L ∈ list X → ∃ Y, call L X = .ok Y ∧
      Y.Notified = X.Notified ++ [ev L] ∧
      (list Y = list X ∨ list Y = (RemoveSingleSwap (list X) L).2)) :
    ∀ (n : Nat) (pre rest : List ListenerId) (X : FUObjectArray), pre.length = n →
      list X = pre ++ rest → (pre ++ rest).Nodup →
      ∃ Y, notifyDownFrom list call n X = .ok Y ∧
        Y.Notified = X.Notified ++ pre.reverse.map ev ∧
        (list Y).Nodup ∧ (∀ L ∈ list Y, L ∈ pre ++ rest) := by
  intro n
  induction n with
  | zero =>
    intro pre rest X hlen hlist hnd
    have hpre : pre = [] := List.length_eq_zero.mp hlen
    subst hpre
    refine ⟨X, rfl, by simp, by rw [hlist]; exact hnd, fun L hL => by rw [← hlist]; exact hL⟩
  | succ n ih =>
    intro pre rest X hlen hlist hnd
    rcases List.eq_nil_or_concat pre with hnil | ⟨p, x, hp⟩
    · subst hnil; simp at hlen
    · rw [List.concat_eq_append] at hp
      subst hp
      have hplen : p.length = n := by simpa using hlen
      have hlist2 : list X = p ++ x :: rest := by rw [hlist]; simp
      have hnd2 : (p ++ x :: rest).Nodup := by
        have : p ++ [x] ++ rest = p ++ x :: rest := by simp
        rw [← this]; exact hnd
      have hxp : x ∉ p := by
        intro hc
        exact List.disjoint_of_nodup_append hnd2 hc (by simp)
      have hget : (list X)[n]? = some x := by
        rw [hlist2, ← hplen, List.getElem?_append_right (le_refl _)]
        simp
      have hmem : x ∈ list X := by rw [hlist2]; simp
      obtain ⟨Y, hY, hnotY, hlistY⟩ := hcall x X hmem
      have hunfold : notifyDownFrom list call (n + 1) X = notifyDownFrom list call n Y := by
        simp only [notifyDownFrom, hget, hY]
      rw [hunfold]
      rcases hlistY with hsame | hgone
      · rw [hlist2] at hsame
        obtain ⟨Z, hZ, hnotZ, hndZ, hsubZ⟩ := ih p (x :: rest) Y hplen hsame hnd2
        refine ⟨Z, hZ, ?_, hndZ, fun L hL => ?_⟩
        · rw [hnotZ, hnotY]
          simp
        · have := hsubZ L hL
          simpa using this
      · rw [hlist2] at hgone
        obtain ⟨rest2, heq, hperm⟩ := RemoveSingleSwap_middle p rest x hxp
        rw [heq] at hgone
        have hnd3 : (p ++ rest2).Nodup := by
          have h1 : (p ++ rest2).Perm (p ++ rest) := List.Perm.append_left p hperm
          have h2 : (p ++ rest).Nodup := (List.nodup_cons.mp (List.nodup_middle.mp hnd2)).2
          exact h1.nodup_iff.mpr h2
        obtain ⟨Z, hZ, hnotZ, hndZ, hsubZ⟩ := ih p rest2 Y hplen hgone hnd3
        refine ⟨Z, hZ, ?_, hndZ, fun L hL => ?_⟩
        · rw [hnotZ, hnotY]
          simp
        · have hLm := hsubZ L hL
          rcases List.mem_append.mp hLm with h1 | h2
          · simp [h1]
          · have := hperm.mem_iff.mp h2
            simp [this]

/-- A listener called once in a pass over a list without repetitions is recorded once more
than before. -/
theorem count_after_pass (ev : ListenerId → Notification) (hev : Function.Injective ev)
    {Before : List Notification} {l : List ListenerId} (hl : l.Nodup) {L : ListenerId}
    (hL : L ∈ l) :
    (Before ++ l.reverse.map ev).count (ev L) = Before.count (ev L) + 1 := by
  rw [List.count_append,
    count_map_of_nodup ev hev (List.nodup_reverse.mpr hl) (List.mem_reverse.mpr hL)]

/-- The delete notification pass with listeners that leave the list as it is or take
themselves out of it. -/
theorem RemoveObjectFromDeleteListenersWith_visits
    (OnDeleted : ListenerId → ObjId → Int → FUObjectArray → Except Fatal FUObjectArray)
    (A : FUObjectArray) (Object : ObjId)
    (hnd : A.UObjectDeleteListeners.Nodup) (hidx : 0 ≤ A.InternalIndex Object)
    (hself : SelfRemovingOnly (fun X => X.UObjectDeleteListeners)
      (fun L X => OnDeleted L Object (A.InternalIndex Object) X)) :
    ∃ Y, RemoveObjectFromDeleteListenersWith OnDeleted A Object = .ok Y ∧
      Y.Notified = A.Notified ++ A.UObjectDeleteListeners.reverse.map
        (fun L => Notification.NotifyUObjectDeleted L Object (A.InternalIndex Object)) ∧
      (∀ L ∈ A.UObjectDeleteListeners,
        Y.Notified.count (Notification.NotifyUObjectDeleted L Object (A.InternalIndex Object))
          = A.Notified.count
              (Notification.NotifyUObjectDeleted L Object (A.InternalIndex Object)) + 1) ∧
      Y.UObjectDeleteListeners.Nodup ∧
      (∀ L ∈ Y.UObjectDeleteListeners, L ∈ A.UObjectDeleteListeners) := by
  have hcall : ∀ L X, L ∈ X.UObjectDeleteListeners →
      ∃ Y, callNotifyUObjectDeleted OnDeleted Object (A.InternalIndex Object) L X = .ok Y ∧
        Y.Notified = X.Notified ++
          [Notification.NotifyUObjectDeleted L Object (A.InternalIndex Object)] ∧
        (Y.UObjectDeleteListeners = X.UObjectDeleteListeners ∨
          Y.UObjectDeleteListeners = (RemoveSingleSwap X.UObjectDeleteListeners L).2) := by
    intro L X hL
    obtain ⟨Y, hY, hnot, hlist⟩ := hself L
      { X with Notified := X.Notified ++
          [Notification.NotifyUObjectDeleted L Object (A.InternalIndex Object)] } hL
    exact ⟨Y, hY, hnot, hlist⟩
  obtain ⟨Y, hY, hnotY, hndY, hsubY⟩ := notifyDownFrom_visits
    (fun X => X.UObjectDeleteListeners)
    (callNotifyUObjectDeleted OnDeleted Object (A.InternalIndex Object))
    (fun L => Notification.NotifyUObjectDeleted L Object (A.InternalIndex Object))
    hcall A.UObjectDeleteListeners.length A.UObjectDeleteListeners [] A rfl (by simp)
    (by simpa using hnd)
  have hneg : ¬ (A.InternalIndex Object < 0) := by omega
  refine ⟨Y, ?_, hnotY, fun L hL => ?_, hndY, fun L hL => by simpa using hsubY L hL⟩
  · simp only [RemoveObjectFromDeleteListenersWith, hneg, if_false]
    exact hY
  · rw [hnotY]
    exact count_after_pass _ (fun a b hab => (Notification.NotifyUObjectDeleted.inj hab).1)
      hnd hL

/-- The shutdown pass over the delete listeners with listeners that leave the list as it is
or take themselves out of it. -/
theorem notifyDeleteListenersOfShutdown_visits (C : Callbacks) (A : FUObjectArray)
    (hnd : A.UObjectDeleteListeners.Nodup)
    (hself : SelfRemovingOnly (fun X => X.UObjectDeleteListeners) C.DeleteListenerShutdown) :
    ∃ Y, notifyDeleteListenersOfShutdown C A = .ok Y ∧
      Y.Notified = A.Notified ++
        A.UObjectDeleteListeners.reverse.map Notification.DeleteListenerShutdown ∧
      (∀ L ∈ A.UObjectDeleteListeners,
        Y.Notified.count (Notification.DeleteListenerShutdown L)
          = A.Notified.count (Notification.DeleteListenerShutdown L) + 1) ∧
      Y.UObjectDeleteListeners.Nodup ∧
      (∀ L ∈ Y.UObjectDeleteListeners, L ∈ A.UObjectDeleteListeners) := by
  have hcall : ∀ L X, L ∈ X.UObjectDeleteListeners →
      ∃ Y, callDeleteListenerShutdown C L X = .ok Y ∧
        Y.Notified = X.Notified ++ [Notification.DeleteListenerShutdown L] ∧
        (Y.UObjectDeleteListeners = X.UObjectDeleteListeners ∨
          Y.UObjectDeleteListeners = (RemoveSingleSwap X.UObjectDeleteListeners L).2) := by
    intro L X hL
    obtain ⟨Y, hY, hnot, hlist⟩ := hself L
      { X with Notified := X.Notified ++ [Notification.DeleteListenerShutdown L] } hL
    exact ⟨Y, hY, hnot, hlist⟩
  obtain ⟨Y, hY, hnotY, hndY, hsubY⟩ := notifyDownFrom_visits
    (fun X => X.UObjectDeleteListeners) (callDeleteListenerShutdown C)
    Notification.DeleteListenerShutdown
    hcall A.UObjectDeleteListeners.length A.UObjectDeleteListeners [] A rfl (by simp)
    (by simpa using hnd)
  refine ⟨Y, hY, hnotY, fun L hL => ?_, hndY, fun L hL => by simpa using hsubY L hL⟩
  rw [hnotY]
  exact count_after_pass _ (fun a b hab => Notification.DeleteListenerShutdown.inj hab) hnd hL

/-- A listener body that deregisters the listener or does nothing is self-removing only. -/
theorem deregisterOnDeleted_selfRemovingOnly (Deregisters : ListenerId → Bool)
    (Object : ObjId) (Index : Int) :
    SelfRemovingOnly (fun X => X.UObjectDeleteListeners)
      (fun L X => deregisterOnDeleted Deregisters L Object Index X) := by
  intro L X _
  by_cases hD : Deregisters L = true
  · refine ⟨{ X with
      UObjectDeleteListeners := (RemoveSingleSwap X.UObjectDeleteListeners L).2 }, ?_, rfl,
      Or.inr rfl⟩
    simp only [deregisterOnDeleted, hD, if_true, RemoveUObjectDeleteListener]
  · refine ⟨X, ?_, rfl, Or.inl rfl⟩
    simp only [deregisterOnDeleted, hD, Bool.false_eq_true, if_false]

/-- A loop down the delete listener list with listeners that do nothing records the
listeners below the start index in reverse order and changes nothing else. -/
theorem notifyDownFrom_idle (ev : ListenerId → Notification) :
    ∀ (n : Nat) (X : FUObjectArray), n ≤ X.UObjectDeleteListeners.length →
      notifyDownFrom (fun Z => Z.UObjectDeleteListeners)
        (fun L Z => .ok { Z with Notified := Z.Notified ++ [ev L] }) n X
        = .ok { X with
            Notified := X.Notified ++ ((X.UObjectDeleteListeners.take n).reverse.map ev) } := by
  intro n
  induction n with
  | zero =>
    intro X _
    simp [notifyDownFrom]
  | succ n ih =>
    intro X hn
    have hlt : n < X.UObjectDeleteListeners.length := by omega
    have hget : X.UObjectDeleteListeners[n]?
        = some (X.UObjectDeleteListeners.get ⟨n, hlt⟩) := by
      simp [List.getElem?_eq_getElem hlt]
    have htake : X.UObjectDeleteListeners.take (n + 1)
        = X.UObjectDeleteListeners.take n ++ [X.UObjectDeleteListeners.get ⟨n, hlt⟩] := by
      rw [List.take_succ, hget]
      rfl
    simp only [notifyDownFrom, hget]
    rw [ih _ (by simpa using Nat.le_of_lt hlt), htake]
    simp only [List.reverse_append, List.reverse_cons, List.reverse_nil, List.nil_append,
      List.singleton_append, List.map_cons, List.append_assoc]

/-- With listeners that do nothing, the delete notification pass is the function
`RemoveObjectFromDeleteListeners` of listeners that leave the list alone. -/
theorem RemoveObjectFromDeleteListenersWith_idle (A : FUObjectArray) (Object : ObjId) :
    RemoveObjectFromDeleteListenersWith (fun _ _ _ X => .ok X) A Object
      = RemoveObjectFromDeleteListeners A Object := by
  unfold RemoveObjectFromDeleteListenersWith RemoveObjectFromDeleteListeners
  by_cases hneg : A.InternalIndex Object < 0
  · simp [hneg]
  · simp only [hneg, if_false]
    have h := notifyDownFrom_idle
      (fun L => Notification.NotifyUObjectDeleted L Object (A.InternalIndex Object))
      A.UObjectDeleteListeners.length A (le_refl _)
    rw [List.take_length] at h
    exact h

/-- C21: on a delete listener list without repetitions, if every listener, while it is
notified, leaves the list as it is or takes only itself out of it (by the swap with the last
element of `RemoveSingleSwap`) and makes no call of its own that is recorded, then the pass
of `RemoveObjectFromDeleteListeners` and the pass of `ShutdownUObjectArray` over the delete
listeners both run to their end, so no index outside the list is read, and every listener
that was registered at the start of the pass is notified exactly once, in the reverse order
of the list at the start. -/
theorem C21_self_removal_does_not_skip :
    (∀ (OnDeleted : ListenerId → ObjId → Int → FUObjectArray → Except Fatal FUObjectArray)
      (A : FUObjectArray) (Object : ObjId),
      A.UObjectDeleteListeners.Nodup → 0 ≤ A.InternalIndex Object →
      SelfRemovingOnly (fun X => X.UObjectDeleteListeners)
        (fun L X => OnDeleted L Object (A.InternalIndex Object) X) →
      ∃ Y, RemoveObjectFromDeleteListenersWith OnDeleted A Object = .ok Y ∧
        Y.Notified = A.Notified ++ A.UObjectDeleteListeners.reverse.map
          (fun L => Notification.NotifyUObjectDeleted L Object (A.InternalIndex Object)) ∧
        (∀ L ∈ A.UObjectDeleteListeners,
          Y.Notified.count
              (Notification.NotifyUObjectDeleted L Object (A.InternalIndex Object))
            = A.Notified.count
                (Notification.NotifyUObjectDeleted L Object (A.InternalIndex Object)) + 1) ∧
        Y.UObjectDeleteListeners.Nodup ∧
        (∀ L ∈ Y.UObjectDeleteListeners, L ∈ A.UObjectDeleteListeners)) ∧
    (∀ (C : Callbacks) (A : FUObjectArray),
      A.UObjectDeleteListeners.Nodup →
      SelfRemovingOnly (fun X => X.UObjectDeleteListeners) C.DeleteListenerShutdown →
      ∃ Y, notifyDeleteListenersOfShutdown C A = .ok Y ∧
        Y.Notified = A.Notified ++
          A.UObjectDeleteListeners.reverse.map Notification.DeleteListenerShutdown ∧
        (∀ L ∈ A.UObjectDeleteListeners,
          Y.Notified.count (Notification.DeleteListenerShutdown L)
            = A.Notified.count (Notification.DeleteListenerShutdown L) + 1) ∧
        Y.UObjectDeleteListeners.Nodup ∧
        (∀ L ∈ Y.UObjectDeleteListeners, L ∈ A.UObjectDeleteListeners)) :=
  ⟨fun OnDeleted A Object hnd hidx hself =>
      RemoveObjectFromDeleteListenersWith_visits OnDeleted A Object hnd hidx hself,
    fun C A hnd hself => notifyDeleteListenersOfShutdown_visits C A hnd hself⟩

theorem C21_self_removal_does_not_skip_witness :
    (sampleWorld 8 0 [.addDelete 1, .addDelete 2, .addDelete 3]
      [.allocate 7 0 (-1) 0]).UObjectDeleteListeners = [1, 2, 3] ∧
    RemoveObjectFromDeleteListenersWith (deregisterOnDeleted (fun L => L == 2))
      (sampleWorld 8 0 [.addDelete 1, .addDelete 2, .addDelete 3] [.allocate 7 0 (-1) 0]) 7
      = .ok (stateOf (RemoveObjectFromDeleteListenersWith
        (deregisterOnDeleted (fun L => L == 2))
        (sampleWorld 8 0 [.addDelete 1, .addDelete 2, .addDelete 3]
          [.allocate 7 0 (-1) 0]) 7)) ∧
    (stateOf (RemoveObjectFromDeleteListenersWith (deregisterOnDeleted (fun L => L == 2))
      (sampleWorld 8 0 [.addDelete 1, .addDelete 2, .addDelete 3]
        [.allocate 7 0 (-1) 0]) 7)).Notified
      = [.NotifyUObjectDeleted 3 7 0, .NotifyUObjectDeleted 2 7 0,
          .NotifyUObjectDeleted 1 7 0] ∧
    (stateOf (RemoveObjectFromDeleteListenersWith (deregisterOnDeleted (fun L => L == 2))
      (sampleWorld 8 0 [.addDelete 1, .addDelete 2, .addDelete 3]
        [.allocate 7 0 (-1) 0]) 7)).UObjectDeleteListeners = [1, 3] ∧
    ∃ Y, RemoveObjectFromDeleteListenersWith (deregisterOnDeleted (fun L => L == 2))
        (sampleWorld 8 0 [.addDelete 1, .addDelete 2, .addDelete 3] [.allocate 7 0 (-1) 0]) 7
        = .ok Y ∧
      ∀ L ∈ (sampleWorld 8 0 [.addDelete 1, .addDelete 2, .addDelete 3]
          [.allocate 7 0 (-1) 0]).UObjectDeleteListeners,
        Y.Notified.count (Notification.NotifyUObjectDeleted L 7
            ((sampleWorld 8 0 [.addDelete 1, .addDelete 2, .addDelete 3]
              [.allocate 7 0 (-1) 0]).InternalIndex 7))
          = (sampleWorld 8 0 [.addDelete 1, .addDelete 2, .addDelete 3]
              [.allocate 7 0 (-1) 0]).Notified.count
              (Notification.NotifyUObjectDeleted L 7
                ((sampleWorld 8 0 [.addDelete 1, .addDelete 2, .addDelete 3]
                  [.allocate 7 0 (-1) 0]).InternalIndex 7)) + 1 := by
  have pass := C21_self_removal_does_not_skip.1 (deregisterOnDeleted (fun L => L == 2))
    (sampleWorld 8 0 [.addDelete 1, .addDelete 2, .addDelete 3] [.allocate 7 0 (-1) 0]) 7
    (by decide) (by decide)
    (deregisterOnDeleted_selfRemovingOnly (fun L => L == 2) 7
      ((sampleWorld 8 0 [.addDelete 1, .addDelete 2, .addDelete 3]
        [.allocate 7 0 (-1) 0]).InternalIndex 7))
  obtain ⟨Y, hY, -, hcount, -⟩ := pass
  refine ⟨?_, ?_, ?_, ?_, Y, hY, hcount⟩
  · rfl
  · rfl
  · rfl
  · rfl

/-! ## The object counts -/

theorem any_key_iff (Map : List (ClassId × FClassEntry)) (Key : ClassId) :
    Map.any (fun Pair => Pair.1 == Key) = true ↔ Key ∈ Map.map Prod.fst := by
  constructor
  · intro h
    obtain ⟨p, hp, hk⟩ := List.any_eq_true.mp h
    exact List.mem_map.mpr ⟨p, hp, by simpa using hk⟩
  · intro h
    obtain ⟨p, hp, hk⟩ := List.mem_map.mp h
    exact List.any_eq_true.mpr ⟨p, hp, by simpa using hk⟩

/-- Counting an object of a class that the map holds raises the count of that class. -/
theorem countObject_of_mem (R : Reflection) (Map : List (ClassId × FClassEntry))
    (Object : ObjId) (h : R.GetClass Object ∈ Map.map Prod.fst) :
    countObject R Map Object
      = Map.map (fun Pair =>
          if Pair.1 = R.GetClass Object then
            (Pair.1, { Class := some (R.GetClass Object),
                       NumInstances := Pair.2.NumInstances + 1 })
          else Pair) := by
  simp only [countObject, FindOrAdd, (any_key_iff Map (R.GetClass Object)).mpr h, if_true,
    updateValue]

/-- Counting an object of a class that the map does not hold adds the class with the
count one. -/
theorem countObject_of_not_mem (R : Reflection) (Map : List (ClassId × FClassEntry))
    (Object : ObjId) (h : R.GetClass Object ∉ Map.map Prod.fst) :
    countObject R Map Object
      = Map ++ [(R.GetClass Object,
          { Class := some (R.GetClass Object), NumInstances := 1 })] := by
  have hany : ¬ (Map.any (fun Pair => Pair.1 == R.GetClass Object) = true) :=
    fun hc => h ((any_key_iff Map (R.GetClass Object)).mp hc)
  have hid : Map.map (fun Pair : ClassId × FClassEntry =>
      if Pair.1 = R.GetClass Object then
        (Pair.1, ({ Class := some (R.GetClass Object),
                    NumInstances := Pair.2.NumInstances + 1 } : FClassEntry))
      else Pair) = Map := by
    conv_rhs => rw [← List.map_id Map]
    apply List.map_congr_left
    intro p hp
    have hne : p.1 ≠ R.GetClass Object := fun hc => h (hc ▸ List.mem_map_of_mem Prod.fst hp)
    simp [hne]
  simp only [countObject, FindOrAdd, hany, if_false, updateValue, List.map_append, hid,
    List.map_cons, List.map_nil, if_true, FClassEntry.fresh, Nat.zero_add, Bool.false_eq_true]

/-- Counting one more object keeps the map the count of the classes seen so far. -/
theorem countObject_CountedFor (R : Reflection) {Map : List (ClassId × FClassEntry)}
    {Classes : List ClassId} (hinv : CountedFor Map Classes) (Object : ObjId) :
    CountedFor (countObject R Map Object) (Classes ++ [R.GetClass Object]) := by
  obtain ⟨hnd, hentries, hall⟩ := hinv
  by_cases hmem : R.GetClass Object ∈ Map.map Prod.fst
  · rw [countObject_of_mem R Map Object hmem]
    have hkeys : (Map.map (fun Pair : ClassId × FClassEntry =>
        if Pair.1 = R.GetClass Object then
          (Pair.1, ({ Class := some (R.GetClass Object),
                      NumInstances := Pair.2.NumInstances + 1 } : FClassEntry))
        else Pair)).map Prod.fst = Map.map Prod.fst := by
      rw [List.map_map]
      apply List.map_congr_left
      intro p _
      by_cases hp : p.1 = R.GetClass Object <;> simp [hp]
    refine ⟨by rw [hkeys]; exact hnd, ?_, ?_⟩
    · intro q hq
      obtain ⟨p, hp, rfl⟩ := List.mem_map.mp hq
      obtain ⟨hclass, hcount, hin⟩ := hentries p hp
      by_cases hpc : p.1 = R.GetClass Object
      · simp only [hpc, if_true, List.count_append, List.count_singleton_self,
          List.mem_append, List.mem_singleton, or_true, and_true, true_and]
        rw [← hpc, hcount]
      · have hne : ¬ (R.GetClass Object = p.1) := fun hc => hpc hc.symm
        simp only [hpc, if_false, List.count_append, List.mem_append]
        refine ⟨hclass, ?_, Or.inl hin⟩
        rw [hcount, List.count_singleton]
        simp [hne]
    · intro c hc
      rw [hkeys]
      rcases List.mem_append.mp hc with h1 | h2
      · exact hall c h1
      · rw [List.mem_singleton.mp h2]
        exact hmem
  · rw [countObject_of_not_mem R Map Object hmem]
    have hnotin : R.GetClass Object ∉ Classes := fun hc => hmem (hall _ hc)
    refine ⟨?_, ?_, ?_⟩
    · rw [List.map_append]
      refine List.Nodup.append hnd (List.nodup_singleton _) ?_
      intro x hx hx2
      simp only [List.map_cons, List.map_nil, List.mem_singleton] at hx2
      exact hmem (hx2 ▸ hx)
    · intro q hq
      rcases List.mem_append.mp hq with h1 | h2
      · obtain ⟨hclass, hcount, hin⟩ := hentries q h1
        have hne : ¬ (R.GetClass Object = q.1) := fun hc =>
          hmem (hc ▸ List.mem_map_of_mem Prod.fst h1)
        refine ⟨hclass, ?_, List.mem_append.mpr (Or.inl hin)⟩
        rw [List.count_append, hcount, List.count_singleton]
        simp [hne]
      · rw [List.mem_singleton.mp h2]
        refine ⟨rfl, ?_, by simp⟩
        simp [List.count_append, List.count_eq_zero_of_not_mem hnotin]
    · intro c hc
      rw [List.map_append]
      rcases List.mem_append.mp hc with h1 | h2
      · exact List.mem_append.mpr (Or.inl (hall c h1))
      · rw [List.mem_singleton.mp h2]
        simp

/-- The loop over the slots counts the classes of the objects of the occupied slots. -/
theorem countObjectsFrom_CountedFor (R : Reflection) :
    ∀ (Slots : List FUObjectItem) (Map : List (ClassId × FClassEntry)) (n : Nat)
      (Classes : List ClassId), CountedFor Map Classes →
      CountedFor (countObjectsFrom R (Map, n) Slots).1
        (Classes ++ (Slots.filterMap (fun ObjectItem => ObjectItem.Object)).map R.GetClass) ∧
      (countObjectsFrom R (Map, n) Slots).2
        = n + (Slots.filterMap (fun ObjectItem => ObjectItem.Object)).length := by
  intro Slots
  induction Slots with
  | nil =>
    intro Map n Classes hinv
    simpa [countObjectsFrom] using hinv
  | cons ObjectItem rest ih =>
    intro Map n Classes hinv
    cases hobj : ObjectItem.Object with
    | none =>
      have hstep : countObjectsFrom R (Map, n) (ObjectItem :: rest)
          = countObjectsFrom R (Map, n) rest := by
        simp only [countObjectsFrom, List.foldl_cons, hobj]
      rw [hstep, List.filterMap_cons_none hobj]
      exact ih Map n Classes hinv
    | some Object =>
      have hstep : countObjectsFrom R (Map, n) (ObjectItem :: rest)
          = countObjectsFrom R (countObject R Map Object, n + 1) rest := by
        simp only [countObjectsFrom, List.foldl_cons, hobj]
      have hfm : (ObjectItem :: rest).filterMap (fun Item => Item.Object)
          = Object :: rest.filterMap (fun Item => Item.Object) :=
        List.filterMap_cons_some hobj
      rw [hstep, hfm]
      obtain ⟨h1, h2⟩ := ih (countObject R Map Object) (n + 1)
        (Classes ++ [R.GetClass Object]) (countObject_CountedFor R hinv Object)
      refine ⟨?_, ?_⟩
      · simpa using h1
      · rw [h2]
        simp only [List.length_cons]
        omega

/-- The map filled by `DumpUObjectCountsToLog` counts the classes of the live objects. -/
theorem countObjects_live (R : Reflection) (A : FUObjectArray) :
    CountedFor (countObjectsFrom R ([], 0) A.ObjObjects).1 (liveClasses R A) ∧
    (countObjectsFrom R ([], 0) A.ObjObjects).2 = (liveObjects A).length := by
  have hempty : CountedFor [] [] :=
    ⟨List.nodup_nil, fun _ h => absurd h (List.not_mem_nil _),
      fun _ h => absurd h (List.not_mem_nil _)⟩
  obtain ⟨h1, h2⟩ := countObjectsFrom_CountedFor R A.ObjObjects [] 0 [] hempty
  refine ⟨by simpa [liveClasses, liveObjects] using h1, ?_⟩
  rw [h2]
  simp [liveObjects]

/-- The counts of a map that counts a list of classes add up to the length of the list. -/
theorem CountedFor_sum {Map : List (ClassId × FClassEntry)} {Classes : List ClassId}
    (hinv : CountedFor Map Classes) :
    ((Map.map Prod.snd).map FClassEntry.NumInstances).sum = Classes.length := by
  obtain ⟨hnd, hentries, hall⟩ := hinv
  have hmap : (Map.map Prod.snd).map FClassEntry.NumInstances
      = (Map.map Prod.fst).map (fun c => Classes.count c) := by
    rw [List.map_map, List.map_map]
    apply List.map_congr_left
    intro p hp
    exact (hentries p hp).2.1
  have hperm : (Map.map Prod.fst).Perm Classes.dedup := by
    rw [List.perm_ext_iff_of_nodup hnd (List.nodup_dedup Classes)]
    intro c
    rw [List.mem_dedup]
    constructor
    · intro hc
      obtain ⟨p, hp, rfl⟩ := List.mem_map.mp hc
      exact (hentries p hp).2.2
    · exact hall c
  rw [hmap, (hperm.map _).sum_eq]
  exact List.sum_map_count_dedup_eq_length Classes

/-- An object is live exactly when a slot holds it. -/
theorem mem_liveObjects (A : FUObjectArray) (Object : ObjId) :
    Object ∈ liveObjects A ↔ ∃ i : Nat, objectAt A i = some Object := by
  unfold liveObjects
  rw [List.mem_filterMap]
  constructor
  · rintro ⟨ObjectItem, hmem, hobj⟩
    obtain ⟨i, hi⟩ := List.mem_iff_getElem?.mp hmem
    exact ⟨i, by simp [objectAt, hi, hobj]⟩
  · rintro ⟨i, hi⟩
    obtain ⟨Old, hget, hold⟩ := objectAt_some hi
    exact ⟨Old, List.mem_iff_getElem?.mpr ⟨i, hget⟩, hold⟩

/-! ### The printing loop -/

theorem printedInstances_append (l1 l2 : List LogLine) :
    printedInstances (l1 ++ l2) = printedInstances l1 + printedInstances l2 := by
  induction l1 with
  | nil => simp [printedInstances]
  | cons x rest ih =>
    cases x <;> simp [printedInstances, ih, Nat.add_assoc]

theorem foldedInstances_append (l1 l2 : List LogLine) :
    foldedInstances (l1 ++ l2) = foldedInstances l1 + foldedInstances l2 := by
  induction l1 with
  | nil => simp [foldedInstances]
  | cons x rest ih =>
    cases x <;> simp [foldedInstances, ih, Nat.add_assoc]

/-- Every entry of the printing loop is either printed or skipped: the instances printed
and skipped grow by the count of the entry, the lines for single classes show what was
printed, and no summary line is written in the loop. -/
theorem printEntry_accounts (NumUObjects : Nat) (S : PrintState) (ClassEntry : FClassEntry) :
    (printEntry NumUObjects S ClassEntry).NumInstancesPrinted
        + (printEntry NumUObjects S ClassEntry).NumInstancesSkipped
      = S.NumInstancesPrinted + S.NumInstancesSkipped + ClassEntry.NumInstances ∧
    printedInstances (printEntry NumUObjects S ClassEntry).Lines
        + S.NumInstancesPrinted
      = printedInstances S.Lines + (printEntry NumUObjects S ClassEntry).NumInstancesPrinted ∧
    foldedInstances (printEntry NumUObjects S ClassEntry).Lines = foldedInstances S.Lines := by
  unfold printEntry
  split
  · refine ⟨?_, ?_, ?_⟩
    · simp only
      omega
    · simp only [printedInstances_append, printedInstances]
      omega
    · simp only [foldedInstances_append, foldedInstances, Nat.add_zero]
  · refine ⟨?_, ?_, ?_⟩
    · simp only
      omega
    · show printedInstances S.Lines + S.NumInstancesPrinted
        = printedInstances S.Lines + S.NumInstancesPrinted
      rfl
    · rfl

theorem printLoop_accounts (NumUObjects : Nat) :
    ∀ (Entries : List FClassEntry) (S : PrintState),
      (Entries.foldl (printEntry NumUObjects) S).NumInstancesPrinted
          + (Entries.foldl (printEntry NumUObjects) S).NumInstancesSkipped
        = S.NumInstancesPrinted + S.NumInstancesSkipped
          + (Entries.map FClassEntry.NumInstances).sum ∧
      printedInstances (Entries.foldl (printEntry NumUObjects) S).Lines
          + S.NumInstancesPrinted
        = printedInstances S.Lines
          + (Entries.foldl (printEntry NumUObjects) S).NumInstancesPrinted ∧
      foldedInstances (Entries.foldl (printEntry NumUObjects) S).Lines
        = foldedInstances S.Lines := by
  intro Entries
  induction Entries with
  | nil =>
    intro S
    simp
  | cons e rest ih =>
    intro S
    obtain ⟨h1, h2, h3⟩ := ih (printEntry NumUObjects S e)
    obtain ⟨g1, g2, g3⟩ := printEntry_accounts NumUObjects S e
    simp only [List.foldl_cons, List.map_cons, List.sum_cons]
    refine ⟨by omega, by omega, by rw [h3, g3]⟩

/-- The summary lines show the instances skipped. -/
theorem summaryLines_accounts (S : PrintState) :
    printedInstances (summaryLines S) = 0 ∧
    foldedInstances (summaryLines S) = S.NumInstancesSkipped := by
  unfold summaryLines
  by_cases hpos : S.NumInstancesSkipped > 0
  · by_cases hw : withinPrintedPercent S.PercentOfInstancesPrinted = false
    · simp [hpos, hw, printedInstances, foldedInstances]
    · simp [hpos, hw, printedInstances, foldedInstances]
  · have hzero : S.NumInstancesSkipped = 0 := by omega
    simp [hzero, printedInstances, foldedInstances]

/-- The sorted array of `DumpUObjectCountsToLog` holds the values of the map, reordered. -/
theorem ClassArray_perm (R : Reflection) (A : FUObjectArray) :
    (DumpUObjectCountsToLog R A).ClassArray.Perm
      ((countObjectsFrom R ([], 0) A.ObjObjects).1.map Prod.snd) :=
  List.perm_insertionSort _ _

/-- The sorted array of `DumpUObjectCountsToLog` is in descending order of the counts. -/
theorem ClassArray_sorted (R : Reflection) (A : FUObjectArray) :
    (DumpUObjectCountsToLog R A).ClassArray.Pairwise
      (fun X Y => Y.NumInstances ≤ X.NumInstances) := by
  haveI : IsTotal FClassEntry (fun X Y => Y.NumInstances ≤ X.NumInstances) :=
    ⟨fun X Y => le_total _ _⟩
  haveI : IsTrans FClassEntry (fun X Y => Y.NumInstances ≤ X.NumInstances) :=
    ⟨fun X Y Z hXY hYZ => le_trans hYZ hXY⟩
  exact List.sorted_insertionSort (fun X Y : FClassEntry => Y.NumInstances ≤ X.NumInstances) _

/-- The occurrences of a class among the classes of the live objects are the live objects
of that class. -/
theorem count_liveClasses (R : Reflection) (A : FUObjectArray) (c : ClassId) :
    (liveClasses R A).count c
      = ((liveObjects A).filter (fun Object => R.GetClass Object == c)).length := by
  unfold liveClasses
  rw [List.count, List.countP_map, List.countP_eq_length_filter]
  rfl

/-- C22: the census of `DumpUObjectCountsToLog` holds one entry for every class that has an
object in an occupied slot and no other entry; the count of an entry is the number of
occupied slots whose object is of its class; the counts add up to the number of occupied
slots, which is `NumUObjects`; the entries are in descending order of their counts; and the
instances shown by the lines for single classes and the instances shown by the summary
line add up to the total. -/
theorem C22_census_correctness (R : Reflection) (A : FUObjectArray) :
    ((DumpUObjectCountsToLog R A).ClassArray.map FClassEntry.Class).Nodup ∧
    (∀ c : ClassId,
      some c ∈ (DumpUObjectCountsToLog R A).ClassArray.map FClassEntry.Class ↔
        ∃ (i : Nat) (Object : ObjId), objectAt A i = some Object ∧ R.GetClass Object = c) ∧
    (∀ e ∈ (DumpUObjectCountsToLog R A).ClassArray, ∃ c : ClassId, e.Class = some c ∧
      e.NumInstances
        = ((liveObjects A).filter (fun Object => R.GetClass Object == c)).length ∧
      0 < e.NumInstances) ∧
    ((DumpUObjectCountsToLog R A).ClassArray.map FClassEntry.NumInstances).sum
      = (liveObjects A).length ∧
    (DumpUObjectCountsToLog R A).NumUObjects = (liveObjects A).length ∧
    (∀ Object : ObjId, Object ∈ liveObjects A ↔ ∃ i : Nat, objectAt A i = some Object) ∧
    (DumpUObjectCountsToLog R A).ClassArray.Pairwise
      (fun X Y => Y.NumInstances ≤ X.NumInstances) ∧
    (DumpUObjectCountsToLog R A).NumInstancesPrinted
        + (DumpUObjectCountsToLog R A).NumInstancesSkipped
      = (DumpUObjectCountsToLog R A).NumUObjects ∧
    printedInstances (DumpUObjectCountsToLog R A).Lines
      = (DumpUObjectCountsToLog R A).NumInstancesPrinted ∧
    foldedInstances (DumpUObjectCountsToLog R A).Lines
      = (DumpUObjectCountsToLog R A).NumInstancesSkipped := by
  obtain ⟨hinv, hnum⟩ := countObjects_live R A
  have hsum := CountedFor_sum hinv
  obtain ⟨hnd, hentries, hall⟩ := hinv
  have hperm := ClassArray_perm R A
  have hclasses : ((countObjectsFrom R ([], 0) A.ObjObjects).1.map Prod.snd).map
      FClassEntry.Class
      = ((countObjectsFrom R ([], 0) A.ObjObjects).1.map Prod.fst).map some := by
    rw [List.map_map, List.map_map]
    apply List.map_congr_left
    intro p hp
    exact (hentries p hp).1
  have hlive : ∀ c : ClassId, c ∈ liveClasses R A ↔
      ∃ (i : Nat) (Object : ObjId), objectAt A i = some Object ∧ R.GetClass Object = c := by
    intro c
    unfold liveClasses
    rw [List.mem_map]
    constructor
    · rintro ⟨Object, hO, hc⟩
      obtain ⟨i, hi⟩ := (mem_liveObjects A Object).mp hO
      exact ⟨i, Object, hi, hc⟩
    · rintro ⟨i, Object, hi, hc⟩
      exact ⟨Object, (mem_liveObjects A Object).mpr ⟨i, hi⟩, hc⟩
  have hloop := printLoop_accounts (countObjectsFrom R ([], 0) A.ObjObjects).2
    (sortByNumInstances ((countObjectsFrom R ([], 0) A.ObjObjects).1.map Prod.snd))
    { Lines := [LogLine.dumping], NumClassesSkipped := 0, NumInstancesSkipped := 0,
      NumInstancesPrinted := 0, PercentOfInstancesPrinted := (0, 1) }
  obtain ⟨hl1, hl2, hl3⟩ := hloop
  have hsum2 : ((DumpUObjectCountsToLog R A).ClassArray.map FClassEntry.NumInstances).sum
      = (liveObjects A).length := by
    rw [(hperm.map FClassEntry.NumInstances).sum_eq, hsum]
    simp [liveClasses]
  refine ⟨?_, ?_, ?_, hsum2, hnum, mem_liveObjects A, ClassArray_sorted R A, ?_, ?_, ?_⟩
  · rw [(hperm.map FClassEntry.Class).nodup_iff, hclasses]
    exact hnd.map (Option.some_injective _)
  · intro c
    rw [(hperm.map FClassEntry.Class).mem_iff, hclasses, ← hlive c]
    constructor
    · intro hc
      obtain ⟨k, hk, hkc⟩ := List.mem_map.mp hc
      have : k = c := Option.some.inj hkc
      subst this
      obtain ⟨p, hp, rfl⟩ := List.mem_map.mp hk
      exact (hentries p hp).2.2
    · intro hc
      exact List.mem_map.mpr ⟨c, hall c hc, rfl⟩
  · intro e he
    have he2 := hperm.mem_iff.mp he
    obtain ⟨p, hp, rfl⟩ := List.mem_map.mp he2
    obtain ⟨hclass, hcount, hin⟩ := hentries p hp
    refine ⟨p.1, hclass, ?_, ?_⟩
    · rw [hcount, count_liveClasses]
    · rw [hcount]
      exact List.count_pos_iff.mpr hin
  · have hs : (sortByNumInstances
        ((countObjectsFrom R ([], 0) A.ObjObjects).1.map Prod.snd)).map
          FClassEntry.NumInstances
        = (DumpUObjectCountsToLog R A).ClassArray.map FClassEntry.NumInstances := rfl
    rw [hs, hsum2] at hl1
    show _ + _ = (countObjectsFrom R ([], 0) A.ObjObjects).2
    rw [hnum]
    simpa using hl1
  · simp only [DumpUObjectCountsToLog, printedInstances_append,
      (summaryLines_accounts _).1, printedInstances, Nat.add_zero]
    simpa [printedInstances] using hl2
  · simp only [DumpUObjectCountsToLog, foldedInstances_append,
      (summaryLines_accounts _).2, foldedInstances, Nat.add_zero]
    rw [hl3]
    simp [foldedInstances]

set_option maxRecDepth 100000 in
/-- The census of twenty objects of one class and one object of another: the first class
is printed, the other is folded into the summary line for the remaining instances. -/
theorem census_sample :
    (DumpUObjectCountsToLog sampleReflection
      (sampleState sampleBuild 32 0 (allocateCalls 21))).ClassArray
      = [{ Class := some 0, NumInstances := 20 }, { Class := some 1, NumInstances := 1 }] ∧
    (DumpUObjectCountsToLog sampleReflection
      (sampleState sampleBuild 32 0 (allocateCalls 21))).Lines
      = [LogLine.dumping, LogLine.instancesOf 20 (some 0), LogLine.remaining 1 (20, 21) 1,
          LogLine.total 21 0] ∧
    (FailMaxUObjectCountExceeded (DumpUObjectCountsToLog sampleReflection) 1
      (sampleState sampleBuild 32 0 (allocateCalls 21)) 32 1).1
      = some (DumpUObjectCountsToLog sampleReflection
          (sampleState sampleBuild 32 0 (allocateCalls 21))) := by
  refine ⟨?_, ?_, ?_⟩
  · rfl
  · rfl
  · rfl

/-! ## Listeners that rely on the state they are notified in -/

/-- A loop up a listener list whose calls, made in a state in which `Holds`, keep `Holds`,
are recorded once and leave the list as it is: with one unit of fuel more than there are
listeners still to visit, the loop ends, every listener still to visit is called once, in
the order of the list, and every call is made in a state in which `Holds`. -/
theorem notifyUpFrom_keeping
    (Holds : FUObjectArray → Prop) (list : FUObjectArray → List ListenerId)
    (ev : ListenerId → Notification)
    (call : ListenerId → FUObjectArray → Except Fatal FUObjectArray)
    (hcall : KeepsListWhile Holds list ev call) :
    ∀ (rest pre : List ListenerId) (X : FUObjectArray), list X = pre ++ rest → Holds X →
      ∃ Y, (∀ Fuel, rest.length < Fuel →
          notifyUpFrom list call Fuel pre.length X = some (.ok Y)) ∧
        Holds Y ∧ Y.Notified = X.Notified ++ rest.map ev ∧ list Y = list X := by
  intro rest
  induction rest with
  | nil =>
    intro pre X hlist hX
    refine ⟨X, fun Fuel hF => ?_, hX, by simp, rfl⟩
    obtain ⟨f, rfl⟩ : ∃ f, Fuel = f + 1 := ⟨Fuel - 1, by simp at hF; omega⟩
    have hget : (list X)[pre.length]? = none := by rw [hlist]; simp
    simp only [notifyUpFrom, hget]
  | cons x rest ih =>
    intro pre X hlist hX
    have hget : (list X)[pre.length]? = some x := by
      rw [hlist, List.getElem?_append_right (le_refl _)]
      simp
    have hmem : x ∈ list X := by rw [hlist]; simp
    obtain ⟨Y, hY, hHY, hnotY, hlistY⟩ := hcall x X hmem hX
    have hlist2 : list Y = (pre ++ [x]) ++ rest := by rw [hlistY, hlist]; simp
    obtain ⟨Z, hZ, hHZ, hnotZ, hlistZ⟩ := ih (pre ++ [x]) Y hlist2 hHY
    refine ⟨Z, fun Fuel hF => ?_, hHZ, ?_, by rw [hlistZ, hlistY]⟩
    · have hF2 : rest.length + 1 < Fuel := by simpa using hF
      obtain ⟨f, rfl⟩ : ∃ f, Fuel = f + 1 := ⟨Fuel - 1, by omega⟩
      have hstep := hZ f (by omega)
      have hlen : (pre ++ [x]).length = pre.length + 1 := by simp
      rw [hlen] at hstep
      simp only [notifyUpFrom, hget, hY]
      exact hstep
    · rw [hnotZ, hnotY]
      simp

/-- A loop down a listener list without repetitions whose calls, made in a state in which
`Holds`, keep `Holds`, are recorded once and either leave the list alone or take the called
listener out by a swap with the last element: every index read is within the list, every
listener of the part still to visit is called once, in reverse order, and every call is
made in a state in which `Holds`. -/
theorem notifyDownFrom_visits_while
    (Holds : FUObjectArray → Prop) (list : FUObjectArray → List ListenerId)
    (ev : ListenerId → Notification)
    (call : ListenerId → FUObjectArray → Except Fatal FUObjectArray)
    (hcall : SelfRemovingWhile Holds list ev call) :
    ∀ (n : Nat) (pre rest : List ListenerId) (X : FUObjectArray), pre.length = n →
      list X = pre ++ rest → (pre ++ rest).Nodup → Holds X →
      ∃ Y, notifyDownFrom list call n X = .ok Y ∧ Holds Y ∧
        Y.Notified = X.Notified ++ pre.reverse.map ev ∧
        (list Y).Nodup ∧ (∀ L ∈ list Y, L ∈ pre ++ rest) := by
  intro n
  induction n with
  | zero =>
    intro pre rest X hlen hlist hnd hX
    have hpre : pre = [] := List.length_eq_zero.mp hlen
    subst hpre
    refine ⟨X, rfl, hX, by simp, by rw [hlist]; exact hnd,
      fun L hL => by rw [← hlist]; exact hL⟩
  | succ n ih =>
    intro pre rest X hlen hlist hnd hX
    rcases List.eq_nil_or_concat pre with hnil | ⟨p, x, hp⟩
    · subst hnil; simp at hlen
    · rw [List.concat_eq_append] at hp
      subst hp
      have hplen : p.length = n := by simpa using hlen
      have hlist2 : list X = p ++ x :: rest := by rw [hlist]; simp
      have hnd2 : (p ++ x :: rest).Nodup := by
        have : p ++ [x] ++ rest = p ++ x :: rest := by simp
        rw [← this]; exact hnd
      have hxp : x ∉ p := by
        intro hc
        exact List.disjoint_of_nodup_append hnd2 hc (by simp)
      have hget : (list X)[n]? = some x := by
        rw [hlist2, ← hplen, List.getElem?_append_right (le_refl _)]
        simp
      have hmem : x ∈ list X := by rw [hlist2]; simp
      obtain ⟨Y, hY, hHY, hnotY, hlistY⟩ := hcall x X hmem hX
      have hunfold : notifyDownFrom list call (n + 1) X = notifyDownFrom list call n Y := by
        simp only [notifyDownFrom, hget, hY]
      rw [hunfold]
      rcases hlistY with hsame | hgone
      · rw [hlist2] at hsame
        obtain ⟨Z, hZ, hHZ, hnotZ, hndZ, hsubZ⟩ := ih p (x :: rest) Y hplen hsame hnd2 hHY
        refine ⟨Z, hZ, hHZ, ?_, hndZ, fun L hL => ?_⟩
        · rw [hnotZ, hnotY]
          simp
        · have := hsubZ L hL
          simpa using this
      · rw [hlist2] at hgone
        obtain ⟨rest2, heq, hperm⟩ := RemoveSingleSwap_middle p rest x hxp
        rw [heq] at hgone
        have hnd3 : (p ++ rest2).Nodup := by
          have h1 : (p ++ rest2).Perm (p ++ rest) := List.Perm.append_left p hperm
          have h2 : (p ++ rest).Nodup := (List.nodup_cons.mp (List.nodup_middle.mp hnd2)).2
          exact h1.nodup_iff.mpr h2
        obtain ⟨Z, hZ, hHZ, hnotZ, hndZ, hsubZ⟩ := ih p rest2 Y hplen hgone hnd3 hHY
        refine ⟨Z, hZ, hHZ, ?_, hndZ, fun L hL => ?_⟩
        · rw [hnotZ, hnotY]
          simp
        · have hLm := hsubZ L hL
          rcases List.mem_append.mp hLm with h1 | h2
          · simp [h1]
          · have := hperm.mem_iff.mp h2
            simp [this]

/-- A listener called once in a pass up a list without repetitions is recorded once more
than before. -/
theorem count_after_pass_up (ev : ListenerId → Notification) (hev : Function.Injective ev)
    {Before : List Notification} {l : List ListenerId} (hl : l.Nodup) {L : ListenerId}
    (hL : L ∈ l) :
    (Before ++ l.map ev).count (ev L) = Before.count (ev L) + 1 := by
  rw [List.count_append, count_map_of_nodup ev hev hl hL]

/-- A loop up the create listener list with listeners that do nothing records the listeners
from the start index on, in the order of the list, and changes nothing else. -/
theorem notifyUpFrom_idle (ev : ListenerId → Notification) :
    ∀ (Fuel Index : Nat) (X : FUObjectArray),
      X.UObjectCreateListeners.length - Index < Fuel →
      notifyUpFrom (fun Z => Z.UObjectCreateListeners)
        (fun L Z => .ok { Z with Notified := Z.Notified ++ [ev L] }) Fuel Index X
        = some (.ok { X with
            Notified := X.Notified ++ ((X.UObjectCreateListeners.drop Index).map ev) }) := by
  intro Fuel
  induction Fuel with
  | zero =>
    intro Index X hF
    omega
  | succ f ih =>
    intro Index X hF
    by_cases hlt : Index < X.UObjectCreateListeners.length
    · have hget : X.UObjectCreateListeners[Index]?
          = some (X.UObjectCreateListeners.get ⟨Index, hlt⟩) := by
        simp [List.getElem?_eq_getElem hlt]
      have hdrop : X.UObjectCreateListeners.drop Index
          = X.UObjectCreateListeners.get ⟨Index, hlt⟩
            :: X.UObjectCreateListeners.drop (Index + 1) := by
        rw [List.drop_eq_getElem_cons hlt]
        rfl
      simp only [notifyUpFrom, hget]
      rw [ih (Index + 1) _ (by simp only []; omega), hdrop]
      simp only [List.map_cons, List.append_assoc, List.singleton_append]
    · have hget : X.UObjectCreateListeners[Index]? = none := by
        simp [List.getElem?_eq_none_iff]; omega
      have hdrop : X.UObjectCreateListeners.drop Index = [] := by
        simp [List.drop_eq_nil_iff]; omega
      simp only [notifyUpFrom, hget, hdrop, List.map_nil, List.append_nil]

/-! ## The create notification -/

/-- The registry before and after lines 232-240: before, the chosen slot is empty; after, it
holds the object with its flags and serial number, and the object carries the index. No
listener is called and no listener list is touched up to there. -/
theorem published_state {B : Build} {A A1 A2 : FUObjectArray} {Object : ObjId}
    {InitialFlags : Nat} {AlreadyAllocatedIndex SerialNumber : Int} {k : Nat}
    (hsel : selectIndex A AlreadyAllocatedIndex = .ok ((k : Int), A1))
    (hpub : publish B A1 Object InitialFlags (k : Int) SerialNumber = .ok A2) :
    Occupied k Object A2 ∧
    A2.ObjObjects[k]? = some
      { Object := some Object, Flags := B.PendingConstruction ||| InitialFlags,
        ClusterRootIndex := 0, SerialNumber := SerialNumber } ∧
    A2.Notified = A.Notified ∧ A2.UObjectCreateListeners = A.UObjectCreateListeners ∧
    objectAt A1 k = none ∧ A1.Notified = A.Notified ∧
    A1.UObjectCreateListeners = A.UObjectCreateListeners := by
  obtain ⟨hn1, hc1, -⟩ := selectIndex_listeners hsel
  obtain ⟨i, Old, hi, hget, hold, hA2⟩ := publish_ok hpub
  have hki : k = i := by omega
  subst hki
  have hlen := lt_length_of_getElem? hget
  have hslot : A2.ObjObjects[k]? = some
      { Object := some Object, Flags := B.PendingConstruction ||| InitialFlags,
        ClusterRootIndex := 0, SerialNumber := SerialNumber } := by
    rw [hA2]; simp [hlen]
  refine ⟨⟨?_, ?_⟩, hslot, ?_, ?_, ?_, hn1, hc1⟩
  · rw [hA2]; simp
  · unfold objectAt; rw [hslot]
  · rw [hA2]; exact hn1
  · rw [hA2]; exact hc1
  · unfold objectAt; rw [hget]; exact hold

/-- Once the index is chosen and the object is added to the table, what is left of the call
is the loop over the create listeners, run on the registry with the object in it. -/
theorem AllocateUObjectIndexWith_of
    (OnCreated : ListenerId → ObjId → Int → FUObjectArray → Except Fatal FUObjectArray)
    (Fuel : Nat) {B : Build} {A A1 A2 : FUObjectArray} {Object : ObjId}
    {InitialFlags : Nat} {AlreadyAllocatedIndex SerialNumber Index : Int}
    (hnone : A.InternalIndex Object = INDEX_NONE)
    (hsel : selectIndex A AlreadyAllocatedIndex = .ok (Index, A1))
    (hpub : publish B A1 Object InitialFlags Index SerialNumber = .ok A2) :
    AllocateUObjectIndexWith OnCreated Fuel B A Object InitialFlags AlreadyAllocatedIndex
        SerialNumber
      = notifyUpFrom (fun X => X.UObjectCreateListeners)
          (callNotifyUObjectCreated OnCreated Object Index) Fuel 0 A2 := by
  unfold AllocateUObjectIndexWith
  simp only [hnone, ne_eq, not_true_eq_false, if_false, hsel, hpub]

/-- A call that returns normally has found the object without an index, has chosen an index
and has added the object to the table at it. -/
theorem AllocateUObjectIndexWith_ok
    {OnCreated : ListenerId → ObjId → Int → FUObjectArray → Except Fatal FUObjectArray}
    {Fuel : Nat} {B : Build} {A A3 : FUObjectArray} {Object : ObjId}
    {InitialFlags : Nat} {AlreadyAllocatedIndex SerialNumber : Int}
    (h : AllocateUObjectIndexWith OnCreated Fuel B A Object InitialFlags AlreadyAllocatedIndex
      SerialNumber = some (.ok A3)) :
    A.InternalIndex Object = INDEX_NONE ∧
    ∃ (k : Nat) (A1 A2 : FUObjectArray),
      selectIndex A AlreadyAllocatedIndex = .ok ((k : Int), A1) ∧
      publish B A1 Object InitialFlags (k : Int) SerialNumber = .ok A2 ∧
      notifyUpFrom (fun X => X.UObjectCreateListeners)
        (callNotifyUObjectCreated OnCreated Object (k : Int)) Fuel 0 A2 = some (.ok A3) := by
  unfold AllocateUObjectIndexWith at h
  by_cases hnone : A.InternalIndex Object = INDEX_NONE
  · simp only [hnone, ne_eq, not_true_eq_false, if_false] at h
    cases hsel : selectIndex A AlreadyAllocatedIndex with
    | error e => simp [hsel] at h
    | ok p =>
      obtain ⟨Index, A1⟩ := p
      simp only [hsel] at h
      cases hpub : publish B A1 Object InitialFlags Index SerialNumber with
      | error e => simp [hpub] at h
      | ok A2 =>
        simp only [hpub] at h
        obtain ⟨i, Old, hi, -, -, -⟩ := publish_ok hpub
        subst hi
        exact ⟨hnone, i, A1, A2, rfl, hpub, h⟩
  · simp [hnone] at h

/-- With listeners that do nothing and fuel for one test of the loop condition more than
there are create listeners, the call is `AllocateUObjectIndex`. -/
theorem AllocateUObjectIndexWith_idle (Fuel : Nat) (B : Build) (A : FUObjectArray)
    (Object : ObjId) (InitialFlags : Nat) (AlreadyAllocatedIndex SerialNumber : Int)
    (hF : A.UObjectCreateListeners.length < Fuel) :
    AllocateUObjectIndexWith (fun _ _ _ X => .ok X) Fuel B A Object InitialFlags
        AlreadyAllocatedIndex SerialNumber
      = some (AllocateUObjectIndex B A Object InitialFlags AlreadyAllocatedIndex
          SerialNumber) := by
  unfold AllocateUObjectIndexWith AllocateUObjectIndex
  by_cases hnone : A.InternalIndex Object = INDEX_NONE
  · simp only [hnone, ne_eq, not_true_eq_false, if_false]
    cases hsel : selectIndex A AlreadyAllocatedIndex with
    | error e => rfl
    | ok p =>
      obtain ⟨Index, A1⟩ := p
      simp only []
      cases hpub : publish B A1 Object InitialFlags Index SerialNumber with
      | error e => rfl
      | ok A2 =>
        simp only []
        obtain ⟨i, Old, hi, -, -, -⟩ := publish_ok hpub
        subst hi
        obtain ⟨-, -, -, hc2, -, -, -⟩ := published_state hsel hpub
        have hloop := notifyUpFrom_idle
          (fun L => Notification.NotifyUObjectCreated L Object (i : Int)) Fuel 0 A2
          (by rw [hc2]; omega)
        rw [List.drop_zero] at hloop
        exact hloop
  · simp [hnone]

/-- A listener that looks the object up and does nothing else keeps the create listener
list and the occupied slot, and is recorded once. -/
theorem inspectOnCreated_keeps (Failure : Fatal) (Object : ObjId) (k : Nat) :
    KeepsListWhile (Occupied k Object) (fun X => X.UObjectCreateListeners)
      (fun L => Notification.NotifyUObjectCreated L Object (k : Int))
      (callNotifyUObjectCreated (inspectOnCreated Failure) Object (k : Int)) := by
  intro L X _ hX
  obtain ⟨hidx, hocc⟩ := hX
  obtain ⟨Old, hget, hold⟩ := objectAt_some hocc
  have hlook : IndexToObject
      { X with Notified := X.Notified ++ [Notification.NotifyUObjectCreated L Object (k : Int)] }
      (k : Int) = .ok Old := IndexToObject_of_getElem hget
  refine ⟨{ X with
    Notified := X.Notified ++ [Notification.NotifyUObjectCreated L Object (k : Int)] },
    ?_, ⟨hidx, hocc⟩, rfl, rfl⟩
  simp only [callNotifyUObjectCreated, inspectOnCreated, hlook, hold, if_true]

/-- The create listeners of a successful call are called after the object is in the table:
each listener of the list once, in the order of the list, in states in which whatever the
listeners keep of the published state still holds. -/
theorem AllocateUObjectIndexWith_notifies
    (Holds : FUObjectArray → Prop)
    (OnCreated : ListenerId → ObjId → Int → FUObjectArray → Except Fatal FUObjectArray)
    (B : Build) (A A1 A2 : FUObjectArray) (Object : ObjId) (InitialFlags : Nat)
    (AlreadyAllocatedIndex SerialNumber : Int) (k : Nat)
    (hnone : A.InternalIndex Object = INDEX_NONE)
    (hsel : selectIndex A AlreadyAllocatedIndex = .ok ((k : Int), A1))
    (hpub : publish B A1 Object InitialFlags (k : Int) SerialNumber = .ok A2)
    (hA2 : Holds A2)
    (hcall : KeepsListWhile Holds (fun X => X.UObjectCreateListeners)
      (fun L => Notification.NotifyUObjectCreated L Object (k : Int))
      (callNotifyUObjectCreated OnCreated Object (k : Int))) :
    Occupied k Object A2 ∧ A2.Notified = A.Notified ∧
    ∃ A3, (∀ Fuel, A.UObjectCreateListeners.length < Fuel →
        AllocateUObjectIndexWith OnCreated Fuel B A Object InitialFlags AlreadyAllocatedIndex
          SerialNumber = some (.ok A3)) ∧
      Holds A3 ∧
      A3.Notified = A.Notified ++ A.UObjectCreateListeners.map
        (fun L => Notification.NotifyUObjectCreated L Object (k : Int)) ∧
      A3.UObjectCreateListeners = A.UObjectCreateListeners ∧
      (A.UObjectCreateListeners.Nodup → ∀ L ∈ A.UObjectCreateListeners,
        A3.Notified.count (Notification.NotifyUObjectCreated L Object (k : Int))
          = A.Notified.count (Notification.NotifyUObjectCreated L Object (k : Int)) + 1) := by
  obtain ⟨hocc, -, hn2, hc2, -, -, -⟩ := published_state hsel hpub
  obtain ⟨A3, hA3, hH3, hn3, hc3⟩ := notifyUpFrom_keeping Holds
    (fun X => X.UObjectCreateListeners)
    (fun L => Notification.NotifyUObjectCreated L Object (k : Int))
    (callNotifyUObjectCreated OnCreated Object (k : Int)) hcall
    A2.UObjectCreateListeners [] A2 (by simp) hA2
  have hnot : A3.Notified = A.Notified ++ A.UObjectCreateListeners.map
      (fun L => Notification.NotifyUObjectCreated L Object (k : Int)) := by
    rw [hn3, hn2, hc2]
  refine ⟨hocc, hn2, A3, fun Fuel hF => ?_, hH3, hnot, by rw [hc3, hc2],
    fun hnd L hL => ?_⟩
  · rw [AllocateUObjectIndexWith_of OnCreated Fuel hnone hsel hpub]
    exact hA3 Fuel (by rw [hc2]; exact hF)
  · rw [hnot]
    exact count_after_pass_up _
      (fun a b hab => (Notification.NotifyUObjectCreated.inj hab).1) hnd hL

/-- The loop over the create listeners, had it run before the object is added to the table,
is fatal for a listener that looks the object up. -/
theorem notifyUpFrom_before_publish (Failure : Fatal)
    {B : Build} {A A1 A2 : FUObjectArray} {Object : ObjId} {InitialFlags : Nat}
    {AlreadyAllocatedIndex SerialNumber : Int} {k : Nat}
    (hsel : selectIndex A AlreadyAllocatedIndex = .ok ((k : Int), A1))
    (hpub : publish B A1 Object InitialFlags (k : Int) SerialNumber = .ok A2)
    (hne : A.UObjectCreateListeners ≠ []) (Fuel : Nat) (hF : 0 < Fuel) :
    notifyUpFrom (fun X => X.UObjectCreateListeners)
      (callNotifyUObjectCreated (inspectOnCreated Failure) Object (k : Int)) Fuel 0 A1
      = some (.error Failure) := by
  obtain ⟨-, hc1, -⟩ := selectIndex_listeners hsel
  obtain ⟨i, Old, hi, hget, hold, -⟩ := publish_ok hpub
  have hki : k = i := by omega
  subst hki
  obtain ⟨f, rfl⟩ : ∃ f, Fuel = f + 1 := ⟨Fuel - 1, by omega⟩
  obtain ⟨L, rest, hlist⟩ := List.exists_cons_of_ne_nil hne
  have hfirst : A1.UObjectCreateListeners[0]? = some L := by rw [hc1, hlist]; simp
  have hlook : IndexToObject
      { A1 with
        Notified := A1.Notified ++ [Notification.NotifyUObjectCreated L Object (k : Int)] }
      (k : Int) = .ok Old := IndexToObject_of_getElem hget
  simp only [notifyUpFrom, hfirst, callNotifyUObjectCreated, inspectOnCreated, hlook, hold]
  rfl

/-- C14 (amended): when a call of allocate has chosen the index `k` and added the object to
the table at `k`, no listener has been called yet; the create listeners are called only
then, in states reached after the publication. If the listeners, called in such states,
return normally, make no call of their own that is recorded and leave the create listener
list as it is, then the call returns normally and each listener of the create listener list
is called exactly once, with the pair of the object and `k`, in the order of the list. Here
`Holds` is what the publication has established and the listeners keep, and on which they
may rely; a listener that looks the object up at `k` is served, and it would fail if the
loop ran before the publication. Every call that returns normally has passed the
publication. The create listener list has no repetitions, and it is the registration order
as long as no create listener has been removed. -/
theorem C14_create_notification_order :
    (∀ (Holds : FUObjectArray → Prop)
        (OnCreated : ListenerId → ObjId → Int → FUObjectArray → Except Fatal FUObjectArray)
        (B : Build) (A A1 A2 : FUObjectArray) (Object : ObjId) (InitialFlags : Nat)
        (AlreadyAllocatedIndex SerialNumber : Int) (k : Nat),
      A.InternalIndex Object = INDEX_NONE →
      selectIndex A AlreadyAllocatedIndex = .ok ((k : Int), A1) →
      publish B A1 Object InitialFlags (k : Int) SerialNumber = .ok A2 →
      Holds A2 →
      KeepsListWhile Holds (fun X => X.UObjectCreateListeners)
        (fun L => Notification.NotifyUObjectCreated L Object (k : Int))
        (callNotifyUObjectCreated OnCreated Object (k : Int)) →
      Occupied k Object A2 ∧ A2.Notified = A.Notified ∧
      ∃ A3, (∀ Fuel, A.UObjectCreateListeners.length < Fuel →
          AllocateUObjectIndexWith OnCreated Fuel B A Object InitialFlags
            AlreadyAllocatedIndex SerialNumber = some (.ok A3)) ∧
        Holds A3 ∧
        A3.Notified = A.Notified ++ A.UObjectCreateListeners.map
          (fun L => Notification.NotifyUObjectCreated L Object (k : Int)) ∧
        A3.UObjectCreateListeners = A.UObjectCreateListeners ∧
        (A.UObjectCreateListeners.Nodup → ∀ L ∈ A.UObjectCreateListeners,
          A3.Notified.count (Notification.NotifyUObjectCreated L Object (k : Int))
            = A.Notified.count (Notification.NotifyUObjectCreated L Object (k : Int))
              + 1)) ∧
    (∀ (Failure : Fatal) (B : Build) (A A1 A2 : FUObjectArray) (Object : ObjId)
        (InitialFlags : Nat) (AlreadyAllocatedIndex SerialNumber : Int) (k : Nat),
      A.InternalIndex Object = INDEX_NONE →
      selectIndex A AlreadyAllocatedIndex = .ok ((k : Int), A1) →
      publish B A1 Object InitialFlags (k : Int) SerialNumber = .ok A2 →
      A.UObjectCreateListeners ≠ [] →
      (∃ A3, ∀ Fuel, A.UObjectCreateListeners.length < Fuel →
        AllocateUObjectIndexWith (inspectOnCreated Failure) Fuel B A Object InitialFlags
          AlreadyAllocatedIndex SerialNumber = some (.ok A3)) ∧
      (∀ Fuel, 0 < Fuel →
        notifyUpFrom (fun X => X.UObjectCreateListeners)
          (callNotifyUObjectCreated (inspectOnCreated Failure) Object (k : Int)) Fuel 0 A1
          = some (.error Failure))) ∧
    (∀ (OnCreated : ListenerId → ObjId → Int → FUObjectArray → Except Fatal FUObjectArray)
        (Fuel : Nat) (B : Build) (A A3 : FUObjectArray) (Object : ObjId) (InitialFlags : Nat)
        (AlreadyAllocatedIndex SerialNumber : Int),
      AllocateUObjectIndexWith OnCreated Fuel B A Object InitialFlags AlreadyAllocatedIndex
        SerialNumber = some (.ok A3) →
      A.InternalIndex Object = INDEX_NONE ∧
      ∃ (k : Nat) (A1 A2 : FUObjectArray),
        selectIndex A AlreadyAllocatedIndex = .ok ((k : Int), A1) ∧
        publish B A1 Object InitialFlags (k : Int) SerialNumber = .ok A2 ∧
        notifyUpFrom (fun X => X.UObjectCreateListeners)
          (callNotifyUObjectCreated OnCreated Object (k : Int)) Fuel 0 A2
          = some (.ok A3)) ∧
    (∀ (A0 A : FUObjectArray) (lops : List ListenerOp),
      A0.UObjectCreateListeners = [] → A0.UObjectDeleteListeners = [] →
      runListeners A0 lops = .ok A →
      A.UObjectCreateListeners.Nodup ∧
      (lops.all keepsCreateListeners = true →
        A.UObjectCreateListeners = createRegistrationOrder lops [])) := by
  refine ⟨?_, ?_, ?_, ?_⟩
  · intro Holds OnCreated B A A1 A2 Object InitialFlags AlreadyAllocatedIndex SerialNumber k
      hnone hsel hpub hA2 hcall
    exact AllocateUObjectIndexWith_notifies Holds OnCreated B A A1 A2 Object InitialFlags
      AlreadyAllocatedIndex SerialNumber k hnone hsel hpub hA2 hcall
  · intro Failure B A A1 A2 Object InitialFlags AlreadyAllocatedIndex SerialNumber k
      hnone hsel hpub hne
    obtain ⟨hocc, -, A3, hA3, -⟩ := AllocateUObjectIndexWith_notifies (Occupied k Object)
      (inspectOnCreated Failure) B A A1 A2 Object InitialFlags AlreadyAllocatedIndex
      SerialNumber k hnone hsel hpub (published_state hsel hpub).1
      (inspectOnCreated_keeps Failure Object k)
    exact ⟨⟨A3, hA3⟩, fun Fuel hF => notifyUpFrom_before_publish Failure hsel hpub hne Fuel hF⟩
  · intro OnCreated Fuel B A A3 Object InitialFlags AlreadyAllocatedIndex SerialNumber h
    exact AllocateUObjectIndexWith_ok h
  · intro A0 A lops hc hd hrun
    obtain ⟨hnd, -⟩ := runListeners_nodup (by rw [hc]; exact List.nodup_nil)
      (by rw [hd]; exact List.nodup_nil) hrun
    refine ⟨hnd, fun hall => ?_⟩
    have := (runListeners_registrationOrder hrun).1 hall
    rw [hc] at this
    exact this

theorem C14_create_notification_order_witness :
    (sampleListeners 8 0 [.addCreate 1, .addCreate 2, .addCreate 3]).InternalIndex 7
      = INDEX_NONE ∧
    selectIndex (sampleListeners 8 0 [.addCreate 1, .addCreate 2, .addCreate 3]) (-1)
      = .ok (((0 : Nat) : Int), stateOf (Except.map Prod.snd
          (selectIndex (sampleListeners 8 0 [.addCreate 1, .addCreate 2, .addCreate 3])
            (-1)))) ∧
    publish sampleBuild (stateOf (Except.map Prod.snd
        (selectIndex (sampleListeners 8 0 [.addCreate 1, .addCreate 2, .addCreate 3]) (-1))))
        7 0 ((0 : Nat) : Int) 0
      = .ok (stateOf (publish sampleBuild (stateOf (Except.map Prod.snd
          (selectIndex (sampleListeners 8 0 [.addCreate 1, .addCreate 2, .addCreate 3])
            (-1)))) 7 0 ((0 : Nat) : Int) 0)) ∧
    Occupied 0 7 (stateOf (publish sampleBuild (stateOf (Except.map Prod.snd
      (selectIndex (sampleListeners 8 0 [.addCreate 1, .addCreate 2, .addCreate 3]) (-1))))
      7 0 ((0 : Nat) : Int) 0)) ∧
    ∃ A3, (∀ Fuel, 3 < Fuel →
        AllocateUObjectIndexWith (inspectOnCreated Fatal.invalidIndex) Fuel sampleBuild
          (sampleListeners 8 0 [.addCreate 1, .addCreate 2, .addCreate 3]) 7 0 (-1) 0
          = some (.ok A3)) ∧
      Occupied 0 7 A3 ∧
      A3.Notified = [.NotifyUObjectCreated 1 7 0, .NotifyUObjectCreated 2 7 0,
        .NotifyUObjectCreated 3 7 0] := by
  have calls := C14_create_notification_order.1 (Occupied 0 7)
    (inspectOnCreated Fatal.invalidIndex) sampleBuild
    (sampleListeners 8 0 [.addCreate 1, .addCreate 2, .addCreate 3])
    (stateOf (Except.map Prod.snd
      (selectIndex (sampleListeners 8 0 [.addCreate 1, .addCreate 2, .addCreate 3]) (-1))))
    (stateOf (publish sampleBuild (stateOf (Except.map Prod.snd
      (selectIndex (sampleListeners 8 0 [.addCreate 1, .addCreate 2, .addCreate 3]) (-1))))
      7 0 ((0 : Nat) : Int) 0))
    7 0 (-1) 0 0 (by rfl) (by rfl) (by rfl) ⟨by rfl, by rfl⟩
    (inspectOnCreated_keeps Fatal.invalidIndex 7 0)
  obtain ⟨hocc, -, A3, hA3, hH3, hnot, -, -⟩ := calls
  refine ⟨?_, ?_, ?_, hocc, A3, hA3, hH3, hnot⟩
  · rfl
  · rfl
  · rfl

/-- C14, as stated, fails in two ways. After a create listener has been removed: the
listeners `1`, `2` and `3` are registered in this order and `1` is removed, which moves `3`
into its place; the registered listeners are then `2` and `3` in registration order, but an
allocate calls `3` before `2`. And with a listener that deregisters itself while it is
called: the listeners `1`, `2` and `3` are registered and `1` deregisters itself when it is
told of the object `7`, which moves `3` into its place; the loop goes on with the second
place and ends after `2`, so the registered listener `3` is never called. -/
theorem C14_create_notification_counterexample :
    (runListeners (sampleState sampleBuild 8 0 [])
        [.addCreate 1, .addCreate 2, .addCreate 3, .removeCreate 1]
      = .ok (sampleListeners 8 0
        [.addCreate 1, .addCreate 2, .addCreate 3, .removeCreate 1]) ∧
    createRegistrationOrder [.addCreate 1, .addCreate 2, .addCreate 3, .removeCreate 1] []
      = [2, 3] ∧
    AllocateUObjectIndexWith (fun _ _ _ X => .ok X) 4 sampleBuild (sampleListeners 8 0
        [.addCreate 1, .addCreate 2, .addCreate 3, .removeCreate 1]) 7 0 (-1) 0
      = some (.ok (endOf (AllocateUObjectIndexWith (fun _ _ _ X => .ok X) 4 sampleBuild
        (sampleListeners 8 0 [.addCreate 1, .addCreate 2, .addCreate 3, .removeCreate 1])
        7 0 (-1) 0))) ∧
    (endOf (AllocateUObjectIndexWith (fun _ _ _ X => .ok X) 4 sampleBuild
        (sampleListeners 8 0 [.addCreate 1, .addCreate 2, .addCreate 3, .removeCreate 1])
        7 0 (-1) 0)).Notified
      = [.NotifyUObjectCreated 3 7 0, .NotifyUObjectCreated 2 7 0] ∧
    (endOf (AllocateUObjectIndexWith (fun _ _ _ X => .ok X) 4 sampleBuild
        (sampleListeners 8 0 [.addCreate 1, .addCreate 2, .addCreate 3, .removeCreate 1])
        7 0 (-1) 0)).Notified
      ≠ ([2, 3] : List ListenerId).map
        (fun Listener => .NotifyUObjectCreated Listener 7 0)) ∧
    ((sampleListeners 8 0 [.addCreate 1, .addCreate 2, .addCreate 3]).UObjectCreateListeners
      = [1, 2, 3] ∧
    AllocateUObjectIndexWith (deregisterOnCreated (fun L => L == 1)) 4 sampleBuild
        (sampleListeners 8 0 [.addCreate 1, .addCreate 2, .addCreate 3]) 7 0 (-1) 0
      = some (.ok (endOf (AllocateUObjectIndexWith (deregisterOnCreated (fun L => L == 1)) 4
        sampleBuild (sampleListeners 8 0 [.addCreate 1, .addCreate 2, .addCreate 3])
        7 0 (-1) 0))) ∧
    (endOf (AllocateUObjectIndexWith (deregisterOnCreated (fun L => L == 1)) 4
        sampleBuild (sampleListeners 8 0 [.addCreate 1, .addCreate 2, .addCreate 3])
        7 0 (-1) 0)).Notified
      = [.NotifyUObjectCreated 1 7 0, .NotifyUObjectCreated 2 7 0] ∧
    (endOf (AllocateUObjectIndexWith (deregisterOnCreated (fun L => L == 1)) 4
        sampleBuild (sampleListeners 8 0 [.addCreate 1, .addCreate 2, .addCreate 3])
        7 0 (-1) 0)).Notified.count (.NotifyUObjectCreated 3 7 0) = 0) := by
  refine ⟨⟨?_, ?_, ?_, ?_, ?_⟩, ?_, ?_, ?_, ?_⟩
  · rfl
  · rfl
  · rfl
  · rfl
  · decide
  · rfl
  · rfl
  · rfl
  · rfl

/-! ## The delete notification and the clearing of the slot -/

/-- A listener that looks the object up and then deregisters itself or does nothing keeps
the occupied slot, is recorded once, and leaves the delete listener list as it is or takes
itself out of it. -/
theorem inspectOnDeleted_selfRemoving (Deregisters : ListenerId → Bool) (Failure : Fatal)
    (Object : ObjId) (k : Nat) :
    SelfRemovingWhile (Occupied k Object) (fun X => X.UObjectDeleteListeners)
      (fun L => Notification.NotifyUObjectDeleted L Object (k : Int))
      (callNotifyUObjectDeleted (inspectOnDeleted Deregisters Failure) Object (k : Int)) := by
  intro L X _ hX
  obtain ⟨hidx, hocc⟩ := hX
  obtain ⟨Old, hget, hold⟩ := objectAt_some hocc
  have hlook : IndexToObject
      { X with Notified := X.Notified ++ [Notification.NotifyUObjectDeleted L Object (k : Int)] }
      (k : Int) = .ok Old := IndexToObject_of_getElem hget
  by_cases hD : Deregisters L = true
  · refine ⟨{ X with
      Notified := X.Notified ++ [Notification.NotifyUObjectDeleted L Object (k : Int)]
      UObjectDeleteListeners := (RemoveSingleSwap X.UObjectDeleteListeners L).2 },
      ?_, ⟨hidx, hocc⟩, rfl, Or.inr rfl⟩
    simp only [callNotifyUObjectDeleted, inspectOnDeleted, hlook, hold, if_true,
      deregisterOnDeleted, hD, RemoveUObjectDeleteListener]
  · refine ⟨{ X with
      Notified := X.Notified ++ [Notification.NotifyUObjectDeleted L Object (k : Int)] },
      ?_, ⟨hidx, hocc⟩, rfl, Or.inl rfl⟩
    simp only [callNotifyUObjectDeleted, inspectOnDeleted, hlook, hold, if_true,
      deregisterOnDeleted, hD, Bool.false_eq_true, if_false]

/-- Freeing an object whose slot holds it, with listeners that keep the slot occupied while
they are called: the delete listeners are called in states in which the slot holds the
object, each listener of the list once, in reverse order of the list; the slot is cleared
after the last call, and the clearing calls no listener. -/
theorem freeObjectWith_notifies
    (Holds : FUObjectArray → Prop)
    (OnDeleted : ListenerId → ObjId → Int → FUObjectArray → Except Fatal FUObjectArray)
    (A : FUObjectArray) (Object : ObjId) (k : Nat)
    (hA : Holds A) (hsub : ∀ X, Holds X → Occupied k Object X)
    (hnd : A.UObjectDeleteListeners.Nodup)
    (hcall : SelfRemovingWhile Holds (fun X => X.UObjectDeleteListeners)
      (fun L => Notification.NotifyUObjectDeleted L Object (k : Int))
      (callNotifyUObjectDeleted OnDeleted Object (k : Int))) :
    ∃ A1 A2, RemoveObjectFromDeleteListenersWith OnDeleted A Object = .ok A1 ∧
      FreeUObjectIndex A1 Object = .ok A2 ∧ freeObjectWith OnDeleted A Object = .ok A2 ∧
      Holds A1 ∧ Occupied k Object A1 ∧
      A1.Notified = A.Notified ++ A.UObjectDeleteListeners.reverse.map
        (fun L => Notification.NotifyUObjectDeleted L Object (k : Int)) ∧
      (∀ L ∈ A.UObjectDeleteListeners,
        A1.Notified.count (Notification.NotifyUObjectDeleted L Object (k : Int))
          = A.Notified.count (Notification.NotifyUObjectDeleted L Object (k : Int)) + 1) ∧
      A2.Notified = A1.Notified ∧ A2.ObjObjects[k]? = some FUObjectItem.empty := by
  obtain ⟨hidx, hobj⟩ := hsub A hA
  obtain ⟨Old, hget, hold⟩ := objectAt_some hobj
  obtain ⟨A1, hA1, hH1, hnot1, -, -⟩ := notifyDownFrom_visits_while Holds
    (fun X => X.UObjectDeleteListeners)
    (fun L => Notification.NotifyUObjectDeleted L Object (k : Int))
    (callNotifyUObjectDeleted OnDeleted Object (k : Int)) hcall
    A.UObjectDeleteListeners.length A.UObjectDeleteListeners [] A rfl (by simp)
    (by simpa using hnd) hA
  have hneg : ¬ ((k : Int) < 0) := by omega
  have hpass : RemoveObjectFromDeleteListenersWith OnDeleted A Object = .ok A1 := by
    simp only [RemoveObjectFromDeleteListenersWith, hidx, hneg, if_false]
    exact hA1
  obtain ⟨hidx1, hobj1⟩ := hsub A1 hH1
  obtain ⟨Old1, hget1, -⟩ := objectAt_some hobj1
  have hlen1 := lt_length_of_getElem? hget1
  have hfree := FreeUObjectIndex_of_slot hidx1 hobj1
  refine ⟨A1, _, hpass, hfree, ?_, hH1, ⟨hidx1, hobj1⟩, hnot1, fun L hL => ?_, rfl, ?_⟩
  · unfold freeObjectWith
    rw [hidx, IndexToObject_of_getElem hget]
    simp only [hold, ne_eq, not_true_eq_false, if_false]
    rw [hpass]
    exact hfree
  · rw [hnot1]
    exact count_after_pass _ (fun a b hab => (Notification.NotifyUObjectDeleted.inj hab).1)
      hnd hL
  · simp [hlen1]

/-- The delete notification pass, had it run after the slot is cleared, is fatal for a
listener that looks the object up. -/
theorem RemoveObjectFromDeleteListenersWith_after_clearing
    (Deregisters : ListenerId → Bool) (Failure : Fatal)
    {A A1 : FUObjectArray} {Object : ObjId}
    (hfree : FreeUObjectIndex A Object = .ok A1) (hne : A.UObjectDeleteListeners ≠ []) :
    RemoveObjectFromDeleteListenersWith (inspectOnDeleted Deregisters Failure) A1 Object
      = .error Failure := by
  obtain ⟨i, Old, hidx, hget, -, hA1⟩ := FreeUObjectIndex_ok hfree
  have hlen := lt_length_of_getElem? hget
  have hlist : A1.UObjectDeleteListeners = A.UObjectDeleteListeners := by rw [hA1]
  have hidx1 : A1.InternalIndex Object = (i : Int) := by rw [hA1]; exact hidx
  have hslot : A1.ObjObjects[i]? = some FUObjectItem.empty := by rw [hA1]; simp [hlen]
  have hpos : 0 < A1.UObjectDeleteListeners.length := by
    rw [hlist]; exact List.length_pos.mpr hne
  obtain ⟨m, hm⟩ : ∃ m, A1.UObjectDeleteListeners.length = m + 1 :=
    ⟨A1.UObjectDeleteListeners.length - 1, by omega⟩
  have hlt : m < A1.UObjectDeleteListeners.length := by omega
  have hlast : A1.UObjectDeleteListeners[m]?
      = some (A1.UObjectDeleteListeners.get ⟨m, hlt⟩) := by
    simp [List.getElem?_eq_getElem hlt]
  have hlook : ∀ N : List Notification,
      IndexToObject { A1 with Notified := N } (i : Int) = .ok FUObjectItem.empty :=
    fun N => IndexToObject_of_getElem hslot
  have hneg : ¬ ((i : Int) < 0) := by omega
  simp only [RemoveObjectFromDeleteListenersWith, hidx1, hneg, if_false, hm, notifyDownFrom,
    hlast, callNotifyUObjectDeleted, inspectOnDeleted, hlook]
  simp [FUObjectItem.empty]

/-- With listeners that do nothing, freeing is the `freeObject` of listeners that leave the
registry alone. -/
theorem freeObjectWith_idle (A : FUObjectArray) (Object : ObjId) :
    freeObjectWith (fun _ _ _ X => .ok X) A Object = freeObject A Object := by
  unfold freeObjectWith freeObject
  rw [RemoveObjectFromDeleteListenersWith_idle]

/-- C13 (amended): freeing an object whose slot `k` holds it, on a delete listener list
without repetitions, with listeners that, called while the slot holds the object, return
normally, make no call of their own that is recorded, keep the slot occupied and leave the
delete listener list as it is or take only themselves out of it: the delete listeners are
called in states in which the slot still holds the object, each listener of the list
exactly once, with the pair of the object and `k`, in the reverse order of the list; only
after the last call are the object reference, the flags, the cluster root and the serial
number of the slot cleared, and the clearing calls no listener. Here `Holds` is what the
listeners keep and may rely on, the occupied slot included; a listener that looks the object
up at `k` is served, and it would fail if the slot were cleared first. The delete listener
list has no repetitions, and it is the registration order as long as no delete listener has
been removed. -/
theorem C13_free_notifies_before_clearing :
    (∀ (Holds : FUObjectArray → Prop)
        (OnDeleted : ListenerId → ObjId → Int → FUObjectArray → Except Fatal FUObjectArray)
        (A : FUObjectArray) (Object : ObjId) (k : Nat),
      Holds A → (∀ X, Holds X → Occupied k Object X) →
      A.UObjectDeleteListeners.Nodup →
      SelfRemovingWhile Holds (fun X => X.UObjectDeleteListeners)
        (fun L => Notification.NotifyUObjectDeleted L Object (k : Int))
        (callNotifyUObjectDeleted OnDeleted Object (k : Int)) →
      ∃ A1 A2, RemoveObjectFromDeleteListenersWith OnDeleted A Object = .ok A1 ∧
        FreeUObjectIndex A1 Object = .ok A2 ∧ freeObjectWith OnDeleted A Object = .ok A2 ∧
        Holds A1 ∧ Occupied k Object A1 ∧
        A1.Notified = A.Notified ++ A.UObjectDeleteListeners.reverse.map
          (fun L => Notification.NotifyUObjectDeleted L Object (k : Int)) ∧
        (∀ L ∈ A.UObjectDeleteListeners,
          A1.Notified.count (Notification.NotifyUObjectDeleted L Object (k : Int))
            = A.Notified.count (Notification.NotifyUObjectDeleted L Object (k : Int))
              + 1) ∧
        A2.Notified = A1.Notified ∧ A2.ObjObjects[k]? = some FUObjectItem.empty) ∧
    (∀ (Deregisters : ListenerId → Bool) (Failure : Fatal) (A : FUObjectArray)
        (Object : ObjId) (k : Nat),
      Occupied k Object A → A.UObjectDeleteListeners.Nodup →
      A.UObjectDeleteListeners ≠ [] →
      (∃ A2, freeObjectWith (inspectOnDeleted Deregisters Failure) A Object = .ok A2) ∧
      (∀ A1, FreeUObjectIndex A Object = .ok A1 →
        RemoveObjectFromDeleteListenersWith (inspectOnDeleted Deregisters Failure) A1 Object
          = .error Failure)) ∧
    (∀ (A0 A : FUObjectArray) (lops : List ListenerOp),
      A0.UObjectCreateListeners = [] → A0.UObjectDeleteListeners = [] →
      runListeners A0 lops = .ok A →
      A.UObjectDeleteListeners.Nodup ∧
      (lops.all keepsDeleteListeners = true →
        A.UObjectDeleteListeners = deleteRegistrationOrder lops [])) := by
  refine ⟨?_, ?_, ?_⟩
  · intro Holds OnDeleted A Object k hA hsub hnd hcall
    exact freeObjectWith_notifies Holds OnDeleted A Object k hA hsub hnd hcall
  · intro Deregisters Failure A Object k hocc hnd hne
    obtain ⟨A1, A2, -, -, hfree, -⟩ := freeObjectWith_notifies (Occupied k Object)
      (inspectOnDeleted Deregisters Failure) A Object k hocc (fun _ h => h) hnd
      (inspectOnDeleted_selfRemoving Deregisters Failure Object k)
    exact ⟨⟨A2, hfree⟩, fun A1 hclear =>
      RemoveObjectFromDeleteListenersWith_after_clearing Deregisters Failure hclear hne⟩
  · intro A0 A lops hc hd hrun
    obtain ⟨-, hnd⟩ := runListeners_nodup (by rw [hc]; exact List.nodup_nil)
      (by rw [hd]; exact List.nodup_nil) hrun
    refine ⟨hnd, fun hall => ?_⟩
    have := (runListeners_registrationOrder hrun).2 hall
    rw [hd] at this
    exact this

theorem C13_free_notifies_before_clearing_witness :
    Occupied 0 7 (sampleWorld 8 0 [.addDelete 1, .addDelete 2, .addDelete 3]
      [.allocate 7 0 (-1) 0]) ∧
    (sampleWorld 8 0 [.addDelete 1, .addDelete 2, .addDelete 3]
      [.allocate 7 0 (-1) 0]).UObjectDeleteListeners = [1, 2, 3] ∧
    ∃ A1 A2, RemoveObjectFromDeleteListenersWith
        (inspectOnDeleted (fun L => L == 2) Fatal.invalidIndex)
        (sampleWorld 8 0 [.addDelete 1, .addDelete 2, .addDelete 3] [.allocate 7 0 (-1) 0]) 7
        = .ok A1 ∧
      FreeUObjectIndex A1 7 = .ok A2 ∧
      freeObjectWith (inspectOnDeleted (fun L => L == 2) Fatal.invalidIndex)
        (sampleWorld 8 0 [.addDelete 1, .addDelete 2, .addDelete 3] [.allocate 7 0 (-1) 0]) 7
        = .ok A2 ∧
      Occupied 0 7 A1 ∧
      A1.Notified = [.NotifyUObjectDeleted 3 7 0, .NotifyUObjectDeleted 2 7 0,
        .NotifyUObjectDeleted 1 7 0] ∧
      A2.Notified = A1.Notified ∧ A2.ObjObjects[0]? = some FUObjectItem.empty := by
  have pass := C13_free_notifies_before_clearing.1 (Occupied 0 7)
    (inspectOnDeleted (fun L => L == 2) Fatal.invalidIndex)
    (sampleWorld 8 0 [.addDelete 1, .addDelete 2, .addDelete 3] [.allocate 7 0 (-1) 0]) 7 0
    ⟨by rfl, by rfl⟩ (fun _ h => h) (by decide)
    (inspectOnDeleted_selfRemoving (fun L => L == 2) Fatal.invalidIndex 7 0)
  obtain ⟨A1, A2, h1, h2, h3, -, h5, h6, -, h8, h9⟩ := pass
  refine ⟨⟨?_, ?_⟩, ?_, A1, A2, h1, h2, h3, h5, h6, h8, h9⟩
  · rfl
  · rfl
  · rfl

/-- C13, as stated, fails in three ways; the delete listeners `1`, `2` and `3` are
registered in this order each time. After the listener `1` has been removed, which moves
`3` into its place, the registered listeners are `2` and `3` in registration order, but
freeing an object calls `2` before `3`. With a listener `3` that deregisters the listener
`1` while it is called, which moves `3` into the place of `1`, freeing an object calls `3`,
`2` and `3` again, and the registered listener `1` is never called. With a listener `3` that
frees the index of the object while it is called, the listeners `2` and `1` are called when
the slot is cleared already, and the free is fatal. -/
theorem C13_free_notifies_counterexample :
    (runListeners (sampleState sampleBuild 8 0 [])
        [.addDelete 1, .addDelete 2, .addDelete 3, .removeDelete 1]
      = .ok (sampleListeners 8 0
        [.addDelete 1, .addDelete 2, .addDelete 3, .removeDelete 1]) ∧
    deleteRegistrationOrder [.addDelete 1, .addDelete 2, .addDelete 3, .removeDelete 1] []
      = [2, 3] ∧
    objectAt (sampleWorld 8 0 [.addDelete 1, .addDelete 2, .addDelete 3, .removeDelete 1]
      [.allocate 7 0 (-1) 0]) 0 = some 7 ∧
    freeObjectWith (fun _ _ _ X => .ok X)
        (sampleWorld 8 0 [.addDelete 1, .addDelete 2, .addDelete 3, .removeDelete 1]
          [.allocate 7 0 (-1) 0]) 7
      = .ok (stateOf (freeObjectWith (fun _ _ _ X => .ok X) (sampleWorld 8 0
        [.addDelete 1, .addDelete 2, .addDelete 3, .removeDelete 1]
        [.allocate 7 0 (-1) 0]) 7)) ∧
    (stateOf (freeObjectWith (fun _ _ _ X => .ok X) (sampleWorld 8 0
        [.addDelete 1, .addDelete 2, .addDelete 3, .removeDelete 1]
        [.allocate 7 0 (-1) 0]) 7)).Notified
      = [.NotifyUObjectDeleted 2 7 0, .NotifyUObjectDeleted 3 7 0] ∧
    (stateOf (freeObjectWith (fun _ _ _ X => .ok X) (sampleWorld 8 0
        [.addDelete 1, .addDelete 2, .addDelete 3, .removeDelete 1]
        [.allocate 7 0 (-1) 0]) 7)).Notified
      ≠ ([2, 3] : List ListenerId).reverse.map
        (fun Listener => .NotifyUObjectDeleted Listener 7 0)) ∧
    ((sampleWorld 8 0 [.addDelete 1, .addDelete 2, .addDelete 3]
      [.allocate 7 0 (-1) 0]).UObjectDeleteListeners = [1, 2, 3] ∧
    objectAt (sampleWorld 8 0 [.addDelete 1, .addDelete 2, .addDelete 3]
      [.allocate 7 0 (-1) 0]) 0 = some 7 ∧
    freeObjectWith (removeOtherOnDeleted 3 1)
        (sampleWorld 8 0 [.addDelete 1, .addDelete 2, .addDelete 3] [.allocate 7 0 (-1) 0]) 7
      = .ok (stateOf (freeObjectWith (removeOtherOnDeleted 3 1) (sampleWorld 8 0
        [.addDelete 1, .addDelete 2, .addDelete 3] [.allocate 7 0 (-1) 0]) 7)) ∧
    (stateOf (freeObjectWith (removeOtherOnDeleted 3 1) (sampleWorld 8 0
        [.addDelete 1, .addDelete 2, .addDelete 3] [.allocate 7 0 (-1) 0]) 7)).Notified
      = [.NotifyUObjectDeleted 3 7 0, .NotifyUObjectDeleted 2 7 0,
        .NotifyUObjectDeleted 3 7 0] ∧
    (stateOf (freeObjectWith (removeOtherOnDeleted 3 1) (sampleWorld 8 0
        [.addDelete 1, .addDelete 2, .addDelete 3] [.allocate 7 0 (-1) 0])
        7)).Notified.count (.NotifyUObjectDeleted 1 7 0) = 0) ∧
    (RemoveObjectFromDeleteListenersWith (freeOnDeleted 3)
        (sampleWorld 8 0 [.addDelete 1, .addDelete 2, .addDelete 3] [.allocate 7 0 (-1) 0]) 7
      = .ok (stateOf (RemoveObjectFromDeleteListenersWith (freeOnDeleted 3) (sampleWorld 8 0
        [.addDelete 1, .addDelete 2, .addDelete 3] [.allocate 7 0 (-1) 0]) 7)) ∧
    (stateOf (RemoveObjectFromDeleteListenersWith (freeOnDeleted 3) (sampleWorld 8 0
        [.addDelete 1, .addDelete 2, .addDelete 3] [.allocate 7 0 (-1) 0]) 7)).Notified
      = [.NotifyUObjectDeleted 3 7 0, .NotifyUObjectDeleted 2 7 0,
        .NotifyUObjectDeleted 1 7 0] ∧
    notifyDownFrom (fun X => X.UObjectDeleteListeners)
        (callNotifyUObjectDeleted (freeOnDeleted 3) 7 0) 2
        (stateOf (callNotifyUObjectDeleted (freeOnDeleted 3) 7 0 3 (sampleWorld 8 0
          [.addDelete 1, .addDelete 2, .addDelete 3] [.allocate 7 0 (-1) 0])))
      = RemoveObjectFromDeleteListenersWith (freeOnDeleted 3)
        (sampleWorld 8 0 [.addDelete 1, .addDelete 2, .addDelete 3] [.allocate 7 0 (-1) 0])
        7 ∧
    objectAt (stateOf (callNotifyUObjectDeleted (freeOnDeleted 3) 7 0 3 (sampleWorld 8 0
      [.addDelete 1, .addDelete 2, .addDelete 3] [.allocate 7 0 (-1) 0]))) 0 = none ∧
    freeObjectWith (freeOnDeleted 3)
        (sampleWorld 8 0 [.addDelete 1, .addDelete 2, .addDelete 3] [.allocate 7 0 (-1) 0]) 7
      = .error Fatal.freeMismatch) := by
  refine ⟨⟨?_, ?_, ?_, ?_, ?_, ?_⟩, ⟨?_, ?_, ?_, ?_, ?_⟩, ?_, ?_, ?_, ?_, ?_⟩
  · rfl
  · rfl
  · rfl
  · rfl
  · rfl
  · decide
  · rfl
  · rfl
  · rfl
  · rfl
  · rfl
  · rfl
  · rfl
  · rfl
  · rfl
  · rfl

end UObjectArray
